import Mathlib

/-!
# Partition discovery and replacement engine of `modules_multiboot`

A shallow embedding of `src/multiboot_init.c` and `src/util.c`.

* C strings are lists of characters (`CStr`), one `Char` per byte, without the
  terminating NUL; `strcmp(a, b) == 0` is list equality.
* The global `multiboot_data` is the record `multiboot_data_t`; together with
  the function-local `static` counter of `util_make_loop` and the list of
  calls made to the operating system and to helper programs it forms the
  `World` that every operation transforms.
* `MBABORT` ends the run: an operation yields either `Res.ok` with its result
  or `Res.abort` with the message of the `MBABORT` that was reached; both carry
  the world as it was at that moment.
* Results of calls that leave the program (system calls, spawned helpers,
  libc) come from an `Env`, which answers as a function of the whole call
  history, so that no assumption is made on what the system answers. Where a
  statement needs one (`mknod` fails at a path that exists, a file that was
  written is found later), it is a hypothesis of that statement.
* The string functions of the C library that decide the decoding of the
  command line (`strchr`, `strncmp`, `sscanf`) are functions on lists, after
  the C standard.
* The worker process of `get_blockinfo_for_guid` is run in place: its calls
  enter the call history, and the `Env` says how it ended (`killed`) and what
  `waitpid` stored. The loop of `wait_for_bootdev`, which has no bound in the
  code, takes a number of passes as an argument and reports whether it was
  left within them.
-/

namespace Multiboot

/-- A C string: the bytes before the terminating NUL. -/
abbrev CStr := List Char

/-- `MBPART_TYPE_BIND` and `MBPART_TYPE_LOOP`. -/
inductive mbpart_type where
  | MBPART_TYPE_BIND
  | MBPART_TYPE_LOOP
  deriving DecidableEq, Repr

open mbpart_type

/-- A block device of the catalog (`uevent_block_t`). -/
structure uevent_block_t where
  devname : CStr
  major : Nat
  minor : Nat
  partname : Option CStr
  deriving DecidableEq, Repr

/-- An fstab record (`struct fstab_rec`), with the tags `fs_mgr_is_uefi` and
`fs_mgr_is_multiboot` read as two booleans. -/
structure fstab_rec where
  blk_device : CStr
  mount_point : CStr
  fs_type : CStr
  flags : Nat
  fs_options : Option CStr
  esp : CStr
  uefi : Bool
  multiboot : Bool
  deriving DecidableEq, Repr

/-- A configured partition (`multiboot_partition_t`); `uevent_block` is a
pointer into the catalog and is `none` while it is NULL. -/
structure multiboot_partition_t where
  name : CStr
  path : CStr
  type : mbpart_type
  uevent_block : Option uevent_block_t
  deriving DecidableEq, Repr

/-- A replacement record (`part_replacement_t`); the pointer fields are `none`
while NULL (the record is obtained from `safe_calloc`). The lock is left out:
the planner only initialises it. -/
structure part_replacement_t where
  loopdevice : CStr
  loopfile : Option CStr
  losetup_done : Int
  loop_sync_target : Option CStr
  multiboot_part : Option multiboot_partition_t
  multiboot_partpath : Option CStr
  uevent_block : Option uevent_block_t
  deriving DecidableEq, Repr

/-- The global `multiboot_data`. `mbparts` is the array obtained from
`safe_calloc`: a slot is `none` while it is still zeroed. A NULL `mbparts` and
an array of no slots are not told apart: every access is guarded by an index
below `num_mbparts`. -/
structure multiboot_data_t where
  is_multiboot : Bool
  is_recovery : Bool
  guid : Option CStr
  path : Option CStr
  hwname : Option CStr
  slot_suffix : Option CStr
  blockinfo : List uevent_block_t
  mbfstab : List fstab_rec
  romfstab : Option (List fstab_rec)
  romfstabpath : Option CStr
  esp : Option fstab_rec
  espdev : Option uevent_block_t
  bootdev : Option uevent_block_t
  bootdev_supports_bindmount : Bool
  num_mbparts : Nat
  mbparts : List (Option multiboot_partition_t)
  native_data_layout_version : Nat
  datamedia_target : Option CStr
  datamedia_source : Option CStr
  replacements : List part_replacement_t
  deriving DecidableEq, Repr

/-- The zero-initialised `static multiboot_data_t multiboot_data = {0}`. -/
def multiboot_data_zero : multiboot_data_t :=
  { is_multiboot := false, is_recovery := false, guid := none, path := none,
    hwname := none, slot_suffix := none, blockinfo := [], mbfstab := [], romfstab := none,
    romfstabpath := none, esp := none,
    espdev := none, bootdev := none, bootdev_supports_bindmount := false,
    num_mbparts := 0, mbparts := [], native_data_layout_version := 0,
    datamedia_target := none, datamedia_source := none, replacements := [] }

/-- What `lstat` reported about a path that exists. -/
inductive file_kind where
  | dir
  | reg
  | other
  deriving DecidableEq, Repr

/-- A call that leaves the program, with its arguments. -/
inductive Event where
  | stat (path : CStr) (follow : Bool)
  | lstat (path : CStr)
  | mknod (path : CStr) (blk : Bool) (major : Int) (minor : Int)
  | open_rdonly (path : CStr)
  | ioctl_BLKGETSIZE (path : CStr)
  | close (path : CStr)
  | mkdir (path : CStr)
  | util_dynfilefs (storage : CStr) (mountpoint : CStr) (size : Nat)
  | util_losetup (device : CStr) (file : CStr) (ro : Bool)
  | util_mke2fs (device : CStr) (fstype : CStr)
  | util_get_fstype (filename : CStr)
  | mount (source : CStr) (target : CStr) (fstype : CStr) (flags : Nat) (data : Option CStr)
  | umount (target : CStr)
  | open_creat (path : CStr)
  | util_dd (source : CStr) (target : CStr) (blocks : Nat)
  | util_cp (source : CStr) (target : CStr)
  | uevent_mount (dev : Option uevent_block_t) (target : CStr) (flags : Nat)
      (data : Option CStr)
  | util_get_property (file : CStr) (key : CStr)
  | util_read_int (file : CStr)
  | util_write_int (file : CStr) (value : Nat)
  | open_append (file : CStr)
  | write (file : CStr) (str : CStr)
  | sepolicy_inject_open (file : CStr)
  | sepolicy_inject_add_rule (source : CStr) (target : CStr) (clazz : CStr) (perm : CStr)
  | sepolicy_inject_write (file : CStr)
  | sepolicy_inject_close
  | fs_mgr_read_fstab (path : CStr)
  | log_set_level (level : Nat)
  | read_sys_block
  | uevent_create_nodes (path : CStr)
  | mmap
  | safe_fork
  | chroot (path : CStr)
  | blkid_get_dev (path : CStr)
  | waitpid
  | munmap
  | socket
  | bind
  | poll
  | recv
  | close_socket
  deriving DecidableEq, Repr

/-- The answer of `lstat`. -/
inductive lstat_result where
  | found (kind : file_kind)
  | enoent
  | failed
  deriving DecidableEq, Repr

/-- The answer to reading the property `ro.build.version.sdk` and converting
it with `sscanf("%u")`. -/
inductive sdk_result where
  | unreadable
  | unconvertible
  | value (sdk_version : Nat)
  deriving DecidableEq, Repr

/-- The surroundings of the program. Every answer is a function of the call
history, the call being answered last in it. The `MBPATH_*` fields are the path
constants of `common.h`, `PATH_MAX` the size of the path buffers;
`path_matches` is the identity test of the catalog lookup by path; `dirname`
and `basename` are the libc functions; `fstab` is the table
`fs_mgr_read_fstab` answers, `none` when the file does not parse;
`util_get_replacement_by_name` and `fs_mgr_get_by_ueventblock` are the lookups
of that name, which are not under src/; `feed` is what the scan of /sys/block
enumerates; `blkid_tags` holds the tags of the device that `blkid_get_dev` was
asked for, `none` when it finds no device; `killed` is the signal, counted from
SIGHUP, that ended a worker from outside, `none` when the worker ran to its own
end; `size_bits` is the width of `size_t`. -/
structure Env where
  MBPATH_ROOT : CStr
  MBPATH_DEV : CStr
  MBPATH_BOOTDEV : CStr
  MBPATH_ESP : CStr
  MBPATH_STUB : CStr
  MBPATH_STUB_IDFILE : CStr
  MBPATH_DATA : CStr
  MBPATH_MB_DATA : CStr
  MBPATH_MB_SYSTEM : CStr
  MBPATH_FSTAB : CStr
  PATH_MAX : Nat
  path_matches : CStr → uevent_block_t → Bool
  dirname : CStr → Option CStr
  basename : CStr → Option CStr
  rc : List Event → Int
  lstat : List Event → lstat_result
  num_blocks : List Event → Nat
  sdk : List Event → sdk_result
  int_value : List Event → Nat
  handle : List Event → Bool
  fstype : List Event → Option CStr
  errno : List Event → Int
  fstab : List Event → Option (List fstab_rec)
  util_get_replacement_by_name : List part_replacement_t → CStr → Option part_replacement_t
  fs_mgr_get_by_ueventblock : Option (List fstab_rec) → Option uevent_block_t → Option fstab_rec
  feed : List Event → List uevent_block_t
  blkid_tags : List Event → Option (List (CStr × CStr))
  killed : List Event → Option (Fin 64)
  size_bits : Nat

/-- The state every operation works on. -/
structure World where
  md : multiboot_data_t
  loops_created : Int
  trace : List Event
  deriving DecidableEq, Repr

/-- The outcome of an operation. -/
inductive Res (α : Type) where
  | ok : α → World → Res α
  | abort : String → World → Res α
  deriving DecidableEq, Repr

/-- The world an outcome carries. -/
def Res.world {α : Type} : Res α → World
  | .ok _ w => w
  | .abort _ w => w

/-- Whether the outcome is an abort. -/
def Res.aborted {α : Type} : Res α → Bool
  | .ok _ _ => false
  | .abort _ _ => true

/-- An operation on the world. -/
def Run (α : Type) : Type := World → Res α

/-- Return a value, leaving the world as it is. -/
def Run.pure {α : Type} (a : α) : Run α := fun w => .ok a w

/-- Sequence two operations; an abort of the first ends the run. -/
def Run.bind {α β : Type} (m : Run α) (f : α → Run β) : Run β := fun w =>
  match m w with
  | .ok a w1 => f a w1
  | .abort msg w1 => .abort msg w1

instance : Monad Run where
  pure := Run.pure
  bind := Run.bind

/-- Modelled from the spec: the macro `MBABORT` of common.h (and `LOGF` of
lib/log.h), which are not under src/: "escalated to a single fatal-abort
path", the run ends here. -/
def MBABORT {α : Type} (msg : String) : Run α := fun w => .abort msg w

/-- Perform a call: it is appended to the history, and the history now ending
in it is returned so that the answers can be read off the `Env`. -/
def call (e : Event) : Run (List Event) := fun w =>
  .ok (w.trace ++ [e]) { w with trace := w.trace ++ [e] }

/-- Abort with `msg` when the condition holds: `if (c) MBABORT(msg);`. -/
def abort_if (c : Prop) [Decidable c] (msg : String) : Run Unit := fun w =>
  if c then .abort msg w else .ok () w

/-- The end of the process at the dereference of a NULL pointer. -/
def NULL_DEREF {α : Type} : Run α := fun w => .abort "NULL pointer dereference" w

/-- Read `multiboot_data`. -/
def get_data : Run multiboot_data_t := fun w => .ok w.md w

/-- Write `multiboot_data`. -/
def modify_data (f : multiboot_data_t → multiboot_data_t) : Run Unit := fun w =>
  .ok () { w with md := f w.md }

/-! ## Catalog and fstab lookups -/

/-- Modelled from the spec: `get_blockinfo_for_path` of lib/uevent, which is not
under src/. "Linear scans over alternate identity fields": the first device of
the catalog, in catalog order, that the path identifies. -/
def get_blockinfo_for_path (env : Env) (info : List uevent_block_t) (path : CStr) :
    Option uevent_block_t :=
  info.find? (fun d => env.path_matches path d)

/-- Modelled from the spec: `get_blockinfo_for_partname` of lib/uevent, which is
not under src/: the first device whose GPT partition name is `name`. -/
def get_blockinfo_for_partname (info : List uevent_block_t) (name : CStr) :
    Option uevent_block_t :=
  info.find? (fun d => d.partname = some name)

/-- Modelled from the spec: `get_blockinfo_for_devname` of lib/uevent, which is
not under src/: the first device whose kernel device name is `name`. -/
def get_blockinfo_for_devname (info : List uevent_block_t) (name : CStr) :
    Option uevent_block_t :=
  info.find? (fun d => d.devname = name)

/-- Modelled from the spec: `fs_mgr_get_by_name` of lib/fs_mgr, which is not
under src/: the first record whose mount point without its leading slash is
`name` (the comparison `util_device_from_mbname` makes in src/util.c). -/
def fs_mgr_get_by_name (fstab : List fstab_rec) (name : CStr) : Option fstab_rec :=
  fstab.find? (fun r => r.mount_point.drop 1 = name)

/-- Modelled from the spec: `fs_mgr_is_uefi` of lib/fs_mgr, which is not under
src/: the record's UEFI tag. -/
def fs_mgr_is_uefi (rec : fstab_rec) : Bool := rec.uefi

/-- Modelled from the spec: `fs_mgr_is_multiboot` of lib/fs_mgr, which is not
under src/: the record's multiboot tag. -/
def fs_mgr_is_multiboot (rec : fstab_rec) : Bool := rec.multiboot

/-- The (major,minor) key of a replacement record. -/
def part_replacement_t.key (r : part_replacement_t) : Option (Nat × Nat) :=
  r.uevent_block.map (fun b => (b.major, b.minor))

/-- Modelled from the spec: `util_get_replacement`, which is not under src/:
"lookup by (major,minor)", the first record of the Registry whose device has
this major and minor. -/
def util_get_replacement (replacements : List part_replacement_t) (major minor : Nat) :
    Option part_replacement_t :=
  replacements.find? (fun r => r.key = some (major, minor))

/-! ## Configuration loader -/

/-- One `name = value` line as `ini_parse` hands it to a handler. -/
structure ini_entry where
  sec : CStr
  name : Option CStr
  value : Option CStr
  deriving DecidableEq, Repr

/-- What `ini_parse` makes of a file: the handler calls in file order, and the
value it returns when no handler reports an error (0, or -1 when the file
cannot be opened, or the line of the first malformed line). -/
structure ini_file where
  entries : List ini_entry
  rc : Int
  deriving DecidableEq, Repr

/-- `mbini_count_handler`: count the entries of section "partitions" in the
`uint32_t` `num_mbparts`. -/
def mbini_count_handler (e : ini_entry) : Run Int := fun w =>
  if e.sec ≠ "partitions".toList then .ok 1 w
  else .ok 1 { w with md := { w.md with num_mbparts := (w.md.num_mbparts + 1) % 2 ^ 32 } }

/-- The type rule of `mbini_handler`: BIND, unless the path has at least 4
characters and `strcmp(path + pathlen - 4, ".img")` is 0. -/
def mbini_part_type (path : CStr) : mbpart_type :=
  if path.length ≥ 4 then
    if path.drop (path.length - 4) = ".img".toList then MBPART_TYPE_LOOP
    else MBPART_TYPE_BIND
  else MBPART_TYPE_BIND

/-- The device resolution of `mbini_handler`, from the pointer left by the
fstab step: GPT partition name, then kernel device name, each tried only while
the pointer is still NULL. -/
def mbini_resolve_fallback (info : List uevent_block_t) (name : CStr)
    (from_fstab : Option uevent_block_t) : Option uevent_block_t :=
  let ub1 := if from_fstab.isNone then get_blockinfo_for_partname info name else from_fstab
  if ub1.isNone then get_blockinfo_for_devname info name else ub1

/-- Lines 387-401 of `mbini_handler`: the checks against the fstab record of
this name, if there is one; the result is the message of the `MBABORT` that was
reached, or the pointer the lookup by path leaves in `part->uevent_block` (NULL
without a record). -/
def mbini_fstab_step (env : Env) (mbfstab : List fstab_rec) (blockinfo : List uevent_block_t)
    (name : CStr) (type : mbpart_type) : Except String (Option uevent_block_t) :=
  match fs_mgr_get_by_name mbfstab name with
  | some rec =>
    if fs_mgr_is_uefi rec = true ∧ fs_mgr_is_multiboot rec = false then
      .error "You can't replace pure UEFI partitions from a multiboot.ini"
    else if type = MBPART_TYPE_BIND ∧ rec.fs_type = "emmc".toList then
      .error "raw device doesn't support bind mounts"
    else .ok (get_blockinfo_for_path env blockinfo rec.blk_device)
  | none => .ok none

/-- `mbini_handler`, with `*index` passed in and the new `*index` returned (the
C return value is 1 on every path that does not abort). The slot is written
with name, path and type before the checks (world `w1`), its device pointer
once the lookups are done (world `w2`). -/
def mbini_handler (env : Env) (e : ini_entry) (index : Nat) : Run Nat := fun w =>
  if e.sec ≠ "partitions".toList then .ok index w
  else if index ≥ w.md.num_mbparts then .abort "Too many partitions" w
  else
    match e.name, e.value with
    | some name, some value =>
      let type := mbini_part_type value
      let part : multiboot_partition_t :=
        { name := name, path := value, type := type, uevent_block := none }
      let index1 := (index + 1) % 2 ^ 32
      let w1 : World := { w with md := { w.md with mbparts := w.md.mbparts.set index (some part) } }
      if type = MBPART_TYPE_BIND ∧ w1.md.bootdev_supports_bindmount = false then
        .abort "Boot device doesn't support bind mounts" w1
      else
        match mbini_fstab_step env w1.md.mbfstab w1.md.blockinfo name type with
        | .error msg => .abort msg w1
        | .ok from_fstab =>
          let ub := mbini_resolve_fallback w1.md.blockinfo name from_fstab
          let w2 : World := { w with md := { w.md with
            mbparts := w.md.mbparts.set index (some { part with uevent_block := ub }) } }
          if ub.isNone then .abort "Can't find uevent block for partition" w2
          else .ok index1 w2
    | _, _ => .abort "Invalid name/value in multiboot.ini" w

/-- The handler calls of pass 1, in file order. -/
def ini_count_entries : List ini_entry → Run Unit
  | [] => Run.pure ()
  | e :: es => Run.bind (mbini_count_handler e) (fun _ => ini_count_entries es)

/-- The handler calls of pass 2, in file order, threading `*index`. -/
def ini_handle_entries (env : Env) : List ini_entry → Nat → Run Nat
  | [], index => Run.pure index
  | e :: es, index => Run.bind (mbini_handler env e index) (fun index1 => ini_handle_entries env es index1)

/-- Modelled from the spec: `ini_parse` of the inih library, which is not under
src/, called with `mbini_count_handler`: the handler is called on each entry in
file order; the result is the file's own return value, since the handler
returns 1 on every path. -/
def ini_parse_count (file : ini_file) : Run Int :=
  Run.bind (ini_count_entries file.entries) (fun _ => Run.pure file.rc)

/-- Modelled from the spec: `ini_parse` of the inih library, which is not under
src/, called with `mbini_handler` and `&index`: as `ini_parse_count`; the new
`index` is returned next to the return value. -/
def ini_parse_handler (env : Env) (file : ini_file) (index : Nat) : Run (Int × Nat) :=
  Run.bind (ini_handle_entries env file.entries index) (fun index1 => Run.pure (file.rc, index1))

/-- The allow-list `multiboot_bind_whitelist` of src/util.c. -/
def multiboot_bind_whitelist : List CStr :=
  ["ext2".toList, "ext3".toList, "ext4".toList, "f2fs".toList]

/-- The loop of `util_fs_supports_multiboot_bind` over the allow-list. -/
def util_fs_supports_multiboot_bind_loop (type : CStr) : List CStr → Int
  | [] => 0
  | t :: ts => if t = type then 1 else util_fs_supports_multiboot_bind_loop type ts

/-- `util_fs_supports_multiboot_bind`. -/
def util_fs_supports_multiboot_bind (type : CStr) : Int :=
  util_fs_supports_multiboot_bind_loop type multiboot_bind_whitelist

/-- `multiboot_main`, lines 1150-1159: the filesystem of the mounted boot
device (`none` when `find_mounted_volume_by_majmin` finds no volume) decides
`bootdev_supports_bindmount`. -/
def multiboot_main_check_bind (volume_filesystem : Option CStr) : Run Unit := fun w =>
  match volume_filesystem with
  | none => .abort "boot device not mounted (DAFUQ?)" w
  | some fs =>
    if util_fs_supports_multiboot_bind fs ≠ 0 then
      .ok () { w with md := { w.md with bootdev_supports_bindmount := true } }
    else .ok () w

/-- `multiboot_main`, lines 1167-1184: the two passes over multiboot.ini. The
file is read once per pass, so each pass has its own `ini_file`. The array
`mbparts` is allocated zeroed between the passes. -/
def multiboot_main_parse_ini (env : Env) (pass1 pass2 : ini_file) : Run Unit := fun w =>
  match ini_parse_count pass1 w with
  | .abort msg w1 => .abort msg w1
  | .ok rc1 w1 =>
    if rc1 ≠ 0 then .abort "Can't count partitions" w1
    else
      let w2 : World := { w1 with md := { w1.md with
        mbparts := List.replicate w1.md.num_mbparts none } }
      match ini_parse_handler env pass2 0 w2 with
      | .abort msg w3 => .abort msg w3
      | .ok (rc2, index) w3 =>
        if rc2 ≠ 0 then .abort "Can't parse" w3
        else if index ≠ w3.md.num_mbparts then .abort "retrieved wrong number of partitions" w3
        else .ok () w3

/-- The partition in slot `index` of `mbparts`, if the slot exists and is
populated. -/
def mbpart_at (md : multiboot_data_t) (index : Nat) : Option multiboot_partition_t :=
  (md.mbparts.get? index).join

/-- The name of a slot of `mbparts`, if the slot is populated. -/
def mbpart_name (slot : Option multiboot_partition_t) : Option CStr :=
  slot.map (fun p => p.name)

/-- `multiboot_part_by_name`: the first of the `num_mbparts` slots whose name
is `name`. A slot that is still zeroed has no name and is passed over (the C
code would hand its NULL name to `strcmp`); after a load that returned every
slot is populated. -/
def multiboot_part_by_name (md : multiboot_data_t) (name : CStr) :
    Option multiboot_partition_t :=
  ((md.mbparts.take md.num_mbparts).find? (fun slot => mbpart_name slot = some name)).join

/-- `multiboot_main`, lines 1186-1197: every fstab record tagged multiboot must
have a configured partition. -/
def multiboot_main_verify_mbfstab : List fstab_rec → Run Unit
  | [] => Run.pure ()
  | rec :: recs => fun w =>
    if fs_mgr_is_multiboot rec = false then multiboot_main_verify_mbfstab recs w
    else
      match multiboot_part_by_name w.md (rec.mount_point.drop 1) with
      | none => .abort "Can't find multiboot partition" w
      | some _ => multiboot_main_verify_mbfstab recs w

/-! ## Helpers of src/util.c -/

/-- Modelled from the spec: the macro `SAFE_SNPRINTF_RET(MBABORT, ...)` of
common.h, which is not under src/ ("every failure is fatal"): the formatted
text is kept when it fits the buffer of `PATH_MAX` bytes with its NUL,
otherwise the run aborts. -/
def SAFE_SNPRINTF (env : Env) (text : CStr) : Run CStr := fun w =>
  if text.length ≥ env.PATH_MAX then .abort "snprintf error" w else .ok text w

/-- `util_exists`: `stat` (or `lstat`) succeeded. -/
def util_exists (env : Env) (filename : CStr) (follow : Bool) : Run Bool := do
  let h ← call (.stat filename follow)
  pure (decide (env.rc h = 0))

/-- The paths `util_mkdir` cuts off at each '/' behind the first character. -/
def util_mkdir_prefixes (tmp : CStr) : List CStr :=
  ((List.range tmp.length).filter (fun i => decide (1 ≤ i) && decide (tmp.get? i = some '/'))).map
    (fun i => tmp.take i)

/-- The loop of `util_mkdir`: create each missing ancestor, stop at the first
`mkdir` that fails. -/
def util_mkdir_loop (env : Env) : List CStr → Run Int
  | [] => pure 0
  | p :: ps => do
    let ex ← util_exists env p true
    if ex then util_mkdir_loop env ps
    else do
      let h ← call (.mkdir p)
      if env.rc h ≠ 0 then pure (env.rc h) else util_mkdir_loop env ps

/-- `util_mkdir`: recursive directory creation; the buffer has `PATH_MAX+1`
bytes. -/
def util_mkdir (env : Env) (dir : CStr) : Run Int :=
  if dir.length ≥ env.PATH_MAX + 1 then pure (-1)
  else do
    let tmp := if dir.getLast? = some '/' then dir.dropLast else dir
    let rc ← util_mkdir_loop env (util_mkdir_prefixes tmp)
    if rc ≠ 0 then pure rc
    else do
      let ex ← util_exists env tmp true
      if ex then pure rc
      else do
        let h ← call (.mkdir tmp)
        pure (env.rc h)

/-- `util_get_fstype`, as one probe of the device. -/
def util_get_fstype (env : Env) (filename : CStr) : Run (Option CStr) := do
  let h ← call (.util_get_fstype filename)
  pure (env.fstype h)

/-- `util_mount`. -/
def util_mount (env : Env) (source target : CStr) (filesystemtype : Option CStr)
    (mountflags : Nat) (data : Option CStr) : Run Int := do
  let ex ← util_exists env target true
  let rc ← (if ex then pure 0 else util_mkdir env target)
  if rc ≠ 0 then pure rc
  else do
    let fstype ← (match filesystemtype with
      | some t => pure (some t)
      | none => util_get_fstype env source)
    match fstype with
    | none => pure (-1)
    | some t => do
      let h ← call (.mount source target t mountflags data)
      if env.rc h ≠ 0 then pure (-1) else pure 0

/-- Modelled from the spec: the macro `SAFE_MOUNT` of common.h, which is not
under src/ ("any filesystem, loop, or mount failure aborts the whole boot"):
`util_mount`, and abort when it fails. -/
def SAFE_MOUNT (env : Env) (source target : CStr) (filesystemtype : Option CStr)
    (mountflags : Nat) (data : Option CStr) : Run Unit := do
  let rc ← util_mount env source target filesystemtype mountflags data
  abort_if (rc ≠ 0) "can't mount"

/-- Modelled from the spec: the macro `SAFE_UMOUNT` of common.h, which is not
under src/ ("any filesystem, loop, or mount failure aborts the whole boot"):
`umount`, and abort when it fails. -/
def SAFE_UMOUNT (env : Env) (target : CStr) : Run Unit := do
  let h ← call (.umount target)
  abort_if (env.rc h ≠ 0) "can't unmount"

/-- `util_make_loop`: the node gets major 7 and minor `255 - loops_created`;
the `static` counter grows only when `mknod` succeeded. -/
def util_make_loop (env : Env) (path : CStr) : Run Int := fun w =>
  let minor := 255 - w.loops_created
  let h := w.trace ++ [Event.mknod path true 7 minor]
  if env.rc h ≠ 0 then .ok (env.rc h) { w with trace := h }
  else .ok (env.rc h) { w with trace := h, loops_created := w.loops_created + 1 }

/-- `util_losetup`: run busybox `losetup`. -/
def util_losetup (env : Env) (device file : CStr) (ro : Bool) : Run Int := do
  let h ← call (.util_losetup device file ro)
  pure (env.rc h)

/-- `util_mkfs`: `mke2fs` for ext2, ext3 and ext4, -1 for every other type. -/
def util_mkfs (env : Env) (device fstype : CStr) : Run Int :=
  if fstype = "ext2".toList ∨ fstype = "ext3".toList ∨ fstype = "ext4".toList then do
    let h ← call (.util_mke2fs device fstype)
    pure (env.rc h)
  else pure (-1)

/-- `util_block_num`: the number of 512-byte blocks of a device, written
through the pointer only when the `ioctl` succeeded. -/
def util_block_num (env : Env) (path : CStr) (numblocks : Nat) : Run (Int × Nat) := do
  let h ← call (.open_rdonly path)
  if env.rc h < 0 then pure (env.rc h, numblocks)
  else do
    let h2 ← call (.ioctl_BLKGETSIZE path)
    if env.rc h2 = -1 then pure (-1, numblocks)
    else do
      let _ ← call (.close path)
      pure (0, env.num_blocks h2)

/-- `util_dd`: run busybox `dd` with 512-byte blocks; a count of 0 is replaced
by the size of the source. Of the four formatted arguments the two that hold a
path can exceed the buffer; `bs=512` and `count=<blocks>` are short. -/
def util_dd (env : Env) (source target : CStr) (blocks : Nat) : Run Int := do
  let r ← (if blocks = 0 then util_block_num env source blocks else pure (0, blocks))
  if blocks = 0 ∧ r.1 ≠ 0 then pure r.1
  else if ("if=".toList ++ source).length ≥ env.PATH_MAX then pure (-1)
  else if ("of=".toList ++ target).length ≥ env.PATH_MAX then pure (-1)
  else do
    let h ← call (.util_dd source target r.2)
    pure (env.rc h)

/-- `util_cp`: run busybox `cp`. -/
def util_cp (env : Env) (source target : CStr) : Run Int := do
  let h ← call (.util_cp source target)
  pure (env.rc h)

/-- `util_create_partition_backup_ex`: copy the device to the file when forced
or when the file does not exist yet. -/
def util_create_partition_backup_ex (env : Env) (device file : CStr) (num_blocks : Nat)
    (force : Bool) : Run Int := do
  let r ← (if num_blocks = 0 then util_block_num env device num_blocks else pure (0, num_blocks))
  let ex ← (if force then pure false else util_exists env file false)
  if force = true ∨ ex = false then do
    let rc ← util_dd env device file r.2
    if rc ≠ 0 then pure (-1) else pure 0
  else pure 0

/-- `util_create_partition_backup`. -/
def util_create_partition_backup (env : Env) (device file : CStr) : Run Int :=
  util_create_partition_backup_ex env device file 0 false

/-- `util_get_espdir`: the UEFIESP directory below `mountpoint`. -/
def util_get_espdir (env : Env) (mountpoint : CStr) : Run (Option CStr) := do
  let md ← get_data
  match md.esp with
  | none => pure none
  | some esp =>
    let sel : Option (CStr × Bool) :=
      if esp.esp.head? = some '/' then some (esp.esp.drop 1, false)
      else if esp.esp = "datamedia".toList then some ("media".toList, true)
      else none
    match sel with
    | none => pure none
    | some (espdir, is_datamedia) =>
      let buf := mountpoint ++ "/".toList ++ espdir ++ "/UEFIESP".toList
      if buf.length ≥ env.PATH_MAX then pure none
      else do
        let ex ← util_exists env buf true
        if ex = false ∧ is_datamedia = true then
          let buf2 := mountpoint ++ "/".toList ++ espdir ++ "/0".toList
          if buf2.length ≥ env.PATH_MAX then pure none
          else do
            let ex0 ← util_exists env buf2 true
            if ex0 then
              let buf3 := mountpoint ++ "/".toList ++ espdir ++ "/0/UEFIESP".toList
              if buf3.length ≥ env.PATH_MAX then pure none else pure (some buf3)
            else pure (some buf)
        else pure (some buf)

/-- `util_get_esp_path_for_partition`: the backup image of a partition,
`<espdir>/partition_<basename of the mount point>.img`. -/
def util_get_esp_path_for_partition (env : Env) (mountpoint : CStr) (rec : fstab_rec) :
    Run (Option CStr) := do
  let espdir ← util_get_espdir env mountpoint
  match espdir with
  | none => pure none
  | some buf =>
    if buf.length ≥ env.PATH_MAX then pure none
    else
      match env.basename rec.mount_point with
      | none => pure none
      | some name =>
        let buf2 := buf ++ "/partition_".toList ++ name ++ ".img".toList
        if buf2.length ≥ env.PATH_MAX then pure none else pure (some buf2)

/-- `util_getmbpath_from_device`: the node of a device in the private device
tree. -/
def util_getmbpath_from_device (env : Env) (device : CStr) : Run (Option CStr) := do
  let md ← get_data
  match get_blockinfo_for_path env md.blockinfo device with
  | none => pure none
  | some bi =>
    let buf := env.MBPATH_DEV ++ "/block/".toList ++ bi.devname
    if buf.length ≥ env.PATH_MAX then pure none else pure (some buf)

/-- `util_mount_esp`: mount the ESP with the mount options of the ROM's fstab
and, when that fails, once more without options. -/
def util_mount_esp (env : Env) : Run Unit := do
  let md ← get_data
  let opts : Nat × Option CStr :=
    match env.fs_mgr_get_by_ueventblock md.romfstab md.espdev with
    | some esprec => (esprec.flags, esprec.fs_options)
    | none => (0, none)
  let h ← call (.uevent_mount md.espdev env.MBPATH_ESP opts.1 opts.2)
  if env.rc h ≠ 0 then do
    let h2 ← call (.uevent_mount md.espdev env.MBPATH_ESP 0 none)
    abort_if (env.rc h2 ≠ 0) "Can't mount ESP"
  else pure ()

/-! ## Data-media preparation -/

/-- Mount the replacement of a LOOP partition at `mountpoint` and answer that
path; for a BIND partition answer the partition's directory. -/
def mount_replacement (env : Env) (replacement : part_replacement_t)
    (part : multiboot_partition_t) (mountpoint : CStr) (msg : String) : Run CStr :=
  if part.type = MBPART_TYPE_LOOP then do
    let rc ← util_mount env replacement.loopdevice mountpoint none 0 none
    abort_if (rc ≠ 0) msg
    pure mountpoint
  else
    match replacement.multiboot_partpath with
    | none => NULL_DEREF
    | some partpath => pure partpath

/-- `get_mb_sdk_version`: the SDK version in build.prop of the system
replacement. -/
def get_mb_sdk_version (env : Env) : Run Nat := do
  let md ← get_data
  match env.util_get_replacement_by_name md.replacements "system".toList with
  | none => MBABORT "Can't find replacement partition for system"
  | some replacement =>
    match replacement.multiboot_part with
    | none => NULL_DEREF
    | some part => do
      let systempath ← mount_replacement env replacement part env.MBPATH_MB_SYSTEM
        "Can't mount system"
      let buf := systempath ++ "/build.prop".toList
      if buf.length ≥ env.PATH_MAX then pure (2 ^ 32 - 1)
      else do
        let h ← call (.util_get_property buf "ro.build.version.sdk".toList)
        match env.sdk h with
        | .unreadable => MBABORT "Can't read property"
        | .unconvertible => MBABORT "Can't convert"
        | .value sdk_version => do
          if part.type = MBPART_TYPE_LOOP then SAFE_UMOUNT env env.MBPATH_MB_SYSTEM
          else pure ()
          pure (sdk_version % 2 ^ 32)

/-- The layout version a ROM of this SDK version needs. -/
def layout_version_needed (sdk_version : Nat) : Nat :=
  if sdk_version < 17 then 0 else if sdk_version < 20 then 2 else 3

/-- The source of the data-media bind mount for a native layout version. -/
def datamedia_source_of (env : Env) (native_data_layout_version : Nat) : Option CStr :=
  if native_data_layout_version = 0 ∨ native_data_layout_version = 1 then
    some (env.MBPATH_DATA ++ "/media".toList)
  else if native_data_layout_version = 2 ∨ native_data_layout_version = 3 then
    some (env.MBPATH_DATA ++ "/media/0".toList)
  else none

/-- The target of the data-media bind mount for a required layout version. -/
def datamedia_target_of (needed : Nat) : Option CStr :=
  if needed = 0 ∨ needed = 1 then some "/media".toList
  else if needed = 2 ∨ needed = 3 then some "/media/0".toList
  else none

/-- Create a directory unless it exists: `if (!util_exists(dir, false))
util_mkdir(dir)`, aborting when the creation fails. -/
def ensure_dir (env : Env) (dir : CStr) (follow : Bool) (msg : String) : Run Unit := do
  let ex ← util_exists env dir follow
  if ex then pure ()
  else do
    let rc ← util_mkdir env dir
    abort_if (rc ≠ 0) msg

/-- `prepare_multiboot_data`. -/
def prepare_multiboot_data (env : Env) : Run Unit := do
  let sdk_version ← get_mb_sdk_version env
  let needed := layout_version_needed sdk_version
  let md ← get_data
  match env.util_get_replacement_by_name md.replacements "data".toList with
  | none => MBABORT "Can't find replacement partition for data"
  | some replacement =>
    match replacement.multiboot_part with
    | none => NULL_DEREF
    | some part => do
      let datapath ← mount_replacement env replacement part env.MBPATH_MB_DATA
        "Can't mount data"
      let buf := datapath ++ "/.layout_version".toList
      if buf.length ≥ env.PATH_MAX then pure ()
      else do
        let h ← call (.util_read_int buf)
        let layout_version := if env.rc h ≠ 0 then 0 else env.int_value h % 2 ^ 32
        match datamedia_source_of env md.native_data_layout_version, datamedia_target_of needed with
        | some datamedia_source, some datamedia_target => do
          (if needed > 0 ∧ layout_version ≠ needed then do
            let hw ← call (.util_write_int buf needed)
            abort_if (env.rc hw ≠ 0) "can't set layout version"
          else pure ())
          ensure_dir env datamedia_source false "Can't create datamedia on source"
          let buf2 := env.MBPATH_MB_DATA ++ datamedia_target
          if buf2.length ≥ env.PATH_MAX then pure ()
          else do
            ensure_dir env buf2 false "Can't create datamedia on target"
            modify_data (fun md => { md with
              datamedia_target := some datamedia_target,
              datamedia_source := some datamedia_source })
            if part.type = MBPART_TYPE_LOOP then SAFE_UMOUNT env env.MBPATH_MB_DATA
            else pure ()
        | _, _ => MBABORT "datamedia_source=%s datamedia_target=%s"

/-! ## Replacement planner -/

/-- The size of the growth store, lines 733-743 of `setup_partition_replacements`:
`num_blocks = MIN(num_blocks, (200*1024*1024)/512llu)` and then
`num_blocks*512llu`, computed in `unsigned long long`. -/
def dynfilefs_size (num_blocks : Nat) : Nat :=
  (min num_blocks ((200 * 1024 * 1024) / 512) * 512) % 2 ^ 64

/-- Lines 729-784 of `setup_partition_replacements`: what is done for a BIND
partition once `util_block_num` has answered `rc` and `num_blocks` for its
device. -/
def setup_bind_store (env : Env) (part : multiboot_partition_t) (loopdevice : CStr)
    (rc : Int) (num_blocks : Nat) : Run Unit := do
  abort_if (rc ≠ 0 ∨ num_blocks = 0) "Can't get size of device"
  let buf2 ← SAFE_SNPRINTF env (env.MBPATH_ROOT ++ "/dynmount:".toList ++ part.name)
  let buf ← SAFE_SNPRINTF env (env.MBPATH_ROOT ++ "/dynstorage:".toList ++ part.name)
  let h ← call (.util_dynfilefs buf buf2 (dynfilefs_size num_blocks))
  abort_if (env.rc h ≠ 0) "can't mount dynfilefs"
  let buf ← SAFE_SNPRINTF env (buf2 ++ "/loop.fs".toList)
  let rc ← util_make_loop env loopdevice
  abort_if (rc ≠ 0) "Can't create loop device"
  let rc ← util_losetup env loopdevice buf false
  abort_if (rc ≠ 0) "Can't setup loop device"
  let fstype := "ext4".toList
  let rc ← util_mkfs env loopdevice fstype
  abort_if (rc ≠ 0) "Can't create filesystem"
  SAFE_MOUNT env loopdevice env.MBPATH_STUB (some fstype) 0 none
  let h ← call (.open_creat env.MBPATH_STUB_IDFILE)
  abort_if (env.rc h < 0) "Can't create ID file"
  let _ ← call (.close env.MBPATH_STUB_IDFILE)
  SAFE_UMOUNT env env.MBPATH_STUB

/-- Lines 714-784 of `setup_partition_replacements`: the BIND branch. `st` is
the answer of `lstat` on the partition's directory. -/
def setup_bind_partition (env : Env) (part : multiboot_partition_t) (partpath loopdevice : CStr)
    (st : lstat_result) : Run Unit := do
  (if st = .enoent then do
    let rc ← util_mkdir env partpath
    abort_if (rc ≠ 0) "Can't create directory"
  else pure ())
  match part.uevent_block with
  | none => NULL_DEREF
  | some ub => do
    let buf ← SAFE_SNPRINTF env (env.MBPATH_DEV ++ "/block/".toList ++ ub.devname)
    let r ← util_block_num env buf 0
    setup_bind_store env part loopdevice r.1 r.2

/-- Lines 786-799 of `setup_partition_replacements`: the LOOP branch; the
result is `loopfile`. -/
def setup_loop_partition (env : Env) (partpath loopdevice : CStr) : Run CStr := do
  let rc ← util_make_loop env loopdevice
  abort_if (rc ≠ 0) "Can't create loop device"
  let loopfile := partpath
  let rc ← util_losetup env loopdevice loopfile false
  abort_if (rc ≠ 0) "Can't setup loop device"
  pure loopfile

/-- Whether the node found by `lstat` has the wrong kind for the partition
type: a BIND partition needs a directory, every other one a regular file. -/
def invalid_mode (type : mbpart_type) (st : lstat_result) : Bool :=
  match st with
  | .found kind =>
    (decide (type = MBPART_TYPE_BIND) && decide (kind ≠ file_kind.dir)) ||
    (decide (type ≠ MBPART_TYPE_BIND) && decide (kind ≠ file_kind.reg))
  | _ => false

/-- The record appended for a configured partition, lines 805-812. -/
def mbpart_replacement (part : multiboot_partition_t) (partpath loopdevice : CStr)
    (loopfile : Option CStr) : part_replacement_t :=
  { loopdevice := loopdevice, loopfile := loopfile, losetup_done := 1,
    loop_sync_target := none, multiboot_part := some part,
    multiboot_partpath := some partpath, uevent_block := part.uevent_block }

/-- Append a record to the Registry: `list_add_tail`. -/
def add_replacement (r : part_replacement_t) : Run Unit :=
  modify_data (fun md => { md with replacements := md.replacements ++ [r] })

/-- The body of the loop over `mbparts`, lines 686-813, for one slot. The last
branch of the C code (a type that is neither BIND nor LOOP) cannot be taken:
the type has these two values only. -/
def setup_mbpart (env : Env) (basedir : CStr) (slot : Option multiboot_partition_t) :
    Run Unit :=
  match slot with
  | none => NULL_DEREF
  | some part => do
    let partpath ← SAFE_SNPRINTF env (env.MBPATH_BOOTDEV ++ basedir ++ "/".toList ++ part.path)
    let loopdevice ← SAFE_SNPRINTF env (env.MBPATH_DEV ++ "/block/loopdev:".toList ++ part.name)
    let h ← call (.lstat partpath)
    let st := env.lstat h
    abort_if (st = .failed) "Can't stat"
    abort_if (invalid_mode part.type st = true) "path has invalid mode"
    let loopfile ← (match part.type with
      | MBPART_TYPE_BIND => do
        setup_bind_partition env part partpath loopdevice st
        pure none
      | MBPART_TYPE_LOOP => do
        let loopfile ← setup_loop_partition env partpath loopdevice
        pure (some loopfile))
    add_replacement (mbpart_replacement part partpath loopdevice loopfile)

/-- The loop over `mbparts`, in array order. -/
def setup_mbparts (env : Env) (basedir : CStr) : List (Option multiboot_partition_t) → Run Unit
  | [] => pure ()
  | slot :: slots => do
    setup_mbpart env basedir slot
    setup_mbparts env basedir slots

/-- The body of the loop over the fstab, lines 848-932, for one record. -/
def setup_uefi_rec (env : Env) (rec : fstab_rec) : Run Unit := do
  if fs_mgr_is_uefi rec = false then pure ()
  else do
    let md ← get_data
    match get_blockinfo_for_path env md.blockinfo rec.blk_device with
    | none => MBABORT "Can't get blockinfo"
    | some bi =>
      if (util_get_replacement md.replacements bi.major bi.minor).isSome then pure ()
      else do
        let espfilename ← util_get_esp_path_for_partition env env.MBPATH_ESP rec
        match espfilename with
        | none => MBABORT "Can't get filename"
        | some espfilename => do
          let mbpathdevice ← util_getmbpath_from_device env rec.blk_device
          match mbpathdevice with
          | none => MBABORT "Can't get mbpath device"
          | some mbpathdevice => do
            let rc ← util_create_partition_backup env mbpathdevice espfilename
            abort_if (rc ≠ 0) "Can't create partition image"
            let buf ← SAFE_SNPRINTF env
              (env.MBPATH_DEV ++ "/block/loopdev:".toList ++ rec.mount_point.drop 1)
            let lf ← (if md.is_recovery = true ∧ md.is_multiboot = false then do
                let buf2 ← SAFE_SNPRINTF env
                  (env.MBPATH_ROOT ++ "/loopfile:".toList ++ rec.mount_point.drop 1)
                let rc ← util_cp env espfilename buf2
                abort_if (rc ≠ 0) "Can't copy partition from esp to temp"
                pure (buf2, some (rec.mount_point.drop 1))
              else pure (espfilename, none))
            let rc ← util_make_loop env buf
            abort_if (rc ≠ 0) "Can't create loop device"
            let losetup_done ← (if md.is_recovery = true then do
                let rc ← util_losetup env buf lf.1 false
                abort_if (rc ≠ 0) "Can't setup loop device"
                pure (1 : Int)
              else pure 0)
            add_replacement
              { loopdevice := buf, loopfile := some lf.1, losetup_done := losetup_done,
                loop_sync_target := lf.2, multiboot_part := none,
                multiboot_partpath := none, uevent_block := some bi }

/-- The loop over the records of the multiboot fstab, in fstab order. -/
def setup_uefi_recs (env : Env) : List fstab_rec → Run Unit
  | [] => pure ()
  | rec :: recs => do
    setup_uefi_rec env rec
    setup_uefi_recs env recs

/-- Lines 663-822 of `setup_partition_replacements`: the multiboot part. -/
def setup_multiboot_replacements (env : Env) : Run Unit := do
  let md ← get_data
  match md.path with
  | none => NULL_DEREF
  | some path =>
    match env.dirname path with
    | none => MBABORT "Can't get base dir for multiboot path"
    | some basedir => do
      ensure_dir env "/dev".toList false "Can't create /dev directory"
      let ex ← util_exists env "/dev/fuse".toList true
      (if ex then pure ()
      else do
        let h ← call (.mknod "/dev/fuse".toList false 10 229)
        abort_if (env.rc h ≠ 0) "Can't create /dev/fuse")
      setup_mbparts env basedir (md.mbparts.take md.num_mbparts)
      if md.is_recovery = false then prepare_multiboot_data env else pure ()

/-- `setup_partition_replacements`. -/
def setup_partition_replacements (env : Env) : Run Int := do
  let md ← get_data
  (if md.is_multiboot = true then setup_multiboot_replacements env else pure ())
  util_mount_esp env
  let espdir ← util_get_espdir env env.MBPATH_ESP
  match espdir with
  | none => MBABORT "Can't get ESP directory"
  | some espdir => do
    let buf ← SAFE_SNPRINTF env espdir
    ensure_dir env buf true "Can't create directory"
    setup_uefi_recs env md.mbfstab
    (if md.is_recovery = false ∨ (md.is_recovery = true ∧ md.is_multiboot = false) then
      SAFE_UMOUNT env env.MBPATH_ESP
    else pure ())
    pure 0

/-! ## Access-policy patching and the tail of `multiboot_main` -/

/-- `util_append_string_to_file`: the file is opened for appending without
`O_CREAT`. -/
def util_append_string_to_file (env : Env) (filename str : CStr) : Run Int := do
  let h ← call (.open_append filename)
  if env.rc h < 0 then pure (env.rc h)
  else do
    let hw ← call (.write filename str)
    let rc : Int := if env.rc hw ≠ (str.length : Int) then - env.errno hw else 0
    let _ ← call (.close filename)
    pure rc

/-- The rules `selinux_fixup` adds in every mode, in source order. -/
def selinux_rules_common : List (String × String × String × String) :=
  [ ("init_multiboot", "rootfs", "filesystem", "associate"),
    ("init", "init_multiboot", "file", "relabelto,getattr,execute,read,execute_no_trans,open"),
    ("kernel", "rootfs", "file", "execute,unlink"),
    ("rootfs", "tmpfs", "filesystem", "associate"),
    ("init", "init", "process", "execmem"),
    ("init", "kernel", "process", "signal"),
    ("init", "rootfs", "file", "create,write,unlink"),
    ("kernel", "rootfs", "dir", "read,write,add_name,create,remove_name"),
    ("kernel", "tmpfs", "dir", "mounton"),
    ("kernel", "kernel", "capability", "mknod,sys_admin"),
    ("kernel", "init", "dir", "search"),
    ("kernel", "init", "file", "read,open,getattr"),
    ("kernel", "init", "process", "signal"),
    ("kernel", "block_device", "dir", "write,remove_name,add_name"),
    ("kernel", "block_device", "blk_file", "create,unlink,getattr,write"),
    ("kernel", "boot_block_device", "blk_file", "getattr,read,open,ioctl,unlink"),
    ("kernel", "recovery_block_device", "blk_file", "getattr,read,open,ioctl,unlink"),
    ("kernel", "cache_block_device", "blk_file", "unlink"),
    ("kernel", "userdata_block_device", "blk_file", "unlink"),
    ("kernel", "device", "dir", "write,add_name"),
    ("kernel", "device", "blk_file", "create,read,write"),
    ("kernel", "media_rw_data_file", "dir", "getattr,search"),
    ("kernel", "media_rw_data_file", "file", "getattr,read,write,open"),
    ("kernel", "rootfs", "chr_file", "read,write"),
    ("init", "rootfs", "dir", "relabelto"),
    ("init", "tmpfs", "chr_file", "relabelfrom"),
    ("init", "null_device", "chr_file", "relabelto"),
    ("init", "zero_device", "chr_file", "relabelto"),
    ("init", "block_device", "blk_file", "relabelto"),
    ("init", "block_device", "dir", "relabelto"),
    ("init", "tmpfs", "blk_file", "getattr"),
    ("init", "tmpfs", "blk_file", "relabelfrom"),
    ("init", "device", "dir", "relabelto") ]

/-- The rules `selinux_fixup` adds in multiboot mode only. -/
def selinux_rules_multiboot : List (String × String × String × String) :=
  [ ("kernel", "unlabeled", "file", "read"),
    ("init", "media_rw_data_file", "dir", "mounton"),
    ("init", "block_device", "lnk_file", "setattr") ]

/-- Add the rules one after the other; the results are ignored. -/
def sepolicy_add_rules : List (String × String × String × String) → Run Unit
  | [] => pure ()
  | (s, t, c, p) :: rules => do
    let _ ← call (.sepolicy_inject_add_rule s.toList t.toList c.toList p.toList)
    sepolicy_add_rules rules

/-- The text appended to /init.rc first. -/
def initrc_coldboot : CStr :=
  "\n\non early-init\n    wait /dev/.coldboot_done\n\n".toList

/-- The text appended to /init.rc in multiboot mode. -/
def initrc_layout_version : CStr :=
  "\n\non post-fs-data\n    restorecon /data/.layout_version\n\n".toList

/-- The text appended to /file_contexts. -/
def file_contexts_text : CStr :=
  ("\n\n" ++
   "/multiboot(/.*)?               u:object_r:rootfs:s0\n" ++
   "/multiboot/dev(/.*)?           u:object_r:device:s0\n" ++
   "/multiboot/dev/null            u:object_r:null_device:s0\n" ++
   "/multiboot/dev/zero            u:object_r:zero_device:s0\n" ++
   "/multiboot/dev/block(/.*)?     u:object_r:block_device:s0\n" ++
   "/init\\.multiboot              u:object_r:init_multiboot:s0\n" ++
   "/data/media/multiboot(/.*)?          <<none>>\n" ++
   "/data/media/0/multiboot(/.*)?        <<none>>\n" ++
   "/realdata/media/multiboot(/.*)?      <<none>>\n" ++
   "/realdata/media/0/multiboot(/.*)?    <<none>>\n").toList

/-- The text appended to /init.rc last. -/
def initrc_restorecon : CStr :=
  ("\n\non early-init\n    restorecon /init.multiboot\n    restorecon /multiboot\n" ++
   "    restorecon_recursive /multiboot/dev\n\n").toList

/-- `selinux_fixup`: every result is ignored. -/
def selinux_fixup (env : Env) : Run Int := do
  let _ ← util_append_string_to_file env "/init.rc".toList initrc_coldboot
  let md ← get_data
  if md.is_recovery = true then pure 0
  else do
    let h ← call (.sepolicy_inject_open "/sepolicy".toList)
    (if env.handle h = true then do
      sepolicy_add_rules selinux_rules_common
      (if md.is_multiboot = true then sepolicy_add_rules selinux_rules_multiboot else pure ())
      let _ ← call (.sepolicy_inject_write "/sepolicy".toList)
      let _ ← call .sepolicy_inject_close
      pure ()
    else pure ())
    (if md.is_multiboot = true then do
      let _ ← util_append_string_to_file env "/init.rc".toList initrc_layout_version
      pure ()
    else pure ())
    let _ ← util_append_string_to_file env "/file_contexts".toList file_contexts_text
    let _ ← util_append_string_to_file env "/init.rc".toList initrc_restorecon
    pure 0

/-- `multiboot_main`, lines 1150-1198: what multiboot mode does once the boot
device is mounted: the bind-mount check, the two passes over multiboot.ini and
the check of the multiboot fstab. -/
def multiboot_main_load_config (env : Env) (volume_filesystem : Option CStr)
    (pass1 pass2 : ini_file) : Run Unit := do
  multiboot_main_check_bind volume_filesystem
  multiboot_main_parse_ini env pass1 pass2
  let md ← get_data
  multiboot_main_verify_mbfstab md.mbfstab

/-- `multiboot_main`, lines 1150-1206, in multiboot mode: the configuration is
loaded, then the access policy is patched, then the planner runs. -/
def multiboot_main_from_config (env : Env) (volume_filesystem : Option CStr)
    (pass1 pass2 : ini_file) : Run Int := do
  multiboot_main_load_config env volume_filesystem pass1 pass2
  let _ ← selinux_fixup env
  setup_partition_replacements env

/-! ## Kernel command line and the fstab of the ROM -/

/-- The white-space characters of the C library (`isspace` in the C locale):
the space and the characters 9 to 13. -/
def isspace (c : Char) : Bool :=
  decide (c = ' ') || (decide (9 ≤ c.toNat) && decide (c.toNat ≤ 13))

/-- The directive `%<width>s` (or `%ms` without a width) of `sscanf`: white
space is skipped, then the characters up to the next white space are taken, at
most `width` of them. The result holds the field and the input left, and is
`none` when the input ends before a character of the field. -/
def scan_string (width : Option Nat) (input : CStr) : Option (CStr × CStr) :=
  let s := input.dropWhile isspace
  let run := s.takeWhile (fun c => !isspace c)
  let field := match width with
    | some n => run.take n
    | none => run
  if field = [] then none else some (field, s.drop field.length)

/-- The call `sscanf(value, "<tag>,%<width>s,%ms", guid, &path)` of
`import_kernel_nv`, after the C library: the characters of `<tag>,` are matched
one by one, the two fields are read by `scan_string`, the comma between them is
matched. The result is the value returned (the number of fields assigned, -1
when the input ends before the first one) with what was assigned to `guid` and
to `path`. -/
def sscanf_multibootpath (tag : CStr) (width : Nat) (value : CStr) :
    Int × Option CStr × Option CStr :=
  if value.take (tag.length + 1) ≠ tag ++ [','] then
    (if value.length ≤ (tag ++ [',']).length ∧ value = (tag ++ [',']).take value.length
      then -1 else 0, none, none)
  else
    match scan_string (some width) (value.drop (tag.length + 1)) with
    | none => (-1, none, none)
    | some (guid, rest) =>
      if rest.head? ≠ some ',' then (1, some guid, none)
      else
        match scan_string none (rest.drop 1) with
        | none => (1, some guid, none)
        | some (path, _) => (2, some guid, some path)

/-- The call `sscanf(value, "%u", &val)` of `import_kernel_nv`, after the C
library: white space is skipped, a sign is accepted, and the decimal digits that
follow are converted; `none` when no digit follows. A number that does not fit
the 32 bits of `val` is stored as the largest value, 4294967295; a number with
a minus sign is negated in the 32 bits of `val`. -/
def sscanf_unsigned (value : CStr) : Option Nat :=
  let s := value.dropWhile isspace
  let negative := s.head? = some '-'
  let t := if s.head? = some '-' ∨ s.head? = some '+' then s.drop 1 else s
  let digits := t.takeWhile Char.isDigit
  if digits = [] then none
  else
    let n := digits.foldl (fun acc c => 10 * acc + (c.toNat - '0'.toNat)) 0
    some (if n ≥ 2 ^ 32 then 2 ^ 32 - 1
      else if negative then (2 ^ 32 - n) % 2 ^ 32 else n)

/-- `import_kernel_nv`: one `name=value` argument of the kernel command line.
`name_len` is taken before the argument is cut at the '='. -/
def import_kernel_nv (arg : CStr) : Run Unit :=
  if '=' ∉ arg then pure ()
  else
    let name := arg.takeWhile (fun c => c ≠ '=')
    let value := (arg.dropWhile (fun c => c ≠ '=')).drop 1
    if arg.length = 0 then pure ()
    else do
      (if name = "multibootpath".toList then
        if value.take 3 = "GPT".toList then
          match sscanf_multibootpath "GPT".toList 36 value with
          | (2, some guid, some path) =>
            modify_data (fun md => { md with guid := some guid, path := some path })
          | _ => MBABORT "invalid multibootpath"
        else if value.take 3 = "MBR".toList then
          match sscanf_multibootpath "MBR".toList 11 value with
          | (2, some guid, some path) =>
            modify_data (fun md => { md with guid := some guid, path := some path })
          | _ => MBABORT "invalid multibootpath"
        else MBABORT "invalid multibootpath"
      else pure ())
      if name = "multiboot.debug".toList then
        match sscanf_unsigned value with
        | none => pure ()
        | some val => do
          let _ ← call (.log_set_level val)
          pure ()
      else if name = "androidboot.hardware".toList then
        modify_data (fun md => { md with hwname := some value })
      else if name = "androidboot.slot_suffix".toList then
        modify_data (fun md => { md with slot_suffix := some value })
      else pure ()

/-- Lines 1054-1085 of `multiboot_main`: the fstab of the ROM. `hwname` is not
NULL here: lines 993-996 abort otherwise. A NULL `romfstab` is `none`, the table
obtained from `safe_calloc` is the table of no records. -/
def multiboot_main_romfstab (env : Env) : Run Unit := do
  let md ← get_data
  match md.hwname with
  | none => MBABORT "cmdline didn't contain a valid 'androidboot.hardware'"
  | some hwname => do
    let buf ← SAFE_SNPRINTF env ("/fstab.".toList ++ hwname)
    modify_data (fun md => { md with romfstabpath := some buf })
    let h ← call (.fs_mgr_read_fstab buf)
    modify_data (fun md => { md with romfstab := env.fstab h })
    (if env.fstab h = none then do
      abort_if (md.is_recovery = false) "Can't parse ROM fstab"
      let h2 ← call (.fs_mgr_read_fstab "/etc/twrp.fstab".toList)
      modify_data (fun md => { md with romfstab := env.fstab h2 })
      if (env.fstab h2).isSome = true then
        modify_data (fun md => { md with romfstabpath := some "/etc/twrp.fstab".toList })
      else do
        let h3 ← call (.fs_mgr_read_fstab "/etc/recovery.fstab".toList)
        modify_data (fun md => { md with romfstab := env.fstab h3 })
        if (env.fstab h3).isSome = true then
          modify_data (fun md => { md with romfstabpath := some "/etc/recovery.fstab".toList })
        else pure ()
    else pure ())
    let md1 ← get_data
    if md1.romfstab = none then modify_data (fun md => { md with romfstab := some [] })
    else pure ()


/-! ## The multiboot fstab at the start of `multiboot_main` -/

/-- The conversion of a value to `int`: its low 32 bits, read as a signed
number. -/
def to_int (n : Int) : Int := (n + 2 ^ 31) % 2 ^ 32 - 2 ^ 31

/-- `util_buf2file`: the first `size` bytes of `buf` are written to the file,
which is created when it does not exist. `nbytes` is a `size_t`: it holds what
`write` returned, reduced modulo `2 ^ size_bits`. -/
def util_buf2file (env : Env) (buf filename : CStr) (size : Nat) : Run Int := do
  let h ← call (.open_creat filename)
  if env.rc h < 0 then pure (env.rc h)
  else do
    let hw ← call (.write filename (buf.take size))
    let nbytes : Int := env.rc hw % 2 ^ env.size_bits
    let rc : Int := if nbytes ≠ (size : Int) then to_int nbytes else 0
    let _ ← call (.close filename)
    pure rc

/-- `multiboot_main`, lines 1008-1013: the payload `fstab_multiboot` is
extracted to `MBPATH_FSTAB`. -/
def multiboot_main_extract_fstab (env : Env) (fstab_multiboot : CStr) : Run Unit := do
  let rc ← util_buf2file env fstab_multiboot env.MBPATH_FSTAB fstab_multiboot.length
  abort_if (rc ≠ 0) "Can't extract fstab"

/-- `multiboot_main`, lines 1041-1052: every record of the multiboot fstab that
is tagged UEFI must have the filesystem type "emmc". -/
def multiboot_main_verify_uefi : List fstab_rec → Run Unit
  | [] => pure ()
  | rec :: recs =>
    if fs_mgr_is_uefi rec = false then multiboot_main_verify_uefi recs
    else do
      abort_if (rec.fs_type ≠ "emmc".toList) "UEFI partition is not of type emmc"
      multiboot_main_verify_uefi recs

/-! ## Block-device catalog and boot-device resolver -/

/-- Modelled from the spec: `add_new_block_devices` of lib/uevent, which is not
under src/: "re-ingest the feed; append devices not already present". The
devices of the feed are taken in feed order; one is appended unless the catalog,
with what this rescan appended so far, has a device of its kernel device
name. -/
def add_new_block_devices (info : List uevent_block_t) : List uevent_block_t →
    List uevent_block_t
  | [] => info
  | d :: feed =>
    if (get_blockinfo_for_devname info d.devname).isSome then add_new_block_devices info feed
    else add_new_block_devices (info ++ [d]) feed

/-- `strcasecmp(a, b) == 0`: equality of two strings once the letters 'A' to
'Z' are replaced by the lower-case ones. -/
def strcasecmp_equal (a b : CStr) : Bool :=
  decide (a.map Char.toLower = b.map Char.toLower)

/-- The tag loop of the worker, lines 153-165: whether a tag of type "PARTUUID"
has a value equal to `guid`, letter case ignored. -/
def has_partuuid (tags : List (CStr × CStr)) (guid : CStr) : Bool :=
  tags.any (fun t => decide (t.1 = "PARTUUID".toList) && strcasecmp_equal t.2 guid)

/-- How the worker of `get_blockinfo_for_guid` ends when nothing ends it from
outside: `exit(code)`, or an `MBABORT` (or a fault) in the worker. -/
inductive worker_end where
  | exit (code : Nat)
  | abort
  deriving DecidableEq, Repr

/-- The loop of the worker over the catalog, lines 138-168; the result is the
handoff cell `*result` and the way the worker ends. With a NULL `guid` the
worker faults at the first tag of type "PARTUUID". -/
def guid_worker_loop (env : Env) (guid : Option CStr) :
    List uevent_block_t → Run (Option uevent_block_t × worker_end)
  | [] => pure (none, .exit 1)
  | event :: events =>
    if ("/dev/block/".toList ++ event.devname).length ≥ env.PATH_MAX then pure (none, .abort)
    else do
      let h ← call (.blkid_get_dev ("/dev/block/".toList ++ event.devname))
      match env.blkid_tags h with
      | none => guid_worker_loop env guid events
      | some tags =>
        match guid with
        | none =>
          if tags.any (fun t => decide (t.1 = "PARTUUID".toList)) then pure (none, .abort)
          else guid_worker_loop env guid events
        | some g =>
          if has_partuuid tags g = true then pure (some event, .exit 0)
          else guid_worker_loop env guid events

/-- The wait status `waitpid` stores for a worker: the signal number when a
signal ended it, the exit code in the bits 8 to 15 when it called `exit`, and
the answer of the surroundings when it ended in `MBABORT`. -/
def wait_status (env : Env) (h : List Event) (e : worker_end) : Int :=
  match env.killed h with
  | some sig => (sig.val : Int) + 1
  | none =>
    match e with
    | .exit code => ((code % 256 : Nat) : Int) * 256
    | .abort => env.rc h

/-- Lines 129-174 of `get_blockinfo_for_guid`: the worker re-roots its view at
/multiboot and scans the catalog, the caller waits for it; the result is the
handoff cell and the wait status `rc`. A worker that is ended from outside has
written the cell or not: the cell is taken as written. -/
def guid_worker (env : Env) (guid : Option CStr) : Run (Option uevent_block_t × Int) := do
  let md ← get_data
  let hc ← call (.chroot "/multiboot".toList)
  let r ← (if env.rc hc < 0 then pure (none, worker_end.abort)
    else guid_worker_loop env guid md.blockinfo)
  let hw ← call .waitpid
  pure (r.1, wait_status env hw r.2)

/-- Lines 176-179 of `get_blockinfo_for_guid`: the caller reads the handoff
cell only when the wait status is 0. -/
def read_handoff_cell (rc : Int) (result : Option uevent_block_t) : Option uevent_block_t :=
  if rc = 0 then result else none

/-- `get_blockinfo_for_guid`. A failed `mmap` ends the run: the test `!result`
does not catch `MAP_FAILED`, and the assignment `*result = NULL` that follows
faults. `safe_fork` of common.h is not under src/; it is taken to end the run
when no worker can be spawned ("every failure is fatal"). -/
def get_blockinfo_for_guid (env : Env) (guid : Option CStr) : Run (Option uevent_block_t) := do
  let hm ← call .mmap
  abort_if (env.rc hm ≠ 0) "write through MAP_FAILED"
  let hf ← call .safe_fork
  abort_if (env.rc hf < 0) "fork failed"
  let r ← guid_worker env guid
  let ret := read_handoff_cell r.2 r.1
  let _ ← call .munmap
  pure ret

/-- `find_bootdev`. -/
def find_bootdev (env : Env) (update : Bool) : Run Unit := do
  (if update = true then do
    let h ← call .read_sys_block
    modify_data (fun md => { md with
      blockinfo := add_new_block_devices md.blockinfo (env.feed h) })
    let h2 ← call (.uevent_create_nodes env.MBPATH_DEV)
    abort_if (env.rc h2 ≠ 0) "Can't build devfs"
  else pure ())
  let md ← get_data
  let dev ← get_blockinfo_for_guid env md.guid
  modify_data (fun md => { md with bootdev := dev })

/-- How one pass of the loop of `wait_for_bootdev` ends: `poll` failed, the
boot device is found, or it is still searched. -/
inductive poll_result where
  | poll_failed
  | found
  | searching
  deriving DecidableEq, Repr

/-- One pass of the loop of `wait_for_bootdev`, lines 484-497: block for the
next event, receive it, rescan and look the boot device up. -/
def wait_for_bootdev_pass (env : Env) : Run poll_result := do
  let h ← call .poll
  if env.rc h = -1 then pure .poll_failed
  else do
    let hr ← call .recv
    abort_if (env.rc hr = -1) "recv error"
    find_bootdev env true
    let md ← get_data
    if md.bootdev.isSome = true then pure .found else pure .searching

/-- The loop of `wait_for_bootdev`, lines 484-498, for at most `fuel` passes.
The result is `true` when the loop was left and `false` when it still runs
after `fuel` passes. -/
def wait_for_bootdev_loop (env : Env) : Nat → Run Bool
  | 0 => pure false
  | fuel + 1 => do
    let r ← wait_for_bootdev_pass env
    match r with
    | .searching => wait_for_bootdev_loop env fuel
    | _ => pure true

/-- `wait_for_bootdev`, its loop bounded by `fuel`. The result is `true` when
the function returned and `false` when its loop still runs after `fuel`
passes. -/
def wait_for_bootdev (env : Env) (fuel : Nat) : Run Bool := do
  let hs ← call .socket
  abort_if (env.rc hs = -1) "cant create socket"
  let hb ← call .bind
  abort_if (env.rc hb ≠ 0) "can't bind"
  find_bootdev env true
  let md ← get_data
  let left ← (if md.bootdev.isSome = true then pure true else wait_for_bootdev_loop env fuel)
  if left = true then do
    let _ ← call .close_socket
    pure true
  else pure false

/-- `multiboot_main`, lines 1104-1118: the initial lookup, the wait, and the
check that follows it. The result is `false` when `wait_for_bootdev` still
waits after `fuel` passes of its loop. -/
def multiboot_main_find_bootdev (env : Env) (fuel : Nat) : Run Bool := do
  find_bootdev env false
  let returned ← wait_for_bootdev env fuel
  if returned = true then do
    let md ← get_data
    abort_if (md.bootdev = none) "Boot device not found"
    pure true
  else pure false

/-! ## Notions used in the statements -/

/-- Whether an entry belongs to the section "partitions". -/
def is_partition_entry (e : ini_entry) : Bool := decide (e.sec = "partitions".toList)

/-- Lookup (a) of the device resolution: the catalog lookup by the
block-device path of the fstab record of this name; `none` without a record. -/
def lookup_by_fstab_path (env : Env) (mbfstab : List fstab_rec)
    (blockinfo : List uevent_block_t) (name : CStr) : Option uevent_block_t :=
  (fs_mgr_get_by_name mbfstab name).bind
    (fun rec => get_blockinfo_for_path env blockinfo rec.blk_device)

/-- The device stored in slot `index` of `mbparts`, if there is one. -/
def resolved_device (md : multiboot_data_t) (index : Nat) : Option uevent_block_t :=
  (mbpart_at md index).bind (fun p => p.uevent_block)

/-- The world with the catalog extended by the devices a rescan found. -/
def World.rescanned (w : World) (found : List uevent_block_t) : World :=
  { w with md := { w.md with blockinfo := w.md.blockinfo ++ found } }

/-- The (major,minor) key of the device of a slot of `mbparts`. -/
def slot_key (slot : Option multiboot_partition_t) : Option (Nat × Nat) :=
  (slot.bind (fun p => p.uevent_block)).map (fun b => (b.major, b.minor))

/-- The (major,minor) keys of the Registry, in Registry order. -/
def registry_keys (w : World) : List (Nat × Nat) :=
  w.md.replacements.filterMap part_replacement_t.key

/-- Store the partitions `ps` in the slots `index`, `index + 1`, ... of an
array. -/
def write_mbparts : List multiboot_partition_t → Nat → List (Option multiboot_partition_t) →
    List (Option multiboot_partition_t)
  | [], _, slots => slots
  | p :: ps, index, slots => write_mbparts ps (index + 1) (slots.set index (some p))

/-- What `mbini_handler` has checked of a partition it let pass: its type
follows the type rule, a BIND partition has a boot device that supports bind
mounts, the checks against the fstab passed and the resolution found its
device. -/
def accepted_part (env : Env) (mbfstab : List fstab_rec) (blockinfo : List uevent_block_t)
    (bindmount : Bool) (p : multiboot_partition_t) : Prop :=
  p.type = mbini_part_type p.path ∧
  (p.type = MBPART_TYPE_BIND → bindmount = true) ∧
  ∃ from_fstab ub, mbini_fstab_step env mbfstab blockinfo p.name p.type = .ok from_fstab ∧
    mbini_resolve_fallback blockinfo p.name from_fstab = some ub ∧ p.uevent_block = some ub

/-- Allocations one after the other: `util_make_loop` on each path in turn;
the result lists the return values in call order. -/
def make_loops (env : Env) : List CStr → Run (List Int)
  | [] => pure []
  | path :: paths => do
    let rc ← util_make_loop env path
    let rcs ← make_loops env paths
    pure (rc :: rcs)

/-- The block nodes that the calls `trace`, made after the history `before`,
created: path, major and minor of each `mknod` of a block node that was
answered 0, in call order. -/
def created_nodes (env : Env) (before : List Event) : List Event → List (CStr × Int × Int)
  | [] => []
  | e :: es =>
    (match e with
      | .mknod path true major minor =>
        if env.rc (before ++ [e]) = 0 then [(path, major, minor)] else []
      | _ => []) ++ created_nodes env (before ++ [e]) es


/-- The calls of `util_append_string_to_file` after the history `before`: the
file is opened for appending, without `O_CREAT`; only when that succeeded the
text is written and the file closed. -/
def append_calls (env : Env) (before : List Event) (filename str : CStr) : List Event :=
  if env.rc (before ++ [Event.open_append filename]) < 0 then [Event.open_append filename]
  else [Event.open_append filename, Event.write filename str, Event.close filename]

/-- Whether a call changes the access policy: a rule is added or the policy is
written. -/
def Event.is_policy_change : Event → Bool
  | .sepolicy_inject_add_rule _ _ _ _ => true
  | .sepolicy_inject_write _ => true
  | _ => false

/-- An operation that returns from every world, with a result that satisfies
`Q`: it never aborts. -/
def Run.total {α : Type} (m : Run α) (Q : α → Prop) : Prop :=
  ∀ w, ∃ a w1, m w = .ok a w1 ∧ Q a

/-- The configured partitions: what the populated ones of the first
`num_mbparts` slots of `mbparts` hold, in array order. -/
def configured_parts (md : multiboot_data_t) : List multiboot_partition_t :=
  (md.mbparts.take md.num_mbparts).filterMap id

/-- Whether a call is a mount, loop or filesystem operation of the planner:
it creates a node or a directory, mounts or unmounts, attaches a loop device,
makes a filesystem, or writes a file. Calls that only look at a path or a device
are not among them, nor is `uevent_mount`, which only `util_mount_esp` calls. -/
def Event.is_setup_op : Event → Bool
  | .mknod _ _ _ _ => true
  | .mkdir _ => true
  | .util_dynfilefs _ _ _ => true
  | .util_losetup _ _ _ => true
  | .util_mke2fs _ _ => true
  | .mount _ _ _ _ _ => true
  | .umount _ => true
  | .open_creat _ => true
  | .util_dd _ _ _ => true
  | .util_cp _ _ => true
  | .util_write_int _ _ => true
  | _ => false

/-- Whether the answer to the call `e`, the last of the history `h`, reports a
failure: a negative result of `open`, a result other than 0 of every other
call. -/
def op_failed (env : Env) (h : List Event) (e : Event) : Bool :=
  match e with
  | .open_creat _ => decide (env.rc h < 0)
  | _ => decide (env.rc h ≠ 0)

/-- No mount, loop or filesystem operation among the calls `evs`, made after the
history `before`, failed. -/
def ops_clean (env : Env) (before : List Event) : List Event → Bool
  | [] => true
  | e :: es =>
    (!(e.is_setup_op && op_failed env (before ++ [e]) e)) && ops_clean env (before ++ [e]) es

/-- The world is reached from the history `t0` by calls among which no mount,
loop or filesystem operation failed. -/
def no_op_failed (env : Env) (t0 : List Event) (w : World) : Prop :=
  ∃ evs : List Event, w.trace = t0 ++ evs ∧ ops_clean env t0 evs = true

/-- The world is reached from the history `t0` by calls among which no mount,
loop or filesystem operation failed, the last call apart. -/
def op_failed_last (env : Env) (t0 : List Event) (w : World) : Prop :=
  ∃ evs : List Event, w.trace = t0 ++ evs ∧ ops_clean env t0 evs.dropLast = true

/-- The mount options `util_mount_esp` takes for its first attempt, lines
662-669: flags and data of the record of the ESP device in the fstab of the ROM,
and no options without such a record. -/
def esp_mount_options (env : Env) (md : multiboot_data_t) : Nat × Option CStr :=
  match env.fs_mgr_get_by_ueventblock md.romfstab md.espdev with
  | some esprec => (esprec.flags, esprec.fs_options)
  | none => (0, none)

/-- Whether the device has a tag "PARTUUID" equal to `guid`, letter case
ignored, when `tags_of` gives the tags of the device at a path (`none` for a
path at which `blkid_get_dev` finds no device). -/
def partuuid_is (tags_of : CStr → Option (List (CStr × CStr))) (guid : CStr)
    (d : uevent_block_t) : Bool :=
  match tags_of ("/dev/block/".toList ++ d.devname) with
  | some tags => has_partuuid tags guid
  | none => false

/-- The world once the calls `evs` were made in it. -/
def World.called (w : World) (evs : List Event) : World :=
  { w with trace := w.trace ++ evs }

/-- The world in which the lookup of `find_bootdev(update)` starts: the world
as it is without `update`, and with it the world after the rescan and the
rebuild of the device nodes. -/
def lookup_start (env : Env) (update : Bool) (w : World) : World :=
  if update = true then
    { md := { w.md with
        blockinfo := add_new_block_devices w.md.blockinfo
          (env.feed (w.trace ++ [Event.read_sys_block])) },
      loops_created := w.loops_created,
      trace := w.trace ++ [Event.read_sys_block]
        ++ [Event.uevent_create_nodes env.MBPATH_DEV] }
  else w

/-- The world after `n` passes of the loop of `wait_for_bootdev`, each of which
ended with the boot device still searched; none when one of them ended in
another way. -/
def searching_after (env : Env) : Nat → World → Option World
  | 0, w => some w
  | n + 1, w =>
    match wait_for_bootdev_pass env w with
    | .ok .searching w1 => searching_after env n w1
    | _ => none

/-- Whether a call writes a number to a file: what `util_write_int` does. -/
def Event.is_layout_write : Event → Bool
  | .util_write_int _ _ => true
  | _ => false

/-- The layout version `prepare_multiboot_data` takes as the stored one, lines
602-605: what `util_read_int` read, and 0 when it failed; `h` is the call
history at the return of `util_read_int`. -/
def stored_layout_version (env : Env) (h : List Event) : Nat :=
  if env.rc h ≠ 0 then 0 else env.int_value h % 2 ^ 32

/-- Lines 620-654 of `prepare_multiboot_data`: what follows the verification of
the mapping, for the mapping `datamedia_source`, `datamedia_target`, the
layout-version file `buf`, the required and the stored layout version. -/
def store_datamedia_mapping (env : Env) (part : multiboot_partition_t) (buf : CStr)
    (needed layout_version : Nat) (datamedia_source datamedia_target : CStr) : Run Unit := do
  (if needed > 0 ∧ layout_version ≠ needed then do
    let hw ← call (.util_write_int buf needed)
    abort_if (env.rc hw ≠ 0) "can't set layout version"
  else pure ())
  ensure_dir env datamedia_source false "Can't create datamedia on source"
  let buf2 := env.MBPATH_MB_DATA ++ datamedia_target
  if buf2.length ≥ env.PATH_MAX then pure ()
  else do
    ensure_dir env buf2 false "Can't create datamedia on target"
    modify_data (fun md => { md with
      datamedia_target := some datamedia_target,
      datamedia_source := some datamedia_source })
    if part.type = MBPART_TYPE_LOOP then SAFE_UMOUNT env env.MBPATH_MB_DATA
    else pure ()

/-- Every abort of `m` has a message other than `msg`. -/
def Run.aborts_other {α : Type} (msg : String) (m : Run α) : Prop :=
  ∀ (w : World) (msg1 : String) (w1 : World), m w = .abort msg1 w1 → msg1 ≠ msg

/-- The calls made between the world before and the world after all satisfy
`allowed`. -/
def adds_calls (allowed : Event → Bool) (w w1 : World) : Prop :=
  ∃ evs : List Event, w1.trace = w.trace ++ evs ∧ ∀ e ∈ evs, allowed e = true

/-! ## Reasoning about operations -/

/-- A relation between the world before and the world after that is
reflexive and transitive. -/
class Steps (R : World → World → Prop) : Prop where
  refl : ∀ w, R w w
  trans : ∀ {a b c}, R a b → R b c → R a c

/-- A relation between the world before and the world after that no call can
break: it does not look at the call history nor at the counter of
`util_make_loop`. -/
class Frame (R : World → World → Prop) extends Steps R : Prop where
  call : ∀ (w : World) (t : List Event) (n : Int),
    R w { w with trace := w.trace ++ t, loops_created := n }

/-- A frame that the assignment of `datamedia_target` and `datamedia_source`
does not break either. -/
class DataFrame (R : World → World → Prop) extends Frame R : Prop where
  datamedia : ∀ (w : World) (t s : Option CStr),
    R w { w with md := { w.md with datamedia_target := t, datamedia_source := s } }

/-- The world after differs from the world before at most in
`bootdev_supports_bindmount`, `num_mbparts` and `mbparts`: what the loading of
the configuration writes. -/
def config_step (w w1 : World) : Prop :=
  ∃ (flag : Bool) (num : Nat) (slots : List (Option multiboot_partition_t)),
    w1 = { w with md := { w.md with
      bootdev_supports_bindmount := flag, num_mbparts := num, mbparts := slots } }

/-- The world after differs from the world before at most in `num_mbparts` and
`mbparts`: what the two passes over multiboot.ini write. -/
def parse_step (w w1 : World) : Prop :=
  ∃ (num : Nat) (slots : List (Option multiboot_partition_t)),
    w1 = { w with md := { w.md with num_mbparts := num, mbparts := slots } }

/-- The world after differs from the world before at most in `mbparts`: what
`mbini_handler` writes. -/
def slots_step (w w1 : World) : Prop :=
  ∃ slots : List (Option multiboot_partition_t),
    w1 = { w with md := { w.md with mbparts := slots } }

/-- The world after has the `multiboot_data` of the world before. -/
def same_md (w w1 : World) : Prop := w1.md = w.md

/-- The world after has the Registry of the world before. -/
def same_registry (w w1 : World) : Prop := w1.md.replacements = w.md.replacements

/-- The call history of the world before is the beginning of that of the
world after. -/
def trace_grows (w w1 : World) : Prop := w.trace <+: w1.trace

/-- If the keys of the Registry were pairwise distinct before, they are
after. -/
def keys_stay_distinct (w w1 : World) : Prop :=
  (registry_keys w).Nodup → (registry_keys w1).Nodup

/-- From a world that satisfies `P`, `m` returns in a world that satisfies
`Qok` or aborts in a world that satisfies `Qab`. -/
def Run.ensures {α : Type} (P : World → Prop) (m : Run α) (Qok Qab : World → Prop) : Prop :=
  ∀ w, P w → match m w with
    | .ok _ w1 => Qok w1
    | .abort _ w1 => Qab w1

/-- Whatever the outcome of `m`, the world it ends in is related by `R` to the
world it started from. -/
def Run.keeps {α : Type} (R : World → World → Prop) (m : Run α) : Prop :=
  ∀ w, R w (m w).world

instance : Steps config_step where
  refl := fun w => ⟨w.md.bootdev_supports_bindmount, w.md.num_mbparts, w.md.mbparts, rfl⟩
  trans := by
    rintro a b c ⟨f1, n1, s1, rfl⟩ ⟨f2, n2, s2, rfl⟩
    exact ⟨f2, n2, s2, rfl⟩

instance : Steps parse_step where
  refl := fun w => ⟨w.md.num_mbparts, w.md.mbparts, rfl⟩
  trans := by
    rintro a b c ⟨n1, s1, rfl⟩ ⟨n2, s2, rfl⟩
    exact ⟨n2, s2, rfl⟩

instance : Steps slots_step where
  refl := fun w => ⟨w.md.mbparts, rfl⟩
  trans := by
    rintro a b c ⟨s1, rfl⟩ ⟨s2, rfl⟩
    exact ⟨s2, rfl⟩

instance : Frame same_md where
  refl := fun _ => rfl
  trans := fun h1 h2 => by unfold same_md at *; rw [h2, h1]
  call := fun _ _ _ => rfl

instance : DataFrame same_registry where
  refl := fun _ => rfl
  trans := fun h1 h2 => by unfold same_registry at *; rw [h2, h1]
  call := fun _ _ _ => rfl
  datamedia := fun _ _ _ => rfl

instance : DataFrame keys_stay_distinct where
  refl := fun _ h => h
  trans := fun h1 h2 h => h2 (h1 h)
  call := fun _ _ _ h => h
  datamedia := fun _ _ _ h => h

instance : DataFrame trace_grows where
  refl := fun _ => List.prefix_refl _
  trans := fun h1 h2 => List.IsPrefix.trans h1 h2
  call := fun w t _ => List.prefix_append w.trace t
  datamedia := fun _ _ _ => List.prefix_refl _

/-- Whether a call sets up a loop device: the creation of a block node, the
copy of a file, or an attachment. -/
def Event.is_loop_setup : Event → Bool
  | .mknod _ true _ _ => true
  | .util_losetup _ _ _ => true
  | .util_cp _ _ => true
  | _ => false

/-- The calls of `trace`, made after the history `before`, that set up a loop
device, each with the answer it got, in call order. -/
def loop_log (env : Env) (before : List Event) : List Event → List (Event × Int)
  | [] => []
  | e :: es =>
    (if e.is_loop_setup = true then [(e, env.rc (before ++ [e]))] else [])
      ++ loop_log env (before ++ [e]) es

/-- The path of the block node that a call of the log created. -/
def node_made (x : Event × Int) : Option CStr :=
  match x.1 with
  | .mknod path true _ _ => if x.2 = 0 then some path else none
  | _ => none

/-- The paths of the block nodes created in a history, in order of creation. -/
def made_nodes (env : Env) (trace : List Event) : List CStr :=
  (loop_log env [] trace).filterMap node_made

/-- The loop-device paths of the Registry, in Registry order. -/
def registry_loopdevices (w : World) : List CStr :=
  w.md.replacements.map (fun r => r.loopdevice)

/-- No path gets a block node twice: `mknod` fails with EEXIST at a path that
exists, and nothing the program calls removes a node. -/
def exclusive_nodes (env : Env) : Prop :=
  ∀ trace : List Event, (made_nodes env trace).Nodup

/-- Every loop device of the Registry is a block node created in the history,
and the Registry holds them in order of creation. -/
def loopdevices_made (env : Env) (w : World) : Prop :=
  List.Sublist (registry_loopdevices w) (made_nodes env w.trace)

instance (env : Env) (w : World) : Decidable (loopdevices_made env w) := by
  unfold loopdevices_made
  infer_instance


/-- If the loop devices of the Registry were created in the history before,
they are after. -/
def loopdevices_stay_made (env : Env) (w w1 : World) : Prop :=
  loopdevices_made env w → loopdevices_made env w1

/-- The Registry of the world before is the beginning of the Registry of the
world after: records are appended only. -/
def registry_grows (w w1 : World) : Prop :=
  w.md.replacements <+: w1.md.replacements

/-- The world after has the `multiboot_data` and the counter of
`util_make_loop` of the world before, and the calls made in between set up no
loop device. -/
def quiet_step (w w1 : World) : Prop :=
  w1.md = w.md ∧ w1.loops_created = w.loops_created ∧
    ∃ evs : List Event, w1.trace = w.trace ++ evs ∧ ∀ e ∈ evs, e.is_loop_setup = false

/-- The path of a configured partition on the boot device, lines 688-690:
`MBPATH_BOOTDEV"%s/%s"` of the directory of multiboot.ini and the configured
path. -/
def mbpart_partpath (env : Env) (basedir : CStr) (part : multiboot_partition_t) : CStr :=
  env.MBPATH_BOOTDEV ++ basedir ++ "/".toList ++ part.path

/-- The loop device of a configured partition, lines 692-694:
`MBPATH_DEV"/block/loopdev:%s"` of its name. -/
def mbpart_loopdevice (env : Env) (part : multiboot_partition_t) : CStr :=
  env.MBPATH_DEV ++ "/block/loopdev:".toList ++ part.name


/-- The record the loop over `mbparts` appends for a partition, lines 690-694
and 805-812: the loop file is the image of a LOOP partition and stays NULL for
a BIND partition. -/
def mbpart_record (env : Env) (basedir : CStr) (part : multiboot_partition_t) :
    part_replacement_t :=
  mbpart_replacement part (env.MBPATH_BOOTDEV ++ basedir ++ "/".toList ++ part.path)
    (env.MBPATH_DEV ++ "/block/loopdev:".toList ++ part.name)
    (match part.type with
      | MBPART_TYPE_LOOP => some (env.MBPATH_BOOTDEV ++ basedir ++ "/".toList ++ part.path)
      | MBPART_TYPE_BIND => none)

/-- The record `r` is a backup record of the fstab record `rec`: `rec` is
tagged UEFI, `r` refers to no configured partition, has a device, and its loop
device is named after the mount point of `rec`. -/
def is_uefi_record_of (env : Env) (rec : fstab_rec) (r : part_replacement_t) : Prop :=
  fs_mgr_is_uefi rec = true ∧ r.multiboot_part = none ∧ r.multiboot_partpath = none ∧
    r.uevent_block.isSome = true ∧
    r.loopdevice = env.MBPATH_DEV ++ "/block/loopdev:".toList ++ rec.mount_point.drop 1


/-- Whether a call looks at a path or creates a directory: what `util_exists`
and `util_mkdir` call. -/
def Event.is_dir_probe : Event → Bool
  | .stat _ _ => true
  | .mkdir _ => true
  | _ => false

/-- Whether a call looks at a path or a device or creates a directory: what
`lstat`, `util_exists`, `util_mkdir` and `util_block_num` call. -/
def Event.is_probe : Event → Bool
  | .stat _ _ => true
  | .lstat _ => true
  | .mkdir _ => true
  | .open_rdonly _ => true
  | .ioctl_BLKGETSIZE _ => true
  | .close _ => true
  | _ => false

/-- The world after has the `multiboot_data` and the counter of
`util_make_loop` of the world before, and the calls made in between all
satisfy `allowed`. -/
def calls_only (allowed : Event → Bool) (w w1 : World) : Prop :=
  w1.md = w.md ∧ w1.loops_created = w.loops_created ∧
    ∃ evs : List Event, w1.trace = w.trace ++ evs ∧ ∀ e ∈ evs, allowed e = true


/-- The calls of lines 745-768 for a BIND partition, in source order: mount the
growth store of the given size with its storage `dynstorage:<name>` at
`dynmount:<name>`, create the loop device with the counter of `util_make_loop`
at `k`, attach it to the file `loop.fs` of the growth store, and make an ext4
filesystem on it. -/
def bind_store_calls (env : Env) (part : multiboot_partition_t) (loopdevice : CStr) (k : Int)
    (num_blocks : Nat) : List Event :=
  [Event.util_dynfilefs (env.MBPATH_ROOT ++ "/dynstorage:".toList ++ part.name)
      (env.MBPATH_ROOT ++ "/dynmount:".toList ++ part.name) (dynfilefs_size num_blocks),
    Event.mknod loopdevice true 7 (255 - k),
    Event.util_losetup loopdevice
      (env.MBPATH_ROOT ++ "/dynmount:".toList ++ part.name ++ "/loop.fs".toList) false,
    Event.util_mke2fs loopdevice "ext4".toList]

/-- The calls of lines 771-783, in source order, once the stub mountpoint is
prepared: mount the new filesystem at the stub, create and close the marker
file, unmount the stub. -/
def stub_calls (env : Env) (loopdevice : CStr) : List Event :=
  [Event.mount loopdevice env.MBPATH_STUB "ext4".toList 0 none,
    Event.open_creat env.MBPATH_STUB_IDFILE, Event.close env.MBPATH_STUB_IDFILE,
    Event.umount env.MBPATH_STUB]


/-- The history holds a copy with `util_dd` to `file` that was answered 0. -/
def copied_to (env : Env) (trace : List Event) (file : CStr) : Prop :=
  ∃ (p q : List Event) (source : CStr) (blocks : Nat),
    trace = p ++ [Event.util_dd source file blocks] ++ q ∧
    env.rc (p ++ [Event.util_dd source file blocks]) = 0

/-- Files stay: a file written by a copy that succeeded is found by every
`stat` made later. -/
def files_persist (env : Env) : Prop :=
  ∀ (trace : List Event) (file : CStr) (follow : Bool),
    copied_to env trace file → env.rc (trace ++ [Event.stat file follow]) = 0


/-- The world `w` after the calls `tried`, with the given table and path of the
fstab of the ROM. -/
def romfstab_world (w : World) (table : Option (List fstab_rec)) (path : CStr)
    (tried : List Event) : World :=
  { w with
    md := { w.md with romfstab := table, romfstabpath := some path },
    trace := w.trace ++ tried }


/-- The world `w` is reached from `w0` with the same `multiboot_data`, the
counter of `util_make_loop` at `k`, and `log` as the calls made since `w0` that
set up a loop device. -/
def at_stage (env : Env) (w0 : World) (k : Int) (log : List (Event × Int)) (w : World) : Prop :=
  w.md = w0.md ∧ w.loops_created = k ∧
    ∃ evs : List Event, w.trace = w0.trace ++ evs ∧ loop_log env w0.trace evs = log

/-- The world `w` is reached from `w0` with the same `multiboot_data`, by
calls only. -/
def aborted_from (w0 w : World) : Prop :=
  w.md = w0.md ∧ w0.trace <+: w.trace

/-- The world `w` is reached from `w0` by appending the record `r` to the
Registry, with the counter of `util_make_loop` at `k` and `log` as the calls
made since `w0` that set up a loop device. -/
def appended_from (env : Env) (w0 : World) (r : part_replacement_t) (k : Int)
    (log : List (Event × Int)) (w : World) : Prop :=
  w.md = { w0.md with replacements := w0.md.replacements ++ [r] } ∧ w.loops_created = k ∧
    ∃ evs : List Event, w.trace = w0.trace ++ evs ∧ loop_log env w0.trace evs = log

/-- From a world that satisfies `P`, `m` returns a value and a world that
satisfy `Qok`, or aborts in a world that satisfies `Qab`. -/
def Run.yields {α : Type} (P : World → Prop) (m : Run α) (Qok : α → World → Prop)
    (Qab : World → Prop) : Prop :=
  ∀ w, P w → match m w with
    | .ok a w1 => Qok a w1
    | .abort _ w1 => Qab w1


/-- The operation `m`, started in a world that satisfies `P`, returned `a`. -/
def Run.returns_from {α : Type} (P : World → Prop) (m : Run α) (a : α) : Prop :=
  ∃ w w1 : World, P w ∧ m w = .ok a w1


instance : Steps quiet_step where
  refl := fun w => ⟨rfl, rfl, [], by simp, by simp⟩
  trans := by
    rintro a b c ⟨h1, h2, e1, h3, h4⟩ ⟨g1, g2, e2, g3, g4⟩
    refine ⟨g1.trans h1, g2.trans h2, e1 ++ e2, by rw [g3, h3, List.append_assoc], ?_⟩
    intro e he
    rcases List.mem_append.mp he with h | h
    · exact h4 e h
    · exact g4 e h

instance : DataFrame registry_grows where
  refl := fun _ => List.prefix_refl _
  trans := fun h1 h2 => List.IsPrefix.trans h1 h2
  call := fun _ _ _ => List.prefix_refl _
  datamedia := fun _ _ _ => List.prefix_refl _


instance (env : Env) : Steps (loopdevices_stay_made env) where
  refl := fun _ h => h
  trans := fun h1 h2 h => h2 (h1 h)

/-- The paths at which the calls of a history asked for a block node. -/
def asked_nodes : List Event → List CStr
  | [] => []
  | e :: es =>
    (match e with
      | .mknod path true _ _ => [path]
      | _ => []) ++ asked_nodes es


instance (allowed : Event → Bool) : Steps (calls_only allowed) where
  refl := fun w => ⟨rfl, rfl, [], by simp, by simp⟩
  trans := by
    rintro a b c ⟨h1, h2, e1, h3, h4⟩ ⟨g1, g2, e2, g3, g4⟩
    refine ⟨g1.trans h1, g2.trans h2, e1 ++ e2, by rw [g3, h3, List.append_assoc], ?_⟩
    intro e he
    rcases List.mem_append.mp he with h | h
    · exact h4 e h
    · exact g4 e h


/-- From a world reached without a failed operation, `m` returns a value and a
world that satisfy `Q`, or aborts in a world where at most the last call is a
failed operation. -/
def Run.fatal {α : Type} (env : Env) (t0 : List Event) (m : Run α)
    (Q : α → World → Prop) : Prop :=
  Run.yields (no_op_failed env t0) m Q (op_failed_last env t0)

/-- What is known after an operation that reports its failure in its result:
at most its last call is a failed operation, and none is when the result
is 0. -/
def rc_post (env : Env) (t0 : List Event) (rc : Int) (w : World) : Prop :=
  op_failed_last env t0 w ∧ (rc = 0 → no_op_failed env t0 w)

/-- The catalog of the world before is the beginning of the catalog of the
world after: devices are appended only. -/
def catalog_grows (w w1 : World) : Prop := w.md.blockinfo <+: w1.md.blockinfo

instance : DataFrame catalog_grows where
  refl := fun _ => List.prefix_refl _
  trans := fun h1 h2 => List.IsPrefix.trans h1 h2
  call := fun _ _ _ => List.prefix_refl _
  datamedia := fun _ _ _ => List.prefix_refl _

instance (allowed : Event → Bool) : Steps (adds_calls allowed) where
  refl := fun w => ⟨[], by simp, by simp⟩
  trans := by
    rintro a b c ⟨e1, h1, h2⟩ ⟨e2, h3, h4⟩
    refine ⟨e1 ++ e2, by rw [h3, h1, List.append_assoc], ?_⟩
    intro e he
    rcases List.mem_append.mp he with h | h
    · exact h2 e h
    · exact h4 e h

/-! ## Concrete inputs -/

/-- A path without the slashes at its end. -/
def strip_trailing_slashes (p : CStr) : CStr :=
  (p.reverse.dropWhile (fun c => c = '/')).reverse

/-- `dirname` of the C library: "." for the empty path and for a path without a
directory part, "/" for a path of slashes only and for a name in the root
directory, and otherwise what stands before the last component, without the
slashes at its end. -/
def dirname_simple (p : CStr) : CStr :=
  if p = [] then ".".toList
  else if strip_trailing_slashes p = [] then "/".toList
  else if '/' ∉ strip_trailing_slashes p then ".".toList
  else if strip_trailing_slashes
      (((strip_trailing_slashes p).reverse.dropWhile (fun c => c ≠ '/')).reverse) = [] then
    "/".toList
  else
    strip_trailing_slashes
      (((strip_trailing_slashes p).reverse.dropWhile (fun c => c ≠ '/')).reverse)

/-- `basename` of the C library: "." for the empty path, "/" for a path of
slashes only, and otherwise the last component, without the slashes at the end
of the path. -/
def basename_simple (p : CStr) : CStr :=
  if p = [] then ".".toList
  else if strip_trailing_slashes p = [] then "/".toList
  else ((strip_trailing_slashes p).reverse.takeWhile (fun c => c ≠ '/')).reverse

/-- Surroundings in which every call succeeds with result 0, every path that
is looked at is a regular file, and a device is identified by the path
`/dev/block/<devname>`. -/
def env_ok : Env :=
  { MBPATH_ROOT := "/multiboot".toList,
    MBPATH_DEV := "/multiboot/dev".toList,
    MBPATH_BOOTDEV := "/multiboot/bootdev".toList,
    MBPATH_ESP := "/multiboot/esp".toList,
    MBPATH_STUB := "/multiboot/stub".toList,
    MBPATH_STUB_IDFILE := "/multiboot/stub/.idfile".toList,
    MBPATH_DATA := "/multiboot/data".toList,
    MBPATH_MB_DATA := "/multiboot/mbdata".toList,
    MBPATH_MB_SYSTEM := "/multiboot/mbsystem".toList,
    MBPATH_FSTAB := "/multiboot/fstab.multiboot".toList,
    PATH_MAX := 4096,
    path_matches := fun path d => decide (path = "/dev/block/".toList ++ d.devname),
    dirname := fun p => some (dirname_simple p),
    basename := fun p => some (basename_simple p),
    rc := fun _ => 0,
    lstat := fun _ => .found .reg,
    num_blocks := fun _ => 204800,
    sdk := fun _ => .value 23,
    int_value := fun _ => 3,
    handle := fun _ => true,
    fstype := fun _ => some "ext4".toList,
    errno := fun _ => 0,
    fstab := fun _ => some [],
    util_get_replacement_by_name := fun regs name =>
      regs.find? (fun r => r.multiboot_part.map (fun p => p.name) = some name),
    fs_mgr_get_by_ueventblock := fun _ _ => none,
    feed := fun _ => [],
    blkid_tags := fun _ => none,
    killed := fun _ => none,
    size_bits := 64 }

/-- Surroundings in which `mknod` fails at a path where a block node was asked
for before, every other call succeeds with result 0, the node
`/multiboot/bootdev/roms/myrom/cache` is a directory and every other path that
is looked at a regular file. -/
def env_rom : Env :=
  { env_ok with
    rc := fun h =>
      match h.getLast? with
      | some (.mknod path true _ _) => if path ∈ asked_nodes h.dropLast then -1 else 0
      | _ => 0,
    lstat := fun h =>
      match h.getLast? with
      | some (.lstat path) =>
        if path = "/multiboot/bootdev/roms/myrom/cache".toList then .found .dir
        else .found .reg
      | _ => .found .reg }


/-- The files the copies of a history were told to write. -/
def copy_targets : List Event → List CStr
  | [] => []
  | e :: es =>
    (match e with
      | .util_dd _ target _ => [target]
      | _ => []) ++ copy_targets es

/-- Surroundings in which `stat` finds the files that a copy was told to write
before and no other, and every other call succeeds with result 0. -/
def env_fresh : Env :=
  { env_ok with
    rc := fun h =>
      match h.getLast? with
      | some (.stat path _) => if path ∈ copy_targets h.dropLast then 0 else -2
      | _ => 0 }


/-- The system partition of the internal storage. -/
def dev_system : uevent_block_t :=
  { devname := "mmcblk0p5".toList, major := 179, minor := 5, partname := some "system".toList }

/-- The data partition of the internal storage. -/
def dev_userdata : uevent_block_t :=
  { devname := "mmcblk0p9".toList, major := 179, minor := 9, partname := some "userdata".toList }

/-- A partition of a memory card whose GPT name is "cache". -/
def dev_sdcard_cache : uevent_block_t :=
  { devname := "mmcblk1p1".toList, major := 179, minor := 33, partname := some "cache".toList }

/-- The cache partition of the internal storage. -/
def dev_cache : uevent_block_t :=
  { devname := "mmcblk0p6".toList, major := 179, minor := 6, partname := none }

/-- The partition `system=system.img` resolved to the system partition. -/
def part_system : multiboot_partition_t :=
  { name := "system".toList, path := "system.img".toList, type := MBPART_TYPE_LOOP,
    uevent_block := some dev_system }

/-- The partition `cache=cache` resolved to the cache partition. -/
def part_cache : multiboot_partition_t :=
  { name := "cache".toList, path := "cache".toList, type := MBPART_TYPE_BIND,
    uevent_block := some dev_cache }


/-- The fstab record of /data, which holds the ESP directory. -/
def rec_data : fstab_rec :=
  { blk_device := "/dev/block/mmcblk0p9".toList, mount_point := "/data".toList,
    fs_type := "ext4".toList, flags := 0, fs_options := none, esp := "datamedia".toList,
    uefi := false, multiboot := false }

/-- The fstab record of /system, tagged multiboot. -/
def rec_system : fstab_rec :=
  { blk_device := "/dev/block/mmcblk0p5".toList, mount_point := "/system".toList,
    fs_type := "ext4".toList, flags := 0, fs_options := none, esp := [],
    uefi := false, multiboot := true }

/-- The fstab record of /cache, tagged multiboot. -/
def rec_cache : fstab_rec :=
  { blk_device := "/dev/block/mmcblk0p6".toList, mount_point := "/cache".toList,
    fs_type := "ext4".toList, flags := 0, fs_options := none, esp := [],
    uefi := false, multiboot := true }

/-- The fstab record of the raw partition /modem, tagged UEFI only. -/
def rec_modem : fstab_rec :=
  { blk_device := "/dev/block/mmcblk0p2".toList, mount_point := "/modem".toList,
    fs_type := "emmc".toList, flags := 0, fs_options := none, esp := [],
    uefi := true, multiboot := false }

/-- The modem partition of the internal storage. -/
def dev_modem : uevent_block_t :=
  { devname := "mmcblk0p2".toList, major := 179, minor := 2, partname := some "modem".toList }

/-- Surroundings in which no fstab file parses and every other call succeeds
with result 0. -/
def env_nofstab : Env := { env_ok with fstab := fun _ => none }

/-- Surroundings in which /etc/twrp.fstab parses to the table of /data and no
other fstab file parses. -/
def env_twrp : Env :=
  { env_ok with
    fstab := fun h =>
      if h.getLast? = some (Event.fs_mgr_read_fstab "/etc/twrp.fstab".toList) then
        some [rec_data]
      else none }

/-- The world of a platform boot (not a recovery) with the hardware name
"foo", before any call. -/
def world_android : World :=
  { md := { multiboot_data_zero with hwname := some "foo".toList },
    loops_created := 0, trace := [] }

/-- The world of a recovery boot with the hardware name "foo", before any
call. -/
def world_recovery : World :=
  { md := { multiboot_data_zero with hwname := some "foo".toList, is_recovery := true },
    loops_created := 0, trace := [] }


/-- The data of a recovery boot in multiboot mode at the moment the boot
device is mounted, with the given catalog and multiboot fstab. -/
def md_start (blockinfo : List uevent_block_t) (mbfstab : List fstab_rec) : multiboot_data_t :=
  { multiboot_data_zero with
    is_multiboot := true, is_recovery := true,
    guid := some "0e9a5b1c-7d3f-4c2a-9b6e-5f1d2c3a4b5e".toList,
    path := some "/roms/myrom/multiboot.ini".toList,
    hwname := some "foo".toList,
    blockinfo := blockinfo, mbfstab := mbfstab,
    esp := some rec_data, espdev := some dev_userdata, bootdev := some dev_userdata }

/-- The world with that data, before any call. -/
def world_start (blockinfo : List uevent_block_t) (mbfstab : List fstab_rec) : World :=
  { md := md_start blockinfo mbfstab, loops_created := 0, trace := [] }

/-- The same world once pass 1 counted `n` partitions and the array was
allocated, the boot device supporting bind mounts. -/
def world_counted (blockinfo : List uevent_block_t) (mbfstab : List fstab_rec) (n : Nat) :
    World :=
  { md := { md_start blockinfo mbfstab with
      bootdev_supports_bindmount := true, num_mbparts := n, mbparts := List.replicate n none },
    loops_created := 0, trace := [] }

/-- A line `name=value` of the section "partitions". -/
def partition_entry (name value : String) : ini_entry :=
  { sec := "partitions".toList, name := some name.toList, value := some value.toList }


/-- Surroundings in which no file can be opened for appending and the policy
file cannot be opened; every other call succeeds with result 0. -/
def env_closed : Env :=
  { env_ok with
    rc := fun h =>
      match h.getLast? with
      | some (.open_append _) => -1
      | _ => 0,
    handle := fun _ => false }


/-- The fstab record of the raw partition /modem, tagged UEFI and multiboot. -/
def rec_modem_multiboot : fstab_rec := { rec_modem with multiboot := true }

/-- The partition `modem=modem.img` resolved to the modem partition. -/
def part_modem : multiboot_partition_t :=
  { name := "modem".toList, path := "modem.img".toList, type := MBPART_TYPE_LOOP,
    uevent_block := some dev_modem }

/-- The world in which the entry `modem=modem.img` is stored in slot 0. -/
def world_modem_loaded : World :=
  { md := { md_start [dev_modem] [rec_modem_multiboot] with
      bootdev_supports_bindmount := true, num_mbparts := 1,
      mbparts := [some part_modem] },
    loops_created := 0, trace := [] }


/-- Surroundings in which no path that is looked at exists and no directory can
be created; every other call succeeds with result 0. -/
def env_nomkdir : Env :=
  { env_ok with
    rc := fun h =>
      match h.getLast? with
      | some (.stat _ _) => -2
      | some (.mkdir _) => -1
      | _ => 0 }

/-- Surroundings in which the first call of all fails when it is a
`uevent_mount`; every other call succeeds with result 0. -/
def env_esp_retry : Env :=
  { env_ok with
    rc := fun h =>
      match h with
      | [Event.uevent_mount _ _ _ _] => -1
      | _ => 0 }

/-- The world of a recovery boot that is not a multiboot, with the data
partition as ESP, before any call. -/
def world_native : World :=
  { md := { md_start [dev_userdata] [rec_data] with is_multiboot := false },
    loops_created := 0, trace := [] }


/-- Surroundings in which `write` writes no byte and returns 0, and every other
call succeeds with result 0. -/
def env_empty_write : Env :=
  { env_ok with
    rc := fun h =>
      match h.getLast? with
      | some (.write _ _) => 0
      | _ => 0 }

/-- A payload of one fstab line. -/
def payload_fstab : CStr := "/dev/block/mmcblk0p9 /data ext4 defaults wait,esp=datamedia\n".toList


/-- Surroundings in which the data partition has the PARTUUID of the selected
ROM, written in capital letters, no other device has tags, the scan of
/sys/block finds the data partition once two events were received, and every
call succeeds with result 0. -/
def env_arrival : Env :=
  { env_ok with
    blkid_tags := fun h =>
      if h.getLast? = some (Event.blkid_get_dev "/dev/block/mmcblk0p9".toList) then
        some [("TYPE".toList, "ext4".toList),
          ("PARTUUID".toList, "0E9A5B1C-7D3F-4C2A-9B6E-5F1D2C3A4B5E".toList)]
      else some [("TYPE".toList, "ext4".toList)],
    feed := fun h => if 2 ≤ h.count Event.recv then [dev_cache, dev_userdata] else [dev_cache] }

/-- The same surroundings, except that every worker is ended by SIGKILL. -/
def env_killed : Env := { env_arrival with killed := fun _ => some 8 }

/-- The world in which the boot device is searched: the GUID of the ROM is
known, the catalog is `blockinfo`, no boot device is resolved. -/
def world_search (blockinfo : List uevent_block_t) : World :=
  { md := { md_start blockinfo [] with bootdev := none, espdev := none, esp := none },
    loops_created := 0, trace := [] }

/-- The tags of the devices in `env_arrival`, by path. -/
def tags_arrival (path : CStr) : Option (List (CStr × CStr)) :=
  if path = "/dev/block/mmcblk0p9".toList then
    some [("TYPE".toList, "ext4".toList),
      ("PARTUUID".toList, "0E9A5B1C-7D3F-4C2A-9B6E-5F1D2C3A4B5E".toList)]
  else some [("TYPE".toList, "ext4".toList)]


/-- The surroundings of `env_arrival`, except that the worker of every lookup
but the first one is ended by SIGKILL. -/
def env_later_killed : Env :=
  { env_arrival with killed := fun h => if 2 ≤ h.count Event.mmap then some 8 else none }

/-- The calls of a lookup by GUID whose worker asks for the tags at `paths`. -/
def lookup_calls (paths : List String) : List Event :=
  [Event.mmap, Event.safe_fork, Event.chroot "/multiboot".toList]
    ++ paths.map (fun p => Event.blkid_get_dev p.toList) ++ [Event.waitpid, Event.munmap]

/-- The calls of a rescan. -/
def rescan_calls : List Event :=
  [Event.read_sys_block, Event.uevent_create_nodes "/multiboot/dev".toList]

/-- The world of `world_search` once the calls of `trace` were made, with the
boot device `dev`. -/
def world_searched (blockinfo : List uevent_block_t) (dev : Option uevent_block_t)
    (trace : List Event) : World :=
  { md := { md_start blockinfo [] with bootdev := dev, espdev := none, esp := none },
    loops_created := 0, trace := trace }


/-- Surroundings in which the layout-version file of the ROM holds 2, the SDK
version of the ROM is 23, and every call succeeds with result 0. -/
def env_layout2 : Env := { env_ok with int_value := fun _ => 2 }

/-- The partition `data=data`, a directory of the boot device. -/
def part_data : multiboot_partition_t :=
  { name := "data".toList, path := "data".toList, type := MBPART_TYPE_BIND,
    uevent_block := some dev_userdata }

/-- The replacement record of the partition `system=system.img`. -/
def replacement_system : part_replacement_t :=
  { loopdevice := "/multiboot/dev/replacement_loop0".toList,
    loopfile := some "/multiboot/bootdev/roms/myrom/system.img".toList,
    losetup_done := 1, loop_sync_target := none, multiboot_part := some part_system,
    multiboot_partpath := none, uevent_block := some dev_system }

/-- The replacement record of the partition `data=data`. -/
def replacement_data : part_replacement_t :=
  { loopdevice := "/multiboot/dev/replacement_loop1".toList,
    loopfile := some "/multiboot/dynmount:data/loop.fs".toList,
    losetup_done := 1, loop_sync_target := none, multiboot_part := some part_data,
    multiboot_partpath := some "/multiboot/bootdev/roms/myrom/data".toList,
    uevent_block := some dev_userdata }

/-- The world of a multiboot with the native layout version `native`, once the
replacements of system and data are planned, before any call. -/
def world_planned (native : Nat) : World :=
  { md := { md_start [dev_system, dev_userdata] [] with
      native_data_layout_version := native,
      replacements := [replacement_system, replacement_data] },
    loops_created := 2, trace := [] }


/-- Surroundings in which the `mknod` of the node 7:254 at /dev/b fails and
every other call succeeds with result 0. -/
def env_mknod_fails_once : Env :=
  { env_ok with
    rc := fun h =>
      if h.getLast? = some (Event.mknod "/dev/b".toList true 7 254) then -1 else 0 }

/-- The world at the start of the planner with the catalog and the fstab of the
data and the modem partition, in the given mode, before any call. -/
def world_mode (recovery multiboot : Bool) : World :=
  { md := { md_start [dev_userdata, dev_modem] [rec_data, rec_modem] with
      is_recovery := recovery, is_multiboot := multiboot },
    loops_created := 0, trace := [] }

/-- The world after the configuration that lists `system=system.img` twice is
loaded, in surroundings where every call succeeds. -/
def world_system_twice : World :=
  (multiboot_main_load_config env_ok (some "ext4".toList)
    ⟨[partition_entry "system" "system.img", partition_entry "system" "system.img"], 0⟩
    ⟨[partition_entry "system" "system.img", partition_entry "system" "system.img"], 0⟩
    (world_start [dev_system, dev_userdata] [rec_data, rec_system])).world

/-- The world after the configuration `system=system.img`, `cache=cache` is
loaded, with a UEFI record for /modem in the fstab. -/
def world_rom_loaded : World :=
  (multiboot_main_load_config env_rom (some "ext4".toList)
    ⟨[partition_entry "system" "system.img", partition_entry "cache" "cache"], 0⟩
    ⟨[partition_entry "system" "system.img", partition_entry "cache" "cache"], 0⟩
    (world_start [dev_system, dev_cache, dev_userdata, dev_modem]
      [rec_data, rec_system, rec_cache, rec_modem])).world

/-! ## Theorems

### A frame rule for operations -/

set_option linter.unusedTactic false
set_option linter.unreachableTactic false

section steps

variable {R : World → World → Prop} [Steps R]

@[simp]
theorem keeps_pure {α : Type} (a : α) : Run.keeps R (pure a : Run α) :=
  fun w => Steps.refl w

theorem keeps_bind {α β : Type} {m : Run α} {k : α → Run β}
    (hm : Run.keeps R m) (hk : ∀ a, Run.keeps R (k a)) : Run.keeps R (m >>= k) := by
  intro w
  have h1 := hm w
  show R w (Run.bind m k w).world
  unfold Run.bind
  cases hmw : m w with
  | ok a w1 =>
    rw [hmw] at h1
    exact Steps.trans h1 (hk a w1)
  | abort msg w1 =>
    rw [hmw] at h1
    exact h1

@[simp]
theorem keeps_MBABORT {α : Type} (msg : String) : Run.keeps R (MBABORT msg : Run α) :=
  fun w => Steps.refl w

@[simp]
theorem keeps_NULL_DEREF {α : Type} : Run.keeps R (NULL_DEREF : Run α) :=
  fun w => Steps.refl w

@[simp]
theorem keeps_abort_if (c : Prop) [Decidable c] (msg : String) :
    Run.keeps R (abort_if c msg) := by
  intro w
  unfold abort_if
  split <;> exact Steps.refl w

@[simp]
theorem keeps_get_data : Run.keeps R get_data := fun w => Steps.refl w

@[simp]
theorem keeps_SAFE_SNPRINTF (env : Env) (text : CStr) :
    Run.keeps R (SAFE_SNPRINTF env text) := by
  intro w
  unfold SAFE_SNPRINTF
  split <;> exact Steps.refl w

end steps

section frame

variable {R : World → World → Prop} [Frame R]

@[simp]
theorem keeps_call (e : Event) : Run.keeps R (call e) :=
  fun w => Frame.call w [e] w.loops_created

@[simp]
theorem keeps_util_exists (env : Env) (filename : CStr) (follow : Bool) :
    Run.keeps R (util_exists env filename follow) := by
  unfold util_exists
  repeat' first | (simp; done) | refine keeps_bind ?_ (fun _ => ?_) | split | dsimp only

@[simp]
theorem keeps_util_mkdir_loop (env : Env) (ps : List CStr) :
    Run.keeps R (util_mkdir_loop env ps) := by
  induction ps with
  | nil => exact keeps_pure _
  | cons p ps ih =>
    unfold util_mkdir_loop
    repeat' first | exact ih | (simp; done) | refine keeps_bind ?_ (fun _ => ?_) | split | dsimp only

@[simp]
theorem keeps_util_mkdir (env : Env) (dir : CStr) : Run.keeps R (util_mkdir env dir) := by
  unfold util_mkdir
  repeat' first | (simp; done) | refine keeps_bind ?_ (fun _ => ?_) | split | dsimp only

@[simp]
theorem keeps_util_get_fstype (env : Env) (filename : CStr) :
    Run.keeps R (util_get_fstype env filename) := by
  unfold util_get_fstype
  repeat' first | (simp; done) | refine keeps_bind ?_ (fun _ => ?_) | split | dsimp only

@[simp]
theorem keeps_util_mount (env : Env) (source target : CStr) (filesystemtype : Option CStr)
    (mountflags : Nat) (data : Option CStr) :
    Run.keeps R (util_mount env source target filesystemtype mountflags data) := by
  unfold util_mount
  repeat' first | (simp; done) | refine keeps_bind ?_ (fun _ => ?_) | split | dsimp only

@[simp]
theorem keeps_SAFE_MOUNT (env : Env) (source target : CStr) (filesystemtype : Option CStr)
    (mountflags : Nat) (data : Option CStr) :
    Run.keeps R (SAFE_MOUNT env source target filesystemtype mountflags data) := by
  unfold SAFE_MOUNT
  repeat' first | (simp; done) | refine keeps_bind ?_ (fun _ => ?_) | split | dsimp only

@[simp]
theorem keeps_SAFE_UMOUNT (env : Env) (target : CStr) :
    Run.keeps R (SAFE_UMOUNT env target) := by
  unfold SAFE_UMOUNT
  repeat' first | (simp; done) | refine keeps_bind ?_ (fun _ => ?_) | split | dsimp only

@[simp]
theorem keeps_util_make_loop (env : Env) (path : CStr) :
    Run.keeps R (util_make_loop env path) := by
  intro w
  unfold util_make_loop
  dsimp only
  split
  · exact Frame.call w _ w.loops_created
  · exact Frame.call w _ (w.loops_created + 1)

@[simp]
theorem keeps_util_losetup (env : Env) (device file : CStr) (ro : Bool) :
    Run.keeps R (util_losetup env device file ro) := by
  unfold util_losetup
  repeat' first | (simp; done) | refine keeps_bind ?_ (fun _ => ?_) | split | dsimp only

@[simp]
theorem keeps_util_mkfs (env : Env) (device fstype : CStr) :
    Run.keeps R (util_mkfs env device fstype) := by
  unfold util_mkfs
  repeat' first | (simp; done) | refine keeps_bind ?_ (fun _ => ?_) | split | dsimp only

@[simp]
theorem keeps_util_block_num (env : Env) (path : CStr) (numblocks : Nat) :
    Run.keeps R (util_block_num env path numblocks) := by
  unfold util_block_num
  repeat' first | (simp; done) | refine keeps_bind ?_ (fun _ => ?_) | split | dsimp only

@[simp]
theorem keeps_util_dd (env : Env) (source target : CStr) (blocks : Nat) :
    Run.keeps R (util_dd env source target blocks) := by
  unfold util_dd
  repeat' first | (simp; done) | refine keeps_bind ?_ (fun _ => ?_) | split | dsimp only

@[simp]
theorem keeps_util_cp (env : Env) (source target : CStr) :
    Run.keeps R (util_cp env source target) := by
  unfold util_cp
  repeat' first | (simp; done) | refine keeps_bind ?_ (fun _ => ?_) | split | dsimp only

@[simp]
theorem keeps_util_create_partition_backup_ex (env : Env) (device file : CStr)
    (num_blocks : Nat) (force : Bool) :
    Run.keeps R (util_create_partition_backup_ex env device file num_blocks force) := by
  unfold util_create_partition_backup_ex
  repeat' first | (simp; done) | refine keeps_bind ?_ (fun _ => ?_) | split | dsimp only

@[simp]
theorem keeps_util_create_partition_backup (env : Env) (device file : CStr) :
    Run.keeps R (util_create_partition_backup env device file) := by
  unfold util_create_partition_backup
  simp

@[simp]
theorem keeps_util_get_espdir (env : Env) (mountpoint : CStr) :
    Run.keeps R (util_get_espdir env mountpoint) := by
  unfold util_get_espdir
  repeat' first | (simp; done) | refine keeps_bind ?_ (fun _ => ?_) | split | dsimp only

@[simp]
theorem keeps_util_get_esp_path_for_partition (env : Env) (mountpoint : CStr)
    (rec : fstab_rec) :
    Run.keeps R (util_get_esp_path_for_partition env mountpoint rec) := by
  unfold util_get_esp_path_for_partition
  repeat' first | (simp; done) | refine keeps_bind ?_ (fun _ => ?_) | split | dsimp only

@[simp]
theorem keeps_util_getmbpath_from_device (env : Env) (device : CStr) :
    Run.keeps R (util_getmbpath_from_device env device) := by
  unfold util_getmbpath_from_device
  repeat' first | (simp; done) | refine keeps_bind ?_ (fun _ => ?_) | split | dsimp only

@[simp]
theorem keeps_util_mount_esp (env : Env) : Run.keeps R (util_mount_esp env) := by
  unfold util_mount_esp
  repeat' first | (simp; done) | refine keeps_bind ?_ (fun _ => ?_) | split | dsimp only

@[simp]
theorem keeps_mount_replacement (env : Env) (replacement : part_replacement_t)
    (part : multiboot_partition_t) (mountpoint : CStr) (msg : String) :
    Run.keeps R (mount_replacement env replacement part mountpoint msg) := by
  unfold mount_replacement
  repeat' first | (simp; done) | refine keeps_bind ?_ (fun _ => ?_) | split | dsimp only

@[simp]
theorem keeps_get_mb_sdk_version (env : Env) : Run.keeps R (get_mb_sdk_version env) := by
  unfold get_mb_sdk_version
  repeat' first | (simp; done) | refine keeps_bind ?_ (fun _ => ?_) | split | dsimp only

@[simp]
theorem keeps_ensure_dir (env : Env) (dir : CStr) (follow : Bool) (msg : String) :
    Run.keeps R (ensure_dir env dir follow msg) := by
  unfold ensure_dir
  repeat' first | (simp; done) | refine keeps_bind ?_ (fun _ => ?_) | split | dsimp only

@[simp]
theorem keeps_setup_bind_store (env : Env) (part : multiboot_partition_t) (loopdevice : CStr)
    (rc : Int) (num_blocks : Nat) :
    Run.keeps R (setup_bind_store env part loopdevice rc num_blocks) := by
  unfold setup_bind_store
  repeat' first | (simp; done) | refine keeps_bind ?_ (fun _ => ?_) | split | dsimp only

@[simp]
theorem keeps_setup_bind_partition (env : Env) (part : multiboot_partition_t)
    (partpath loopdevice : CStr) (st : lstat_result) :
    Run.keeps R (setup_bind_partition env part partpath loopdevice st) := by
  unfold setup_bind_partition
  repeat' first | (simp; done) | refine keeps_bind ?_ (fun _ => ?_) | split | dsimp only

@[simp]
theorem keeps_setup_loop_partition (env : Env) (partpath loopdevice : CStr) :
    Run.keeps R (setup_loop_partition env partpath loopdevice) := by
  unfold setup_loop_partition
  repeat' first | (simp; done) | refine keeps_bind ?_ (fun _ => ?_) | split | dsimp only

@[simp]
theorem keeps_util_append_string_to_file (env : Env) (filename str : CStr) :
    Run.keeps R (util_append_string_to_file env filename str) := by
  unfold util_append_string_to_file
  repeat' first | (simp; done) | refine keeps_bind ?_ (fun _ => ?_) | split | dsimp only

@[simp]
theorem keeps_sepolicy_add_rules (rules : List (String × String × String × String)) :
    Run.keeps R (sepolicy_add_rules rules) := by
  induction rules with
  | nil => exact keeps_pure _
  | cons r rules ih =>
    obtain ⟨s, t, c, p⟩ := r
    unfold sepolicy_add_rules
    repeat' first | exact ih | (simp; done) | refine keeps_bind ?_ (fun _ => ?_) | split | dsimp only

@[simp]
theorem keeps_selinux_fixup (env : Env) : Run.keeps R (selinux_fixup env) := by
  unfold selinux_fixup
  repeat' first | (simp; done) | refine keeps_bind ?_ (fun _ => ?_) | split | dsimp only


end frame

theorem mbini_part_type_loop_iff (path : CStr) :
    mbini_part_type path = MBPART_TYPE_LOOP ↔
      (4 ≤ path.length ∧ path.drop (path.length - 4) = ".img".toList) := by
  unfold mbini_part_type
  by_cases h4 : path.length ≥ 4
  · by_cases hs : path.drop (path.length - 4) = ".img".toList
    · simp [h4, hs]
    · simp [h4, hs]
  · simp [h4]

theorem mbini_part_type_bind_iff (path : CStr) :
    mbini_part_type path = MBPART_TYPE_BIND ↔
      ¬ (4 ≤ path.length ∧ path.drop (path.length - 4) = ".img".toList) := by
  rw [← mbini_part_type_loop_iff]
  cases mbini_part_type path <;> simp

/-! ### The configuration loader -/

theorem mbini_handler_skip (env : Env) (e : ini_entry) (index : Nat) (w : World)
    (h : e.sec ≠ "partitions".toList) : mbini_handler env e index w = .ok index w := by
  unfold mbini_handler
  rw [if_pos h]

theorem mbini_handler_too_many (env : Env) (e : ini_entry) (index : Nat) (w : World)
    (hs : e.sec = "partitions".toList) (h : index ≥ w.md.num_mbparts) :
    mbini_handler env e index w = .abort "Too many partitions" w := by
  unfold mbini_handler
  rw [if_neg (not_not.mpr hs), if_pos h]

/-- The slot `index` after `mbini_handler` ran on an entry of section
"partitions" that has a name and a value, with `index` below `num_mbparts`:
whatever the outcome, the slot holds the entry's name and path and the type
given by the type rule. -/
theorem mbini_handler_slot (env : Env) (name value : CStr) (index : Nat) (w : World)
    (hnum : index < w.md.num_mbparts) (hlen : index < w.md.mbparts.length) :
    (mbpart_at (mbini_handler env ⟨"partitions".toList, some name, some value⟩ index w).world.md
        index).map (fun p => (p.name, p.path, p.type))
      = some (name, value, mbini_part_type value) := by
  have hn : ¬ index ≥ w.md.num_mbparts := by omega
  unfold mbini_handler
  simp only [ne_eq, not_true_eq_false, if_false, hn]
  repeat' split
  all_goals simp [Res.world, mbpart_at, hlen]

/-- A call of `mbini_handler` that returns: either the entry belongs to another
part of the file and nothing changed, or one slot was written with a partition
that passed every check. -/
theorem mbini_handler_ok (env : Env) (e : ini_entry) (index : Nat) (w : World) (j : Nat)
    (w1 : World) (h : mbini_handler env e index w = .ok j w1) :
    (e.sec ≠ "partitions".toList ∧ j = index ∧ w1 = w) ∨
    (e.sec = "partitions".toList ∧ index < w.md.num_mbparts ∧ j = (index + 1) % 2 ^ 32 ∧
      ∃ p : multiboot_partition_t, e.name = some p.name ∧ e.value = some p.path ∧
        accepted_part env w.md.mbfstab w.md.blockinfo w.md.bootdev_supports_bindmount p ∧
        w1 = { w with md := { w.md with mbparts := w.md.mbparts.set index (some p) } }) := by
  unfold mbini_handler at h
  by_cases hs : e.sec = "partitions".toList
  · right
    simp only [hs, ne_eq, not_true_eq_false, if_false] at h
    by_cases hi : index ≥ w.md.num_mbparts
    · simp [hi] at h
    · simp only [hi, if_false] at h
      refine ⟨hs, by omega, ?_⟩
      split at h
      · rename_i name value hname hvalue
        split at h
        · simp at h
        · rename_i hbind
          split at h
          · simp at h
          · rename_i from_fstab hstep
            split at h
            · simp at h
            · rename_i hub
              simp only [Res.ok.injEq] at h
              obtain ⟨hj, hw⟩ := h
              cases hr : mbini_resolve_fallback w.md.blockinfo name from_fstab with
              | none => simp [hr] at hub
              | some ub =>
                refine ⟨hj.symm, ⟨name, value, mbini_part_type value, some ub⟩, hname, hvalue,
                  ⟨rfl, ?_, from_fstab, ub, hstep, hr, rfl⟩, ?_⟩
                · intro hb
                  by_contra hf
                  exact hbind ⟨hb, by simpa using hf⟩
                · rw [← hw, hr]
      · simp at h
  · left
    simp only [ne_eq, hs, not_false_eq_true, if_true, Res.ok.injEq] at h
    exact ⟨hs, h.1.symm, h.2.symm⟩

/-- Pass 1 never aborts: it adds the number of entries of section "partitions"
to `num_mbparts`, modulo 2^32. -/
theorem ini_count_entries_eq (es : List ini_entry) (w : World)
    (hn : w.md.num_mbparts < 2 ^ 32) :
    ini_count_entries es w = .ok () { w with md := { w.md with
      num_mbparts := (w.md.num_mbparts + (es.filter is_partition_entry).length) % 2 ^ 32 } } := by
  induction es generalizing w with
  | nil =>
    simp only [ini_count_entries, Run.pure, List.filter_nil, List.length_nil, Nat.add_zero]
    rw [Nat.mod_eq_of_lt hn]
  | cons e es ih =>
    unfold ini_count_entries Run.bind mbini_count_handler
    by_cases hs : e.sec = "partitions".toList
    · rw [if_neg (not_not.mpr hs)]
      dsimp only
      rw [ih _ (Nat.mod_lt _ (by norm_num))]
      have hp : is_partition_entry e = true := decide_eq_true hs
      simp only [List.filter_cons, hp, if_true, List.length_cons]
      congr 2
      simp only [multiboot_data_t.mk.injEq, true_and, and_true]
      omega
    · rw [if_pos hs]
      dsimp only
      rw [ih _ hn]
      have hp : is_partition_entry e = false := decide_eq_false hs
      simp [List.filter_cons, hp]

theorem write_mbparts_length (ps : List multiboot_partition_t) (index : Nat)
    (slots : List (Option multiboot_partition_t)) :
    (write_mbparts ps index slots).length = slots.length := by
  induction ps generalizing index slots with
  | nil => rfl
  | cons p ps ih => simp [write_mbparts, ih]

theorem write_mbparts_append (ps : List multiboot_partition_t)
    (done rest : List (Option multiboot_partition_t)) (h : ps.length ≤ rest.length) :
    write_mbparts ps done.length (done ++ rest) = done ++ ps.map some ++ rest.drop ps.length := by
  induction ps generalizing done rest with
  | nil => simp [write_mbparts]
  | cons p ps ih =>
    cases rest with
    | nil => simp at h
    | cons r rest =>
      have h1 : ps.length ≤ rest.length := by simpa using h
      have hset : (done ++ r :: rest).set done.length (some p) = (done ++ [some p]) ++ rest := by
        simp [List.set_append]
      have := ih (done ++ [some p]) rest h1
      simp only [List.length_append, List.length_singleton] at this
      show write_mbparts ps (done.length + 1) ((done ++ r :: rest).set done.length (some p)) = _
      rw [hset, this]
      simp

theorem write_mbparts_replicate (ps : List multiboot_partition_t) :
    write_mbparts ps 0 (List.replicate ps.length none) = ps.map some := by
  have := write_mbparts_append ps [] (List.replicate ps.length none) (by simp)
  simpa using this

/-- A pass 2 that returns: the entries of section "partitions" were stored, in
file order, in the slots from `index` on, each after passing every check, and
`index` advanced by their number. -/
theorem ini_handle_entries_ok (env : Env) (es : List ini_entry) (index : Nat) (w : World)
    (j : Nat) (w1 : World) (h : ini_handle_entries env es index w = .ok j w1)
    (hn : w.md.num_mbparts < 2 ^ 32) (hi : index ≤ w.md.num_mbparts) :
    ∃ ps : List multiboot_partition_t,
      ps.map (fun p => (some p.name, some p.path))
        = (es.filter is_partition_entry).map (fun e => (e.name, e.value)) ∧
      (∀ p ∈ ps, accepted_part env w.md.mbfstab w.md.blockinfo w.md.bootdev_supports_bindmount p) ∧
      j = index + ps.length ∧ j ≤ w.md.num_mbparts ∧
      w1 = { w with md := { w.md with mbparts := write_mbparts ps index w.md.mbparts } } := by
  induction es generalizing index w with
  | nil =>
    simp only [ini_handle_entries, Run.pure, Res.ok.injEq] at h
    exact ⟨[], by simp, by simp, by simp [h.1], by simpa [← h.1] using hi, by simp [write_mbparts, h.2]⟩
  | cons e es ih =>
    unfold ini_handle_entries Run.bind at h
    cases hh : mbini_handler env e index w with
    | abort msg w2 => simp [hh] at h
    | ok j2 w2 =>
      rw [hh] at h
      dsimp only at h
      rcases mbini_handler_ok env e index w j2 w2 hh with ⟨hs, hj, hw⟩ | ⟨hs, hlt, hj, p, hname, hvalue, hacc, hw⟩
      · rw [hj, hw] at h
        obtain ⟨ps, h1, h2, h3, h4, h5⟩ := ih index w h hn hi
        have hp : is_partition_entry e = false := decide_eq_false hs
        exact ⟨ps, by simp [List.filter_cons, hp, h1], h2, h3, h4, h5⟩
      · have hj2 : j2 = index + 1 := by omega
        rw [hj2, hw] at h
        obtain ⟨ps, h1, h2, h3, h4, h5⟩ := ih (index + 1) _ h hn (by simpa using hlt)
        have hp : is_partition_entry e = true := decide_eq_true hs
        refine ⟨p :: ps, ?_, ?_, ?_, h4, ?_⟩
        · simp [List.filter_cons, hp, h1, hname, hvalue]
        · intro q hq
          rcases List.mem_cons.mp hq with rfl | hq
          · exact hacc
          · exact h2 q hq
        · simp [h3]; omega
        · rw [h5]; rfl

theorem bind_of_abort {α β : Type} (m : Run α) (k : α → Run β) (w : World) (msg : String)
    (w1 : World) (h : m w = .abort msg w1) : (m >>= k) w = .abort msg w1 := by
  show Run.bind m k w = _
  unfold Run.bind
  rw [h]

theorem bind_of_ok {α β : Type} (m : Run α) (k : α → Run β) (w : World) (a : α)
    (w1 : World) (h : m w = .ok a w1) : (m >>= k) w = k a w1 := by
  show Run.bind m k w = _
  unfold Run.bind
  rw [h]

theorem aborted_iff {α : Type} (r : Res α) :
    r.aborted = true ↔ ∃ msg w, r = .abort msg w := by
  cases r <;> simp [Res.aborted]

theorem bind_aborted {α β : Type} (m : Run α) (k : α → Run β) (w : World)
    (h : (m w).aborted = true) :
    ((m >>= k) w).aborted = true ∧ ((m >>= k) w).world = (m w).world := by
  obtain ⟨msg, w1, hm⟩ := (aborted_iff _).mp h
  rw [bind_of_abort m k w msg w1 hm, hm]
  exact ⟨rfl, rfl⟩

/-- Whatever `mbini_handler` does, it leaves the world as it is or writes the
one slot `index`, which is below `num_mbparts`. -/
theorem mbini_handler_world (env : Env) (e : ini_entry) (index : Nat) (w : World) :
    (mbini_handler env e index w).world = w ∨
    (index < w.md.num_mbparts ∧ ∃ slot, (mbini_handler env e index w).world
      = { w with md := { w.md with mbparts := w.md.mbparts.set index slot } }) := by
  by_cases hs : e.sec = "partitions".toList
  · by_cases hi : index ≥ w.md.num_mbparts
    · left
      rw [mbini_handler_too_many env e index w hs hi]
      rfl
    · have hlt : index < w.md.num_mbparts := by omega
      unfold mbini_handler
      rw [if_neg (not_not.mpr hs), if_neg hi]
      split
      · right
        refine ⟨hlt, ?_⟩
        dsimp only
        repeat' split
        all_goals exact ⟨_, rfl⟩
      · left; rfl
  · left
    rw [mbini_handler_skip env e index w hs]
    rfl

theorem keeps_mbini_handler (env : Env) (e : ini_entry) (index : Nat) :
    Run.keeps slots_step (mbini_handler env e index) := by
  intro w
  rcases mbini_handler_world env e index w with h | ⟨_, slot, h⟩
  · rw [h]; exact Steps.refl w
  · rw [h]; exact ⟨_, rfl⟩

theorem keeps_ini_handle_entries (env : Env) (es : List ini_entry) (index : Nat) :
    Run.keeps slots_step (ini_handle_entries env es index) := by
  induction es generalizing index with
  | nil => exact fun w => Steps.refl w
  | cons e es ih =>
    unfold ini_handle_entries
    exact keeps_bind (keeps_mbini_handler env e index) (fun i => ih i)

theorem parse_step_of_slots_step {w w1 : World} (h : slots_step w w1) : parse_step w w1 := by
  obtain ⟨slots, rfl⟩ := h
  exact ⟨_, slots, rfl⟩

theorem config_step_of_parse_step {w w1 : World} (h : parse_step w w1) : config_step w w1 := by
  obtain ⟨num, slots, rfl⟩ := h
  exact ⟨_, num, slots, rfl⟩

theorem config_step_of_slots_step {w w1 : World} (h : slots_step w w1) : config_step w w1 :=
  config_step_of_parse_step (parse_step_of_slots_step h)

/-- Pass 2 aborts as soon as it holds an entry on which `mbini_handler` aborts
whatever `index` is and whatever the slots hold. -/
theorem ini_handle_entries_aborted (env : Env) (e : ini_entry) (es : List ini_entry)
    (he : e ∈ es) (index : Nat) (w : World)
    (hab : ∀ i w1, slots_step w w1 → (mbini_handler env e i w1).aborted = true) :
    (ini_handle_entries env es index w).aborted = true := by
  induction es generalizing index w with
  | nil => simp at he
  | cons e1 es ih =>
    unfold ini_handle_entries
    cases hh : mbini_handler env e1 index w with
    | abort msg w1 =>
      show (Run.bind _ _ w).aborted = true
      unfold Run.bind
      rw [hh]
      rfl
    | ok j w1 =>
      show (Run.bind _ _ w).aborted = true
      unfold Run.bind
      rw [hh]
      dsimp only
      have hstep : slots_step w w1 := by
        have := keeps_mbini_handler env e1 index w
        rw [hh] at this
        exact this
      rcases List.mem_cons.mp he with rfl | hmem
      · have := hab index w (Steps.refl w)
        rw [hh] at this
        simp [Res.aborted] at this
      · exact ih hmem j w1 (fun i w2 h2 => hab i w2 (Steps.trans hstep h2))

theorem mbini_count_handler_ok (e : ini_entry) (w : World) :
    ∃ n, mbini_count_handler e w = .ok 1 { w with md := { w.md with num_mbparts := n } } := by
  unfold mbini_count_handler
  split
  · exact ⟨w.md.num_mbparts, rfl⟩
  · exact ⟨_, rfl⟩

theorem ini_count_entries_ok (es : List ini_entry) (w : World) :
    ∃ n, ini_count_entries es w = .ok () { w with md := { w.md with num_mbparts := n } } := by
  induction es generalizing w with
  | nil => exact ⟨w.md.num_mbparts, rfl⟩
  | cons e es ih =>
    obtain ⟨n1, h1⟩ := mbini_count_handler_ok e w
    obtain ⟨n, hn⟩ := ih { w with md := { w.md with num_mbparts := n1 } }
    refine ⟨n, ?_⟩
    unfold ini_count_entries Run.bind
    rw [h1]
    dsimp only
    rw [hn]

theorem keeps_parse_multiboot_main_parse_ini (env : Env) (pass1 pass2 : ini_file) :
    Run.keeps parse_step (multiboot_main_parse_ini env pass1 pass2) := by
  intro w
  unfold multiboot_main_parse_ini ini_parse_count Run.bind
  obtain ⟨n, hn⟩ := ini_count_entries_ok pass1.entries w
  rw [hn]
  dsimp only [Run.pure]
  split
  · exact ⟨_, _, rfl⟩
  · have hk := keeps_ini_handle_entries env pass2.entries 0
      { w with md := { w.md with num_mbparts := n, mbparts := List.replicate n none } }
    unfold ini_parse_handler Run.bind
    cases hh : ini_handle_entries env pass2.entries 0
      { w with md := { w.md with num_mbparts := n, mbparts := List.replicate n none } } with
    | abort msg w3 =>
      rw [hh] at hk
      obtain ⟨slots, hw3⟩ := hk
      simp only [Res.world] at hw3 ⊢
      rw [hw3]
      exact ⟨_, _, rfl⟩
    | ok j w3 =>
      rw [hh] at hk
      obtain ⟨slots, hw3⟩ := hk
      simp only [Res.world] at hw3
      dsimp only [Run.pure]
      repeat' split
      all_goals (simp only [Res.world]; rw [hw3]; exact ⟨_, _, rfl⟩)

theorem keeps_multiboot_main_parse_ini (env : Env) (pass1 pass2 : ini_file) :
    Run.keeps config_step (multiboot_main_parse_ini env pass1 pass2) :=
  fun w => config_step_of_parse_step (keeps_parse_multiboot_main_parse_ini env pass1 pass2 w)

/-- The load of the configuration aborts when pass 2 aborts from every world
pass 1 can leave. -/
theorem multiboot_main_parse_ini_aborted (env : Env) (pass1 pass2 : ini_file) (w : World)
    (hab : ∀ w2, parse_step w w2 → (ini_handle_entries env pass2.entries 0 w2).aborted = true) :
    (multiboot_main_parse_ini env pass1 pass2 w).aborted = true := by
  unfold multiboot_main_parse_ini ini_parse_count Run.bind
  obtain ⟨n, hn⟩ := ini_count_entries_ok pass1.entries w
  rw [hn]
  dsimp only [Run.pure]
  split
  · rfl
  · have h2 := hab { w with md := { w.md with num_mbparts := n, mbparts := List.replicate n none } }
      ⟨_, _, rfl⟩
    obtain ⟨msg, w3, h3⟩ := (aborted_iff _).mp h2
    unfold ini_parse_handler Run.bind
    rw [h3]
    rfl

theorem keeps_multiboot_main_check_bind (volume_filesystem : Option CStr) :
    Run.keeps config_step (multiboot_main_check_bind volume_filesystem) := by
  intro w
  unfold multiboot_main_check_bind
  repeat' split
  all_goals first | exact Steps.refl w | exact ⟨_, _, _, rfl⟩

theorem keeps_multiboot_main_verify_mbfstab (recs : List fstab_rec) :
    Run.keeps config_step (multiboot_main_verify_mbfstab recs) := by
  induction recs with
  | nil => exact fun w => Steps.refl w
  | cons rec recs ih =>
    intro w
    unfold multiboot_main_verify_mbfstab
    repeat' split
    all_goals first | exact ih w | exact Steps.refl w

theorem ini_parse_count_eq (file : ini_file) (w : World) (hn : w.md.num_mbparts < 2 ^ 32) :
    ini_parse_count file w = .ok file.rc { w with md := { w.md with
      num_mbparts := (w.md.num_mbparts + (file.entries.filter is_partition_entry).length) % 2 ^ 32 } } := by
  unfold ini_parse_count Run.bind
  rw [ini_count_entries_eq _ _ hn]
  rfl

/-- The world in which pass 2 starts: `num_mbparts` counted by pass 1 and
`mbparts` allocated zeroed. -/
theorem multiboot_main_parse_ini_eq (env : Env) (pass1 pass2 : ini_file) (w : World)
    (hn : w.md.num_mbparts < 2 ^ 32) :
    multiboot_main_parse_ini env pass1 pass2 w =
      if pass1.rc ≠ 0 then
        .abort "Can't count partitions" { w with md := { w.md with
          num_mbparts := (w.md.num_mbparts + (pass1.entries.filter is_partition_entry).length) % 2 ^ 32 } }
      else
        match ini_handle_entries env pass2.entries 0 { w with md := { w.md with
          num_mbparts := (w.md.num_mbparts + (pass1.entries.filter is_partition_entry).length) % 2 ^ 32,
          mbparts := List.replicate
            ((w.md.num_mbparts + (pass1.entries.filter is_partition_entry).length) % 2 ^ 32) none } } with
        | .abort msg w3 => .abort msg w3
        | .ok index w3 =>
          if pass2.rc ≠ 0 then .abort "Can't parse" w3
          else if index ≠ w3.md.num_mbparts then .abort "retrieved wrong number of partitions" w3
          else .ok () w3 := by
  unfold multiboot_main_parse_ini
  rw [ini_parse_count_eq _ _ hn]
  dsimp only
  split
  · rfl
  · unfold ini_parse_handler Run.bind
    split <;> rename_i heq
    · split at heq
      · simp [Run.pure] at heq
      · rename_i msg w1 hh
        simp only [Res.abort.injEq] at heq
        rw [hh]
        simp [heq.1, heq.2]
    · split at heq
      · rename_i j w1 hh
        simp only [Run.pure, Res.ok.injEq, Prod.mk.injEq] at heq
        rw [hh]
        obtain ⟨⟨h1, h2⟩, h3⟩ := heq
        subst h1 h2 h3
        rfl
      · simp at heq

/-- A load of the configuration that returns: both passes parsed, `num_mbparts`
is the count of pass 1, and the array holds exactly that many partitions, the
entries of section "partitions" of pass 2 in file order, each of which passed
every check. -/
theorem multiboot_main_parse_ini_ok (env : Env) (pass1 pass2 : ini_file) (w w1 : World)
    (hn : w.md.num_mbparts < 2 ^ 32)
    (h : multiboot_main_parse_ini env pass1 pass2 w = .ok () w1) :
    pass1.rc = 0 ∧ pass2.rc = 0 ∧
    ∃ ps : List multiboot_partition_t,
      ps.map (fun p => (some p.name, some p.path))
        = (pass2.entries.filter is_partition_entry).map (fun e => (e.name, e.value)) ∧
      (∀ p ∈ ps, accepted_part env w.md.mbfstab w.md.blockinfo w.md.bootdev_supports_bindmount p) ∧
      ps.length = (w.md.num_mbparts + (pass1.entries.filter is_partition_entry).length) % 2 ^ 32 ∧
      w1 = { w with md := { w.md with num_mbparts := ps.length, mbparts := ps.map some } } := by
  rw [multiboot_main_parse_ini_eq env pass1 pass2 w hn] at h
  split at h
  · simp at h
  · rename_i hrc1
    split at h
    · simp at h
    · rename_i index w3 hh
      split at h
      · simp at h
      · rename_i hrc2
        split at h
        · simp at h
        · rename_i hidx
          simp only [Res.ok.injEq, true_and] at h
          subst h
          have hlt : (w.md.num_mbparts + (pass1.entries.filter is_partition_entry).length) % 2 ^ 32
              < 2 ^ 32 := Nat.mod_lt _ (by norm_num)
          obtain ⟨ps, h1, h2, h3, h4, h5⟩ :=
            ini_handle_entries_ok env pass2.entries 0 _ index w3 hh hlt (Nat.zero_le _)
          have hidx2 : index = w3.md.num_mbparts := by simpa using hidx
          rw [h5] at hidx2
          dsimp only at hidx2
          have hlen : ps.length
              = (w.md.num_mbparts + (pass1.entries.filter is_partition_entry).length) % 2 ^ 32 := by
            omega
          refine ⟨by simpa using hrc1, by simpa using hrc2, ps, h1, h2, hlen, ?_⟩
          rw [h5]
          dsimp only
          rw [← hlen, write_mbparts_replicate]

/-! ### C1: the type rule -/

/-- C1: `mbini_handler` classifies the partition of an entry as LOOP exactly
when the backing path has at least 4 characters and its last 4 characters are
".img", and as BIND otherwise: for an entry of section "partitions" with a
name and a value, handled with `index` below `num_mbparts`, the slot `index`
holds afterwards the entry's name, its path and the type the rule gives; in
particular "system.img" is LOOP, "system" is BIND and "system.IMG" is BIND. -/
theorem mbini_handler_type_rule (env : Env) (name value : CStr) (index : Nat) (w : World)
    (hnum : index < w.md.num_mbparts) (hlen : index < w.md.mbparts.length) :
    (mbini_part_type value = MBPART_TYPE_LOOP ↔
      (4 ≤ value.length ∧ value.drop (value.length - 4) = ".img".toList)) ∧
    (mbini_part_type value = MBPART_TYPE_BIND ↔
      ¬ (4 ≤ value.length ∧ value.drop (value.length - 4) = ".img".toList)) ∧
    (mbpart_at (mbini_handler env ⟨"partitions".toList, some name, some value⟩ index w).world.md
        index).map (fun p => (p.name, p.path, p.type))
      = some (name, value, mbini_part_type value) ∧
    mbini_part_type "system.img".toList = MBPART_TYPE_LOOP ∧
    mbini_part_type "system".toList = MBPART_TYPE_BIND ∧
    mbini_part_type "system.IMG".toList = MBPART_TYPE_BIND :=
  ⟨mbini_part_type_loop_iff value, mbini_part_type_bind_iff value,
    mbini_handler_slot env name value index w hnum hlen, by decide, by decide, by decide⟩

/-- C1 at the entry `system=system.img`, handled first of one entry. -/
theorem mbini_handler_type_rule_witness :
    (mbpart_at (mbini_handler env_ok (partition_entry "system" "system.img") 0
        (world_counted [dev_system] [rec_system] 1)).world.md 0).map
          (fun p => (p.name, p.path, p.type))
      = some ("system".toList, "system.img".toList, MBPART_TYPE_LOOP) :=
  (mbini_handler_type_rule env_ok "system".toList "system.img".toList 0
    (world_counted [dev_system] [rec_system] 1) (by decide) (by decide)).2.2.1

/-! ### C3: device resolution -/

theorem find?_append_of_some {α : Type} (p : α → Bool) (l extra : List α) (d : α)
    (h : l.find? p = some d) : (l ++ extra).find? p = some d := by
  simp [List.find?_append, h]

theorem mbini_fstab_step_ok (env : Env) (mbfstab : List fstab_rec)
    (blockinfo : List uevent_block_t) (name : CStr) (type : mbpart_type)
    (from_fstab : Option uevent_block_t)
    (h : mbini_fstab_step env mbfstab blockinfo name type = .ok from_fstab) :
    from_fstab = lookup_by_fstab_path env mbfstab blockinfo name ∧
    ∀ info, mbini_fstab_step env mbfstab info name type
      = .ok (lookup_by_fstab_path env mbfstab info name) := by
  unfold mbini_fstab_step at h
  unfold lookup_by_fstab_path mbini_fstab_step
  cases hr : fs_mgr_get_by_name mbfstab name with
  | none =>
    rw [hr] at h
    simp only [Except.ok.injEq] at h
    exact ⟨h.symm, fun _ => rfl⟩
  | some rec =>
    rw [hr] at h
    dsimp only at h ⊢
    split at h
    · simp at h
    · rename_i h1
      split at h
      · simp at h
      · rename_i h2
        simp only [Except.ok.injEq] at h
        refine ⟨h.symm, fun info => ?_⟩
        rw [if_neg h1, if_neg h2]
        rfl

/-- When its checks pass and a lookup finds a device, `mbini_handler` returns
and stores the partition with that device. -/
theorem mbini_handler_ok_intro (env : Env) (name value : CStr) (index : Nat) (w : World)
    (from_fstab : Option uevent_block_t) (ub : uevent_block_t)
    (hi : index < w.md.num_mbparts)
    (hbind : mbini_part_type value = MBPART_TYPE_BIND → w.md.bootdev_supports_bindmount = true)
    (hstep : mbini_fstab_step env w.md.mbfstab w.md.blockinfo name (mbini_part_type value)
      = .ok from_fstab)
    (hres : mbini_resolve_fallback w.md.blockinfo name from_fstab = some ub) :
    mbini_handler env ⟨"partitions".toList, some name, some value⟩ index w
      = .ok ((index + 1) % 2 ^ 32) { w with md := { w.md with
          mbparts := w.md.mbparts.set index
            (some ⟨name, value, mbini_part_type value, some ub⟩) } } := by
  unfold mbini_handler
  have hi2 : ¬ index ≥ w.md.num_mbparts := by omega
  have hb : ¬ (mbini_part_type value = MBPART_TYPE_BIND ∧ w.md.bootdev_supports_bindmount = false) := by
    rintro ⟨h1, h2⟩
    rw [hbind h1] at h2
    exact absurd h2 (by decide)
  rw [if_neg (not_not.mpr rfl), if_neg hi2]
  dsimp only
  rw [if_neg hb, hstep]
  dsimp only
  rw [hres]
  rfl

theorem mbini_resolve_fallback_cases (info : List uevent_block_t) (name : CStr)
    (from_fstab : Option uevent_block_t) (d : uevent_block_t) :
    mbini_resolve_fallback info name from_fstab = some d ↔
      (from_fstab = some d ∨
       (from_fstab = none ∧ get_blockinfo_for_partname info name = some d) ∨
       (from_fstab = none ∧ get_blockinfo_for_partname info name = none ∧
          get_blockinfo_for_devname info name = some d)) := by
  unfold mbini_resolve_fallback
  cases from_fstab with
  | some x => simp
  | none =>
    cases hp : get_blockinfo_for_partname info name with
    | some y => simp
    | none => simp

theorem mbini_resolve_fallback_none (info : List uevent_block_t) (name : CStr)
    (from_fstab : Option uevent_block_t) :
    mbini_resolve_fallback info name from_fstab = none ↔
      (from_fstab = none ∧ get_blockinfo_for_partname info name = none ∧
          get_blockinfo_for_devname info name = none) := by
  unfold mbini_resolve_fallback
  cases from_fstab with
  | some x => simp
  | none =>
    cases hp : get_blockinfo_for_partname info name with
    | some y => simp
    | none => simp


/-- The same outcome as a statement on the slot: the abort of `mbini_handler`
when no lookup finds a device. -/
theorem mbini_handler_aborted_of_unresolved (env : Env) (name : CStr) (value : Option CStr)
    (index : Nat) (w : World)
    (ha : lookup_by_fstab_path env w.md.mbfstab w.md.blockinfo name = none)
    (hb : get_blockinfo_for_partname w.md.blockinfo name = none)
    (hc : get_blockinfo_for_devname w.md.blockinfo name = none) :
    (mbini_handler env ⟨"partitions".toList, some name, value⟩ index w).aborted = true := by
  cases hres : mbini_handler env ⟨"partitions".toList, some name, value⟩ index w with
  | abort msg w1 => rfl
  | ok j w1 =>
    rcases mbini_handler_ok env _ index w j w1 hres with ⟨hs, _⟩ | ⟨_, _, _, p, hname, _, hacc, _⟩
    · exact absurd rfl hs
    · obtain ⟨_, _, ff, ub, hstep, hr, _⟩ := hacc
      have hn : p.name = name := by
        simp only [Option.some.injEq] at hname
        exact hname.symm
      rw [hn] at hstep hr
      have hff := (mbini_fstab_step_ok env _ _ _ _ _ hstep).1
      rw [hff, ha] at hr
      have := (mbini_resolve_fallback_none w.md.blockinfo name none).mpr ⟨rfl, hb, hc⟩
      rw [this] at hr
      exact absurd hr (by simp)

/-- C3, as amended: for an entry of section "partitions", `mbini_handler` tries
(a) the catalog lookup by the block-device path of the fstab record of that
name, (b) the lookup by GPT partition name, (c) the lookup by kernel device
name; the first that returns a device gives the resolved device, later ones
having no influence, and when all return none the handler aborts. After the
catalog was extended by a rescan the resolved device is the same provided the
lookups that returned none before it still return none. -/
theorem mbini_handler_resolution (env : Env) (name value : CStr) (index : Nat) (w : World)
    (found : List uevent_block_t) :
    (lookup_by_fstab_path env w.md.mbfstab w.md.blockinfo name = none →
      get_blockinfo_for_partname w.md.blockinfo name = none →
      get_blockinfo_for_devname w.md.blockinfo name = none →
      (mbini_handler env ⟨"partitions".toList, some name, some value⟩ index w).aborted = true) ∧
    (∀ j w1, mbini_handler env ⟨"partitions".toList, some name, some value⟩ index w = .ok j w1 →
      index < w.md.mbparts.length →
      ∃ d, resolved_device w1.md index = some d ∧
        (lookup_by_fstab_path env w.md.mbfstab w.md.blockinfo name = some d ∨
         (lookup_by_fstab_path env w.md.mbfstab w.md.blockinfo name = none ∧
            get_blockinfo_for_partname w.md.blockinfo name = some d) ∨
         (lookup_by_fstab_path env w.md.mbfstab w.md.blockinfo name = none ∧
            get_blockinfo_for_partname w.md.blockinfo name = none ∧
            get_blockinfo_for_devname w.md.blockinfo name = some d)) ∧
        ((lookup_by_fstab_path env w.md.mbfstab w.md.blockinfo name = none →
            lookup_by_fstab_path env w.md.mbfstab (w.md.blockinfo ++ found) name = none) →
         (lookup_by_fstab_path env w.md.mbfstab w.md.blockinfo name = none →
            get_blockinfo_for_partname w.md.blockinfo name = none →
            get_blockinfo_for_partname (w.md.blockinfo ++ found) name = none) →
         ∃ w2, mbini_handler env ⟨"partitions".toList, some name, some value⟩ index
              (w.rescanned found) = .ok j w2 ∧
            resolved_device w2.md index = some d)) := by
  refine ⟨mbini_handler_aborted_of_unresolved env name (some value) index w, ?_⟩
  intro j w1 h hlen
  rcases mbini_handler_ok env _ index w j w1 h with ⟨hs, _⟩ | ⟨_, hi, hj, p, hname, hvalue, hacc, hw⟩
  · exact absurd rfl hs
  · obtain ⟨htype, hbind, ff, ub, hstep, hr, hub⟩ := hacc
    have hn : p.name = name := by
      simp only [Option.some.injEq] at hname
      exact hname.symm
    have hv : p.path = value := by
      simp only [Option.some.injEq] at hvalue
      exact hvalue.symm
    rw [hn] at hstep hr
    rw [hv] at htype
    rw [htype] at hstep hbind
    obtain ⟨hff, hall⟩ := mbini_fstab_step_ok env _ _ _ _ _ hstep
    have hcases := (mbini_resolve_fallback_cases w.md.blockinfo name ff ub).mp hr
    rw [hff] at hcases
    refine ⟨ub, ?_, hcases, ?_⟩
    · rw [hw]
      simp [resolved_device, mbpart_at, hlen, hub]
    · intro hpa hpb
      have hres2 : mbini_resolve_fallback (w.md.blockinfo ++ found) name
          (lookup_by_fstab_path env w.md.mbfstab (w.md.blockinfo ++ found) name) = some ub := by
        rw [mbini_resolve_fallback_cases]
        rcases hcases with ha | ⟨ha, hb⟩ | ⟨ha, hb, hc⟩
        · left
          unfold lookup_by_fstab_path at ha ⊢
          cases hrec : fs_mgr_get_by_name w.md.mbfstab name with
          | none => rw [hrec] at ha; simp at ha
          | some rec =>
            rw [hrec] at ha
            simp only [Option.some_bind] at ha ⊢
            exact find?_append_of_some _ _ _ _ ha
        · right; left
          exact ⟨hpa ha, find?_append_of_some _ _ _ _ hb⟩
        · right; right
          exact ⟨hpa ha, hpb ha hb, find?_append_of_some _ _ _ _ hc⟩
      have := mbini_handler_ok_intro env name value index (w.rescanned found) _ ub hi hbind
        (hall (w.md.blockinfo ++ found)) hres2
      rw [hj]
      refine ⟨_, this, ?_⟩
      simp [resolved_device, mbpart_at, World.rescanned, hlen]

/-- C3 where the name "system" is resolved by lookup (a) and the rescan finds
the cache partition. -/
theorem mbini_handler_resolution_witness :
    ∃ w2, mbini_handler env_ok (partition_entry "system" "system.img") 0
        ((world_counted [dev_system] [rec_system] 1).rescanned [dev_cache]) = .ok 1 w2 ∧
      resolved_device w2.md 0 = some dev_system := by
  obtain ⟨d, hd, -, hstable⟩ :=
    (mbini_handler_resolution env_ok "system".toList "system.img".toList 0
      (world_counted [dev_system] [rec_system] 1) [dev_cache]).2 1
      (mbini_handler env_ok (partition_entry "system" "system.img") 0
        (world_counted [dev_system] [rec_system] 1)).world (by decide) (by decide)
  have hd2 : d = dev_system := by
    have : resolved_device (mbini_handler env_ok (partition_entry "system" "system.img") 0
        (world_counted [dev_system] [rec_system] 1)).world.md 0 = some dev_system := by decide
    rw [this] at hd
    exact (Option.some.inj hd).symm
  rw [hd2] at hstable
  exact hstable (by decide) (by decide)

/-- C3 as stated fails: the name "cache" is resolved by GPT partition name to a
partition of the memory card while the internal cache partition is not yet in
the catalog, and by fstab path to the internal partition once a rescan has
appended it. -/
theorem mbini_handler_resolution_not_stable :
    resolved_device (mbini_handler env_ok (partition_entry "cache" "cache") 0
        (world_counted [dev_sdcard_cache] [rec_cache] 1)).world.md 0 = some dev_sdcard_cache ∧
    (mbini_handler env_ok (partition_entry "cache" "cache") 0
        (world_counted [dev_sdcard_cache] [rec_cache] 1)).aborted = false ∧
    resolved_device (mbini_handler env_ok (partition_entry "cache" "cache") 0
        ((world_counted [dev_sdcard_cache] [rec_cache] 1).rescanned [dev_cache])).world.md 0
      = some dev_cache ∧
    (mbini_handler env_ok (partition_entry "cache" "cache") 0
        ((world_counted [dev_sdcard_cache] [rec_cache] 1).rescanned [dev_cache])).aborted = false ∧
    dev_sdcard_cache ≠ dev_cache := by
  decide


/-! ### C4: partitions reserved for UEFI -/

theorem mbini_fstab_step_uefi_only (env : Env) (mbfstab : List fstab_rec)
    (blockinfo : List uevent_block_t) (name : CStr) (type : mbpart_type) (rec : fstab_rec)
    (hrec : fs_mgr_get_by_name mbfstab name = some rec)
    (hu : fs_mgr_is_uefi rec = true) (hm : fs_mgr_is_multiboot rec = false) :
    mbini_fstab_step env mbfstab blockinfo name type
      = .error "You can't replace pure UEFI partitions from a multiboot.ini" := by
  unfold mbini_fstab_step
  rw [hrec]
  dsimp only
  rw [if_pos ⟨hu, hm⟩]

theorem mbini_fstab_step_raw (env : Env) (mbfstab : List fstab_rec)
    (blockinfo : List uevent_block_t) (name : CStr) (rec : fstab_rec)
    (hrec : fs_mgr_get_by_name mbfstab name = some rec)
    (hfs : rec.fs_type = "emmc".toList) :
    ∃ msg, mbini_fstab_step env mbfstab blockinfo name MBPART_TYPE_BIND = .error msg := by
  unfold mbini_fstab_step
  rw [hrec]
  dsimp only
  split
  · exact ⟨_, rfl⟩
  · rw [if_pos ⟨rfl, hfs⟩]
    exact ⟨_, rfl⟩

/-- An entry whose checks against the fstab fail for the type of every value
it can have makes `mbini_handler` abort. -/
theorem mbini_handler_aborted_of_step (env : Env) (name : CStr) (value : Option CStr)
    (index : Nat) (w : World)
    (hstep : ∀ v, value = some v → ∃ msg,
      mbini_fstab_step env w.md.mbfstab w.md.blockinfo name (mbini_part_type v) = .error msg) :
    (mbini_handler env ⟨"partitions".toList, some name, value⟩ index w).aborted = true := by
  cases hres : mbini_handler env ⟨"partitions".toList, some name, value⟩ index w with
  | abort msg w1 => rfl
  | ok j w1 =>
    rcases mbini_handler_ok env _ index w j w1 hres with ⟨hs, _⟩ | ⟨_, _, _, p, hname, hvalue, hacc, _⟩
    · exact absurd rfl hs
    · obtain ⟨htype, _, ff, ub, hok, _, _⟩ := hacc
      have hn : p.name = name := by
        simp only [Option.some.injEq] at hname
        exact hname.symm
      obtain ⟨msg, herr⟩ := hstep p.path hvalue
      rw [hn, htype, herr] at hok
      exact absurd hok (by simp)

/-- C4: an entry of section "partitions" whose name matches an fstab record that
is tagged UEFI and not tagged multiboot makes `mbini_handler` abort, whatever
its value (hence its type), whatever `index` and whatever devices the catalog
holds; when no earlier check fails the abort is the one reserved to such
partitions. -/
theorem mbini_handler_rejects_uefi_only (env : Env) (name : CStr) (value : Option CStr)
    (index : Nat) (w : World) (rec : fstab_rec)
    (hrec : fs_mgr_get_by_name w.md.mbfstab name = some rec)
    (hu : fs_mgr_is_uefi rec = true) (hm : fs_mgr_is_multiboot rec = false) :
    (mbini_handler env ⟨"partitions".toList, some name, value⟩ index w).aborted = true ∧
    (∀ v, value = some v → index < w.md.num_mbparts →
      (mbini_part_type v = MBPART_TYPE_BIND → w.md.bootdev_supports_bindmount = true) →
      ∃ w1, mbini_handler env ⟨"partitions".toList, some name, value⟩ index w
        = .abort "You can't replace pure UEFI partitions from a multiboot.ini" w1) := by
  refine ⟨mbini_handler_aborted_of_step env name value index w
    (fun v _ => ⟨_, mbini_fstab_step_uefi_only env _ _ name _ rec hrec hu hm⟩), ?_⟩
  intro v hv hi hbind
  subst hv
  unfold mbini_handler
  have hi2 : ¬ index ≥ w.md.num_mbparts := by omega
  have hb : ¬ (mbini_part_type v = MBPART_TYPE_BIND ∧ w.md.bootdev_supports_bindmount = false) := by
    rintro ⟨h1, h2⟩
    rw [hbind h1] at h2
    exact absurd h2 (by decide)
  rw [if_neg (not_not.mpr rfl), if_neg hi2]
  dsimp only
  rw [if_neg hb, mbini_fstab_step_uefi_only env _ _ name _ rec hrec hu hm]
  exact ⟨_, rfl⟩

/-- C4 at the entry `modem=modem.img` with the record of /modem tagged UEFI
only. -/
theorem mbini_handler_rejects_uefi_only_witness :
    (mbini_handler env_ok (partition_entry "modem" "modem.img") 0
      (world_counted [dev_modem] [rec_modem] 1)).aborted = true :=
  (mbini_handler_rejects_uefi_only env_ok "modem".toList (some "modem.img".toList) 0
    (world_counted [dev_modem] [rec_modem] 1) rec_modem (by decide) (by decide) (by decide)).1

/-! ### C5: BIND on a raw partition -/

theorem keeps_multiboot_main_load_config (env : Env) (volume_filesystem : Option CStr)
    (pass1 pass2 : ini_file) :
    Run.keeps config_step (multiboot_main_load_config env volume_filesystem pass1 pass2) := by
  unfold multiboot_main_load_config
  refine keeps_bind (keeps_multiboot_main_check_bind _) (fun _ => ?_)
  refine keeps_bind (keeps_multiboot_main_parse_ini _ _ _) (fun _ => ?_)
  exact keeps_bind keeps_get_data (fun _ => keeps_multiboot_main_verify_mbfstab _)

/-- The load of the configuration aborts when pass 2 holds an entry on which
`mbini_handler` aborts in every world the load can reach. -/
theorem multiboot_main_load_config_aborted (env : Env) (volume_filesystem : Option CStr)
    (pass1 pass2 : ini_file) (w : World) (e : ini_entry) (he : e ∈ pass2.entries)
    (hab : ∀ i w1, config_step w w1 → (mbini_handler env e i w1).aborted = true) :
    (multiboot_main_load_config env volume_filesystem pass1 pass2 w).aborted = true := by
  unfold multiboot_main_load_config
  cases hc : multiboot_main_check_bind volume_filesystem w with
  | abort msg w1 => rw [bind_of_abort _ _ _ _ _ hc]; rfl
  | ok u w1 =>
    rw [bind_of_ok _ _ _ _ _ hc]
    have hstep : config_step w w1 := by
      have := keeps_multiboot_main_check_bind volume_filesystem w
      rw [hc] at this
      exact this
    refine (bind_aborted _ _ _ ?_).1
    refine multiboot_main_parse_ini_aborted env pass1 pass2 w1 (fun w2 h2 => ?_)
    refine ini_handle_entries_aborted env e _ he 0 w2 (fun i w3 h3 => ?_)
    exact hab i w3 (Steps.trans hstep
      (Steps.trans (config_step_of_parse_step h2) (config_step_of_slots_step h3)))

/-- When the load of the configuration aborts, `multiboot_main` ends there:
nothing was called, no loop device was counted and the Registry is as it
was. -/
theorem multiboot_main_from_config_aborted (env : Env) (volume_filesystem : Option CStr)
    (pass1 pass2 : ini_file) (w : World)
    (h : (multiboot_main_load_config env volume_filesystem pass1 pass2 w).aborted = true) :
    ∃ msg w1, multiboot_main_from_config env volume_filesystem pass1 pass2 w = .abort msg w1 ∧
      w1.trace = w.trace ∧ w1.loops_created = w.loops_created ∧
      w1.md.replacements = w.md.replacements := by
  obtain ⟨msg, w1, hm⟩ := (aborted_iff _).mp h
  have hk := keeps_multiboot_main_load_config env volume_filesystem pass1 pass2 w
  rw [hm] at hk
  obtain ⟨f, n, s, hw⟩ := hk
  simp only [Res.world] at hw
  refine ⟨msg, w1, ?_, ?_, ?_, ?_⟩
  · unfold multiboot_main_from_config
    exact bind_of_abort _ _ _ _ _ hm
  · rw [hw]
  · rw [hw]
  · rw [hw]

/-- C5: when pass 2 of the configuration holds an entry of section "partitions"
that is classified BIND and whose name matches an fstab record of the raw
filesystem type "emmc", `mbini_handler` aborts on it in whatever state it is
reached, so the load aborts, and `multiboot_main` ends during the parsing:
no call was made, no loop device was created and no record was appended, the
planner never being entered. -/
theorem bind_on_raw_partition_aborts_in_parsing (env : Env)
    (volume_filesystem : Option CStr) (pass1 pass2 : ini_file) (w : World)
    (name value : CStr) (rec : fstab_rec)
    (he : (⟨"partitions".toList, some name, some value⟩ : ini_entry) ∈ pass2.entries)
    (htype : mbini_part_type value = MBPART_TYPE_BIND)
    (hrec : fs_mgr_get_by_name w.md.mbfstab name = some rec)
    (hfs : rec.fs_type = "emmc".toList) :
    (∀ index slots, (mbini_handler env ⟨"partitions".toList, some name, some value⟩ index
        { w with md := { w.md with mbparts := slots } }).aborted = true) ∧
    (multiboot_main_load_config env volume_filesystem pass1 pass2 w).aborted = true ∧
    ∃ msg w1, multiboot_main_from_config env volume_filesystem pass1 pass2 w = .abort msg w1 ∧
      w1.trace = w.trace ∧ w1.loops_created = w.loops_created ∧
      w1.md.replacements = w.md.replacements := by
  have hab : ∀ i w1, config_step w w1 →
      (mbini_handler env ⟨"partitions".toList, some name, some value⟩ i w1).aborted = true := by
    rintro i w1 ⟨f, n, s, rfl⟩
    refine mbini_handler_aborted_of_step env name (some value) i _ (fun v hv => ?_)
    simp only [Option.some.injEq] at hv
    rw [← hv, htype]
    exact mbini_fstab_step_raw env _ _ name rec hrec hfs
  have hload := multiboot_main_load_config_aborted env volume_filesystem pass1 pass2 w _ he hab
  exact ⟨fun index slots => hab index _ ⟨_, _, slots, rfl⟩, hload,
    multiboot_main_from_config_aborted env volume_filesystem pass1 pass2 w hload⟩

/-- C5 at the configuration `system=system.img`, `modem=modem` with a raw
record for /modem. -/
theorem bind_on_raw_partition_aborts_in_parsing_witness :
    (multiboot_main_load_config env_ok (some "ext4".toList)
      ⟨[partition_entry "system" "system.img", partition_entry "modem" "modem"], 0⟩
      ⟨[partition_entry "system" "system.img", partition_entry "modem" "modem"], 0⟩
      (world_start [dev_system, dev_modem]
        [rec_system, { rec_modem with multiboot := true }])).aborted = true :=
  (bind_on_raw_partition_aborts_in_parsing env_ok (some "ext4".toList)
    ⟨[partition_entry "system" "system.img", partition_entry "modem" "modem"], 0⟩
    ⟨[partition_entry "system" "system.img", partition_entry "modem" "modem"], 0⟩
    (world_start [dev_system, dev_modem] [rec_system, { rec_modem with multiboot := true }])
    "modem".toList "modem".toList { rec_modem with multiboot := true }
    (by decide) (by decide) (by decide) (by decide)).2.1


/-! ### C6: BIND needs a boot device that supports bind mounts -/

theorem util_fs_supports_multiboot_bind_loop_eq (type : CStr) (l : List CStr) :
    util_fs_supports_multiboot_bind_loop type l = if type ∈ l then 1 else 0 := by
  induction l with
  | nil => simp [util_fs_supports_multiboot_bind_loop]
  | cons t ts ih =>
    unfold util_fs_supports_multiboot_bind_loop
    by_cases h : t = type
    · simp [h]
    · have h2 : ¬ type = t := fun h3 => h h3.symm
      simp [h, h2, ih]

theorem util_fs_supports_multiboot_bind_eq (type : CStr) :
    util_fs_supports_multiboot_bind type = if type ∈ multiboot_bind_whitelist then 1 else 0 :=
  util_fs_supports_multiboot_bind_loop_eq type multiboot_bind_whitelist

theorem multiboot_main_check_bind_eq (fs : CStr) (w : World) :
    multiboot_main_check_bind (some fs) w = .ok () { w with md := { w.md with
      bootdev_supports_bindmount :=
        if fs ∈ multiboot_bind_whitelist then true else w.md.bootdev_supports_bindmount } } := by
  unfold multiboot_main_check_bind
  dsimp only
  rw [util_fs_supports_multiboot_bind_eq]
  by_cases h : fs ∈ multiboot_bind_whitelist
  · simp [h]
  · simp [h]

theorem mbini_fstab_step_error (env : Env) (mbfstab : List fstab_rec)
    (blockinfo : List uevent_block_t) (name : CStr) (type : mbpart_type) (msg : String)
    (h : mbini_fstab_step env mbfstab blockinfo name type = .error msg) :
    msg = "You can't replace pure UEFI partitions from a multiboot.ini" ∨
    msg = "raw device doesn't support bind mounts" := by
  unfold mbini_fstab_step at h
  split at h
  · split at h
    · simp only [Except.error.injEq] at h
      exact Or.inl h.symm
    · split at h
      · simp only [Except.error.injEq] at h
        exact Or.inr h.symm
      · simp at h
  · simp at h

theorem multiboot_main_verify_mbfstab_ok (recs : List fstab_rec) (w w1 : World)
    (h : multiboot_main_verify_mbfstab recs w = .ok () w1) : w1 = w := by
  induction recs with
  | nil =>
    simp only [multiboot_main_verify_mbfstab, Run.pure, Res.ok.injEq, true_and] at h
    exact h.symm
  | cons rec recs ih =>
    unfold multiboot_main_verify_mbfstab at h
    split at h
    · exact ih h
    · split at h
      · simp at h
      · exact ih h

/-- A load of the configuration that returns, seen from the world it started
in: the bind-mount check set its flag from the allow-list, and the array holds
the entries of section "partitions" of pass 2, in file order, each accepted
under that flag. -/
theorem multiboot_main_load_config_ok (env : Env) (volume_filesystem : Option CStr)
    (pass1 pass2 : ini_file) (w w1 : World) (hn : w.md.num_mbparts < 2 ^ 32)
    (h : multiboot_main_load_config env volume_filesystem pass1 pass2 w = .ok () w1) :
    ∃ (fs : CStr) (ps : List multiboot_partition_t), volume_filesystem = some fs ∧
      w1.md.bootdev_supports_bindmount
        = (if fs ∈ multiboot_bind_whitelist then true else w.md.bootdev_supports_bindmount) ∧
      ps.map (fun p => (some p.name, some p.path))
        = (pass2.entries.filter is_partition_entry).map (fun e => (e.name, e.value)) ∧
      (∀ p ∈ ps, accepted_part env w.md.mbfstab w.md.blockinfo
        w1.md.bootdev_supports_bindmount p) ∧
      ps.length = (w.md.num_mbparts + (pass1.entries.filter is_partition_entry).length) % 2 ^ 32 ∧
      w1.md.num_mbparts = ps.length ∧ w1.md.mbparts = ps.map some ∧
      config_step w w1 := by
  have hk := keeps_multiboot_main_load_config env volume_filesystem pass1 pass2 w
  rw [h] at hk
  unfold multiboot_main_load_config at h
  cases volume_filesystem with
  | none =>
    have hc : multiboot_main_check_bind none w
        = .abort "boot device not mounted (DAFUQ?)" w := rfl
    rw [bind_of_abort _ _ _ _ _ hc] at h
    simp at h
  | some fs =>
    rw [bind_of_ok _ _ _ _ _ (multiboot_main_check_bind_eq fs w)] at h
    cases hp : multiboot_main_parse_ini env pass1 pass2 { w with md := { w.md with
      bootdev_supports_bindmount :=
        if fs ∈ multiboot_bind_whitelist then true else w.md.bootdev_supports_bindmount } } with
    | abort msg w2 =>
      rw [bind_of_abort _ _ _ _ _ hp] at h
      simp at h
    | ok u w2 =>
      rw [bind_of_ok _ _ _ _ _ hp] at h
      have hg : get_data w2 = .ok w2.md w2 := rfl
      rw [bind_of_ok _ _ _ _ _ hg] at h
      have hw := multiboot_main_verify_mbfstab_ok _ _ _ h
      have key := fun hn1 => multiboot_main_parse_ini_ok env pass1 pass2 _ w2 hn1 hp
      obtain ⟨_, _, ps, h1, h2, h3, h4⟩ := key hn
      subst hw
      simp only [Res.world] at hk
      rw [h4] at hk ⊢
      exact ⟨fs, ps, rfl, rfl, h1, h2, h3, rfl, rfl, hk⟩

/-- C6: `mbini_handler` aborts on every entry classified BIND while the boot
device is not marked as supporting bind mounts, and the mark is set only for a
filesystem of the allow-list: with a boot device outside the allow-list a
configuration with a BIND entry does not load. Hence after a load that
returned, a BIND partition in the array implies
`bootdev_supports_bindmount = 1`. On an entry classified LOOP the handler never
takes this abort. -/
theorem bind_needs_bindmount_support (env : Env) (name value : CStr) (index : Nat)
    (w : World) (volume_filesystem : Option CStr) (fs : CStr) (pass1 pass2 : ini_file) :
    (mbini_part_type value = MBPART_TYPE_BIND → w.md.bootdev_supports_bindmount = false →
      (mbini_handler env ⟨"partitions".toList, some name, some value⟩ index w).aborted = true ∧
      (index < w.md.num_mbparts →
        ∃ w1, mbini_handler env ⟨"partitions".toList, some name, some value⟩ index w
          = .abort "Boot device doesn't support bind mounts" w1)) ∧
    (mbini_part_type value = MBPART_TYPE_BIND → w.md.bootdev_supports_bindmount = false →
      fs ∉ multiboot_bind_whitelist →
      (⟨"partitions".toList, some name, some value⟩ : ini_entry) ∈ pass2.entries →
      (multiboot_main_load_config env (some fs) pass1 pass2 w).aborted = true) ∧
    (∀ w1, w.md.num_mbparts < 2 ^ 32 →
      multiboot_main_load_config env volume_filesystem pass1 pass2 w = .ok () w1 →
      ∀ p, some p ∈ w1.md.mbparts → p.type = MBPART_TYPE_BIND →
        w1.md.bootdev_supports_bindmount = true) ∧
    (mbini_part_type value = MBPART_TYPE_LOOP →
      ∀ w1, mbini_handler env ⟨"partitions".toList, some name, some value⟩ index w
        ≠ .abort "Boot device doesn't support bind mounts" w1) := by
  have hA : ∀ i (w0 : World), mbini_part_type value = MBPART_TYPE_BIND →
      w0.md.bootdev_supports_bindmount = false →
      (mbini_handler env ⟨"partitions".toList, some name, some value⟩ i w0).aborted = true := by
    intro i w0 hb hf
    cases hres : mbini_handler env ⟨"partitions".toList, some name, some value⟩ i w0 with
    | abort msg w1 => rfl
    | ok j w1 =>
      rcases mbini_handler_ok env _ i w0 j w1 hres with ⟨hs, _⟩ | ⟨_, _, _, p, _, hvalue, hacc, _⟩
      · exact absurd rfl hs
      · obtain ⟨htype, hflag, _⟩ := hacc
        simp only [Option.some.injEq] at hvalue
        rw [← hvalue, hb] at htype
        rw [hflag htype] at hf
        exact absurd hf (by decide)
  refine ⟨fun hb hf => ⟨hA index w hb hf, fun hi => ?_⟩, ?_, ?_, ?_⟩
  · unfold mbini_handler
    have hi2 : ¬ index ≥ w.md.num_mbparts := by omega
    rw [if_neg (not_not.mpr rfl), if_neg hi2]
    dsimp only
    rw [if_pos ⟨hb, hf⟩]
    exact ⟨_, rfl⟩
  · intro hb hf hfs he
    unfold multiboot_main_load_config
    rw [bind_of_ok _ _ _ _ _ (multiboot_main_check_bind_eq fs w), if_neg hfs]
    refine (bind_aborted _ _ _ ?_).1
    refine multiboot_main_parse_ini_aborted env pass1 pass2 _ (fun w2 h2 => ?_)
    refine ini_handle_entries_aborted env _ _ he 0 w2 (fun i w3 h3 => ?_)
    obtain ⟨n, s, rfl⟩ := Steps.trans h2 (parse_step_of_slots_step h3)
    exact hA i _ hb hf
  · intro w1 hn h p hp hb
    obtain ⟨fs1, ps, _, _, _, hacc, _, _, hslots, _⟩ :=
      multiboot_main_load_config_ok env volume_filesystem pass1 pass2 w w1 hn h
    rw [hslots] at hp
    obtain ⟨q, hq, hqp⟩ := List.mem_map.mp hp
    simp only [Option.some.injEq] at hqp
    subst hqp
    exact (hacc q hq).2.1 hb
  · intro hl w1 h
    unfold mbini_handler at h
    rw [if_neg (not_not.mpr rfl)] at h
    split at h
    · simp only [Res.abort.injEq] at h
      exact absurd h.1 (by decide)
    · dsimp only at h
      rw [if_neg (by rw [hl]; simp)] at h
      split at h
      · rename_i msg hstep
        simp only [Res.abort.injEq] at h
        rcases mbini_fstab_step_error env _ _ _ _ _ hstep with hm | hm
        · rw [hm] at h; exact absurd h.1 (by decide)
        · rw [hm] at h; exact absurd h.1 (by decide)
      · split at h
        · simp only [Res.abort.injEq] at h
          exact absurd h.1 (by decide)
        · simp at h


/-- C6 at the entry `cache=cache` on a boot device formatted vfat. -/
theorem bind_needs_bindmount_support_witness :
    (mbini_handler env_ok (partition_entry "cache" "cache") 0
      (world_start [dev_cache] [rec_cache])).aborted = true ∧
    (multiboot_main_load_config env_ok (some "vfat".toList)
      ⟨[partition_entry "cache" "cache"], 0⟩ ⟨[partition_entry "cache" "cache"], 0⟩
      (world_start [dev_cache] [rec_cache])).aborted = true :=
  ⟨((bind_needs_bindmount_support env_ok "cache".toList "cache".toList 0
      (world_start [dev_cache] [rec_cache]) none "vfat".toList
      ⟨[partition_entry "cache" "cache"], 0⟩ ⟨[partition_entry "cache" "cache"], 0⟩).1
      (by decide) (by decide)).1,
   (bind_needs_bindmount_support env_ok "cache".toList "cache".toList 0
      (world_start [dev_cache] [rec_cache]) none "vfat".toList
      ⟨[partition_entry "cache" "cache"], 0⟩ ⟨[partition_entry "cache" "cache"], 0⟩).2.1
      (by decide) (by decide) (by decide) (by decide)⟩

/-! ### C7: the two passes -/

theorem mbini_handler_slots_above (env : Env) (e : ini_entry) (index : Nat) (w : World) (k : Nat)
    (hk : w.md.num_mbparts ≤ k) :
    (mbini_handler env e index w).world.md.mbparts[k]? = w.md.mbparts[k]? ∧
    (mbini_handler env e index w).world.md.mbparts.length = w.md.mbparts.length := by
  rcases mbini_handler_world env e index w with h | ⟨hi, slot, h⟩
  · rw [h]; exact ⟨rfl, rfl⟩
  · rw [h]
    have hne : index ≠ k := by omega
    simp [List.getElem?_set, hne]

/-- C7: pass 1 sets `num_mbparts` (0 at the start, the count fitting in its 32
bits) to the number of entries of section "partitions"; in pass 2 such an entry
arriving with `index` at (or beyond) `num_mbparts` aborts with the world
unchanged, and no call of the handler changes a slot at a position from
`num_mbparts` on, nor the length of the array; a pass 2 that holds another
number of such entries than pass 1 counted aborts; so a load that returns has
populated exactly `num_mbparts` slots, with the entries of pass 2 in file
order. -/
theorem two_pass_partition_count (env : Env) (pass1 pass2 : ini_file) (w : World)
    (h0 : w.md.num_mbparts = 0)
    (hcount : (pass1.entries.filter is_partition_entry).length < 2 ^ 32) :
    (∃ w1, ini_parse_count pass1 w = .ok pass1.rc w1 ∧
      w1.md.num_mbparts = (pass1.entries.filter is_partition_entry).length) ∧
    (∀ (e : ini_entry) (index : Nat) (w0 : World), e.sec = "partitions".toList →
      index ≥ w0.md.num_mbparts →
      mbini_handler env e index w0 = .abort "Too many partitions" w0) ∧
    (∀ (e : ini_entry) (index : Nat) (w0 : World) (k : Nat), w0.md.num_mbparts ≤ k →
      (mbini_handler env e index w0).world.md.mbparts[k]? = w0.md.mbparts[k]? ∧
      (mbini_handler env e index w0).world.md.mbparts.length = w0.md.mbparts.length) ∧
    ((pass2.entries.filter is_partition_entry).length
        ≠ (pass1.entries.filter is_partition_entry).length →
      (multiboot_main_parse_ini env pass1 pass2 w).aborted = true) ∧
    (∀ w1, multiboot_main_parse_ini env pass1 pass2 w = .ok () w1 →
      w1.md.num_mbparts = (pass1.entries.filter is_partition_entry).length ∧
      w1.md.mbparts.length = w1.md.num_mbparts ∧
      (∀ slot ∈ w1.md.mbparts, slot.isSome = true) ∧
      w1.md.mbparts.map (Option.map (fun p => (some p.name, some p.path)))
        = (pass2.entries.filter is_partition_entry).map (fun e => some (e.name, e.value))) := by
  have hn : w.md.num_mbparts < 2 ^ 32 := by rw [h0]; norm_num
  have hmod : (w.md.num_mbparts + (pass1.entries.filter is_partition_entry).length) % 2 ^ 32
      = (pass1.entries.filter is_partition_entry).length := by
    rw [h0, Nat.zero_add, Nat.mod_eq_of_lt hcount]
  have hok : ∀ w1, multiboot_main_parse_ini env pass1 pass2 w = .ok () w1 →
      ∃ ps : List multiboot_partition_t,
        ps.map (fun p => (some p.name, some p.path))
          = (pass2.entries.filter is_partition_entry).map (fun e => (e.name, e.value)) ∧
        ps.length = (pass1.entries.filter is_partition_entry).length ∧
        w1.md.num_mbparts = ps.length ∧ w1.md.mbparts = ps.map some := by
    intro w1 h
    obtain ⟨_, _, ps, h1, _, h3, h4⟩ := multiboot_main_parse_ini_ok env pass1 pass2 w w1 hn h
    rw [hmod] at h3
    exact ⟨ps, h1, h3, by rw [h4], by rw [h4]⟩
  refine ⟨?_, ?_, ?_, ?_, ?_⟩
  · rw [ini_parse_count_eq pass1 w hn, hmod]
    exact ⟨_, rfl, rfl⟩
  · intro e index w0 hs hi
    exact mbini_handler_too_many env e index w0 hs hi
  · intro e index w0 k hk
    exact mbini_handler_slots_above env e index w0 k hk
  · intro hne
    cases hres : multiboot_main_parse_ini env pass1 pass2 w with
    | abort msg w1 => rfl
    | ok u w1 =>
      obtain ⟨ps, h1, h2, _, _⟩ := hok w1 hres
      have := congrArg List.length h1
      simp only [List.length_map] at this
      omega
  · intro w1 h
    obtain ⟨ps, h1, h2, h3, h4⟩ := hok w1 h
    refine ⟨by rw [h3, h2], by rw [h4, h3, List.length_map], ?_, ?_⟩
    · intro slot hslot
      rw [h4] at hslot
      obtain ⟨p, _, rfl⟩ := List.mem_map.mp hslot
      rfl
    · rw [h4, List.map_map]
      have := congrArg (List.map some) h1
      simp only [List.map_map] at this
      exact this

/-- C7 at the configuration `system=system.img`, `cache=cache`, with an entry of
another section between them. -/
theorem two_pass_partition_count_witness :
    ∃ w1, ini_parse_count
        ⟨[partition_entry "system" "system.img", ⟨"other".toList, some "a".toList, some "b".toList⟩,
          partition_entry "cache" "cache"], 0⟩
        (world_start [dev_system, dev_cache] [rec_system, rec_cache]) = .ok 0 w1 ∧
      w1.md.num_mbparts = 2 :=
  (two_pass_partition_count env_ok
    ⟨[partition_entry "system" "system.img", ⟨"other".toList, some "a".toList, some "b".toList⟩,
      partition_entry "cache" "cache"], 0⟩
    ⟨[partition_entry "system" "system.img", partition_entry "cache" "cache"], 0⟩
    (world_start [dev_system, dev_cache] [rec_system, rec_cache]) (by decide) (by decide)).1

/-! ### C10: names of the configured partitions -/

/-- C10, as amended: after a load of the configuration that returned, the names
of the populated partitions are, in order, the names of the entries of section
"partitions" that pass 2 read; so they are pairwise distinct exactly when the
file lists no name twice there. -/
theorem partition_names_follow_file (env : Env) (pass1 pass2 : ini_file) (w w1 : World)
    (hn : w.md.num_mbparts < 2 ^ 32)
    (h : multiboot_main_parse_ini env pass1 pass2 w = .ok () w1) :
    w1.md.mbparts.map mbpart_name = (pass2.entries.filter is_partition_entry).map (fun e => e.name) ∧
    ((w1.md.mbparts.map mbpart_name).Nodup ↔
      ((pass2.entries.filter is_partition_entry).map (fun e => e.name)).Nodup) := by
  obtain ⟨_, _, ps, h1, _, _, h4⟩ := multiboot_main_parse_ini_ok env pass1 pass2 w w1 hn h
  have hnames : w1.md.mbparts.map mbpart_name
      = (pass2.entries.filter is_partition_entry).map (fun e => e.name) := by
    rw [h4]
    have := congrArg (List.map Prod.fst) h1
    simp only [List.map_map] at this ⊢
    exact this
  exact ⟨hnames, by rw [hnames]⟩

/-- C10, as amended, at the configuration `system=system.img`, `cache=cache`. -/
theorem partition_names_follow_file_witness :
    (multiboot_main_parse_ini env_ok
        ⟨[partition_entry "system" "system.img", partition_entry "cache" "cache"], 0⟩
        ⟨[partition_entry "system" "system.img", partition_entry "cache" "cache"], 0⟩
        (world_counted [dev_system, dev_cache] [rec_system, rec_cache] 0)).world.md.mbparts.map
          mbpart_name
      = [some "system".toList, some "cache".toList] :=
  (partition_names_follow_file env_ok
    ⟨[partition_entry "system" "system.img", partition_entry "cache" "cache"], 0⟩
    ⟨[partition_entry "system" "system.img", partition_entry "cache" "cache"], 0⟩
    (world_counted [dev_system, dev_cache] [rec_system, rec_cache] 0) _ (by decide) (by decide)).1

/-- C10 as stated fails: the configuration that lists `system=system.img` twice
loads, and the two populated partitions have the same name. -/
theorem partition_names_not_unique :
    (multiboot_main_load_config env_ok (some "ext4".toList)
        ⟨[partition_entry "system" "system.img", partition_entry "system" "system.img"], 0⟩
        ⟨[partition_entry "system" "system.img", partition_entry "system" "system.img"], 0⟩
        (world_start [dev_system, dev_userdata] [rec_data, rec_system])).aborted = false ∧
    (multiboot_main_load_config env_ok (some "ext4".toList)
        ⟨[partition_entry "system" "system.img", partition_entry "system" "system.img"], 0⟩
        ⟨[partition_entry "system" "system.img", partition_entry "system" "system.img"], 0⟩
        (world_start [dev_system, dev_userdata] [rec_data, rec_system])).world.md.mbparts.map
          mbpart_name
      = [some "system".toList, some "system".toList] := by
  decide


/-! ### The planner -/

section dataframe

variable {R : World → World → Prop} [DataFrame R]

@[simp]
theorem keeps_prepare_multiboot_data (env : Env) : Run.keeps R (prepare_multiboot_data env) := by
  unfold prepare_multiboot_data
  repeat' first
    | (simp; done)
    | exact fun w => DataFrame.datamedia w _ _
    | refine keeps_bind ?_ (fun _ => ?_) | split | dsimp only

end dataframe

theorem ensures_pure {α : Type} {P Qok Qab : World → Prop} (a : α) (h : ∀ w, P w → Qok w) :
    Run.ensures P (pure a : Run α) Qok Qab := fun w hw => h w hw

theorem ensures_MBABORT {α : Type} {P Qok Qab : World → Prop} (msg : String)
    (h : ∀ w, P w → Qab w) : Run.ensures P (MBABORT msg : Run α) Qok Qab := fun w hw => h w hw

theorem ensures_NULL_DEREF {α : Type} {P Qok Qab : World → Prop}
    (h : ∀ w, P w → Qab w) : Run.ensures P (NULL_DEREF : Run α) Qok Qab := fun w hw => h w hw

theorem ensures_bind {α β : Type} {P M Qok Qab : World → Prop} {m : Run α} {k : α → Run β}
    (hm : Run.ensures P m M Qab) (hk : ∀ a, Run.ensures M (k a) Qok Qab) :
    Run.ensures P (m >>= k) Qok Qab := by
  intro w hw
  have h1 := hm w hw
  show match Run.bind m k w with
    | .ok _ w1 => Qok w1
    | .abort _ w1 => Qab w1
  unfold Run.bind
  cases hmw : m w with
  | ok a w1 =>
    rw [hmw] at h1
    exact hk a w1 h1
  | abort msg w1 =>
    rw [hmw] at h1
    exact h1

/-- An operation that leaves `multiboot_data` as it is keeps it equal to
`d`. -/
theorem ensures_of_same_md {α : Type} {m : Run α} (d : multiboot_data_t)
    (hm : Run.keeps same_md m) :
    Run.ensures (fun w => w.md = d) m (fun w => w.md = d) (fun w => w.md = d) := by
  intro w hw
  have h := hm w
  unfold same_md at h
  cases hmw : m w with
  | ok a w1 => rw [hmw] at h; exact h.trans hw
  | abort msg w1 => rw [hmw] at h; exact h.trans hw

theorem ensures_get_data {β : Type} {Qok Qab : World → Prop} (d : multiboot_data_t)
    {k : multiboot_data_t → Run β}
    (hk : Run.ensures (fun w => w.md = d) (k d) Qok Qab) :
    Run.ensures (fun w => w.md = d) (get_data >>= k) Qok Qab := by
  intro w hw
  have hg : get_data w = .ok w.md w := rfl
  rw [bind_of_ok _ _ _ _ _ hg, hw]
  exact hk w hw

theorem ensures_add_replacement {Qok Qab : World → Prop} (d : multiboot_data_t)
    (r : part_replacement_t)
    (h : ∀ w : World, w.md = d →
      Qok { w with md := { d with replacements := d.replacements ++ [r] } }) :
    Run.ensures (fun w => w.md = d) (add_replacement r) Qok Qab := by
  intro w hw
  have := h w hw
  simp only [add_replacement, modify_data]
  rw [hw]
  exact this

/-- One round of the loop over `mbparts`: when it returns it has appended one
record, which refers to the device of the slot; when it aborts it has left
`multiboot_data` as it was. -/
theorem setup_mbpart_ensures (env : Env) (basedir : CStr)
    (slot : Option multiboot_partition_t) (d : multiboot_data_t) :
    Run.ensures (fun w => w.md = d) (setup_mbpart env basedir slot)
      (fun w1 => ∃ r : part_replacement_t,
        w1.md = { d with replacements := d.replacements ++ [r] } ∧ r.key = slot_key slot ∧
        r.multiboot_part = slot ∧ slot.isSome = true)
      (fun w1 => w1.md = d) := by
  unfold setup_mbpart
  split
  · exact ensures_NULL_DEREF (fun _ h => h)
  · rename_i part
    repeat' first
      | exact ensures_add_replacement d _ (fun w _ => ⟨_, rfl, rfl, rfl, rfl⟩)
      | refine ensures_bind (ensures_of_same_md d ?_) (fun _ => ?_)
      | (simp; done)
      | refine keeps_bind ?_ (fun _ => ?_)
      | split
      | dsimp only


theorem ensures_of_same_md_weak {α : Type} {m : Run α} {Qab : World → Prop}
    (d : multiboot_data_t) (hQ : ∀ w : World, w.md = d → Qab w) (hm : Run.keeps same_md m) :
    Run.ensures (fun w => w.md = d) m (fun w => w.md = d) Qab := by
  intro w hw
  have h := ensures_of_same_md d hm w hw
  cases hmw : m w with
  | ok a w1 => rw [hmw] at h; exact h
  | abort msg w1 => rw [hmw] at h; exact hQ w1 h

/-- The loop over `mbparts` appends, in array order, one record for each slot
of a beginning of the array, and each record has the key of its slot. -/
theorem setup_mbparts_keys (env : Env) (basedir : CStr)
    (slots : List (Option multiboot_partition_t)) (w : World) :
    ∃ n, registry_keys (setup_mbparts env basedir slots w).world
      = registry_keys w ++ (slots.take n).filterMap slot_key := by
  induction slots generalizing w with
  | nil => exact ⟨0, by simp [setup_mbparts, Res.world, pure, Run.pure]⟩
  | cons slot slots ih =>
    unfold setup_mbparts
    have hstep := setup_mbpart_ensures env basedir slot w.md w rfl
    cases hres : setup_mbpart env basedir slot w with
    | abort msg w1 =>
      rw [hres] at hstep
      rw [bind_of_abort _ _ _ _ _ hres]
      refine ⟨0, ?_⟩
      simp only [Res.world, registry_keys, List.take_zero, List.filterMap_nil, List.append_nil]
      rw [hstep]
    | ok u w1 =>
      rw [hres] at hstep
      rw [bind_of_ok _ _ _ _ _ hres]
      obtain ⟨r, hmd, hkey, _, _⟩ := hstep
      obtain ⟨n, hn⟩ := ih w1
      refine ⟨n + 1, ?_⟩
      rw [hn]
      simp only [registry_keys, hmd, List.filterMap_append, List.take_succ_cons,
        List.filterMap_cons, List.filterMap_nil, hkey, List.append_assoc]
      cases slot_key slot <;> simp

theorem util_get_replacement_none (regs : List part_replacement_t) (major minor : Nat)
    (h : ¬ (util_get_replacement regs major minor).isSome = true) :
    (major, minor) ∉ regs.filterMap part_replacement_t.key := by
  intro hmem
  obtain ⟨r, hr, hk⟩ := List.mem_filterMap.mp hmem
  apply h
  unfold util_get_replacement
  rw [List.find?_isSome]
  exact ⟨r, hr, by simp [hk]⟩

/-- One round of the loop over the fstab: when it returns it has left
`multiboot_data` as it was or appended one record whose key was not in the
Registry; when it aborts it has left `multiboot_data` as it was. -/
theorem setup_uefi_rec_ensures (env : Env) (rec : fstab_rec) (d : multiboot_data_t) :
    Run.ensures (fun w => w.md = d) (setup_uefi_rec env rec)
      (fun w1 => w1.md = d ∨ ∃ (r : part_replacement_t) (bi : uevent_block_t),
        w1.md = { d with replacements := d.replacements ++ [r] } ∧
        r.uevent_block = some bi ∧
        get_blockinfo_for_path env d.blockinfo rec.blk_device = some bi ∧
        (bi.major, bi.minor) ∉ d.replacements.filterMap part_replacement_t.key)
      (fun w1 => w1.md = d) := by
  unfold setup_uefi_rec
  split
  · exact ensures_pure _ (fun _ h => Or.inl h)
  · refine ensures_get_data d ?_
    split
    · exact ensures_MBABORT _ (fun _ h => h)
    · rename_i bi hbi
      split
      · exact ensures_pure _ (fun _ h => Or.inl h)
      · rename_i hguard
        repeat' first
          | exact ensures_add_replacement d _ (fun w _ =>
              Or.inr ⟨_, bi, rfl, rfl, hbi, util_get_replacement_none _ _ _ hguard⟩)
          | exact ensures_MBABORT _ (fun _ h => h)
          | refine ensures_bind (ensures_of_same_md d ?_) (fun _ => ?_)
          | (simp; done)
          | refine keeps_bind ?_ (fun _ => ?_)
          | split
          | dsimp only

@[simp]
theorem keeps_keys_setup_uefi_rec (env : Env) (rec : fstab_rec) :
    Run.keeps keys_stay_distinct (setup_uefi_rec env rec) := by
  intro w hnd
  have h := setup_uefi_rec_ensures env rec w.md w rfl
  cases hres : setup_uefi_rec env rec w with
  | abort msg w1 =>
    rw [hres] at h
    simp only [Res.world, registry_keys] at hnd ⊢
    rw [h]; exact hnd
  | ok u w1 =>
    rw [hres] at h
    simp only [Res.world, registry_keys] at hnd ⊢
    rcases h with h | ⟨r, bi, hmd, hub, _, hnot⟩
    · rw [h]; exact hnd
    · rw [hmd]
      have hk : r.key = some (bi.major, bi.minor) := by simp [part_replacement_t.key, hub]
      simp only [List.filterMap_append, List.filterMap_cons, hk, List.filterMap_nil]
      rw [List.nodup_append]
      refine ⟨hnd, List.nodup_singleton _, ?_⟩
      intro a ha hb
      rw [List.mem_singleton] at hb
      rw [hb] at ha
      exact hnot ha

@[simp]
theorem keeps_keys_setup_uefi_recs (env : Env) (recs : List fstab_rec) :
    Run.keeps keys_stay_distinct (setup_uefi_recs env recs) := by
  induction recs with
  | nil => exact keeps_pure _
  | cons rec recs ih =>
    unfold setup_uefi_recs
    exact keeps_bind (keeps_keys_setup_uefi_rec env rec) (fun _ => ih)


theorem ensures_of_keys {α : Type} {m : Run α} (hm : Run.keeps keys_stay_distinct m) :
    Run.ensures (fun w => (registry_keys w).Nodup) m
      (fun w => (registry_keys w).Nodup) (fun w => (registry_keys w).Nodup) := by
  intro w hw
  have h := hm w hw
  cases hmw : m w with
  | ok a w1 => rw [hmw] at h; exact h
  | abort msg w1 => rw [hmw] at h; exact h

theorem ensures_of_same_registry {α : Type} {m : Run α} (Q : List part_replacement_t → Prop)
    (hm : Run.keeps same_registry m) :
    Run.ensures (fun w => Q w.md.replacements) m
      (fun w => Q w.md.replacements) (fun w => Q w.md.replacements) := by
  intro w hw
  have h := hm w
  unfold same_registry at h
  cases hmw : m w with
  | ok a w1 =>
    rw [hmw] at h
    simp only [Res.world] at h
    show Q w1.md.replacements
    rw [h]; exact hw
  | abort msg w1 =>
    rw [hmw] at h
    simp only [Res.world] at h
    show Q w1.md.replacements
    rw [h]; exact hw

theorem ensures_setup_mbparts (env : Env) (basedir : CStr) (d : multiboot_data_t)
    (slots : List (Option multiboot_partition_t)) :
    Run.ensures (fun w => w.md = d) (setup_mbparts env basedir slots)
      (fun w1 => ∃ n, w1.md.replacements.filterMap part_replacement_t.key
        = d.replacements.filterMap part_replacement_t.key ++ (slots.take n).filterMap slot_key)
      (fun w1 => ∃ n, w1.md.replacements.filterMap part_replacement_t.key
        = d.replacements.filterMap part_replacement_t.key ++ (slots.take n).filterMap slot_key) := by
  intro w hw
  obtain ⟨n, hn⟩ := setup_mbparts_keys env basedir slots w
  simp only [registry_keys, hw] at hn
  cases hres : setup_mbparts env basedir slots w with
  | ok a w1 => rw [hres] at hn; exact ⟨n, hn⟩
  | abort msg w1 => rw [hres] at hn; exact ⟨n, hn⟩

/-- The multiboot part of the planner leaves in the Registry the records it
found there and, behind them, records whose keys are those of a beginning of
the array of configured partitions. -/
theorem setup_multiboot_replacements_ensures (env : Env) (d : multiboot_data_t) :
    Run.ensures (fun w => w.md = d) (setup_multiboot_replacements env)
      (fun w1 => ∃ n, w1.md.replacements.filterMap part_replacement_t.key
        = d.replacements.filterMap part_replacement_t.key
          ++ ((d.mbparts.take d.num_mbparts).take n).filterMap slot_key)
      (fun w1 => ∃ n, w1.md.replacements.filterMap part_replacement_t.key
        = d.replacements.filterMap part_replacement_t.key
          ++ ((d.mbparts.take d.num_mbparts).take n).filterMap slot_key) := by
  have h0 : ∀ w : World, w.md = d → ∃ n, w.md.replacements.filterMap part_replacement_t.key
      = d.replacements.filterMap part_replacement_t.key
        ++ ((d.mbparts.take d.num_mbparts).take n).filterMap slot_key :=
    fun w hw => ⟨0, by rw [hw]; simp⟩
  unfold setup_multiboot_replacements
  refine ensures_get_data d ?_
  split
  · exact ensures_NULL_DEREF h0
  · split
    · exact ensures_MBABORT _ h0
    · refine ensures_bind (ensures_of_same_md_weak d h0 (by simp)) (fun _ => ?_)
      refine ensures_bind (ensures_of_same_md_weak d h0 (by simp)) (fun _ => ?_)
      refine ensures_bind (ensures_of_same_md_weak d h0 ?_) (fun _ => ?_)
      · repeat' first | (simp; done) | refine keeps_bind ?_ (fun _ => ?_) | split | dsimp only
      · refine ensures_bind (ensures_setup_mbparts env _ d _) (fun _ => ?_)
        refine ensures_of_same_registry
          (fun regs => ∃ n, regs.filterMap part_replacement_t.key
            = d.replacements.filterMap part_replacement_t.key
              ++ ((d.mbparts.take d.num_mbparts).take n).filterMap slot_key) ?_
        split <;> simp

/-- C9, as amended: the planner started with an empty Registry ends, whether it
returns or aborts, with a Registry in which each (major,minor) key appears at
most once, provided that in multiboot mode the configured partitions were
resolved to devices with pairwise distinct (major,minor); the loop over the
UEFI-tagged records never adds a key that is already there. -/
theorem registry_keys_distinct (env : Env) (w : World)
    (hreg : w.md.replacements = [])
    (hparts : w.md.is_multiboot = true →
      ((w.md.mbparts.take w.md.num_mbparts).filterMap slot_key).Nodup) :
    (registry_keys (setup_partition_replacements env w).world).Nodup := by
  have key : Run.ensures (fun w1 => w1.md = w.md) (setup_partition_replacements env)
      (fun w1 => (registry_keys w1).Nodup) (fun w1 => (registry_keys w1).Nodup) := by
    unfold setup_partition_replacements
    refine ensures_get_data w.md ?_
    refine ensures_bind (M := fun w1 => (registry_keys w1).Nodup) ?_ (fun _ => ?_)
    · split
      · rename_i hmb
        intro w1 hw1
        have h := setup_multiboot_replacements_ensures env w.md w1 hw1
        have hsub : ∀ n, (((w.md.mbparts.take w.md.num_mbparts).take n).filterMap slot_key).Nodup :=
          fun n => List.Nodup.sublist
            (List.Sublist.filterMap _ (List.take_sublist _ _)) (hparts hmb)
        cases hres : setup_multiboot_replacements env w1 with
        | ok a w2 =>
          rw [hres] at h
          obtain ⟨n, hn⟩ := h
          simp only [registry_keys]
          rw [hn, hreg]
          simpa using hsub n
        | abort msg w2 =>
          rw [hres] at h
          obtain ⟨n, hn⟩ := h
          simp only [registry_keys]
          rw [hn, hreg]
          simpa using hsub n
      · exact ensures_pure _ (fun w1 hw1 => by simp [registry_keys, hw1, hreg])
    · refine ensures_of_keys ?_
      repeat' first | (simp; done) | refine keeps_bind ?_ (fun _ => ?_) | split | dsimp only
  have h := key w rfl
  cases hres : setup_partition_replacements env w with
  | ok a w1 => rw [hres] at h; exact h
  | abort msg w1 => rw [hres] at h; exact h


/-- C9, as amended, at the configuration `system=system.img`, `cache=cache`
once it is loaded. -/
theorem registry_keys_distinct_witness :
    (registry_keys (setup_partition_replacements env_ok
      (multiboot_main_load_config env_ok (some "ext4".toList)
        ⟨[partition_entry "system" "system.img", partition_entry "cache" "cache"], 0⟩
        ⟨[partition_entry "system" "system.img", partition_entry "cache" "cache"], 0⟩
        (world_start [dev_system, dev_cache, dev_userdata]
          [rec_data, rec_system, rec_cache])).world).world).Nodup :=
  registry_keys_distinct env_ok _ (by decide) (by decide)

/-- C9 as stated fails: with the configuration `system=system.img`,
`mmcblk0p5=other.img` both names are resolved to the device 179:5 (the first by
its fstab record, the second by its kernel device name), the load and the
planner return, and the Registry holds two records with the key (179,5). -/
theorem registry_keys_not_distinct :
    (multiboot_main_from_config env_ok (some "ext4".toList)
        ⟨[partition_entry "system" "system.img", partition_entry "mmcblk0p5" "other.img"], 0⟩
        ⟨[partition_entry "system" "system.img", partition_entry "mmcblk0p5" "other.img"], 0⟩
        (world_start [dev_system, dev_userdata] [rec_data, rec_system])).aborted = false ∧
    registry_keys (multiboot_main_from_config env_ok (some "ext4".toList)
        ⟨[partition_entry "system" "system.img", partition_entry "mmcblk0p5" "other.img"], 0⟩
        ⟨[partition_entry "system" "system.img", partition_entry "mmcblk0p5" "other.img"], 0⟩
        (world_start [dev_system, dev_userdata] [rec_data, rec_system])).world
      = [(179, 5), (179, 5)] := by
  decide!


/-! ### C8: the double-replacement guard -/

/-- C8: when the loop over the fstab reaches a record (UEFI-tagged or not) whose
device has a (major,minor) for which the Registry already holds a record, the
round returns with the world unchanged: no call was made (no backup image was
looked for or created), the loop counter did not move (no loop device was
allocated) and the Registry is as it was; the loop goes on with the next
record. -/
theorem uefi_record_already_replaced (env : Env) (rec : fstab_rec) (w : World)
    (bi : uevent_block_t) (r : part_replacement_t)
    (hbi : get_blockinfo_for_path env w.md.blockinfo rec.blk_device = some bi)
    (hr : r ∈ w.md.replacements) (hkey : r.key = some (bi.major, bi.minor)) :
    setup_uefi_rec env rec w = .ok () w ∧
    ∀ recs, setup_uefi_recs env (rec :: recs) w = setup_uefi_recs env recs w := by
  have hfound : (util_get_replacement w.md.replacements bi.major bi.minor).isSome = true := by
    unfold util_get_replacement
    rw [List.find?_isSome]
    exact ⟨r, hr, by simp [hkey]⟩
  have hstep : setup_uefi_rec env rec w = .ok () w := by
    unfold setup_uefi_rec
    split
    · rfl
    · have hg : get_data w = .ok w.md w := rfl
      rw [bind_of_ok _ _ _ _ _ hg, hbi]
      dsimp only
      rw [if_pos hfound]
      rfl
  refine ⟨hstep, fun recs => ?_⟩
  show (setup_uefi_rec env rec >>= fun _ => setup_uefi_recs env recs) w = _
  rw [bind_of_ok _ _ _ _ _ hstep]

/-- C8 at the record of /modem, after a configuration override of the modem
partition was provisioned. -/
theorem uefi_record_already_replaced_witness :
    setup_uefi_rec env_ok { rec_modem with multiboot := true }
        { md := { md_start [dev_modem] [{ rec_modem with multiboot := true }] with
            replacements := [mbpart_replacement
              ⟨"modem".toList, "modem.img".toList, MBPART_TYPE_LOOP, some dev_modem⟩
              "/multiboot/bootdev/roms/myrom/modem.img".toList
              "/multiboot/dev/block/loopdev:modem".toList
              (some "/multiboot/bootdev/roms/myrom/modem.img".toList)] },
          loops_created := 1, trace := [] }
      = .ok ()
        { md := { md_start [dev_modem] [{ rec_modem with multiboot := true }] with
            replacements := [mbpart_replacement
              ⟨"modem".toList, "modem.img".toList, MBPART_TYPE_LOOP, some dev_modem⟩
              "/multiboot/bootdev/roms/myrom/modem.img".toList
              "/multiboot/dev/block/loopdev:modem".toList
              (some "/multiboot/bootdev/roms/myrom/modem.img".toList)] },
          loops_created := 1, trace := [] } :=
  (uefi_record_already_replaced env_ok { rec_modem with multiboot := true } _ dev_modem
    (mbpart_replacement
      ⟨"modem".toList, "modem.img".toList, MBPART_TYPE_LOOP, some dev_modem⟩
      "/multiboot/bootdev/roms/myrom/modem.img".toList
      "/multiboot/dev/block/loopdev:modem".toList
      (some "/multiboot/bootdev/roms/myrom/modem.img".toList))
    (by decide) (by decide) (by decide)).1

/-! ### C2: the size of the growth store -/

theorem dynfilefs_size_eq (num_blocks : Nat) :
    dynfilefs_size num_blocks = 512 * min num_blocks 409600 := by
  unfold dynfilefs_size
  have h : min num_blocks (200 * 1024 * 1024 / 512) ≤ 409600 := by
    norm_num
  have h2 : min num_blocks (200 * 1024 * 1024 / 512) * 512 < 2 ^ 64 := by
    have : (409600 : Nat) * 512 < 2 ^ 64 := by norm_num
    omega
  rw [Nat.mod_eq_of_lt h2]
  norm_num
  ring

theorem trace_after_call {α : Type} (m : Run α) (w1 : World) (before : List Event) (e : Event)
    (hw : w1.trace = before ++ [e]) (hm : Run.keeps trace_grows m) :
    ∃ rest, (m w1).world.trace = before ++ e :: rest := by
  obtain ⟨rest, hrest⟩ := hm w1
  refine ⟨rest, ?_⟩
  rw [← hrest, hw]
  simp

/-- C2: for a BIND partition whose device reports `rc = 0` and a non-zero number
`num_blocks` of 512-byte blocks, the first call the planner makes next is the
request of the growth store, with storage `dynstorage:<name>`, mountpoint
`dynmount:<name>` and size `512 * min(num_blocks, 409600)` bytes; a failed size
query or a count of 0 aborts without any request. A device of 10 GiB yields a
request of 200 MiB, a device of 100 MiB one of 100 MiB. The answer `rc`,
`num_blocks` is that of `util_block_num` on the node of the partition's
original device. -/
theorem growth_store_size (env : Env) (part : multiboot_partition_t) (loopdevice : CStr)
    (rc : Int) (num_blocks : Nat) (w : World) :
    dynfilefs_size num_blocks = 512 * min num_blocks 409600 ∧
    (∀ (ub : uevent_block_t) (partpath : CStr) (kind : file_kind),
      part.uevent_block = some ub →
      (env.MBPATH_DEV ++ "/block/".toList ++ ub.devname).length < env.PATH_MAX →
      setup_bind_partition env part partpath loopdevice (.found kind) w
        = (util_block_num env (env.MBPATH_DEV ++ "/block/".toList ++ ub.devname) 0 >>=
            fun r => setup_bind_store env part loopdevice r.1 r.2) w) ∧
    (rc ≠ 0 ∨ num_blocks = 0 →
      setup_bind_store env part loopdevice rc num_blocks w
        = .abort "Can't get size of device" w) ∧
    (rc = 0 → num_blocks ≠ 0 →
      (env.MBPATH_ROOT ++ "/dynmount:".toList ++ part.name).length < env.PATH_MAX →
      (env.MBPATH_ROOT ++ "/dynstorage:".toList ++ part.name).length < env.PATH_MAX →
      ∃ rest, (setup_bind_store env part loopdevice rc num_blocks w).world.trace
        = w.trace ++ Event.util_dynfilefs
            (env.MBPATH_ROOT ++ "/dynstorage:".toList ++ part.name)
            (env.MBPATH_ROOT ++ "/dynmount:".toList ++ part.name)
            (512 * min num_blocks 409600) :: rest) ∧
    dynfilefs_size (10 * 1024 * 1024 * 1024 / 512) = 200 * 1024 * 1024 ∧
    dynfilefs_size (100 * 1024 * 1024 / 512) = 100 * 1024 * 1024 := by
  refine ⟨dynfilefs_size_eq num_blocks, ?_, ?_, ?_, by decide, by decide⟩
  · intro ub partpath kind hub hfit
    unfold setup_bind_partition
    have h0 : (if lstat_result.found kind = lstat_result.enoent then
        (do
          let rc ← util_mkdir env partpath
          abort_if (rc ≠ 0) "Can't create directory")
        else pure ()) w = .ok () w := by
      rw [if_neg (by simp)]
      rfl
    rw [bind_of_ok _ _ _ _ _ h0, hub]
    dsimp only
    have h2 : SAFE_SNPRINTF env (env.MBPATH_DEV ++ "/block/".toList ++ ub.devname) w
        = .ok (env.MBPATH_DEV ++ "/block/".toList ++ ub.devname) w := by
      unfold SAFE_SNPRINTF
      rw [if_neg (by omega)]
    rw [bind_of_ok _ _ _ _ _ h2]
  · intro h
    unfold setup_bind_store
    have h1 : abort_if (rc ≠ 0 ∨ num_blocks = 0) "Can't get size of device" w
        = .abort "Can't get size of device" w := by
      unfold abort_if
      rw [if_pos h]
    rw [bind_of_abort _ _ _ _ _ h1]
  · intro hrc hn hfit1 hfit2
    unfold setup_bind_store
    have h1 : abort_if (rc ≠ 0 ∨ num_blocks = 0) "Can't get size of device" w = .ok () w := by
      unfold abort_if
      rw [if_neg (by simp [hrc, hn])]
    have h2 : SAFE_SNPRINTF env (env.MBPATH_ROOT ++ "/dynmount:".toList ++ part.name) w
        = .ok (env.MBPATH_ROOT ++ "/dynmount:".toList ++ part.name) w := by
      unfold SAFE_SNPRINTF
      rw [if_neg (by omega)]
    have h3 : SAFE_SNPRINTF env (env.MBPATH_ROOT ++ "/dynstorage:".toList ++ part.name) w
        = .ok (env.MBPATH_ROOT ++ "/dynstorage:".toList ++ part.name) w := by
      unfold SAFE_SNPRINTF
      rw [if_neg (by omega)]
    rw [bind_of_ok _ _ _ _ _ h1, bind_of_ok _ _ _ _ _ h2, bind_of_ok _ _ _ _ _ h3]
    have h4 : call (Event.util_dynfilefs (env.MBPATH_ROOT ++ "/dynstorage:".toList ++ part.name)
        (env.MBPATH_ROOT ++ "/dynmount:".toList ++ part.name) (dynfilefs_size num_blocks)) w
        = .ok (w.trace ++ [Event.util_dynfilefs
            (env.MBPATH_ROOT ++ "/dynstorage:".toList ++ part.name)
            (env.MBPATH_ROOT ++ "/dynmount:".toList ++ part.name) (dynfilefs_size num_blocks)])
          { w with trace := w.trace ++ [Event.util_dynfilefs
            (env.MBPATH_ROOT ++ "/dynstorage:".toList ++ part.name)
            (env.MBPATH_ROOT ++ "/dynmount:".toList ++ part.name) (dynfilefs_size num_blocks)] } :=
      rfl
    rw [bind_of_ok _ _ _ _ _ h4, ← dynfilefs_size_eq]
    refine trace_after_call _ _ _ _ rfl ?_
    repeat' first | (simp; done) | refine keeps_bind ?_ (fun _ => ?_) | split | dsimp only


/-- C2 at the partition cache whose device reports the 20971520 blocks of
10 GiB: the request is for 209715200 bytes. -/
theorem growth_store_size_witness :
    ∃ rest, (setup_bind_store env_ok
        ⟨"cache".toList, "cache".toList, MBPART_TYPE_BIND, some dev_cache⟩
        "/multiboot/dev/block/loopdev:cache".toList 0 20971520
        (world_start [dev_cache] [rec_cache])).world.trace
      = (world_start [dev_cache] [rec_cache]).trace ++ Event.util_dynfilefs
          (env_ok.MBPATH_ROOT ++ "/dynstorage:".toList ++ "cache".toList)
          (env_ok.MBPATH_ROOT ++ "/dynmount:".toList ++ "cache".toList)
          (512 * min 20971520 409600) :: rest :=
  (growth_store_size env_ok ⟨"cache".toList, "cache".toList, MBPART_TYPE_BIND, some dev_cache⟩
    "/multiboot/dev/block/loopdev:cache".toList 0 20971520
    (world_start [dev_cache] [rec_cache])).2.2.2.1 rfl (by decide) (by decide) (by decide)


/-! ### C11: loop devices are numbered downwards from 255 -/

theorem util_make_loop_eq (env : Env) (path : CStr) (w : World) :
    util_make_loop env path w
      = .ok (env.rc (w.trace ++ [Event.mknod path true 7 (255 - w.loops_created)]))
          { w with
            trace := w.trace ++ [Event.mknod path true 7 (255 - w.loops_created)],
            loops_created :=
              if env.rc (w.trace ++ [Event.mknod path true 7 (255 - w.loops_created)]) = 0
              then w.loops_created + 1 else w.loops_created } := by
  unfold util_make_loop
  dsimp only
  by_cases h : env.rc (w.trace ++ [Event.mknod path true 7 (255 - w.loops_created)]) = 0
  · rw [if_neg (not_not.mpr h), if_pos h]
  · rw [if_pos h, if_neg h]

theorem created_nodes_append (env : Env) (before a b : List Event) :
    created_nodes env before (a ++ b)
      = created_nodes env before a ++ created_nodes env (before ++ a) b := by
  induction a generalizing before with
  | nil => simp [created_nodes]
  | cons e a ih =>
    show _ ++ created_nodes env (before ++ [e]) (a ++ b) = (_ ++ _) ++ _
    rw [ih, List.append_assoc, List.append_assoc, List.singleton_append]

/-- Allocations one after the other from a counter at `k`: the calls that
succeed create, in order, the nodes 7:(255-k), 7:(255-k-1), ... at the paths
they were given, and the counter advances by their number. -/
theorem make_loops_created (env : Env) (paths : List CStr) (w : World) :
    ∃ (rcs : List Int) (w1 : World) (evs : List Event) (n : Nat),
      make_loops env paths w = .ok rcs w1 ∧ w1.trace = w.trace ++ evs ∧
      w1.loops_created = w.loops_created + n ∧ w1.md = w.md ∧
      rcs.length = paths.length ∧ n = (rcs.filter (fun rc => rc = 0)).length ∧
      (created_nodes env w.trace evs).map (fun x => x.2)
        = (List.range n).map (fun (i : Nat) => ((7 : Int), 255 - (w.loops_created + (i : Int)))) ∧
      (created_nodes env w.trace evs).map (fun x => x.1)
        = ((paths.zip rcs).filter (fun x => x.2 = 0)).map (fun x => x.1) := by
  induction paths generalizing w with
  | nil =>
    exact ⟨[], w, [], 0, rfl, by simp, by simp, rfl, rfl, rfl, by simp [created_nodes],
      by simp [created_nodes]⟩
  | cons path paths ih =>
    obtain ⟨rcs, w1, evs, n, h1, h2, h3, h4, h5, h6, h7, h8⟩ := ih
      { w with
        trace := w.trace ++ [Event.mknod path true 7 (255 - w.loops_created)],
        loops_created :=
          if env.rc (w.trace ++ [Event.mknod path true 7 (255 - w.loops_created)]) = 0
          then w.loops_created + 1 else w.loops_created }
    have hrun : make_loops env (path :: paths) w
        = .ok (env.rc (w.trace ++ [Event.mknod path true 7 (255 - w.loops_created)]) :: rcs) w1 := by
      unfold make_loops
      rw [bind_of_ok _ _ _ _ _ (util_make_loop_eq env path w), bind_of_ok _ _ _ _ _ h1]
      rfl
    by_cases hrc : env.rc (w.trace ++ [Event.mknod path true 7 (255 - w.loops_created)]) = 0
    · refine ⟨_, w1, Event.mknod path true 7 (255 - w.loops_created) :: evs, n + 1, hrun,
        by simp [h2], ?_, h4, by simp [h5], ?_, ?_, ?_⟩
      · rw [h3]; simp only [hrc, if_true]; push_cast; ring
      · simp [hrc, h6]
      · simp only [created_nodes, hrc, if_true, List.singleton_append, List.map_cons]
        dsimp only at h7
        rw [h7, List.range_succ_eq_map]
        simp only [hrc, if_true, List.map_cons, List.map_map, Nat.cast_zero, add_zero]
        refine congrArg _ (List.map_congr_left ?_)
        intro i _
        simp only [Function.comp, Nat.cast_succ, Prod.mk.injEq, true_and]
        ring
      · simp only [created_nodes, hrc, if_true, List.singleton_append, List.map_cons]
        dsimp only at h8
        rw [h8]
        simp [hrc]
    · refine ⟨_, w1, Event.mknod path true 7 (255 - w.loops_created) :: evs, n, hrun,
        by simp [h2], ?_, h4, by simp [h5], ?_, ?_, ?_⟩
      · rw [h3]; simp only [hrc, if_false]
      · simp [hrc, h6]
      · simp only [created_nodes, hrc, if_false, List.nil_append]
        dsimp only at h7
        rw [h7]
        simp only [hrc, if_false]
      · simp only [created_nodes, hrc, if_false, List.nil_append]
        dsimp only at h8
        rw [h8]
        simp [hrc]


/-- Allocations one after the other: each makes one call, the `mknod` of a
block node of major 7 at its path, and returns what that call was answered. -/
theorem make_loops_calls (env : Env) (paths : List CStr) (w : World) :
    ∃ (rcs : List Int) (w1 : World) (evs : List Event),
      make_loops env paths w = .ok rcs w1 ∧ w1.trace = w.trace ++ evs ∧
      evs.length = paths.length ∧
      ∀ (i : Nat) (p : CStr), paths.get? i = some p →
        ∃ minor : Int, evs.get? i = some (Event.mknod p true 7 minor) ∧
          rcs.get? i = some (env.rc (w.trace ++ evs.take (i + 1))) := by
  induction paths generalizing w with
  | nil =>
    refine ⟨[], w, [], rfl, by simp, rfl, ?_⟩
    intro i p h
    cases h
  | cons path paths ih =>
    obtain ⟨rcs, w1, evs, h1, h2, h3, h4⟩ := ih
      { w with
        trace := w.trace ++ [Event.mknod path true 7 (255 - w.loops_created)],
        loops_created :=
          if env.rc (w.trace ++ [Event.mknod path true 7 (255 - w.loops_created)]) = 0
          then w.loops_created + 1 else w.loops_created }
    have hrun : make_loops env (path :: paths) w
        = .ok (env.rc (w.trace ++ [Event.mknod path true 7 (255 - w.loops_created)]) :: rcs) w1 := by
      unfold make_loops
      rw [bind_of_ok _ _ _ _ _ (util_make_loop_eq env path w), bind_of_ok _ _ _ _ _ h1]
      rfl
    refine ⟨_, w1, Event.mknod path true 7 (255 - w.loops_created) :: evs, hrun,
      by simp [h2], by simp [h3], ?_⟩
    intro i p hp
    cases i with
    | zero =>
      obtain rfl : path = p := by simpa using hp
      exact ⟨255 - w.loops_created, rfl, rfl⟩
    | succ i =>
      have hp2 : paths.get? i = some p := by simpa using hp
      obtain ⟨minor, h5, h6⟩ := h4 i p hp2
      refine ⟨minor, by simpa using h5, ?_⟩
      have h7 : w.trace ++ (Event.mknod path true 7 (255 - w.loops_created) :: evs).take (i + 1 + 1)
          = w.trace ++ [Event.mknod path true 7 (255 - w.loops_created)] ++ evs.take (i + 1) := by
        simp
      rw [h7]
      simpa using h6

theorem zip_map_fst_snd {α β : Type} (l : List (α × β)) :
    l = (l.map (fun x => x.1)).zip (l.map (fun x => x.2)) := by
  induction l with
  | nil => rfl
  | cons x l ih =>
    simp only [List.map_cons, List.zip_cons_cons]
    rw [← ih]

/-- C11: at most 256 allocations made one after the other from a fresh counter
return; each has made one call, the `mknod` of a block node of major 7 at the
path it was given, and its result is the answer to that call. The calls among
them that succeed create block nodes numbered downwards from 255: the k-th
successful call (k = 0, 1, ...) creates the node of major 7 and minor 255 - k,
so the minors are pairwise distinct and lie in 0..255, and the counter ends at
the number of successes. When every call succeeds, the nodes created are the
nodes 7:255, 7:254, ... at the paths given, one per path, in call order. -/
theorem loop_minors_count_down (env : Env) (paths : List CStr) (w : World)
    (h0 : w.loops_created = 0) (hN : paths.length ≤ 256) :
    ∃ (rcs : List Int) (w1 : World) (evs : List Event),
      make_loops env paths w = .ok rcs w1 ∧ w1.trace = w.trace ++ evs ∧
      rcs.length = paths.length ∧ evs.length = paths.length ∧
      (∀ (i : Nat) (p : CStr), paths.get? i = some p →
        ∃ minor : Int, evs.get? i = some (Event.mknod p true 7 minor) ∧
          rcs.get? i = some (env.rc (w.trace ++ evs.take (i + 1)))) ∧
      (created_nodes env w.trace evs).map (fun x => x.2)
        = (List.range (created_nodes env w.trace evs).length).map
            (fun (k : Nat) => ((7 : Int), 255 - (k : Int))) ∧
      (created_nodes env w.trace evs).map (fun x => x.1)
        = ((paths.zip rcs).filter (fun x => x.2 = 0)).map (fun x => x.1) ∧
      ((created_nodes env w.trace evs).map (fun x => x.2.2)).Nodup ∧
      (∀ x ∈ created_nodes env w.trace evs, x.2.1 = 7 ∧ 0 ≤ x.2.2 ∧ x.2.2 ≤ 255) ∧
      w1.loops_created = ((created_nodes env w.trace evs).length : Int) ∧
      ((∀ rc ∈ rcs, rc = 0) →
        created_nodes env w.trace evs
          = paths.zip ((List.range paths.length).map
              (fun (k : Nat) => ((7 : Int), 255 - (k : Int))))) := by
  obtain ⟨rcs, w1, evs, n, h1, h2, h3, _, h5, h6, h7, h8⟩ := make_loops_created env paths w
  obtain ⟨rcs2, w2, evs2, g1, g2, g3, g4⟩ := make_loops_calls env paths w
  rw [h1] at g1
  obtain ⟨hr, hw⟩ := Res.ok.inj g1
  subst hr
  subst hw
  have hevs : evs2 = evs := List.append_cancel_left (g2.symm.trans h2)
  subst hevs
  have hlen : (created_nodes env w.trace evs2).length = n := by
    have := congrArg List.length h7
    simpa using this
  have hn : n ≤ 256 := by
    rw [h6]
    exact (List.length_filter_le _ _).trans (h5 ▸ hN)
  have h7b : (created_nodes env w.trace evs2).map (fun x => x.2)
      = (List.range n).map (fun (k : Nat) => ((7 : Int), 255 - (k : Int))) := by
    rw [h7]
    refine List.map_congr_left ?_
    intro i _
    rw [h0, zero_add]
  have hmin : (created_nodes env w.trace evs2).map (fun x => x.2.2)
      = (List.range n).map (fun (k : Nat) => 255 - (k : Int)) := by
    have := congrArg (List.map (fun (x : Int × Int) => x.2)) h7b
    simpa [List.map_map, Function.comp] using this
  refine ⟨rcs, w1, evs2, h1, h2, h5, g3, g4, hlen ▸ h7b, h8, ?_, ?_, ?_, ?_⟩
  · rw [hmin]
    refine (List.nodup_range n).map ?_
    intro a b hab
    have hab2 : 255 - (a : Int) = 255 - (b : Int) := hab
    have : (a : Int) = b := by linarith
    exact_mod_cast this
  · intro x hx
    have hx2 : x.2 ∈ (created_nodes env w.trace evs2).map (fun x => x.2) :=
      List.mem_map_of_mem _ hx
    rw [h7b] at hx2
    obtain ⟨k, hk, hk2⟩ := List.mem_map.mp hx2
    rw [← hk2]
    have hk3 : k < n := List.mem_range.mp hk
    refine ⟨rfl, ?_, ?_⟩
    · show (0 : Int) ≤ 255 - (k : Int)
      omega
    · show 255 - (k : Int) ≤ 255
      omega
  · rw [h3, h0, hlen, zero_add]
  · intro hall
    have hall2 : rcs.filter (fun rc => rc = 0) = rcs := by
      rw [List.filter_eq_self]
      intro x hx
      simpa using hall x hx
    have hn2 : n = paths.length := by rw [h6, hall2, h5]
    have hp : (created_nodes env w.trace evs2).map (fun x => x.1) = paths := by
      rw [h8, List.filter_eq_self.mpr]
      · rw [List.map_fst_zip]
        exact le_of_eq h5.symm
      · intro x hx
        simpa using hall _ (List.of_mem_zip hx).2
    rw [zip_map_fst_snd (created_nodes env w.trace evs2), hp, h7b, hn2]

/-- C11 at three allocations. When every `mknod` succeeds the three calls
return 0 and create the nodes 7:255, 7:254 and 7:253 at the three paths, and
the counter ends at 3; when the second `mknod` fails, the second call returns
-1 and creates nothing, and the third call creates the node 7:254: a failed
call takes no number. -/
theorem loop_minors_count_down_witness :
    (make_loops env_ok ["/dev/a".toList, "/dev/b".toList, "/dev/c".toList] (world_start [] [])
      = .ok [0, 0, 0]
        { world_start [] [] with
          loops_created := 3,
          trace := [Event.mknod "/dev/a".toList true 7 255,
            Event.mknod "/dev/b".toList true 7 254, Event.mknod "/dev/c".toList true 7 253] } ∧
      created_nodes env_ok []
          [Event.mknod "/dev/a".toList true 7 255, Event.mknod "/dev/b".toList true 7 254,
            Event.mknod "/dev/c".toList true 7 253]
        = [("/dev/a".toList, 7, 255), ("/dev/b".toList, 7, 254), ("/dev/c".toList, 7, 253)]) ∧
    (make_loops env_mknod_fails_once ["/dev/a".toList, "/dev/b".toList, "/dev/c".toList]
        (world_start [] [])
      = .ok [0, -1, 0]
        { world_start [] [] with
          loops_created := 2,
          trace := [Event.mknod "/dev/a".toList true 7 255,
            Event.mknod "/dev/b".toList true 7 254, Event.mknod "/dev/c".toList true 7 254] } ∧
      created_nodes env_mknod_fails_once []
          [Event.mknod "/dev/a".toList true 7 255, Event.mknod "/dev/b".toList true 7 254,
            Event.mknod "/dev/c".toList true 7 254]
        = [("/dev/a".toList, 7, 255), ("/dev/c".toList, 7, 254)]) := by
  have hok : make_loops env_ok ["/dev/a".toList, "/dev/b".toList, "/dev/c".toList]
      (world_start [] [])
      = .ok [0, 0, 0]
        { world_start [] [] with
          loops_created := 3,
          trace := [Event.mknod "/dev/a".toList true 7 255,
            Event.mknod "/dev/b".toList true 7 254, Event.mknod "/dev/c".toList true 7 253] } := by
    decide
  refine ⟨⟨hok, ?_⟩, by decide, by decide⟩
  obtain ⟨rcs, w1, evs, h1, h2, -, -, -, -, -, -, -, -, hall⟩ :=
    loop_minors_count_down env_ok ["/dev/a".toList, "/dev/b".toList, "/dev/c".toList]
      (world_start [] []) rfl (by decide)
  rw [hok] at h1
  obtain ⟨hr, hw⟩ := Res.ok.inj h1
  subst hr
  subst hw
  have hevs : evs = [Event.mknod "/dev/a".toList true 7 255,
      Event.mknod "/dev/b".toList true 7 254, Event.mknod "/dev/c".toList true 7 253] := by
    have : ([] : List Event) ++ evs = _ := h2.symm
    simpa [world_start] using this
  have hnodes := hall (by decide)
  rw [hevs] at hnodes
  exact hnodes


/-! ### Operations that set up no loop device -/

theorem quiet_call (e : Event) (h : e.is_loop_setup = false) :
    Run.keeps quiet_step (call e) := by
  intro w
  refine ⟨rfl, rfl, [e], rfl, ?_⟩
  intro x hx
  rw [List.mem_singleton.mp hx]
  exact h

@[simp]
theorem quiet_util_exists (env : Env) (filename : CStr) (follow : Bool) :
    Run.keeps quiet_step (util_exists env filename follow) := by
  unfold util_exists
  repeat' first
    | exact quiet_call _ rfl | (simp; done) | refine keeps_bind ?_ (fun _ => ?_) | split
    | dsimp only

@[simp]
theorem quiet_util_mkdir_loop (env : Env) (ps : List CStr) :
    Run.keeps quiet_step (util_mkdir_loop env ps) := by
  induction ps with
  | nil => exact keeps_pure _
  | cons p ps ih =>
    unfold util_mkdir_loop
    repeat' first
      | exact ih | exact quiet_call _ rfl | (simp; done) | refine keeps_bind ?_ (fun _ => ?_)
      | split | dsimp only

@[simp]
theorem quiet_util_mkdir (env : Env) (dir : CStr) :
    Run.keeps quiet_step (util_mkdir env dir) := by
  unfold util_mkdir
  repeat' first
    | exact quiet_call _ rfl | (simp; done) | refine keeps_bind ?_ (fun _ => ?_) | split
    | dsimp only

@[simp]
theorem quiet_util_get_fstype (env : Env) (filename : CStr) :
    Run.keeps quiet_step (util_get_fstype env filename) := by
  unfold util_get_fstype
  repeat' first
    | exact quiet_call _ rfl | (simp; done) | refine keeps_bind ?_ (fun _ => ?_) | split
    | dsimp only

@[simp]
theorem quiet_util_mount (env : Env) (source target : CStr) (filesystemtype : Option CStr)
    (mountflags : Nat) (data : Option CStr) :
    Run.keeps quiet_step (util_mount env source target filesystemtype mountflags data) := by
  unfold util_mount
  repeat' first
    | exact quiet_call _ rfl | (simp; done) | refine keeps_bind ?_ (fun _ => ?_) | split
    | dsimp only

@[simp]
theorem quiet_SAFE_MOUNT (env : Env) (source target : CStr) (filesystemtype : Option CStr)
    (mountflags : Nat) (data : Option CStr) :
    Run.keeps quiet_step (SAFE_MOUNT env source target filesystemtype mountflags data) := by
  unfold SAFE_MOUNT
  repeat' first
    | exact quiet_call _ rfl | (simp; done) | refine keeps_bind ?_ (fun _ => ?_) | split
    | dsimp only

@[simp]
theorem quiet_SAFE_UMOUNT (env : Env) (target : CStr) :
    Run.keeps quiet_step (SAFE_UMOUNT env target) := by
  unfold SAFE_UMOUNT
  repeat' first
    | exact quiet_call _ rfl | (simp; done) | refine keeps_bind ?_ (fun _ => ?_) | split
    | dsimp only

@[simp]
theorem quiet_util_mkfs (env : Env) (device fstype : CStr) :
    Run.keeps quiet_step (util_mkfs env device fstype) := by
  unfold util_mkfs
  repeat' first
    | exact quiet_call _ rfl | (simp; done) | refine keeps_bind ?_ (fun _ => ?_) | split
    | dsimp only

@[simp]
theorem quiet_util_block_num (env : Env) (path : CStr) (numblocks : Nat) :
    Run.keeps quiet_step (util_block_num env path numblocks) := by
  unfold util_block_num
  repeat' first
    | exact quiet_call _ rfl | (simp; done) | refine keeps_bind ?_ (fun _ => ?_) | split
    | dsimp only

@[simp]
theorem quiet_util_dd (env : Env) (source target : CStr) (blocks : Nat) :
    Run.keeps quiet_step (util_dd env source target blocks) := by
  unfold util_dd
  repeat' first
    | exact quiet_call _ rfl | (simp; done) | refine keeps_bind ?_ (fun _ => ?_) | split
    | dsimp only

@[simp]
theorem quiet_util_create_partition_backup_ex (env : Env) (device file : CStr)
    (num_blocks : Nat) (force : Bool) :
    Run.keeps quiet_step (util_create_partition_backup_ex env device file num_blocks force) := by
  unfold util_create_partition_backup_ex
  repeat' first
    | exact quiet_call _ rfl | (simp; done) | refine keeps_bind ?_ (fun _ => ?_) | split
    | dsimp only

@[simp]
theorem quiet_util_create_partition_backup (env : Env) (device file : CStr) :
    Run.keeps quiet_step (util_create_partition_backup env device file) := by
  unfold util_create_partition_backup
  simp

@[simp]
theorem quiet_util_get_espdir (env : Env) (mountpoint : CStr) :
    Run.keeps quiet_step (util_get_espdir env mountpoint) := by
  unfold util_get_espdir
  repeat' first
    | exact quiet_call _ rfl | (simp; done) | refine keeps_bind ?_ (fun _ => ?_) | split
    | dsimp only

@[simp]
theorem quiet_util_get_esp_path_for_partition (env : Env) (mountpoint : CStr)
    (rec : fstab_rec) :
    Run.keeps quiet_step (util_get_esp_path_for_partition env mountpoint rec) := by
  unfold util_get_esp_path_for_partition
  repeat' first
    | exact quiet_call _ rfl | (simp; done) | refine keeps_bind ?_ (fun _ => ?_) | split
    | dsimp only

@[simp]
theorem quiet_util_getmbpath_from_device (env : Env) (device : CStr) :
    Run.keeps quiet_step (util_getmbpath_from_device env device) := by
  unfold util_getmbpath_from_device
  repeat' first
    | exact quiet_call _ rfl | (simp; done) | refine keeps_bind ?_ (fun _ => ?_) | split
    | dsimp only


/-! ### The calls that set up loop devices -/

theorem loop_log_append (env : Env) (before a b : List Event) :
    loop_log env before (a ++ b)
      = loop_log env before a ++ loop_log env (before ++ a) b := by
  induction a generalizing before with
  | nil => simp [loop_log]
  | cons e a ih =>
    show _ ++ loop_log env (before ++ [e]) (a ++ b) = (_ ++ _) ++ _
    rw [ih, List.append_assoc, List.append_assoc, List.singleton_append]

theorem loop_log_quiet (env : Env) (before evs : List Event)
    (h : ∀ e ∈ evs, e.is_loop_setup = false) : loop_log env before evs = [] := by
  induction evs generalizing before with
  | nil => rfl
  | cons e evs ih =>
    have he : e.is_loop_setup = false := h e (List.mem_cons_self _ _)
    have ht := ih (before ++ [e]) (fun x hx => h x (List.mem_cons_of_mem _ hx))
    simp only [loop_log, he, ht]
    rfl

theorem loop_log_single (env : Env) (before : List Event) (e : Event)
    (h : e.is_loop_setup = true) :
    loop_log env before [e] = [(e, env.rc (before ++ [e]))] := by
  simp only [loop_log, h, if_true, List.append_nil]

theorem at_stage_start (env : Env) (w0 : World) : at_stage env w0 w0.loops_created [] w0 :=
  ⟨rfl, rfl, [], by simp, rfl⟩

theorem at_stage_quiet {env : Env} {w0 w w1 : World} {k : Int} {log : List (Event × Int)}
    (h : at_stage env w0 k log w) (hq : quiet_step w w1) : at_stage env w0 k log w1 := by
  obtain ⟨h1, h2, evs, h3, h4⟩ := h
  obtain ⟨q1, q2, evs2, q3, q4⟩ := hq
  refine ⟨q1.trans h1, q2.trans h2, evs ++ evs2, by rw [q3, h3, List.append_assoc], ?_⟩
  rw [loop_log_append, h4, loop_log_quiet env _ evs2 q4, List.append_nil]

theorem at_stage_logged {env : Env} {w0 w : World} {k : Int} {log : List (Event × Int)}
    (h : at_stage env w0 k log w) (e : Event) (he : e.is_loop_setup = true) (k1 : Int) :
    at_stage env w0 k1 (log ++ [(e, env.rc (w.trace ++ [e]))])
      { w with trace := w.trace ++ [e], loops_created := k1 } := by
  obtain ⟨h1, _, evs, h3, h4⟩ := h
  refine ⟨h1, rfl, evs ++ [e], ?_, ?_⟩
  · show w.trace ++ [e] = _
    rw [h3, List.append_assoc]
  · rw [loop_log_append, h4, loop_log_single env _ e he, h3]

theorem at_stage_aborted {env : Env} {w0 w : World} {k : Int} {log : List (Event × Int)}
    (h : at_stage env w0 k log w) : aborted_from w0 w := by
  obtain ⟨h1, _, evs, h3, _⟩ := h
  exact ⟨h1, ⟨evs, h3.symm⟩⟩

/-! ### Operations with the values they compute -/

theorem run_pure_bind {α β : Type} (a : α) (k : α → Run β) : (pure a >>= k) = k a := rfl

theorem run_bind_assoc {α β γ : Type} (m : Run α) (f : α → Run β) (g : β → Run γ) :
    (m >>= f >>= g) = (m >>= fun a => f a >>= g) := by
  funext w
  show Run.bind (Run.bind m f) g w = Run.bind m (fun a => Run.bind (f a) g) w
  unfold Run.bind
  cases m w <;> rfl

theorem yields_pure {α : Type} {P Qab : World → Prop} {Qok : α → World → Prop} (a : α)
    (h : ∀ w, P w → Qok a w) : Run.yields P (pure a : Run α) Qok Qab := fun w hw => h w hw

theorem yields_MBABORT {α : Type} {P Qab : World → Prop} {Qok : α → World → Prop}
    (msg : String) (h : ∀ w, P w → Qab w) : Run.yields P (MBABORT msg : Run α) Qok Qab :=
  fun w hw => h w hw

theorem yields_NULL_DEREF {α : Type} {P Qab : World → Prop} {Qok : α → World → Prop}
    (h : ∀ w, P w → Qab w) : Run.yields P (NULL_DEREF : Run α) Qok Qab :=
  fun w hw => h w hw

theorem yields_bind {α β : Type} {P Qab : World → Prop} {M : α → World → Prop}
    {Qok : β → World → Prop} {m : Run α} {k : α → Run β}
    (hm : Run.yields P m M Qab) (hk : ∀ a, Run.yields (M a) (k a) Qok Qab) :
    Run.yields P (m >>= k) Qok Qab := by
  intro w hw
  have h1 := hm w hw
  show match Run.bind m k w with
    | .ok a w1 => Qok a w1
    | .abort _ w1 => Qab w1
  unfold Run.bind
  cases hmw : m w with
  | ok a w1 =>
    rw [hmw] at h1
    exact hk a w1 h1
  | abort msg w1 =>
    rw [hmw] at h1
    exact h1

theorem yields_weaken {α : Type} {P P1 Qab Qab1 : World → Prop} {Qok Qok1 : α → World → Prop}
    {m : Run α} (h : Run.yields P1 m Qok1 Qab1) (hP : ∀ w, P w → P1 w)
    (hok : ∀ a w, Qok1 a w → Qok a w) (hab : ∀ w, Qab1 w → Qab w) :
    Run.yields P m Qok Qab := by
  intro w hw
  have h1 := h w (hP w hw)
  cases hmw : m w with
  | ok a w1 => rw [hmw] at h1; exact hok a w1 h1
  | abort msg w1 => rw [hmw] at h1; exact hab w1 h1

section stage

variable {env : Env} {w0 : World} {k : Int} {log : List (Event × Int)}

theorem stage_pure {α : Type} {Qok : α → World → Prop} (a : α)
    (h : ∀ w, at_stage env w0 k log w → Qok a w) :
    Run.yields (at_stage env w0 k log) (pure a : Run α) Qok (aborted_from w0) :=
  fun w hw => h w hw

theorem stage_MBABORT {α : Type} {Qok : α → World → Prop} (msg : String) :
    Run.yields (at_stage env w0 k log) (MBABORT msg : Run α) Qok (aborted_from w0) :=
  fun _ hw => at_stage_aborted hw

theorem stage_NULL_DEREF {α : Type} {Qok : α → World → Prop} :
    Run.yields (at_stage env w0 k log) (NULL_DEREF : Run α) Qok (aborted_from w0) :=
  fun _ hw => at_stage_aborted hw

theorem stage_abort_if {Qok : Unit → World → Prop} (c : Prop) [Decidable c] (msg : String)
    (h : ¬ c → ∀ w, at_stage env w0 k log w → Qok () w) :
    Run.yields (at_stage env w0 k log) (abort_if c msg) Qok (aborted_from w0) := by
  intro w hw
  unfold abort_if
  by_cases hc : c
  · rw [if_pos hc]; exact at_stage_aborted hw
  · rw [if_neg hc]; exact h hc w hw

theorem stage_abort_if_bind {β : Type} {Qok : β → World → Prop} (c : Prop) [Decidable c]
    (msg : String) {kk : Unit → Run β}
    (h : ¬ c → Run.yields (at_stage env w0 k log) (kk ()) Qok (aborted_from w0)) :
    Run.yields (at_stage env w0 k log) (abort_if c msg >>= kk) Qok (aborted_from w0) := by
  intro w hw
  by_cases hc : c
  · have ha : abort_if c msg w = .abort msg w := by unfold abort_if; rw [if_pos hc]
    rw [bind_of_abort _ _ _ _ _ ha]
    exact at_stage_aborted hw
  · have ha : abort_if c msg w = .ok () w := by unfold abort_if; rw [if_neg hc]
    rw [bind_of_ok _ _ _ _ _ ha]
    exact h hc w hw

theorem stage_SNPRINTF_bind {β : Type} {Qok : β → World → Prop} (text : CStr)
    {kk : CStr → Run β}
    (h : Run.yields (at_stage env w0 k log) (kk text) Qok (aborted_from w0)) :
    Run.yields (at_stage env w0 k log) (SAFE_SNPRINTF env text >>= kk) Qok
      (aborted_from w0) := by
  intro w hw
  by_cases hc : text.length ≥ env.PATH_MAX
  · have ha : SAFE_SNPRINTF env text w = .abort "snprintf error" w := by
      unfold SAFE_SNPRINTF; rw [if_pos hc]
    rw [bind_of_abort _ _ _ _ _ ha]
    exact at_stage_aborted hw
  · have ha : SAFE_SNPRINTF env text w = .ok text w := by
      unfold SAFE_SNPRINTF; rw [if_neg hc]
    rw [bind_of_ok _ _ _ _ _ ha]
    exact h w hw

theorem stage_get_data_bind {β : Type} {Qok : β → World → Prop}
    {kk : multiboot_data_t → Run β}
    (h : Run.yields (at_stage env w0 k log) (kk w0.md) Qok (aborted_from w0)) :
    Run.yields (at_stage env w0 k log) (get_data >>= kk) Qok (aborted_from w0) := by
  intro w hw
  have hg : get_data w = .ok w.md w := rfl
  rw [bind_of_ok _ _ _ _ _ hg, hw.1]
  exact h w hw

theorem stage_quiet {α : Type} {m : Run α} (hm : Run.keeps quiet_step m) :
    Run.yields (at_stage env w0 k log) m (fun _ => at_stage env w0 k log)
      (aborted_from w0) := by
  intro w hw
  have h := at_stage_quiet hw (hm w)
  cases hmw : m w with
  | ok a w1 => rw [hmw] at h; exact h
  | abort msg w1 => rw [hmw] at h; exact at_stage_aborted h

theorem stage_quiet_bind {α β : Type} {Qok : β → World → Prop} {m : Run α} {kk : α → Run β}
    (hm : Run.keeps quiet_step m)
    (h : ∀ a, Run.returns_from (at_stage env w0 k log) m a →
      Run.yields (at_stage env w0 k log) (kk a) Qok (aborted_from w0)) :
    Run.yields (at_stage env w0 k log) (m >>= kk) Qok (aborted_from w0) := by
  intro w hw
  have hq := at_stage_quiet hw (hm w)
  cases hmw : m w with
  | ok a w1 =>
    rw [hmw] at hq
    rw [bind_of_ok _ _ _ _ _ hmw]
    exact h a ⟨w, w1, hw, hmw⟩ w1 hq
  | abort msg w1 =>
    rw [hmw] at hq
    rw [bind_of_abort _ _ _ _ _ hmw]
    exact at_stage_aborted hq

theorem stage_make_loop_bind {β : Type} {Qok : β → World → Prop} (path : CStr)
    {kk : Int → Run β}
    (hok : Run.yields
      (at_stage env w0 (k + 1) (log ++ [(Event.mknod path true 7 (255 - k), 0)]))
      (kk 0) Qok (aborted_from w0))
    (hfail : ∀ rc, rc ≠ 0 → Run.yields
      (at_stage env w0 k (log ++ [(Event.mknod path true 7 (255 - k), rc)]))
      (kk rc) Qok (aborted_from w0)) :
    Run.yields (at_stage env w0 k log) (util_make_loop env path >>= kk) Qok
      (aborted_from w0) := by
  intro w hw
  rw [bind_of_ok _ _ _ _ _ (util_make_loop_eq env path w)]
  have hk : w.loops_created = k := hw.2.1
  by_cases hrc : env.rc (w.trace ++ [Event.mknod path true 7 (255 - w.loops_created)]) = 0
  · have hs := at_stage_logged hw (Event.mknod path true 7 (255 - w.loops_created)) rfl
      (w.loops_created + 1)
    rw [hrc] at hs ⊢
    rw [if_pos rfl]
    rw [hk] at hs
    have := hok _ hs
    rw [hk]
    exact this
  · have hs := at_stage_logged hw (Event.mknod path true 7 (255 - w.loops_created)) rfl
      w.loops_created
    rw [if_neg hrc]
    rw [hk] at hs
    have := hfail _ (hk ▸ hrc) _ hs
    rw [hk]
    exact this

theorem stage_losetup_bind {β : Type} {Qok : β → World → Prop} (device file : CStr)
    (ro : Bool) {kk : Int → Run β}
    (h : ∀ rc, Run.yields
      (at_stage env w0 k (log ++ [(Event.util_losetup device file ro, rc)]))
      (kk rc) Qok (aborted_from w0)) :
    Run.yields (at_stage env w0 k log) (util_losetup env device file ro >>= kk) Qok
      (aborted_from w0) := by
  intro w hw
  have hr : util_losetup env device file ro w
      = .ok (env.rc (w.trace ++ [Event.util_losetup device file ro]))
          { w with trace := w.trace ++ [Event.util_losetup device file ro] } := rfl
  rw [bind_of_ok _ _ _ _ _ hr]
  have hs := at_stage_logged hw (Event.util_losetup device file ro) rfl w.loops_created
  rw [hw.2.1] at hs
  have := h _ _ hs
  rw [hw.2.1]
  exact this

theorem stage_cp_bind {β : Type} {Qok : β → World → Prop} (source target : CStr)
    {kk : Int → Run β}
    (h : ∀ rc, Run.yields
      (at_stage env w0 k (log ++ [(Event.util_cp source target, rc)]))
      (kk rc) Qok (aborted_from w0)) :
    Run.yields (at_stage env w0 k log) (util_cp env source target >>= kk) Qok
      (aborted_from w0) := by
  intro w hw
  have hr : util_cp env source target w
      = .ok (env.rc (w.trace ++ [Event.util_cp source target]))
          { w with trace := w.trace ++ [Event.util_cp source target] } := rfl
  rw [bind_of_ok _ _ _ _ _ hr]
  have hs := at_stage_logged hw (Event.util_cp source target) rfl w.loops_created
  rw [hw.2.1] at hs
  have := h _ _ hs
  rw [hw.2.1]
  exact this

theorem stage_add_replacement (r : part_replacement_t) :
    Run.yields (at_stage env w0 k log) (add_replacement r)
      (fun _ => appended_from env w0 r k log) (aborted_from w0) := by
  intro w hw
  obtain ⟨h1, h2, evs, h3, h4⟩ := hw
  refine ⟨?_, h2, evs, h3, h4⟩
  show { w.md with replacements := w.md.replacements ++ [r] } = _
  rw [h1]

end stage


/-! ### The steps of the planner -/

section planner_steps

variable {env : Env} {w0 : World} {k : Int} {log : List (Event × Int)}

theorem setup_loop_partition_yields (partpath loopdevice : CStr) :
    Run.yields (at_stage env w0 k log) (setup_loop_partition env partpath loopdevice)
      (fun lf w => lf = partpath ∧
        at_stage env w0 (k + 1)
          (log ++ [(Event.mknod loopdevice true 7 (255 - k), 0),
            (Event.util_losetup loopdevice partpath false, 0)]) w)
      (aborted_from w0) := by
  unfold setup_loop_partition
  refine stage_make_loop_bind _ ?_ (fun rc hrc => ?_)
  · refine stage_abort_if_bind _ _ (fun _ => ?_)
    dsimp only
    refine stage_losetup_bind _ _ _ (fun rc => ?_)
    refine stage_abort_if_bind _ _ (fun h => ?_)
    obtain rfl := not_not.mp h
    exact stage_pure _ (fun w hw => ⟨rfl, by simpa using hw⟩)
  · exact stage_abort_if_bind _ _ (fun h => absurd hrc h)

theorem setup_bind_store_yields (part : multiboot_partition_t) (loopdevice : CStr)
    (rc : Int) (num_blocks : Nat) :
    Run.yields (at_stage env w0 k log) (setup_bind_store env part loopdevice rc num_blocks)
      (fun _ w =>
        at_stage env w0 (k + 1)
          (log ++ [(Event.mknod loopdevice true 7 (255 - k), 0),
            (Event.util_losetup loopdevice
              (env.MBPATH_ROOT ++ "/dynmount:".toList ++ part.name ++ "/loop.fs".toList)
              false, 0)]) w)
      (aborted_from w0) := by
  unfold setup_bind_store
  refine stage_abort_if_bind _ _ (fun _ => ?_)
  refine stage_SNPRINTF_bind _ ?_
  refine stage_SNPRINTF_bind _ ?_
  refine stage_quiet_bind (quiet_call _ rfl) (fun h _ => ?_)
  refine stage_abort_if_bind _ _ (fun _ => ?_)
  refine stage_SNPRINTF_bind _ ?_
  refine stage_make_loop_bind _ ?_ (fun rc hrc => ?_)
  · refine stage_abort_if_bind _ _ (fun _ => ?_)
    refine stage_losetup_bind _ _ _ (fun rc => ?_)
    refine stage_abort_if_bind _ _ (fun h => ?_)
    obtain rfl := not_not.mp h
    dsimp only
    refine stage_quiet_bind (quiet_util_mkfs _ _ _) (fun _ _ => ?_)
    refine stage_abort_if_bind _ _ (fun _ => ?_)
    refine stage_quiet_bind (quiet_SAFE_MOUNT _ _ _ _ _ _) (fun _ _ => ?_)
    refine stage_quiet_bind (quiet_call _ rfl) (fun _ _ => ?_)
    refine stage_abort_if_bind _ _ (fun _ => ?_)
    refine stage_quiet_bind (quiet_call _ rfl) (fun _ _ => ?_)
    refine yields_weaken (stage_quiet (quiet_SAFE_UMOUNT _ _)) ?_ (fun _ _ h => h)
      (fun _ h => h)
    intro w hw
    simpa using hw
  · exact stage_abort_if_bind _ _ (fun h => absurd hrc h)

theorem setup_bind_partition_yields (part : multiboot_partition_t)
    (partpath loopdevice : CStr) (st : lstat_result) :
    Run.yields (at_stage env w0 k log)
      (setup_bind_partition env part partpath loopdevice st)
      (fun _ w =>
        at_stage env w0 (k + 1)
          (log ++ [(Event.mknod loopdevice true 7 (255 - k), 0),
            (Event.util_losetup loopdevice
              (env.MBPATH_ROOT ++ "/dynmount:".toList ++ part.name ++ "/loop.fs".toList)
              false, 0)]) w)
      (aborted_from w0) := by
  unfold setup_bind_partition
  refine yields_bind (M := fun _ => at_stage env w0 k log) ?_ (fun _ => ?_)
  · split
    · refine stage_quiet_bind (quiet_util_mkdir _ _) (fun _ _ => ?_)
      exact stage_abort_if _ _ (fun _ _ h => h)
    · exact stage_pure _ (fun _ h => h)
  · split
    · exact stage_NULL_DEREF
    · refine stage_SNPRINTF_bind _ ?_
      refine stage_quiet_bind (quiet_util_block_num _ _ _) (fun _ _ => ?_)
      exact setup_bind_store_yields _ _ _ _

end planner_steps


section planner_records

variable {env : Env} {w0 : World} {k : Int} {log : List (Event × Int)}

/-- One round of the loop over `mbparts` for a LOOP partition: one node, one
attachment to the image file, one record. -/
theorem setup_mbpart_loop_yields (basedir : CStr) (part : multiboot_partition_t)
    (hty : part.type = MBPART_TYPE_LOOP) :
    Run.yields (at_stage env w0 k log) (setup_mbpart env basedir (some part))
      (fun _ w =>
        appended_from env w0
          (mbpart_replacement part
            (env.MBPATH_BOOTDEV ++ basedir ++ "/".toList ++ part.path)
            (env.MBPATH_DEV ++ "/block/loopdev:".toList ++ part.name)
            (some (env.MBPATH_BOOTDEV ++ basedir ++ "/".toList ++ part.path)))
          (k + 1)
          (log ++ [(Event.mknod (env.MBPATH_DEV ++ "/block/loopdev:".toList ++ part.name)
              true 7 (255 - k), 0),
            (Event.util_losetup (env.MBPATH_DEV ++ "/block/loopdev:".toList ++ part.name)
              (env.MBPATH_BOOTDEV ++ basedir ++ "/".toList ++ part.path) false, 0)]) w)
      (aborted_from w0) := by
  unfold setup_mbpart
  dsimp only
  refine stage_SNPRINTF_bind _ ?_
  refine stage_SNPRINTF_bind _ ?_
  refine stage_quiet_bind (quiet_call _ rfl) (fun h _ => ?_)
  dsimp only
  refine stage_abort_if_bind _ _ (fun _ => ?_)
  refine stage_abort_if_bind _ _ (fun _ => ?_)
  rw [hty]
  dsimp only
  rw [run_bind_assoc]
  refine yields_bind (setup_loop_partition_yields _ _) (fun lf => ?_)
  intro w hw
  obtain ⟨rfl, hw⟩ := hw
  exact stage_add_replacement _ w hw

/-- One round of the loop over `mbparts` for a BIND partition: one node, one
attachment to the file of the growth store, one record without a loop file. -/
theorem setup_mbpart_bind_yields (basedir : CStr) (part : multiboot_partition_t)
    (hty : part.type = MBPART_TYPE_BIND) :
    Run.yields (at_stage env w0 k log) (setup_mbpart env basedir (some part))
      (fun _ w =>
        appended_from env w0
          (mbpart_replacement part
            (env.MBPATH_BOOTDEV ++ basedir ++ "/".toList ++ part.path)
            (env.MBPATH_DEV ++ "/block/loopdev:".toList ++ part.name) none)
          (k + 1)
          (log ++ [(Event.mknod (env.MBPATH_DEV ++ "/block/loopdev:".toList ++ part.name)
              true 7 (255 - k), 0),
            (Event.util_losetup (env.MBPATH_DEV ++ "/block/loopdev:".toList ++ part.name)
              (env.MBPATH_ROOT ++ "/dynmount:".toList ++ part.name ++ "/loop.fs".toList)
              false, 0)]) w)
      (aborted_from w0) := by
  unfold setup_mbpart
  dsimp only
  refine stage_SNPRINTF_bind _ ?_
  refine stage_SNPRINTF_bind _ ?_
  refine stage_quiet_bind (quiet_call _ rfl) (fun h _ => ?_)
  dsimp only
  refine stage_abort_if_bind _ _ (fun _ => ?_)
  refine stage_abort_if_bind _ _ (fun _ => ?_)
  rw [hty]
  dsimp only
  rw [run_bind_assoc]
  refine yields_bind (setup_bind_partition_yields _ _ _ _) (fun _ => ?_)
  exact stage_add_replacement _

end planner_records


section planner_uefi

variable {env : Env} {w0 : World} {k : Int} {log : List (Event × Int)}

/-- One round of the loop over the fstab: the record is passed over, or its
backup image is ensured, one node is created, the image is copied and the node
attached as the mode demands, and one record is appended. -/
theorem setup_uefi_rec_yields (rec : fstab_rec) :
    Run.yields (at_stage env w0 k log) (setup_uefi_rec env rec)
      (fun _ w => at_stage env w0 k log w ∨
        ∃ (bi : uevent_block_t) (ef dev : CStr),
          fs_mgr_is_uefi rec = true ∧
          get_blockinfo_for_path env w0.md.blockinfo rec.blk_device = some bi ∧
          (util_get_replacement w0.md.replacements bi.major bi.minor).isSome = false ∧
          Run.returns_from (at_stage env w0 k log)
            (util_get_esp_path_for_partition env env.MBPATH_ESP rec) (some ef) ∧
          Run.returns_from (at_stage env w0 k log)
            (util_create_partition_backup env dev ef) 0 ∧
          appended_from env w0
            { loopdevice := env.MBPATH_DEV ++ "/block/loopdev:".toList ++ rec.mount_point.drop 1,
              loopfile := some
                (if w0.md.is_recovery = true ∧ w0.md.is_multiboot = false then
                  env.MBPATH_ROOT ++ "/loopfile:".toList ++ rec.mount_point.drop 1
                else ef),
              losetup_done := if w0.md.is_recovery = true then 1 else 0,
              loop_sync_target :=
                if w0.md.is_recovery = true ∧ w0.md.is_multiboot = false then
                  some (rec.mount_point.drop 1)
                else none,
              multiboot_part := none, multiboot_partpath := none, uevent_block := some bi }
            (k + 1)
            (log ++
              ((if w0.md.is_recovery = true ∧ w0.md.is_multiboot = false then
                  [(Event.util_cp ef
                    (env.MBPATH_ROOT ++ "/loopfile:".toList ++ rec.mount_point.drop 1), (0 : Int))]
                else []) ++
              [(Event.mknod
                  (env.MBPATH_DEV ++ "/block/loopdev:".toList ++ rec.mount_point.drop 1)
                  true 7 (255 - k), (0 : Int))] ++
              (if w0.md.is_recovery = true then
                [(Event.util_losetup
                    (env.MBPATH_DEV ++ "/block/loopdev:".toList ++ rec.mount_point.drop 1)
                    (if w0.md.is_recovery = true ∧ w0.md.is_multiboot = false then
                      env.MBPATH_ROOT ++ "/loopfile:".toList ++ rec.mount_point.drop 1
                    else ef) false, (0 : Int))]
              else []))) w)
      (aborted_from w0) := by
  unfold setup_uefi_rec
  split
  · exact stage_pure _ (fun _ h => Or.inl h)
  · rename_i huefi
    refine stage_get_data_bind ?_
    split
    · exact stage_MBABORT _
    · rename_i bi hbi
      split
      · exact stage_pure _ (fun _ h => Or.inl h)
      · rename_i hguard
        refine stage_quiet_bind (quiet_util_get_esp_path_for_partition _ _ _)
          (fun oef hef => ?_)
        split
        · exact stage_MBABORT _
        · rename_i ef
          refine stage_quiet_bind (quiet_util_getmbpath_from_device _ _) (fun odev _ => ?_)
          split
          · exact stage_MBABORT _
          · rename_i dev hdev
            refine stage_quiet_bind (quiet_util_create_partition_backup _ _ _)
              (fun rc hrc => ?_)
            refine stage_abort_if_bind _ _ (fun h => ?_)
            obtain rfl := not_not.mp h
            refine stage_SNPRINTF_bind _ ?_
            have hu : fs_mgr_is_uefi rec = true := by
              cases hx : fs_mgr_is_uefi rec
              · exact absurd hx huefi
              · rfl
            have hg : (util_get_replacement w0.md.replacements bi.major bi.minor).isSome
                = false := by
              cases hx : (util_get_replacement w0.md.replacements bi.major bi.minor).isSome
              · rfl
              · exact absurd hx hguard
            by_cases hpriv : w0.md.is_recovery = true ∧ w0.md.is_multiboot = false
            · rw [if_pos hpriv]
              simp only [run_bind_assoc]
              refine stage_SNPRINTF_bind _ ?_
              refine stage_cp_bind _ _ (fun rc => ?_)
              refine stage_abort_if_bind _ _ (fun h => ?_)
              obtain rfl := not_not.mp h
              rw [run_pure_bind]
              dsimp only
              refine stage_make_loop_bind _ ?_ (fun rc hrc => ?_)
              · refine stage_abort_if_bind _ _ (fun _ => ?_)
                rw [if_pos hpriv.1]
                simp only [run_bind_assoc]
                refine stage_losetup_bind _ _ _ (fun rc => ?_)
                refine stage_abort_if_bind _ _ (fun h => ?_)
                obtain rfl := not_not.mp h
                rw [run_pure_bind]
                refine yields_weaken (stage_add_replacement _) (fun _ h => h)
                  (fun _ w h => Or.inr ⟨bi, ef, dev, hu, hbi, hg, hef, hrc, ?_⟩) (fun _ h => h)
                simp only [if_pos hpriv, if_pos hpriv.1]
                simpa only [List.append_assoc] using h
              · exact stage_abort_if_bind _ _ (fun h => absurd hrc h)
            · rw [if_neg hpriv]
              rw [run_pure_bind]
              dsimp only
              refine stage_make_loop_bind _ ?_ (fun rc hrc => ?_)
              · refine stage_abort_if_bind _ _ (fun _ => ?_)
                by_cases hr : w0.md.is_recovery = true
                · rw [if_pos hr]
                  simp only [run_bind_assoc]
                  refine stage_losetup_bind _ _ _ (fun rc => ?_)
                  refine stage_abort_if_bind _ _ (fun h => ?_)
                  obtain rfl := not_not.mp h
                  rw [run_pure_bind]
                  refine yields_weaken (stage_add_replacement _) (fun _ h => h)
                    (fun _ w h => Or.inr ⟨bi, ef, dev, hu, hbi, hg, hef, hrc, ?_⟩)
                    (fun _ h => h)
                  simp only [if_neg hpriv, if_pos hr]
                  simpa only [List.append_assoc, List.nil_append] using h
                · rw [if_neg hr]
                  rw [run_pure_bind]
                  refine yields_weaken (stage_add_replacement _) (fun _ h => h)
                    (fun _ w h => Or.inr ⟨bi, ef, dev, hu, hbi, hg, hef, hrc, ?_⟩)
                    (fun _ h => h)
                  simp only [if_neg hpriv, if_neg hr]
                  simpa only [List.append_assoc, List.nil_append, List.append_nil] using h
              · exact stage_abort_if_bind _ _ (fun h => absurd hrc h)

end planner_uefi


/-! ### C12: the loop-device paths of the Registry -/

theorem made_nodes_append (env : Env) (t evs : List Event) :
    made_nodes env (t ++ evs)
      = made_nodes env t ++ (loop_log env t evs).filterMap node_made := by
  unfold made_nodes
  rw [loop_log_append, List.filterMap_append, List.nil_append]

theorem stay_made_of_aborted {env : Env} {w0 w : World} (h : aborted_from w0 w) :
    loopdevices_stay_made env w0 w := by
  intro hm
  obtain ⟨h1, evs, h2⟩ := h
  unfold loopdevices_made registry_loopdevices at *
  rw [h1, ← h2, made_nodes_append]
  exact hm.trans (List.sublist_append_left _ _)

theorem stay_made_of_appended {env : Env} {w0 w : World} {r : part_replacement_t} {k : Int}
    {log : List (Event × Int)} (h : appended_from env w0 r k log w)
    (hl : log.filterMap node_made = [r.loopdevice]) : loopdevices_stay_made env w0 w := by
  intro hm
  obtain ⟨h1, _, evs, h2, h3⟩ := h
  unfold loopdevices_made registry_loopdevices at *
  rw [h1, h2, made_nodes_append, h3, hl]
  show List.Sublist (List.map _ (w0.md.replacements ++ [r])) _
  rw [List.map_append]
  exact List.Sublist.append hm (List.Sublist.refl _)

theorem stay_made_of_frames {α : Type} {env : Env} {m : Run α}
    (h1 : Run.keeps same_registry m) (h2 : Run.keeps trace_grows m) :
    Run.keeps (loopdevices_stay_made env) m := by
  intro w hm
  have a := h1 w
  obtain ⟨evs, b⟩ := h2 w
  unfold loopdevices_made registry_loopdevices at *
  unfold same_registry at a
  rw [a, ← b, made_nodes_append]
  exact hm.trans (List.sublist_append_left _ _)

theorem stay_made_setup_mbpart (env : Env) (basedir : CStr)
    (slot : Option multiboot_partition_t) :
    Run.keeps (loopdevices_stay_made env) (setup_mbpart env basedir slot) := by
  intro w
  cases slot with
  | none => exact fun h => h
  | some part =>
    cases hty : part.type with
    | MBPART_TYPE_LOOP =>
      have h := @setup_mbpart_loop_yields env w w.loops_created [] basedir part hty w
        (at_stage_start env w)
      cases hres : setup_mbpart env basedir (some part) w with
      | ok a w1 =>
        rw [hres] at h
        exact stay_made_of_appended h (by simp [node_made, mbpart_replacement])
      | abort msg w1 =>
        rw [hres] at h
        exact stay_made_of_aborted h
    | MBPART_TYPE_BIND =>
      have h := @setup_mbpart_bind_yields env w w.loops_created [] basedir part hty w
        (at_stage_start env w)
      cases hres : setup_mbpart env basedir (some part) w with
      | ok a w1 =>
        rw [hres] at h
        exact stay_made_of_appended h (by simp [node_made, mbpart_replacement])
      | abort msg w1 =>
        rw [hres] at h
        exact stay_made_of_aborted h

theorem stay_made_setup_mbparts (env : Env) (basedir : CStr)
    (slots : List (Option multiboot_partition_t)) :
    Run.keeps (loopdevices_stay_made env) (setup_mbparts env basedir slots) := by
  induction slots with
  | nil => exact keeps_pure _
  | cons slot slots ih =>
    unfold setup_mbparts
    exact keeps_bind (stay_made_setup_mbpart env basedir slot) (fun _ => ih)

theorem stay_made_setup_uefi_rec (env : Env) (rec : fstab_rec) :
    Run.keeps (loopdevices_stay_made env) (setup_uefi_rec env rec) := by
  intro w
  have h := @setup_uefi_rec_yields env w w.loops_created [] rec w (at_stage_start env w)
  cases hres : setup_uefi_rec env rec w with
  | ok a w1 =>
    rw [hres] at h
    rcases h with h | ⟨bi, ef, dev, _, _, _, _, _, h⟩
    · exact stay_made_of_aborted (at_stage_aborted h)
    · refine stay_made_of_appended h ?_
      by_cases hp : w.md.is_recovery = true ∧ w.md.is_multiboot = false
      · simp [node_made, hp, hp.1]
      · by_cases hr : w.md.is_recovery = true
        · simp [node_made, hp, hr]
        · simp [node_made, hp, hr]
  | abort msg w1 =>
    rw [hres] at h
    exact stay_made_of_aborted h

theorem stay_made_setup_uefi_recs (env : Env) (recs : List fstab_rec) :
    Run.keeps (loopdevices_stay_made env) (setup_uefi_recs env recs) := by
  induction recs with
  | nil => exact keeps_pure _
  | cons rec recs ih =>
    unfold setup_uefi_recs
    exact keeps_bind (stay_made_setup_uefi_rec env rec) (fun _ => ih)

theorem stay_made_setup_partition_replacements (env : Env) :
    Run.keeps (loopdevices_stay_made env) (setup_partition_replacements env) := by
  unfold setup_partition_replacements setup_multiboot_replacements
  repeat' first
    | exact stay_made_setup_mbparts _ _ _
    | exact stay_made_setup_uefi_recs _ _
    | (simp; done)
    | (refine stay_made_of_frames ?_ ?_ <;> (simp; done))
    | refine keeps_bind ?_ (fun _ => ?_)
    | split
    | dsimp only

theorem asked_nodes_append (a b : List Event) :
    asked_nodes (a ++ b) = asked_nodes a ++ asked_nodes b := by
  induction a with
  | nil => rfl
  | cons e a ih =>
    show _ ++ asked_nodes (a ++ b) = (_ ++ asked_nodes a) ++ _
    rw [ih, List.append_assoc]

theorem made_nodes_snoc (env : Env) (t : List Event) (e : Event) :
    made_nodes env (t ++ [e])
      = made_nodes env t ++
        (if env.rc (t ++ [e]) = 0 then asked_nodes [e] else []) := by
  rw [made_nodes_append]
  congr 1
  cases e with
  | mknod path blk major minor =>
    cases blk
    · simp [loop_log, Event.is_loop_setup, asked_nodes]
    · by_cases h : env.rc (t ++ [Event.mknod path true major minor]) = 0
      · simp [loop_log, Event.is_loop_setup, asked_nodes, node_made, h]
      · simp [loop_log, Event.is_loop_setup, asked_nodes, node_made, h]
  | _ => simp [loop_log, Event.is_loop_setup, asked_nodes, node_made]

theorem made_subset_asked (env : Env) (t : List Event) :
    ∀ p ∈ made_nodes env t, p ∈ asked_nodes t := by
  induction t using List.reverseRecOn with
  | nil => intro p hp; simp [made_nodes, loop_log] at hp
  | append_singleton t e ih =>
    intro p hp
    rw [made_nodes_snoc] at hp
    rw [asked_nodes_append]
    rcases List.mem_append.mp hp with h | h
    · exact List.mem_append_left _ (ih p h)
    · refine List.mem_append_right _ ?_
      split at h
      · exact h
      · simp at h

theorem env_rom_rc_mknod (t : List Event) (path : CStr) (major minor : Int) :
    env_rom.rc (t ++ [Event.mknod path true major minor])
      = if path ∈ asked_nodes t then -1 else 0 := by
  simp [env_rom]

/-- In the surroundings `env_rom` no path gets a block node twice. -/
theorem exclusive_nodes_env_rom : exclusive_nodes env_rom := by
  intro t
  induction t using List.reverseRecOn with
  | nil => simp [made_nodes, loop_log]
  | append_singleton t e ih =>
    rw [made_nodes_snoc]
    split
    · rename_i hrc
      cases e with
      | mknod path blk major minor =>
        cases blk
        · simpa [asked_nodes] using ih
        · rw [env_rom_rc_mknod] at hrc
          have hn : path ∉ asked_nodes t := by
            intro hmem
            rw [if_pos hmem] at hrc
            exact absurd hrc (by decide)
          have hm : path ∉ made_nodes env_rom t := fun h => hn (made_subset_asked _ _ _ h)
          show (made_nodes env_rom t ++ [path]).Nodup
          rw [List.nodup_append]
          refine ⟨ih, List.nodup_singleton _, ?_⟩
          intro a ha hb
          rw [List.mem_singleton.mp hb] at ha
          exact hm ha
      | _ => simpa [asked_nodes] using ih
    · simpa using ih

theorem ensures_weaken {α : Type} {m : Run α} {P P1 Qok Qok1 Qab Qab1 : World → Prop}
    (h : Run.ensures P1 m Qok1 Qab1) (hP : ∀ w, P w → P1 w) (hok : ∀ w, Qok1 w → Qok w)
    (hab : ∀ w, Qab1 w → Qab w) : Run.ensures P m Qok Qab := by
  intro w hw
  have h1 := h w (hP w hw)
  cases hmw : m w with
  | ok a w1 => rw [hmw] at h1; exact hok w1 h1
  | abort msg w1 => rw [hmw] at h1; exact hab w1 h1

/-- One round of the loop over `mbparts`: when it returns, the slot held a
partition and the record of that partition was appended; when it aborts,
`multiboot_data` is as it was. -/
theorem setup_mbpart_appends (env : Env) (basedir : CStr)
    (slot : Option multiboot_partition_t) (w : World) :
    match setup_mbpart env basedir slot w with
    | .ok _ w1 => ∃ part, slot = some part ∧
        w1.md = { w.md with replacements := w.md.replacements ++ [mbpart_record env basedir part] }
    | .abort _ w1 => w1.md = w.md := by
  cases slot with
  | none => exact rfl
  | some part =>
    cases hty : part.type with
    | MBPART_TYPE_LOOP =>
      have h := @setup_mbpart_loop_yields env w w.loops_created [] basedir part hty w
        (at_stage_start env w)
      cases hres : setup_mbpart env basedir (some part) w with
      | ok a w1 =>
        rw [hres] at h
        refine ⟨part, rfl, ?_⟩
        rw [h.1]
        simp only [mbpart_record, hty]
      | abort msg w1 =>
        rw [hres] at h
        exact h.1
    | MBPART_TYPE_BIND =>
      have h := @setup_mbpart_bind_yields env w w.loops_created [] basedir part hty w
        (at_stage_start env w)
      cases hres : setup_mbpart env basedir (some part) w with
      | ok a w1 =>
        rw [hres] at h
        refine ⟨part, rfl, ?_⟩
        rw [h.1]
        simp only [mbpart_record, hty]
      | abort msg w1 =>
        rw [hres] at h
        exact h.1

/-- The loop over `mbparts`: when it returns, every slot held a partition and
the records of these partitions were appended in array order. -/
theorem setup_mbparts_appends (env : Env) (basedir : CStr)
    (slots : List (Option multiboot_partition_t)) (w : World) :
    match setup_mbparts env basedir slots w with
    | .ok _ w1 => ∃ parts : List multiboot_partition_t, slots = parts.map some ∧
        w1.md = { w.md with
          replacements := w.md.replacements ++ parts.map (mbpart_record env basedir) }
    | .abort _ _ => True := by
  induction slots generalizing w with
  | nil =>
    refine ⟨[], rfl, ?_⟩
    simp
  | cons slot slots ih =>
    unfold setup_mbparts
    have hstep := setup_mbpart_appends env basedir slot w
    cases hres : setup_mbpart env basedir slot w with
    | abort msg w1 =>
      rw [bind_of_abort _ _ _ _ _ hres]
      trivial
    | ok u w1 =>
      rw [hres] at hstep
      rw [bind_of_ok _ _ _ _ _ hres]
      obtain ⟨part, hslot, hmd⟩ := hstep
      have h2 := ih w1
      cases hres2 : setup_mbparts env basedir slots w1 with
      | abort msg w2 => trivial
      | ok u2 w2 =>
        rw [hres2] at h2
        obtain ⟨parts, hslots, hmd2⟩ := h2
        refine ⟨part :: parts, by rw [hslot, hslots]; rfl, ?_⟩
        rw [hmd2, hmd]
        simp

/-- One round of the loop over the fstab: when it returns, `multiboot_data` is
as it was or one backup record of the fstab record was appended. -/
theorem setup_uefi_rec_appends (env : Env) (rec : fstab_rec) (w : World) :
    match setup_uefi_rec env rec w with
    | .ok _ w1 => w1.md = w.md ∨ ∃ r, is_uefi_record_of env rec r ∧
        w1.md = { w.md with replacements := w.md.replacements ++ [r] }
    | .abort _ w1 => w1.md = w.md := by
  have h := @setup_uefi_rec_yields env w w.loops_created [] rec w (at_stage_start env w)
  cases hres : setup_uefi_rec env rec w with
  | ok a w1 =>
    rw [hres] at h
    rcases h with h | ⟨bi, ef, dev, hu, _, _, _, _, h⟩
    · exact Or.inl h.1
    · refine Or.inr ⟨_, ?_, h.1⟩
      exact ⟨hu, rfl, rfl, rfl, rfl⟩
  | abort msg w1 =>
    rw [hres] at h
    exact h.1

/-- The loop over the fstab: when it returns, backup records of some of the
fstab records were appended, in fstab order. -/
theorem setup_uefi_recs_appends (env : Env) (recs : List fstab_rec) (w : World) :
    match setup_uefi_recs env recs w with
    | .ok _ w1 => ∃ (done : List fstab_rec) (added : List part_replacement_t),
        List.Sublist done recs ∧ List.Forall₂ (is_uefi_record_of env) done added ∧
        w1.md = { w.md with replacements := w.md.replacements ++ added }
    | .abort _ _ => True := by
  induction recs generalizing w with
  | nil =>
    refine ⟨[], [], List.Sublist.refl _, List.Forall₂.nil, ?_⟩
    simp
  | cons rec recs ih =>
    unfold setup_uefi_recs
    have hstep := setup_uefi_rec_appends env rec w
    cases hres : setup_uefi_rec env rec w with
    | abort msg w1 =>
      rw [bind_of_abort _ _ _ _ _ hres]
      trivial
    | ok u w1 =>
      rw [hres] at hstep
      rw [bind_of_ok _ _ _ _ _ hres]
      have h2 := ih w1
      cases hres2 : setup_uefi_recs env recs w1 with
      | abort msg w2 => trivial
      | ok u2 w2 =>
        rw [hres2] at h2
        obtain ⟨done, added, hsub, hall, hmd2⟩ := h2
        rcases hstep with hmd | ⟨r, hr, hmd⟩
        · refine ⟨done, added, List.Sublist.cons _ hsub, hall, ?_⟩
          rw [hmd2, hmd]
        · refine ⟨rec :: done, r :: added, List.Sublist.cons₂ _ hsub,
            List.Forall₂.cons hr hall, ?_⟩
          rw [hmd2, hmd]
          simp


theorem ensures_registry_frame {α : Type} {m : Run α} (Q : List part_replacement_t → Prop)
    (hm : Run.keeps same_registry m) :
    Run.ensures (fun w => Q w.md.replacements) m (fun w => Q w.md.replacements)
      (fun _ => True) :=
  ensures_weaken (ensures_of_same_registry Q hm) (fun _ h => h) (fun _ h => h)
    (fun _ _ => trivial)

theorem ensures_md_frame {α : Type} {m : Run α} (d : multiboot_data_t)
    (hm : Run.keeps same_md m) :
    Run.ensures (fun w => w.md = d) m (fun w => w.md = d) (fun _ => True) :=
  ensures_weaken (ensures_of_same_md d hm) (fun _ h => h) (fun _ h => h)
    (fun _ _ => trivial)

/-- The multiboot part of the planner: when it returns, every slot of the
array held a partition, and the records of these partitions were appended in
array order. -/
theorem setup_multiboot_replacements_appends (env : Env) (d : multiboot_data_t) :
    Run.ensures (fun w => w.md = d) (setup_multiboot_replacements env)
      (fun w1 => ∃ (basedir : CStr) (parts : List multiboot_partition_t),
        d.path.bind env.dirname = some basedir ∧
        d.mbparts.take d.num_mbparts = parts.map some ∧
        w1.md.replacements = d.replacements ++ parts.map (mbpart_record env basedir))
      (fun _ => True) := by
  unfold setup_multiboot_replacements
  refine ensures_get_data d ?_
  split
  · exact ensures_NULL_DEREF (fun _ _ => trivial)
  · rename_i path hpath
    split
    · exact ensures_MBABORT _ (fun _ _ => trivial)
    · rename_i basedir hbase
      refine ensures_bind (ensures_md_frame d (by simp)) (fun _ => ?_)
      refine ensures_bind (ensures_md_frame d (by simp)) (fun _ => ?_)
      refine ensures_bind (ensures_md_frame d ?_) (fun _ => ?_)
      · repeat' first | (simp; done) | refine keeps_bind ?_ (fun _ => ?_) | split | dsimp only
      · refine ensures_bind
          (M := fun w1 => ∃ parts : List multiboot_partition_t,
            d.mbparts.take d.num_mbparts = parts.map some ∧
            w1.md.replacements = d.replacements ++ parts.map (mbpart_record env basedir))
          ?_ (fun _ => ?_)
        · intro w hw
          have h := setup_mbparts_appends env basedir (d.mbparts.take d.num_mbparts) w
          cases hres : setup_mbparts env basedir (d.mbparts.take d.num_mbparts) w with
          | ok a w1 =>
            rw [hres] at h
            obtain ⟨parts, hp, hmd⟩ := h
            exact ⟨parts, hp, by rw [hmd, hw]⟩
          | abort msg w1 => trivial
        · refine ensures_weaken
            (ensures_registry_frame
              (fun regs => ∃ parts : List multiboot_partition_t,
                d.mbparts.take d.num_mbparts = parts.map some ∧
                regs = d.replacements ++ parts.map (mbpart_record env basedir)) ?_)
            (fun _ h => h) ?_ (fun _ h => h)
          · split <;> simp
          · rintro w1 ⟨parts, hp, hr⟩
            exact ⟨basedir, parts, by simp [hpath, hbase], hp, hr⟩

/-- The planner: when it returns, the Registry holds what it held, then the
records of the configured partitions in array order (in multiboot mode), then
backup records of fstab records in fstab order. -/
theorem setup_partition_replacements_appends (env : Env) (w : World) :
    Run.ensures (fun w1 => w1.md = w.md) (setup_partition_replacements env)
      (fun w1 => ∃ (configured : List part_replacement_t) (done : List fstab_rec)
          (backups : List part_replacement_t),
        w1.md.replacements = w.md.replacements ++ configured ++ backups ∧
        (w.md.is_multiboot = true → ∃ (basedir : CStr) (parts : List multiboot_partition_t),
          w.md.path.bind env.dirname = some basedir ∧
          w.md.mbparts.take w.md.num_mbparts = parts.map some ∧
          configured = parts.map (mbpart_record env basedir)) ∧
        (w.md.is_multiboot = false → configured = []) ∧
        List.Sublist done w.md.mbfstab ∧
        List.Forall₂ (is_uefi_record_of env) done backups)
      (fun _ => True) := by
  let Qmid : List part_replacement_t → Prop := fun regs =>
    ∃ configured : List part_replacement_t,
      regs = w.md.replacements ++ configured ∧
      (w.md.is_multiboot = true → ∃ (basedir : CStr) (parts : List multiboot_partition_t),
        w.md.path.bind env.dirname = some basedir ∧
        w.md.mbparts.take w.md.num_mbparts = parts.map some ∧
        configured = parts.map (mbpart_record env basedir)) ∧
      (w.md.is_multiboot = false → configured = [])
  let Qfin : List part_replacement_t → Prop := fun regs =>
    ∃ (configured : List part_replacement_t) (done : List fstab_rec)
        (backups : List part_replacement_t),
      regs = w.md.replacements ++ configured ++ backups ∧
      (w.md.is_multiboot = true → ∃ (basedir : CStr) (parts : List multiboot_partition_t),
        w.md.path.bind env.dirname = some basedir ∧
        w.md.mbparts.take w.md.num_mbparts = parts.map some ∧
        configured = parts.map (mbpart_record env basedir)) ∧
      (w.md.is_multiboot = false → configured = []) ∧
      List.Sublist done w.md.mbfstab ∧
      List.Forall₂ (is_uefi_record_of env) done backups
  show Run.ensures (fun w1 => w1.md = w.md) (setup_partition_replacements env)
    (fun w1 => Qfin w1.md.replacements) (fun _ => True)
  unfold setup_partition_replacements
  refine ensures_get_data w.md ?_
  refine ensures_bind (M := fun w1 => Qmid w1.md.replacements) ?_ (fun _ => ?_)
  · split
    · rename_i hmb
      refine ensures_weaken (setup_multiboot_replacements_appends env w.md) (fun _ h => h) ?_
        (fun _ h => h)
      rintro w1 ⟨basedir, parts, h1, h2, h3⟩
      exact ⟨_, h3, fun _ => ⟨basedir, parts, h1, h2, rfl⟩, fun h => by rw [hmb] at h; cases h⟩
    · rename_i hmb
      refine ensures_pure _ (fun w1 hw1 => ⟨[], by rw [hw1]; simp, fun h => absurd h hmb,
        fun _ => rfl⟩)
  · refine ensures_bind (ensures_registry_frame Qmid ?_) (fun _ => ?_)
    · simp
    refine ensures_bind (ensures_registry_frame Qmid ?_) (fun _ => ?_)
    · simp
    split
    · exact ensures_MBABORT _ (fun _ _ => trivial)
    · refine ensures_bind (ensures_registry_frame Qmid ?_) (fun _ => ?_)
      · simp
      refine ensures_bind (ensures_registry_frame Qmid ?_) (fun _ => ?_)
      · simp
      refine ensures_bind (M := fun w1 => Qfin w1.md.replacements) ?_ (fun _ => ?_)
      · rintro w1 ⟨configured, h1, h2, h3⟩
        have h := setup_uefi_recs_appends env w.md.mbfstab w1
        cases hres : setup_uefi_recs env w.md.mbfstab w1 with
        | ok a w2 =>
          rw [hres] at h
          obtain ⟨done, added, hsub, hall, hmd⟩ := h
          exact ⟨configured, done, added, by rw [hmd, h1], h2, h3, hsub, hall⟩
        | abort msg w2 => trivial
      · refine ensures_bind (ensures_registry_frame Qfin ?_) (fun _ => ?_)
        · split <;> simp
        · exact ensures_pure _ (fun _ h => h)


@[simp]
theorem grows_setup_mbpart (env : Env) (basedir : CStr)
    (slot : Option multiboot_partition_t) :
    Run.keeps registry_grows (setup_mbpart env basedir slot) := by
  intro w
  have h := setup_mbpart_appends env basedir slot w
  unfold registry_grows
  cases hres : setup_mbpart env basedir slot w with
  | ok a w1 =>
    rw [hres] at h
    obtain ⟨part, _, hmd⟩ := h
    show w.md.replacements <+: w1.md.replacements
    rw [hmd]
    exact List.prefix_append _ _
  | abort msg w1 =>
    rw [hres] at h
    show w.md.replacements <+: w1.md.replacements
    rw [h]

@[simp]
theorem grows_setup_mbparts (env : Env) (basedir : CStr)
    (slots : List (Option multiboot_partition_t)) :
    Run.keeps registry_grows (setup_mbparts env basedir slots) := by
  induction slots with
  | nil => exact keeps_pure _
  | cons slot slots ih =>
    unfold setup_mbparts
    exact keeps_bind (grows_setup_mbpart env basedir slot) (fun _ => ih)

@[simp]
theorem grows_setup_uefi_rec (env : Env) (rec : fstab_rec) :
    Run.keeps registry_grows (setup_uefi_rec env rec) := by
  intro w
  have h := setup_uefi_rec_appends env rec w
  unfold registry_grows
  cases hres : setup_uefi_rec env rec w with
  | ok a w1 =>
    rw [hres] at h
    show w.md.replacements <+: w1.md.replacements
    rcases h with h | ⟨r, _, hmd⟩
    · rw [h]
    · rw [hmd]
      exact List.prefix_append _ _
  | abort msg w1 =>
    rw [hres] at h
    show w.md.replacements <+: w1.md.replacements
    rw [h]

@[simp]
theorem grows_setup_uefi_recs (env : Env) (recs : List fstab_rec) :
    Run.keeps registry_grows (setup_uefi_recs env recs) := by
  induction recs with
  | nil => exact keeps_pure _
  | cons rec recs ih =>
    unfold setup_uefi_recs
    exact keeps_bind (grows_setup_uefi_rec env rec) (fun _ => ih)

theorem grows_setup_partition_replacements (env : Env) :
    Run.keeps registry_grows (setup_partition_replacements env) := by
  unfold setup_partition_replacements setup_multiboot_replacements
  repeat' first | (simp; done) | refine keeps_bind ?_ (fun _ => ?_) | split | dsimp only

/-- C13: the Registry is appended to only, and in order. Whatever the outcome
of the planner and of each round of its two loops, the Registry before is the
beginning of the Registry after. When the planner returns, the Registry holds
what it held, then, in multiboot mode, exactly one record for each configured
partition in configuration order (the i-th of them refers to the i-th
partition), then backup records of UEFI-tagged fstab records in fstab order. For
the configuration `system=system.img`, `cache=cache` with a UEFI record for
/modem the planner returns and the Registry refers to system, to cache and to no
configured partition, in this order. -/
theorem registry_appended_in_order (env : Env) (w : World) :
    registry_grows w (setup_partition_replacements env w).world ∧
    (∀ (basedir : CStr) (slot : Option multiboot_partition_t) (w0 : World),
      registry_grows w0 (setup_mbpart env basedir slot w0).world) ∧
    (∀ (rec : fstab_rec) (w0 : World), registry_grows w0 (setup_uefi_rec env rec w0).world) ∧
    (∀ (v : Int) (w1 : World), setup_partition_replacements env w = .ok v w1 →
      ∃ (configured : List part_replacement_t) (done : List fstab_rec)
          (backups : List part_replacement_t),
        w1.md.replacements = w.md.replacements ++ configured ++ backups ∧
        (w.md.is_multiboot = true →
          configured.map (fun r => r.multiboot_part) = w.md.mbparts.take w.md.num_mbparts ∧
          ∃ (basedir : CStr) (parts : List multiboot_partition_t),
            w.md.path.bind env.dirname = some basedir ∧
            w.md.mbparts.take w.md.num_mbparts = parts.map some ∧
            configured = parts.map (mbpart_record env basedir)) ∧
        (w.md.is_multiboot = false → configured = []) ∧
        List.Sublist done w.md.mbfstab ∧
        List.Forall₂ (is_uefi_record_of env) done backups) ∧
    ((setup_partition_replacements env_rom
        (multiboot_main_load_config env_rom (some "ext4".toList)
          ⟨[partition_entry "system" "system.img", partition_entry "cache" "cache"], 0⟩
          ⟨[partition_entry "system" "system.img", partition_entry "cache" "cache"], 0⟩
          (world_start [dev_system, dev_cache, dev_userdata, dev_modem]
            [rec_data, rec_system, rec_cache, rec_modem])).world).aborted = false ∧
      (setup_partition_replacements env_rom
        (multiboot_main_load_config env_rom (some "ext4".toList)
          ⟨[partition_entry "system" "system.img", partition_entry "cache" "cache"], 0⟩
          ⟨[partition_entry "system" "system.img", partition_entry "cache" "cache"], 0⟩
          (world_start [dev_system, dev_cache, dev_userdata, dev_modem]
            [rec_data, rec_system, rec_cache, rec_modem])).world).world.md.replacements.map
        (fun r => r.multiboot_part.map (fun p => p.name))
        = [some "system".toList, some "cache".toList, none]) := by
  refine ⟨grows_setup_partition_replacements env w,
    fun basedir slot w0 => grows_setup_mbpart env basedir slot w0,
    fun rec w0 => grows_setup_uefi_rec env rec w0, ?_, by decide!⟩
  intro v w1 hres
  have h := setup_partition_replacements_appends env w w rfl
  rw [hres] at h
  obtain ⟨configured, done, backups, h1, h2, h3, h4, h5⟩ := h
  refine ⟨configured, done, backups, h1, ?_, h3, h4, h5⟩
  intro hmb
  obtain ⟨basedir, parts, p1, p2, p3⟩ := h2 hmb
  refine ⟨?_, basedir, parts, p1, p2, p3⟩
  rw [p3, p2, List.map_map]
  rfl


/-! ### C14: when the loop device is attached -/

theorem mem_loop_log_of_mem (env : Env) (before evs : List Event) (e : Event)
    (he : e ∈ evs) (hs : e.is_loop_setup = true) :
    ∃ rc, (e, rc) ∈ loop_log env before evs := by
  induction evs generalizing before with
  | nil => cases he
  | cons x evs ih =>
    rcases List.mem_cons.mp he with h | h
    · refine ⟨env.rc (before ++ [x]), ?_⟩
      rw [← h]
      simp only [loop_log, hs, if_true]
      exact List.mem_append_left _ (List.mem_singleton.mpr rfl)
    · obtain ⟨rc, hrc⟩ := ih (before ++ [x]) h
      exact ⟨rc, List.mem_append_right _ hrc⟩

/-- A round for a record that is tagged UEFI, whose device is in the catalog and
has no record in the Registry yet: when it returns, it has appended a record. -/
theorem setup_uefi_rec_needed (env : Env) (rec : fstab_rec) (d : multiboot_data_t)
    (bi : uevent_block_t) (hu : fs_mgr_is_uefi rec = true)
    (hbi : get_blockinfo_for_path env d.blockinfo rec.blk_device = some bi)
    (hg : (util_get_replacement d.replacements bi.major bi.minor).isSome = false) :
    Run.ensures (fun w => w.md = d) (setup_uefi_rec env rec)
      (fun w1 => ∃ r, w1.md = { d with replacements := d.replacements ++ [r] })
      (fun w1 => w1.md = d) := by
  unfold setup_uefi_rec
  rw [if_neg (by rw [hu]; decide)]
  refine ensures_get_data d ?_
  rw [hbi]
  dsimp only
  rw [if_neg (by rw [hg]; decide)]
  repeat' first
    | exact ensures_add_replacement d _ (fun w _ => ⟨_, rfl⟩)
    | exact ensures_MBABORT _ (fun _ h => h)
    | refine ensures_bind (ensures_of_same_md d ?_) (fun _ => ?_)
    | (simp; done)
    | refine keeps_bind ?_ (fun _ => ?_)
    | split
    | dsimp only

/-- One round of the loop over the fstab, by cases. The round passes over the
record, with no call and the world as it was, exactly when the record is not
tagged UEFI or its device has a record in the Registry already; it aborts when
the device is not in the catalog; for every other record it aborts or ensures
the backup image, creates one node, copies the image and attaches the node as
the mode demands, and appends one record. -/
theorem setup_uefi_rec_round (env : Env) (rec : fstab_rec) (w : World) :
    match setup_uefi_rec env rec w with
    | .ok _ w1 =>
        (w1 = w ∧ (fs_mgr_is_uefi rec = false ∨
          ∃ bi, get_blockinfo_for_path env w.md.blockinfo rec.blk_device = some bi ∧
            (util_get_replacement w.md.replacements bi.major bi.minor).isSome = true)) ∨
        ∃ (bi : uevent_block_t) (ef dev : CStr),
          fs_mgr_is_uefi rec = true ∧
          get_blockinfo_for_path env w.md.blockinfo rec.blk_device = some bi ∧
          (util_get_replacement w.md.replacements bi.major bi.minor).isSome = false ∧
          Run.returns_from (at_stage env w w.loops_created [])
            (util_get_esp_path_for_partition env env.MBPATH_ESP rec) (some ef) ∧
          Run.returns_from (at_stage env w w.loops_created [])
            (util_create_partition_backup env dev ef) 0 ∧
          appended_from env w
            { loopdevice := env.MBPATH_DEV ++ "/block/loopdev:".toList ++ rec.mount_point.drop 1,
              loopfile := some
                (if w.md.is_recovery = true ∧ w.md.is_multiboot = false then
                  env.MBPATH_ROOT ++ "/loopfile:".toList ++ rec.mount_point.drop 1
                else ef),
              losetup_done := if w.md.is_recovery = true then 1 else 0,
              loop_sync_target :=
                if w.md.is_recovery = true ∧ w.md.is_multiboot = false then
                  some (rec.mount_point.drop 1)
                else none,
              multiboot_part := none, multiboot_partpath := none, uevent_block := some bi }
            (w.loops_created + 1)
            ([] ++
              ((if w.md.is_recovery = true ∧ w.md.is_multiboot = false then
                  [(Event.util_cp ef
                    (env.MBPATH_ROOT ++ "/loopfile:".toList ++ rec.mount_point.drop 1), (0 : Int))]
                else []) ++
              [(Event.mknod
                  (env.MBPATH_DEV ++ "/block/loopdev:".toList ++ rec.mount_point.drop 1)
                  true 7 (255 - w.loops_created), (0 : Int))] ++
              (if w.md.is_recovery = true then
                [(Event.util_losetup
                    (env.MBPATH_DEV ++ "/block/loopdev:".toList ++ rec.mount_point.drop 1)
                    (if w.md.is_recovery = true ∧ w.md.is_multiboot = false then
                      env.MBPATH_ROOT ++ "/loopfile:".toList ++ rec.mount_point.drop 1
                    else ef) false, (0 : Int))]
              else []))) w1
    | .abort _ w1 => aborted_from w w1 := by
  have h := @setup_uefi_rec_yields env w w.loops_created [] rec w (at_stage_start env w)
  cases hres : setup_uefi_rec env rec w with
  | abort msg w1 =>
    rw [hres] at h
    exact h
  | ok a w1 =>
    rw [hres] at h
    rcases h with h | h
    · left
      by_cases hu : fs_mgr_is_uefi rec = false
      · have hskip : setup_uefi_rec env rec w = .ok () w := by
          unfold setup_uefi_rec
          rw [if_pos hu]
          rfl
        rw [hskip] at hres
        exact ⟨((Res.ok.inj hres).2).symm, Or.inl hu⟩
      · have hu2 : fs_mgr_is_uefi rec = true := by
          cases hx : fs_mgr_is_uefi rec
          · exact absurd hx hu
          · rfl
        cases hbi : get_blockinfo_for_path env w.md.blockinfo rec.blk_device with
        | none =>
          exfalso
          have hgd : get_data w = .ok w.md w := rfl
          unfold setup_uefi_rec at hres
          rw [if_neg hu, bind_of_ok _ _ _ _ _ hgd, hbi] at hres
          cases hres
        | some bi =>
          by_cases hg : (util_get_replacement w.md.replacements bi.major bi.minor).isSome = true
          · have hskip : setup_uefi_rec env rec w = .ok () w := by
              have hgd : get_data w = .ok w.md w := rfl
              unfold setup_uefi_rec
              rw [if_neg hu, bind_of_ok _ _ _ _ _ hgd, hbi]
              dsimp only
              rw [if_pos hg]
              rfl
            rw [hskip] at hres
            exact ⟨((Res.ok.inj hres).2).symm, Or.inr ⟨bi, rfl, hg⟩⟩
          · exfalso
            have hg2 : (util_get_replacement w.md.replacements bi.major bi.minor).isSome
                = false := by
              cases hx : (util_get_replacement w.md.replacements bi.major bi.minor).isSome
              · rfl
              · exact absurd hx hg
            have hn := setup_uefi_rec_needed env rec w.md bi hu2 hbi hg2 w rfl
            rw [hres] at hn
            obtain ⟨r, hr⟩ := hn
            rw [h.1] at hr
            have hlen := congrArg (fun m : multiboot_data_t => m.replacements.length) hr
            simp at hlen
    · right
      exact h

/-- C14: a round of the loop over the fstab passes over a record, leaving the
world as it is, exactly when the record is not tagged UEFI or its device has a
record in the Registry already. For every other record a round that returns has
appended a backup record of the device of the record; it has attached the loop
device, to the loop file of the record and with success, and the record is
flagged `losetup_done = 1` exactly when the process is in recovery mode; in
platform-boot mode it has called no `util_losetup` at all and the record has
`losetup_done = 0`. A round of the loop over the configured partitions that
returns has attached the loop device of its record, with success, and the
record has `losetup_done = 1`. -/
theorem attachment_follows_mode (env : Env) (w : World) :
    (∀ rec : fstab_rec,
      match setup_uefi_rec env rec w with
      | .ok _ w1 =>
          (w1 = w ∧ (fs_mgr_is_uefi rec = false ∨
            ∃ bi, get_blockinfo_for_path env w.md.blockinfo rec.blk_device = some bi ∧
              (util_get_replacement w.md.replacements bi.major bi.minor).isSome = true)) ∨
          ∃ (bi : uevent_block_t) (r : part_replacement_t) (evs : List Event),
            get_blockinfo_for_path env w.md.blockinfo rec.blk_device = some bi ∧
            (util_get_replacement w.md.replacements bi.major bi.minor).isSome = false ∧
            is_uefi_record_of env rec r ∧ r.uevent_block = some bi ∧
            w1.md = { w.md with replacements := w.md.replacements ++ [r] } ∧
            w1.trace = w.trace ++ evs ∧
            (w.md.is_recovery = true →
              r.losetup_done = 1 ∧ ∃ file, r.loopfile = some file ∧
                (Event.util_losetup r.loopdevice file false, 0) ∈ loop_log env w.trace evs) ∧
            (w.md.is_recovery = false →
              r.losetup_done = 0 ∧ ∀ device file ro, Event.util_losetup device file ro ∉ evs)
      | .abort _ w1 => w1.md = w.md) ∧
    (∀ (basedir : CStr) (part : multiboot_partition_t),
      match setup_mbpart env basedir (some part) w with
      | .ok _ w1 => ∃ evs : List Event,
          w1.md = { w.md with
            replacements := w.md.replacements ++ [mbpart_record env basedir part] } ∧
          (mbpart_record env basedir part).losetup_done = 1 ∧
          w1.trace = w.trace ++ evs ∧
          ∃ file, (Event.util_losetup (mbpart_record env basedir part).loopdevice file false, 0)
            ∈ loop_log env w.trace evs
      | .abort _ w1 => w1.md = w.md) := by
  constructor
  · intro rec
    have h := setup_uefi_rec_round env rec w
    cases hres : setup_uefi_rec env rec w with
    | abort msg w1 =>
      rw [hres] at h
      exact h.1
    | ok a w1 =>
      rw [hres] at h
      rcases h with h | ⟨bi, ef, dev, hu, hbi, hg, _, _, hmd, _, evs, htr, hlog⟩
      · exact Or.inl h
      · refine Or.inr ⟨bi, _, evs, hbi, hg, ?_, rfl, hmd, htr, ?_, ?_⟩
        · exact ⟨hu, rfl, rfl, rfl, rfl⟩
        · intro hr
          refine ⟨by simp only [hr, if_true], _, rfl, ?_⟩
          rw [hlog]
          simp [hr]
        · intro hr
          refine ⟨by simp [hr], ?_⟩
          intro device file ro hmem
          obtain ⟨rc, hrc⟩ := mem_loop_log_of_mem env w.trace evs _ hmem rfl
          rw [hlog] at hrc
          simp [hr] at hrc
  · intro basedir part
    cases hty : part.type with
    | MBPART_TYPE_LOOP =>
      have h := @setup_mbpart_loop_yields env w w.loops_created [] basedir part hty w
        (at_stage_start env w)
      cases hres : setup_mbpart env basedir (some part) w with
      | ok a w1 =>
        rw [hres] at h
        obtain ⟨hmd, _, evs, htr, hlog⟩ := h
        refine ⟨evs, ?_, rfl, htr,
          env.MBPATH_BOOTDEV ++ basedir ++ "/".toList ++ part.path, ?_⟩
        · rw [hmd]
          simp only [mbpart_record, hty]
        · rw [hlog]
          exact List.mem_append_right _ (List.mem_cons_of_mem _ (List.mem_singleton.mpr rfl))
      | abort msg w1 =>
        rw [hres] at h
        exact h.1
    | MBPART_TYPE_BIND =>
      have h := @setup_mbpart_bind_yields env w w.loops_created [] basedir part hty w
        (at_stage_start env w)
      cases hres : setup_mbpart env basedir (some part) w with
      | ok a w1 =>
        rw [hres] at h
        obtain ⟨hmd, _, evs, htr, hlog⟩ := h
        refine ⟨evs, ?_, rfl, htr,
          env.MBPATH_ROOT ++ "/dynmount:".toList ++ part.name ++ "/loop.fs".toList, ?_⟩
        · rw [hmd]
          simp only [mbpart_record, hty]
        · rw [hlog]
          exact List.mem_append_right _ (List.mem_cons_of_mem _ (List.mem_singleton.mpr rfl))
      | abort msg w1 =>
        rw [hres] at h
        exact h.1

/-- C14 at the record of /modem and at the partition `system=system.img`. In a
recovery the round for /modem returns with one record, flagged
`losetup_done = 1`, after `util_losetup` of its loop device on the backup image;
in a platform boot it returns with one record, flagged `losetup_done = 0`, and
the only call that sets up a loop device is the `mknod`; the round for the
configured partition returns with one record, flagged `losetup_done = 1`, after
`util_losetup` of its loop device on the image. -/
theorem attachment_follows_mode_witness :
    ((setup_uefi_rec env_ok rec_modem (world_mode true true)).aborted = false ∧
      (setup_uefi_rec env_ok rec_modem (world_mode true true)).world.md.replacements.map
          (fun r => (r.loopdevice, r.loopfile, r.losetup_done))
        = [("/multiboot/dev/block/loopdev:modem".toList,
            some "/multiboot/esp/media/UEFIESP/partition_modem.img".toList, 1)] ∧
      Event.util_losetup "/multiboot/dev/block/loopdev:modem".toList
          "/multiboot/esp/media/UEFIESP/partition_modem.img".toList false
        ∈ (setup_uefi_rec env_ok rec_modem (world_mode true true)).world.trace) ∧
    ((setup_uefi_rec env_ok rec_modem (world_mode false false)).aborted = false ∧
      (setup_uefi_rec env_ok rec_modem (world_mode false false)).world.md.replacements.map
          (fun r => (r.loopdevice, r.loopfile, r.losetup_done))
        = [("/multiboot/dev/block/loopdev:modem".toList,
            some "/multiboot/esp/media/UEFIESP/partition_modem.img".toList, 0)] ∧
      ∀ device file ro, Event.util_losetup device file ro
        ∉ (setup_uefi_rec env_ok rec_modem (world_mode false false)).world.trace) ∧
    ((setup_mbpart env_rom "/roms/myrom".toList (some part_system)
        (world_start [dev_system] [rec_system])).aborted = false ∧
      (setup_mbpart env_rom "/roms/myrom".toList (some part_system)
        (world_start [dev_system] [rec_system])).world.md.replacements.map
          (fun r => (r.loopdevice, r.loopfile, r.losetup_done))
        = [("/multiboot/dev/block/loopdev:system".toList,
            some "/multiboot/bootdev/roms/myrom/system.img".toList, 1)] ∧
      Event.util_losetup "/multiboot/dev/block/loopdev:system".toList
          "/multiboot/bootdev/roms/myrom/system.img".toList false
        ∈ (setup_mbpart env_rom "/roms/myrom".toList (some part_system)
          (world_start [dev_system] [rec_system])).world.trace) := by
  refine ⟨⟨by decide, by decide, by decide⟩, ⟨by decide, by decide, ?_⟩,
    ⟨by decide, by decide, by decide⟩⟩
  have h := (attachment_follows_mode env_ok (world_mode false false)).1 rec_modem
  have hrun : setup_uefi_rec env_ok rec_modem (world_mode false false)
      = .ok () (setup_uefi_rec env_ok rec_modem (world_mode false false)).world := by decide
  rw [hrun] at h
  rcases h with ⟨h1, -⟩ | ⟨bi, r, evs, -, -, -, -, -, htr, -, hplat⟩
  · exact absurd h1 (by decide)
  · intro device file ro hmem
    rw [htr] at hmem
    exact (hplat rfl).2 device file ro (by simpa [world_mode] using hmem)


/-! ### C15: the loop file of a backup record -/

/-- The backup image of a fstab record is the file
`partition_<basename of the mount point>.img` of the UEFIESP directory. -/
theorem util_get_esp_path_for_partition_some (env : Env) (mountpoint : CStr)
    (rec : fstab_rec) (w w1 : World) (ef : CStr)
    (h : util_get_esp_path_for_partition env mountpoint rec w = .ok (some ef) w1) :
    ∃ (espdir name : CStr) (w2 : World),
      util_get_espdir env mountpoint w = .ok (some espdir) w2 ∧
      env.basename rec.mount_point = some name ∧
      ef = espdir ++ "/partition_".toList ++ name ++ ".img".toList := by
  unfold util_get_esp_path_for_partition at h
  cases hres : util_get_espdir env mountpoint w with
  | abort msg w2 =>
    rw [bind_of_abort _ _ _ _ _ hres] at h
    cases h
  | ok oe w2 =>
    rw [bind_of_ok _ _ _ _ _ hres] at h
    cases oe with
    | none => cases h
    | some buf =>
      dsimp only at h
      by_cases hlen : buf.length ≥ env.PATH_MAX
      · rw [if_pos hlen] at h
        cases h
      · rw [if_neg hlen] at h
        cases hname : env.basename rec.mount_point with
        | none =>
          rw [hname] at h
          cases h
        | some name =>
          rw [hname] at h
          dsimp only at h
          by_cases hlen2 : (buf ++ "/partition_".toList ++ name ++ ".img".toList).length
              ≥ env.PATH_MAX
          · rw [if_pos hlen2] at h
            cases h
          · rw [if_neg hlen2] at h
            refine ⟨buf, name, w2, rfl, rfl, ?_⟩
            cases h
            rfl

/-- C15: a round of the loop over the fstab passes over a record, leaving the
world as it is, exactly when the record is not tagged UEFI or its device has a
record in the Registry already. For every other record a round that returns has
appended a backup record of the device of the record; it has been answered the
path of the shared backup image (the file `partition_<name>.img` of the UEFIESP
directory) and has ensured that image. In recovery mode without multiboot the
image was copied, with success, to `<root>/loopfile:<name>`, this private copy
is the loop file of the record, and the sync target is the mount point without
its leading slash; in every other mode nothing is copied, the loop file is the
shared backup image and the sync target is absent. -/
theorem loopfile_follows_mode (env : Env) (rec : fstab_rec) (w : World) :
    match setup_uefi_rec env rec w with
    | .ok _ w1 =>
        (w1 = w ∧ (fs_mgr_is_uefi rec = false ∨
          ∃ bi, get_blockinfo_for_path env w.md.blockinfo rec.blk_device = some bi ∧
            (util_get_replacement w.md.replacements bi.major bi.minor).isSome = true)) ∨
        ∃ (bi : uevent_block_t) (r : part_replacement_t) (evs : List Event)
            (ef dev espdir name : CStr),
          get_blockinfo_for_path env w.md.blockinfo rec.blk_device = some bi ∧
          (util_get_replacement w.md.replacements bi.major bi.minor).isSome = false ∧
          is_uefi_record_of env rec r ∧ r.uevent_block = some bi ∧
          w1.md = { w.md with replacements := w.md.replacements ++ [r] } ∧
          w1.trace = w.trace ++ evs ∧
          Run.returns_from (at_stage env w w.loops_created [])
            (util_get_esp_path_for_partition env env.MBPATH_ESP rec) (some ef) ∧
          env.basename rec.mount_point = some name ∧
          ef = espdir ++ "/partition_".toList ++ name ++ ".img".toList ∧
          Run.returns_from (at_stage env w w.loops_created [])
            (util_create_partition_backup env dev ef) 0 ∧
          (w.md.is_recovery = true ∧ w.md.is_multiboot = false →
            r.loopfile
              = some (env.MBPATH_ROOT ++ "/loopfile:".toList ++ rec.mount_point.drop 1) ∧
            r.loop_sync_target = some (rec.mount_point.drop 1) ∧
            (Event.util_cp ef
              (env.MBPATH_ROOT ++ "/loopfile:".toList ++ rec.mount_point.drop 1), 0)
              ∈ loop_log env w.trace evs) ∧
          (¬ (w.md.is_recovery = true ∧ w.md.is_multiboot = false) →
            r.loopfile = some ef ∧ r.loop_sync_target = none ∧
            ∀ source target, Event.util_cp source target ∉ evs)
    | .abort _ w1 => w1.md = w.md := by
  have h := setup_uefi_rec_round env rec w
  cases hres : setup_uefi_rec env rec w with
  | abort msg w1 =>
    rw [hres] at h
    exact h.1
  | ok a w1 =>
    rw [hres] at h
    rcases h with h | ⟨bi, ef, dev, hu, hbi, hg, hef, hbk, hmd, _, evs, htr, hlog⟩
    · exact Or.inl h
    · obtain ⟨wa, wb, hwa, hrun⟩ := hef
      obtain ⟨espdir, name, _, _, hname, hshape⟩ :=
        util_get_esp_path_for_partition_some env _ rec wa wb ef hrun
      refine Or.inr ⟨bi, _, evs, ef, dev, espdir, name, hbi, hg, ?_, rfl, hmd, htr,
        ⟨wa, wb, hwa, hrun⟩, hname, hshape, hbk, ?_, ?_⟩
      · exact ⟨hu, rfl, rfl, rfl, rfl⟩
      · intro hp
        refine ⟨by simp only [if_pos hp], by simp only [if_pos hp], ?_⟩
        rw [hlog]
        simp [hp]
      · intro hp
        refine ⟨by simp only [if_neg hp], by simp only [if_neg hp], ?_⟩
        intro source target hmem
        obtain ⟨rc, hrc⟩ := mem_loop_log_of_mem env w.trace evs _ hmem rfl
        rw [hlog, if_neg hp] at hrc
        by_cases hr : w.md.is_recovery = true
        · simp [hr] at hrc
        · simp [hr] at hrc

/-- C15 at the record of /modem. In a recovery that is not a multiboot the round
returns with one record whose loop file is the private copy
/multiboot/loopfile:modem, made with `util_cp` from the shared backup image, and
whose sync target is "modem"; in a recovery that is a multiboot and in a
platform boot it returns with one record whose loop file is the shared backup
image and which has no sync target, and nothing is copied. -/
theorem loopfile_follows_mode_witness :
    ((setup_uefi_rec env_ok rec_modem (world_mode true false)).aborted = false ∧
      (setup_uefi_rec env_ok rec_modem (world_mode true false)).world.md.replacements.map
          (fun r => (r.loopfile, r.loop_sync_target))
        = [(some "/multiboot/loopfile:modem".toList, some "modem".toList)] ∧
      Event.util_cp "/multiboot/esp/media/UEFIESP/partition_modem.img".toList
          "/multiboot/loopfile:modem".toList
        ∈ (setup_uefi_rec env_ok rec_modem (world_mode true false)).world.trace) ∧
    ((setup_uefi_rec env_ok rec_modem (world_mode true true)).aborted = false ∧
      (setup_uefi_rec env_ok rec_modem (world_mode true true)).world.md.replacements.map
          (fun r => (r.loopfile, r.loop_sync_target))
        = [(some "/multiboot/esp/media/UEFIESP/partition_modem.img".toList, none)] ∧
      ∀ source target, Event.util_cp source target
        ∉ (setup_uefi_rec env_ok rec_modem (world_mode true true)).world.trace) ∧
    ((setup_uefi_rec env_ok rec_modem (world_mode false false)).aborted = false ∧
      (setup_uefi_rec env_ok rec_modem (world_mode false false)).world.md.replacements.map
          (fun r => (r.loopfile, r.loop_sync_target))
        = [(some "/multiboot/esp/media/UEFIESP/partition_modem.img".toList, none)] ∧
      ∀ source target, Event.util_cp source target
        ∉ (setup_uefi_rec env_ok rec_modem (world_mode false false)).world.trace) := by
  have nocopy : ∀ (recovery multiboot : Bool), ¬ (recovery = true ∧ multiboot = false) →
      setup_uefi_rec env_ok rec_modem (world_mode recovery multiboot)
        = .ok () (setup_uefi_rec env_ok rec_modem (world_mode recovery multiboot)).world →
      (setup_uefi_rec env_ok rec_modem (world_mode recovery multiboot)).world
        ≠ world_mode recovery multiboot →
      ∀ source target, Event.util_cp source target
        ∉ (setup_uefi_rec env_ok rec_modem (world_mode recovery multiboot)).world.trace := by
    intro recovery multiboot hmode hrun hne
    have h := loopfile_follows_mode env_ok rec_modem (world_mode recovery multiboot)
    rw [hrun] at h
    rcases h with ⟨h1, -⟩ | ⟨bi, r, evs, ef, dev, espdir, name, -, -, -, -, -, htr, -, -, -, -, -,
      hother⟩
    · exact absurd h1 hne
    · intro source target hmem
      rw [htr] at hmem
      exact (hother hmode).2.2 source target (by simpa [world_mode] using hmem)
  exact ⟨⟨by decide, by decide, by decide⟩,
    ⟨by decide, by decide, nocopy true true (by decide) (by decide) (by decide)⟩,
    ⟨by decide, by decide, nocopy false false (by decide) (by decide) (by decide)⟩⟩


/-! ### C16: a LOOP partition is attached to its image -/

theorem setup_mbpart_loop_eq (env : Env) (basedir : CStr) (part : multiboot_partition_t)
    (w : World) (hty : part.type = MBPART_TYPE_LOOP) :
    setup_mbpart env basedir (some part) w
      = if (env.MBPATH_BOOTDEV ++ basedir ++ "/".toList ++ part.path).length ≥ env.PATH_MAX then
          .abort "snprintf error" w
        else if (env.MBPATH_DEV ++ "/block/loopdev:".toList ++ part.name).length
            ≥ env.PATH_MAX then
          .abort "snprintf error" w
        else if env.lstat (w.trace ++
            [Event.lstat (env.MBPATH_BOOTDEV ++ basedir ++ "/".toList ++ part.path)])
            = .failed then
          .abort "Can't stat" { w with trace := w.trace ++
            [Event.lstat (env.MBPATH_BOOTDEV ++ basedir ++ "/".toList ++ part.path)] }
        else if invalid_mode MBPART_TYPE_LOOP (env.lstat (w.trace ++
            [Event.lstat (env.MBPATH_BOOTDEV ++ basedir ++ "/".toList ++ part.path)]))
            = true then
          .abort "path has invalid mode" { w with trace := w.trace ++
            [Event.lstat (env.MBPATH_BOOTDEV ++ basedir ++ "/".toList ++ part.path)] }
        else if env.rc (w.trace ++
            [Event.lstat (env.MBPATH_BOOTDEV ++ basedir ++ "/".toList ++ part.path),
              Event.mknod (env.MBPATH_DEV ++ "/block/loopdev:".toList ++ part.name) true 7
                (255 - w.loops_created)]) ≠ 0 then
          .abort "Can't create loop device" { w with trace := w.trace ++
            [Event.lstat (env.MBPATH_BOOTDEV ++ basedir ++ "/".toList ++ part.path),
              Event.mknod (env.MBPATH_DEV ++ "/block/loopdev:".toList ++ part.name) true 7
                (255 - w.loops_created)] }
        else if env.rc (w.trace ++
            [Event.lstat (env.MBPATH_BOOTDEV ++ basedir ++ "/".toList ++ part.path),
              Event.mknod (env.MBPATH_DEV ++ "/block/loopdev:".toList ++ part.name) true 7
                (255 - w.loops_created),
              Event.util_losetup (env.MBPATH_DEV ++ "/block/loopdev:".toList ++ part.name)
                (env.MBPATH_BOOTDEV ++ basedir ++ "/".toList ++ part.path) false]) ≠ 0 then
          .abort "Can't setup loop device"
            { w with
              loops_created := w.loops_created + 1,
              trace := w.trace ++
                [Event.lstat (env.MBPATH_BOOTDEV ++ basedir ++ "/".toList ++ part.path),
                  Event.mknod (env.MBPATH_DEV ++ "/block/loopdev:".toList ++ part.name) true 7
                    (255 - w.loops_created),
                  Event.util_losetup (env.MBPATH_DEV ++ "/block/loopdev:".toList ++ part.name)
                    (env.MBPATH_BOOTDEV ++ basedir ++ "/".toList ++ part.path) false] }
        else
          .ok ()
            { md := { w.md with
                replacements := w.md.replacements ++
                  [mbpart_replacement part
                    (env.MBPATH_BOOTDEV ++ basedir ++ "/".toList ++ part.path)
                    (env.MBPATH_DEV ++ "/block/loopdev:".toList ++ part.name)
                    (some (env.MBPATH_BOOTDEV ++ basedir ++ "/".toList ++ part.path))] },
              loops_created := w.loops_created + 1,
              trace := w.trace ++
                [Event.lstat (env.MBPATH_BOOTDEV ++ basedir ++ "/".toList ++ part.path),
                  Event.mknod (env.MBPATH_DEV ++ "/block/loopdev:".toList ++ part.name) true 7
                    (255 - w.loops_created),
                  Event.util_losetup (env.MBPATH_DEV ++ "/block/loopdev:".toList ++ part.name)
                    (env.MBPATH_BOOTDEV ++ basedir ++ "/".toList ++ part.path) false] } := by
  unfold setup_mbpart setup_loop_partition
  simp only [hty, bind, Run.bind, SAFE_SNPRINTF, call, abort_if, util_make_loop, util_losetup,
    add_replacement, modify_data, pure, Run.pure]
  split_ifs <;> simp_all

theorem lstat_fits_loop (st : lstat_result) :
    (st ≠ .failed ∧ ¬ invalid_mode MBPART_TYPE_LOOP st = true)
      ↔ (st = .found .reg ∨ st = .enoent) := by
  cases st with
  | found kind => cases kind <;> simp [invalid_mode]
  | enoent => simp [invalid_mode]
  | failed => simp [invalid_mode]


/-- C16: a round of the loop over `mbparts` for a LOOP partition makes at most
three calls, in this order: `lstat` of the image, whose path is the mountpoint
of the boot device followed by the given directory, "/" and the configured path;
`mknod` of one loop device; `util_losetup` of that device on the image. It
returns exactly when the two paths fit their buffers, the image is a regular
file (or absent), and `mknod` and `util_losetup` answer 0, and then it has made
these three calls and no other (no growth store, no filesystem, no mount) and
appended one record, whose loop file is the path of the image. When the planner
returns in multiboot mode, the directory it used is that of the multiboot.ini
path, and the record of every LOOP partition of the array is in the Registry. -/
theorem loop_partition_attached_directly (env : Env) (basedir : CStr)
    (part : multiboot_partition_t) (w : World) (hty : part.type = MBPART_TYPE_LOOP) :
    (∃ evs : List Event,
      (setup_mbpart env basedir (some part) w).world.trace = w.trace ++ evs ∧
      evs <+: [Event.lstat (mbpart_partpath env basedir part),
        Event.mknod (mbpart_loopdevice env part) true 7 (255 - w.loops_created),
        Event.util_losetup (mbpart_loopdevice env part) (mbpart_partpath env basedir part)
          false]) ∧
    (∀ w1 : World, setup_mbpart env basedir (some part) w = .ok () w1 ↔
      ((mbpart_partpath env basedir part).length < env.PATH_MAX ∧
        (mbpart_loopdevice env part).length < env.PATH_MAX ∧
        (env.lstat (w.trace ++ [Event.lstat (mbpart_partpath env basedir part)])
            = .found .reg ∨
          env.lstat (w.trace ++ [Event.lstat (mbpart_partpath env basedir part)])
            = .enoent) ∧
        env.rc (w.trace ++ [Event.lstat (mbpart_partpath env basedir part),
          Event.mknod (mbpart_loopdevice env part) true 7 (255 - w.loops_created)]) = 0 ∧
        env.rc (w.trace ++ [Event.lstat (mbpart_partpath env basedir part),
          Event.mknod (mbpart_loopdevice env part) true 7 (255 - w.loops_created),
          Event.util_losetup (mbpart_loopdevice env part) (mbpart_partpath env basedir part)
            false]) = 0 ∧
        w1 = { md := { w.md with
                replacements := w.md.replacements ++ [mbpart_record env basedir part] },
               loops_created := w.loops_created + 1,
               trace := w.trace ++ [Event.lstat (mbpart_partpath env basedir part),
                 Event.mknod (mbpart_loopdevice env part) true 7 (255 - w.loops_created),
                 Event.util_losetup (mbpart_loopdevice env part)
                   (mbpart_partpath env basedir part) false] })) ∧
    (mbpart_record env basedir part).loopfile = some (mbpart_partpath env basedir part) ∧
    (∀ (v : Int) (w1 : World), setup_partition_replacements env w = .ok v w1 →
      w.md.is_multiboot = true →
      ∃ dir : CStr, w.md.path.bind env.dirname = some dir ∧
        ∀ p : multiboot_partition_t, some p ∈ w.md.mbparts.take w.md.num_mbparts →
          p.type = MBPART_TYPE_LOOP →
          ∃ r ∈ w1.md.replacements, r.multiboot_part = some p ∧
            r.loopdevice = mbpart_loopdevice env p ∧
            r.loopfile = some (mbpart_partpath env dir p)) := by
  have hrec : mbpart_record env basedir part
      = mbpart_replacement part (mbpart_partpath env basedir part) (mbpart_loopdevice env part)
          (some (mbpart_partpath env basedir part)) := by
    simp only [mbpart_record, hty, mbpart_partpath, mbpart_loopdevice]
  refine ⟨?_, ?_, ?_, ?_⟩
  · rw [setup_mbpart_loop_eq env basedir part w hty]
    unfold mbpart_partpath mbpart_loopdevice
    split_ifs
    · exact ⟨[], by simp [Res.world], List.nil_prefix⟩
    · exact ⟨[], by simp [Res.world], List.nil_prefix⟩
    · exact ⟨[_], rfl, ⟨[_, _], rfl⟩⟩
    · exact ⟨[_], rfl, ⟨[_, _], rfl⟩⟩
    · exact ⟨[_, _], rfl, ⟨[_], rfl⟩⟩
    · exact ⟨[_, _, _], rfl, List.prefix_refl _⟩
    · exact ⟨[_, _, _], rfl, List.prefix_refl _⟩
  · intro w1
    rw [setup_mbpart_loop_eq env basedir part w hty, hrec]
    unfold mbpart_partpath mbpart_loopdevice
    have hfit := lstat_fits_loop (env.lstat (w.trace ++
      [Event.lstat (env.MBPATH_BOOTDEV ++ basedir ++ "/".toList ++ part.path)]))
    split_ifs with h1 h2 h3 h4 h5 h6
    · constructor
      · intro h; cases h
      · rintro ⟨a, _⟩; exact absurd h1 (not_le.mpr a)
    · constructor
      · intro h; cases h
      · rintro ⟨_, a, _⟩; exact absurd h2 (not_le.mpr a)
    · constructor
      · intro h; cases h
      · rintro ⟨_, _, a, _⟩; exact absurd h3 (hfit.mpr a).1
    · constructor
      · intro h; cases h
      · rintro ⟨_, _, a, _⟩; exact absurd h4 (hfit.mpr a).2
    · constructor
      · intro h; cases h
      · rintro ⟨_, _, _, a, _⟩; exact absurd a h5
    · constructor
      · intro h; cases h
      · rintro ⟨_, _, _, _, a, _⟩; exact absurd a h6
    · constructor
      · intro h
        refine ⟨not_le.mp h1, not_le.mp h2, hfit.mp ⟨h3, h4⟩, not_not.mp h5, not_not.mp h6, ?_⟩
        cases h
        rfl
      · rintro ⟨_, _, _, _, _, a⟩
        rw [a]
  · rw [hrec]
    rfl
  · intro v w1 hres hmb
    have h := setup_partition_replacements_appends env w w rfl
    rw [hres] at h
    obtain ⟨configured, done, backups, h1, h2, _, _, _⟩ := h
    obtain ⟨dir, parts, p1, p2, p3⟩ := h2 hmb
    refine ⟨dir, p1, ?_⟩
    intro p hp hpty
    rw [p2] at hp
    obtain ⟨q, hq, hqp⟩ := List.mem_map.mp hp
    cases hqp
    refine ⟨mbpart_record env dir p, ?_, rfl, rfl, ?_⟩
    · rw [h1, p3]
      exact List.mem_append_left _ (List.mem_append_right _ (List.mem_map_of_mem _ hq))
    · simp only [mbpart_record, hpty, mbpart_replacement, mbpart_partpath]

/-- C16 for the partition `system=system.img` of the ROM in /roms/myrom. -/
theorem loop_partition_attached_directly_witness :
    part_system.type = MBPART_TYPE_LOOP ∧
    setup_mbpart env_ok "/roms/myrom".toList (some part_system)
        (world_counted [dev_system, dev_userdata] [rec_data, rec_system] 1)
      = .ok ()
        { md := { (world_counted [dev_system, dev_userdata] [rec_data, rec_system] 1).md with
            replacements := [mbpart_record env_ok "/roms/myrom".toList part_system] },
          loops_created := 1,
          trace := [Event.lstat "/multiboot/bootdev/roms/myrom/system.img".toList,
            Event.mknod "/multiboot/dev/block/loopdev:system".toList true 7 255,
            Event.util_losetup "/multiboot/dev/block/loopdev:system".toList
              "/multiboot/bootdev/roms/myrom/system.img".toList false] } :=
  ⟨rfl, ((loop_partition_attached_directly env_ok "/roms/myrom".toList part_system
    (world_counted [dev_system, dev_userdata] [rec_data, rec_system] 1) rfl).2.1 _).mpr
    (by decide)⟩


/-! ### C17: a BIND partition gets a fresh filesystem on a growth store -/

theorem bind_ok_inv {α β : Type} (m : Run α) (k : α → Run β) (w w2 : World) (b : β)
    (h : (m >>= k) w = .ok b w2) : ∃ a w1, m w = .ok a w1 ∧ k a w1 = .ok b w2 := by
  cases hm : m w with
  | ok a w1 =>
    rw [bind_of_ok _ _ _ _ _ hm] at h
    exact ⟨a, w1, rfl, h⟩
  | abort msg w1 =>
    rw [bind_of_abort _ _ _ _ _ hm] at h
    cases h

theorem abort_if_ok (c : Prop) [Decidable c] (msg : String) (w w1 : World) (u : Unit)
    (h : abort_if c msg w = .ok u w1) : ¬ c ∧ w1 = w := by
  unfold abort_if at h
  by_cases hc : c
  · rw [if_pos hc] at h; cases h
  · rw [if_neg hc] at h; cases h; exact ⟨hc, rfl⟩

theorem SAFE_SNPRINTF_ok (env : Env) (text v : CStr) (w w1 : World)
    (h : SAFE_SNPRINTF env text w = .ok v w1) :
    text.length < env.PATH_MAX ∧ v = text ∧ w1 = w := by
  unfold SAFE_SNPRINTF at h
  by_cases hc : text.length ≥ env.PATH_MAX
  · rw [if_pos hc] at h; cases h
  · rw [if_neg hc] at h; cases h; exact ⟨not_le.mp hc, rfl, rfl⟩

theorem call_ok (e : Event) (w w1 : World) (hist : List Event)
    (h : call e w = .ok hist w1) :
    hist = w.trace ++ [e] ∧ w1 = { w with trace := w.trace ++ [e] } := by
  cases h
  exact ⟨rfl, rfl⟩

theorem only_call {allowed : Event → Bool} (e : Event) (h : allowed e = true) :
    Run.keeps (calls_only allowed) (call e) := by
  intro w
  refine ⟨rfl, rfl, [e], rfl, ?_⟩
  intro x hx
  rw [List.mem_singleton.mp hx]
  exact h

theorem calls_only_mono {allowed allowed1 : Event → Bool} {w w1 : World}
    (hm : ∀ e, allowed e = true → allowed1 e = true) (h : calls_only allowed w w1) :
    calls_only allowed1 w w1 := by
  obtain ⟨h1, h2, evs, h3, h4⟩ := h
  exact ⟨h1, h2, evs, h3, fun e he => hm e (h4 e he)⟩

theorem dir_util_exists (env : Env) (filename : CStr) (follow : Bool) :
    Run.keeps (calls_only Event.is_dir_probe) (util_exists env filename follow) := by
  unfold util_exists
  repeat' first
    | exact only_call _ rfl | (simp; done) | refine keeps_bind ?_ (fun _ => ?_) | split
    | dsimp only

theorem dir_util_mkdir_loop (env : Env) (ps : List CStr) :
    Run.keeps (calls_only Event.is_dir_probe) (util_mkdir_loop env ps) := by
  induction ps with
  | nil => exact keeps_pure _
  | cons p ps ih =>
    unfold util_mkdir_loop
    repeat' first
      | exact ih | exact only_call _ rfl | exact dir_util_exists _ _ _ | (simp; done)
      | refine keeps_bind ?_ (fun _ => ?_) | split | dsimp only

theorem dir_util_mkdir (env : Env) (dir : CStr) :
    Run.keeps (calls_only Event.is_dir_probe) (util_mkdir env dir) := by
  unfold util_mkdir
  repeat' first
    | exact only_call _ rfl | exact dir_util_exists _ _ _ | exact dir_util_mkdir_loop _ _
    | (simp; done) | refine keeps_bind ?_ (fun _ => ?_) | split | dsimp only

theorem probe_of_dir_probe (e : Event) (h : e.is_dir_probe = true) : e.is_probe = true := by
  cases e <;> first | rfl | cases h

theorem probe_util_mkdir (env : Env) (dir : CStr) :
    Run.keeps (calls_only Event.is_probe) (util_mkdir env dir) :=
  fun w => calls_only_mono probe_of_dir_probe (dir_util_mkdir env dir w)

theorem probe_util_block_num (env : Env) (path : CStr) (numblocks : Nat) :
    Run.keeps (calls_only Event.is_probe) (util_block_num env path numblocks) := by
  unfold util_block_num
  repeat' first
    | exact only_call _ rfl | (simp; done) | refine keeps_bind ?_ (fun _ => ?_) | split
    | dsimp only

/-- A `util_mount` with a given filesystem type that returns 0 has prepared the
mountpoint and then called `mount`, which answered 0. -/
theorem util_mount_ok (env : Env) (source target fstype : CStr) (flags : Nat)
    (data : Option CStr) (w w1 : World)
    (h : util_mount env source target (some fstype) flags data w = .ok 0 w1) :
    ∃ prep : List Event, (∀ e ∈ prep, e.is_dir_probe = true) ∧
      env.rc (w.trace ++ prep ++ [Event.mount source target fstype flags data]) = 0 ∧
      w1 = { w with trace := w.trace ++ prep ++ [Event.mount source target fstype flags data] } := by
  unfold util_mount at h
  obtain ⟨ex, wa, h1, h⟩ := bind_ok_inv _ _ _ _ _ h
  obtain ⟨rc, wb, h2, h⟩ := bind_ok_inv _ _ _ _ _ h
  have s1 : calls_only Event.is_dir_probe w wa := by
    have := dir_util_exists env target true w
    rw [h1] at this
    exact this
  have s2 : calls_only Event.is_dir_probe wa wb := by
    by_cases hex : ex = true
    · rw [if_pos hex] at h2
      cases h2
      exact Steps.refl _
    · rw [if_neg hex] at h2
      have := dir_util_mkdir env target wa
      rw [h2] at this
      exact this
  obtain ⟨m1, m2, prep, m3, m4⟩ := Steps.trans s1 s2
  by_cases hrc : rc ≠ 0
  · rw [if_pos hrc] at h
    cases h
    exact absurd rfl hrc
  · rw [if_neg hrc] at h
    obtain ⟨ft, wc, h3, h⟩ := bind_ok_inv _ _ _ _ _ h
    cases h3
    dsimp only at h
    obtain ⟨hist, wd, h4, h⟩ := bind_ok_inv _ _ _ _ _ h
    obtain ⟨rfl, rfl⟩ := call_ok _ _ _ _ h4
    by_cases hm : env.rc (wb.trace ++ [Event.mount source target fstype flags data]) ≠ 0
    · rw [if_pos hm] at h
      cases h
    · rw [if_neg hm] at h
      cases h
      refine ⟨prep, m4, ?_, ?_⟩
      · rw [← m3]
        exact not_not.mp hm
      · rw [← m3]
        cases wb
        cases w
        simp only at m1 m2
        rw [m1, m2]


/-- A `setup_bind_store` that returns has made these calls and no other, each
with success: the growth store, the node, the attachment, `mke2fs`, the
preparation of the stub mountpoint and `mount`, the creation and the closing of
the marker file, `umount`. -/
theorem setup_bind_store_ok (env : Env) (part : multiboot_partition_t) (loopdevice : CStr)
    (rc : Int) (num_blocks : Nat) (w w1 : World)
    (h : setup_bind_store env part loopdevice rc num_blocks w = .ok () w1) :
    ∃ prep : List Event, (∀ e ∈ prep, e.is_dir_probe = true) ∧
      rc = 0 ∧ num_blocks ≠ 0 ∧
      env.rc (w.trace ++
        [Event.util_dynfilefs (env.MBPATH_ROOT ++ "/dynstorage:".toList ++ part.name)
          (env.MBPATH_ROOT ++ "/dynmount:".toList ++ part.name) (dynfilefs_size num_blocks)])
        = 0 ∧
      env.rc (w.trace ++
        [Event.util_dynfilefs (env.MBPATH_ROOT ++ "/dynstorage:".toList ++ part.name)
          (env.MBPATH_ROOT ++ "/dynmount:".toList ++ part.name) (dynfilefs_size num_blocks),
         Event.mknod loopdevice true 7 (255 - w.loops_created)]) = 0 ∧
      env.rc (w.trace ++
        [Event.util_dynfilefs (env.MBPATH_ROOT ++ "/dynstorage:".toList ++ part.name)
          (env.MBPATH_ROOT ++ "/dynmount:".toList ++ part.name) (dynfilefs_size num_blocks),
         Event.mknod loopdevice true 7 (255 - w.loops_created),
         Event.util_losetup loopdevice
          (env.MBPATH_ROOT ++ "/dynmount:".toList ++ part.name ++ "/loop.fs".toList) false])
        = 0 ∧
      env.rc (w.trace ++
        [Event.util_dynfilefs (env.MBPATH_ROOT ++ "/dynstorage:".toList ++ part.name)
          (env.MBPATH_ROOT ++ "/dynmount:".toList ++ part.name) (dynfilefs_size num_blocks),
         Event.mknod loopdevice true 7 (255 - w.loops_created),
         Event.util_losetup loopdevice
          (env.MBPATH_ROOT ++ "/dynmount:".toList ++ part.name ++ "/loop.fs".toList) false,
         Event.util_mke2fs loopdevice "ext4".toList]) = 0 ∧
      env.rc (w.trace ++
        [Event.util_dynfilefs (env.MBPATH_ROOT ++ "/dynstorage:".toList ++ part.name)
          (env.MBPATH_ROOT ++ "/dynmount:".toList ++ part.name) (dynfilefs_size num_blocks),
         Event.mknod loopdevice true 7 (255 - w.loops_created),
         Event.util_losetup loopdevice
          (env.MBPATH_ROOT ++ "/dynmount:".toList ++ part.name ++ "/loop.fs".toList) false,
         Event.util_mke2fs loopdevice "ext4".toList] ++ prep ++
        [Event.mount loopdevice env.MBPATH_STUB "ext4".toList 0 none]) = 0 ∧
      0 ≤ env.rc (w.trace ++
        [Event.util_dynfilefs (env.MBPATH_ROOT ++ "/dynstorage:".toList ++ part.name)
          (env.MBPATH_ROOT ++ "/dynmount:".toList ++ part.name) (dynfilefs_size num_blocks),
         Event.mknod loopdevice true 7 (255 - w.loops_created),
         Event.util_losetup loopdevice
          (env.MBPATH_ROOT ++ "/dynmount:".toList ++ part.name ++ "/loop.fs".toList) false,
         Event.util_mke2fs loopdevice "ext4".toList] ++ prep ++
        [Event.mount loopdevice env.MBPATH_STUB "ext4".toList 0 none,
         Event.open_creat env.MBPATH_STUB_IDFILE]) ∧
      env.rc (w.trace ++
        [Event.util_dynfilefs (env.MBPATH_ROOT ++ "/dynstorage:".toList ++ part.name)
          (env.MBPATH_ROOT ++ "/dynmount:".toList ++ part.name) (dynfilefs_size num_blocks),
         Event.mknod loopdevice true 7 (255 - w.loops_created),
         Event.util_losetup loopdevice
          (env.MBPATH_ROOT ++ "/dynmount:".toList ++ part.name ++ "/loop.fs".toList) false,
         Event.util_mke2fs loopdevice "ext4".toList] ++ prep ++
        [Event.mount loopdevice env.MBPATH_STUB "ext4".toList 0 none,
         Event.open_creat env.MBPATH_STUB_IDFILE, Event.close env.MBPATH_STUB_IDFILE,
         Event.umount env.MBPATH_STUB]) = 0 ∧
      w1 = { w with
        loops_created := w.loops_created + 1,
        trace := w.trace ++
          [Event.util_dynfilefs (env.MBPATH_ROOT ++ "/dynstorage:".toList ++ part.name)
            (env.MBPATH_ROOT ++ "/dynmount:".toList ++ part.name) (dynfilefs_size num_blocks),
           Event.mknod loopdevice true 7 (255 - w.loops_created),
           Event.util_losetup loopdevice
            (env.MBPATH_ROOT ++ "/dynmount:".toList ++ part.name ++ "/loop.fs".toList) false,
           Event.util_mke2fs loopdevice "ext4".toList] ++ prep ++
          [Event.mount loopdevice env.MBPATH_STUB "ext4".toList 0 none,
           Event.open_creat env.MBPATH_STUB_IDFILE, Event.close env.MBPATH_STUB_IDFILE,
           Event.umount env.MBPATH_STUB] } := by
  unfold setup_bind_store at h
  obtain ⟨_, wa, h1, hk⟩ := bind_ok_inv _ _ _ _ _ h
  clear h
  obtain ⟨c1, rfl⟩ := abort_if_ok _ _ _ _ _ h1
  try clear h1
  have h := hk
  clear hk
  obtain ⟨buf2, wa, h1, hk⟩ := bind_ok_inv _ _ _ _ _ h
  clear h
  obtain ⟨_, rfl, rfl⟩ := SAFE_SNPRINTF_ok _ _ _ _ _ h1
  try clear h1
  have h := hk
  clear hk
  obtain ⟨buf, wa, h1, hk⟩ := bind_ok_inv _ _ _ _ _ h
  clear h
  obtain ⟨_, rfl, rfl⟩ := SAFE_SNPRINTF_ok _ _ _ _ _ h1
  try clear h1
  have h := hk
  clear hk
  obtain ⟨hist, wa, h1, hk⟩ := bind_ok_inv _ _ _ _ _ h
  clear h
  obtain ⟨rfl, rfl⟩ := call_ok _ _ _ _ h1
  try clear h1
  have h := hk
  clear hk
  obtain ⟨_, wa, h1, hk⟩ := bind_ok_inv _ _ _ _ _ h
  clear h
  obtain ⟨c2, rfl⟩ := abort_if_ok _ _ _ _ _ h1
  try clear h1
  have h := hk
  clear hk
  obtain ⟨buf3, wa, h1, hk⟩ := bind_ok_inv _ _ _ _ _ h
  clear h
  obtain ⟨_, rfl, rfl⟩ := SAFE_SNPRINTF_ok _ _ _ _ _ h1
  try clear h1
  have h := hk
  clear hk
  obtain ⟨rc1, wa, h1, hk⟩ := bind_ok_inv _ _ _ _ _ h
  clear h
  rw [util_make_loop_eq] at h1
  cases h1
  try clear h1
  have h := hk
  clear hk
  obtain ⟨_, wa, h1, hk⟩ := bind_ok_inv _ _ _ _ _ h
  clear h
  obtain ⟨c3, rfl⟩ := abort_if_ok _ _ _ _ _ h1
  try clear h1
  have h := hk
  clear hk
  have c3 := not_not.mp c3
  dsimp only at c3 h
  rw [c3, if_pos rfl] at h
  obtain ⟨rc2, wa, h1, hk⟩ := bind_ok_inv _ _ _ _ _ h
  clear h
  cases h1
  try clear h1
  have h := hk
  clear hk
  obtain ⟨_, wa, h1, hk⟩ := bind_ok_inv _ _ _ _ _ h
  clear h
  obtain ⟨c4, rfl⟩ := abort_if_ok _ _ _ _ _ h1
  try clear h1
  have h := hk
  clear hk
  have c4 := not_not.mp c4
  dsimp only at c4 h
  have hm : util_mkfs env loopdevice "ext4".toList
      = (call (.util_mke2fs loopdevice "ext4".toList) >>= fun h => pure (env.rc h)) := by
    unfold util_mkfs
    rw [if_pos (Or.inr (Or.inr rfl))]
  rw [hm] at h
  clear hm
  obtain ⟨rc3, wa, h1, hk⟩ := bind_ok_inv _ _ _ _ _ h
  clear h
  cases h1
  try clear h1
  have h := hk
  clear hk
  obtain ⟨_, wa, h1, hk⟩ := bind_ok_inv _ _ _ _ _ h
  clear h
  obtain ⟨c5, rfl⟩ := abort_if_ok _ _ _ _ _ h1
  try clear h1
  have h := hk
  clear hk
  have c5 := not_not.mp c5
  dsimp only at c5 h
  obtain ⟨_, wa, h1, hk⟩ := bind_ok_inv _ _ _ _ _ h
  clear h
  unfold SAFE_MOUNT at h1
  obtain ⟨rcm, wb, h2, h3⟩ := bind_ok_inv _ _ _ _ _ h1
  clear h1
  obtain ⟨c6, rfl⟩ := abort_if_ok _ _ _ _ _ h3
  clear h3
  obtain rfl := not_not.mp c6
  obtain ⟨prep, p1, p2, rfl⟩ := util_mount_ok _ _ _ _ _ _ _ _ h2
  clear h2
  try clear h1
  have h := hk
  clear hk
  obtain ⟨hist, wa, h1, hk⟩ := bind_ok_inv _ _ _ _ _ h
  clear h
  obtain ⟨rfl, rfl⟩ := call_ok _ _ _ _ h1
  try clear h1
  have h := hk
  clear hk
  obtain ⟨_, wa, h1, hk⟩ := bind_ok_inv _ _ _ _ _ h
  clear h
  obtain ⟨c7, rfl⟩ := abort_if_ok _ _ _ _ _ h1
  try clear h1
  have h := hk
  clear hk
  obtain ⟨hist, wa, h1, hk⟩ := bind_ok_inv _ _ _ _ _ h
  clear h
  obtain ⟨rfl, rfl⟩ := call_ok _ _ _ _ h1
  try clear h1
  have h := hk
  clear hk
  unfold SAFE_UMOUNT at h
  obtain ⟨hist, wa, h1, hk⟩ := bind_ok_inv _ _ _ _ _ h
  clear h
  obtain ⟨rfl, rfl⟩ := call_ok _ _ _ _ h1
  try clear h1
  have h := hk
  clear hk
  obtain ⟨c8, rfl⟩ := abort_if_ok _ _ _ _ _ h
  have c8 := not_not.mp c8
  have c7 := not_lt.mp c7
  have c1' : rc = 0 ∧ num_blocks ≠ 0 := by
    constructor
    · by_contra hne
      exact c1 (Or.inl hne)
    · intro hz
      exact c1 (Or.inr hz)
  refine ⟨prep, p1, c1'.1, c1'.2, not_not.mp c2, ?_, ?_, ?_, ?_, ?_, ?_, ?_⟩
  · simpa only [List.append_assoc, List.singleton_append, List.cons_append, List.nil_append]
      using c3
  · simpa only [List.append_assoc, List.singleton_append, List.cons_append, List.nil_append]
      using c4
  · simpa only [List.append_assoc, List.singleton_append, List.cons_append, List.nil_append]
      using c5
  · simpa only [List.append_assoc, List.singleton_append, List.cons_append, List.nil_append]
      using p2
  · simpa only [List.append_assoc, List.singleton_append, List.cons_append, List.nil_append]
      using c7
  · simpa only [List.append_assoc, List.singleton_append, List.cons_append, List.nil_append]
      using c8
  · simp only [List.append_assoc, List.singleton_append, List.cons_append, List.nil_append]


/-- A round of the loop over `mbparts` for a BIND partition that returns has
looked at paths and at the device, then run `setup_bind_store` to its end, then
appended the record of the partition. -/
theorem setup_mbpart_bind_ok (env : Env) (basedir : CStr) (part : multiboot_partition_t)
    (w w1 : World) (hty : part.type = MBPART_TYPE_BIND)
    (h : setup_mbpart env basedir (some part) w = .ok () w1) :
    ∃ (wa wb : World) (rc : Int) (nb : Nat), calls_only Event.is_probe w wa ∧
      setup_bind_store env part (mbpart_loopdevice env part) rc nb wa = .ok () wb ∧
      w1 = { wb with md := { wb.md with
        replacements := wb.md.replacements ++ [mbpart_record env basedir part] } } := by
  have hrec : mbpart_record env basedir part
      = mbpart_replacement part (env.MBPATH_BOOTDEV ++ basedir ++ "/".toList ++ part.path)
          (env.MBPATH_DEV ++ "/block/loopdev:".toList ++ part.name) none := by
    simp only [mbpart_record, hty]
  unfold setup_mbpart at h
  try dsimp only at h
  obtain ⟨partpath, w2, h1, hk⟩ := bind_ok_inv _ _ _ _ _ h
  clear h
  obtain ⟨_, e1, e2⟩ := SAFE_SNPRINTF_ok _ _ _ _ _ h1
  clear h1
  subst e1
  subst e2
  obtain ⟨loopdevice, w3, h1, h⟩ := bind_ok_inv _ _ _ _ _ hk
  clear hk
  obtain ⟨_, e1, e2⟩ := SAFE_SNPRINTF_ok _ _ _ _ _ h1
  clear h1
  subst e1
  subst e2
  obtain ⟨hist, w4, h1, hk⟩ := bind_ok_inv _ _ _ _ _ h
  clear h
  have s1 : calls_only Event.is_probe w3 w4 := by
    have := @only_call Event.is_probe (Event.lstat
      (env.MBPATH_BOOTDEV ++ basedir ++ "/".toList ++ part.path)) rfl w3
    rw [h1] at this
    exact this
  obtain ⟨e1, _⟩ := call_ok _ _ _ _ h1
  clear h1
  subst e1
  try dsimp only at hk
  obtain ⟨_, w5, h1, h⟩ := bind_ok_inv _ _ _ _ _ hk
  clear hk
  obtain ⟨_, e1⟩ := abort_if_ok _ _ _ _ _ h1
  clear h1
  subst e1
  obtain ⟨_, w6, h1, hk⟩ := bind_ok_inv _ _ _ _ _ h
  clear h
  obtain ⟨_, e1⟩ := abort_if_ok _ _ _ _ _ h1
  clear h1
  subst e1
  rw [hty] at hk
  try dsimp only at hk
  obtain ⟨lf, w7, h1, h⟩ := bind_ok_inv _ _ _ _ _ hk
  clear hk
  obtain ⟨_, w8, h2, h3⟩ := bind_ok_inv _ _ _ _ _ h1
  clear h1
  cases h3
  cases h
  unfold setup_bind_partition at h2
  obtain ⟨_, w9, h1, hk⟩ := bind_ok_inv _ _ _ _ _ h2
  clear h2
  have s2 : calls_only Event.is_probe w6 w9 := by
    have hkeep : Run.keeps (calls_only Event.is_probe)
        (if env.lstat (w3.trace ++
            [Event.lstat (env.MBPATH_BOOTDEV ++ basedir ++ "/".toList ++ part.path)])
            = lstat_result.enoent then do
          let rc ← util_mkdir env (env.MBPATH_BOOTDEV ++ basedir ++ "/".toList ++ part.path)
          abort_if (rc ≠ 0) "Can't create directory"
        else pure ()) := by
      split
      · exact keeps_bind (probe_util_mkdir _ _) (fun _ => keeps_abort_if _ _)
      · exact keeps_pure _
    have := hkeep w6
    rw [h1] at this
    exact this
  clear h1
  cases hub : part.uevent_block with
  | none =>
    rw [hub] at hk
    cases hk
  | some ub =>
    rw [hub] at hk
    try dsimp only at hk
    obtain ⟨buf, w10, h1, h⟩ := bind_ok_inv _ _ _ _ _ hk
    clear hk
    obtain ⟨_, e1, e2⟩ := SAFE_SNPRINTF_ok _ _ _ _ _ h1
    clear h1
    subst e1
    subst e2
    obtain ⟨r, w11, h1, hk⟩ := bind_ok_inv _ _ _ _ _ h
    clear h
    have s3 : calls_only Event.is_probe w10 w11 := by
      have := probe_util_block_num env
        (env.MBPATH_DEV ++ "/block/".toList ++ ub.devname) 0 w10
      rw [h1] at this
      exact this
    refine ⟨w11, w7, r.1, r.2, Steps.trans s1 (Steps.trans s2 s3), hk, ?_⟩
    rw [hrec]


/-- C17: a round of the loop over `mbparts` for a BIND partition that returns
has, after looking at the partition's directory and at the size of its device,
made these calls in this order, each answered with success: `util_dynfilefs`
with the storage `dynstorage:<name>` and the mountpoint `dynmount:<name>`,
`mknod` of the loop device, `util_losetup` of it on `loop.fs` inside that
mountpoint, `mke2fs` for ext4, the preparation of the stub mountpoint, `mount`
at the stub, the creation and the closing of the marker file, and last
`umount` of the stub; then it has appended the record of the partition, which
has no loop file. A round that aborts, as it does when one of these calls
fails, leaves `multiboot_data`, and so the Registry, as it was. -/
theorem bind_partition_provisioned (env : Env) (basedir : CStr)
    (part : multiboot_partition_t) (w : World) (hty : part.type = MBPART_TYPE_BIND) :
    (∀ w1 : World, setup_mbpart env basedir (some part) w = .ok () w1 →
      ∃ (before prep : List Event) (num_blocks : Nat),
        (∀ e ∈ before, e.is_probe = true) ∧ (∀ e ∈ prep, e.is_dir_probe = true) ∧
        w1.trace = w.trace ++ before
          ++ bind_store_calls env part (mbpart_loopdevice env part) w.loops_created num_blocks
          ++ prep ++ stub_calls env (mbpart_loopdevice env part) ∧
        w1.trace.getLast? = some (Event.umount env.MBPATH_STUB) ∧
        (∀ n, n < 4 → env.rc (w.trace ++ before
          ++ (bind_store_calls env part (mbpart_loopdevice env part) w.loops_created
                num_blocks).take (n + 1)) = 0) ∧
        env.rc (w.trace ++ before
          ++ bind_store_calls env part (mbpart_loopdevice env part) w.loops_created num_blocks
          ++ prep ++ (stub_calls env (mbpart_loopdevice env part)).take 1) = 0 ∧
        0 ≤ env.rc (w.trace ++ before
          ++ bind_store_calls env part (mbpart_loopdevice env part) w.loops_created num_blocks
          ++ prep ++ (stub_calls env (mbpart_loopdevice env part)).take 2) ∧
        env.rc w1.trace = 0 ∧
        w1.md = { w.md with
          replacements := w.md.replacements ++ [mbpart_record env basedir part] } ∧
        (mbpart_record env basedir part).loopfile = none ∧
        w1.loops_created = w.loops_created + 1) ∧
    (∀ (msg : String) (w1 : World),
      setup_mbpart env basedir (some part) w = .abort msg w1 → w1.md = w.md) := by
  constructor
  · intro w1 h
    obtain ⟨wa, wb, rc, nb, ⟨m1, m2, before, m3, m4⟩, hstore, rfl⟩ :=
      setup_mbpart_bind_ok env basedir part w w1 hty h
    obtain ⟨prep, p1, _, _, a1, a2, a3, a4, a5, a6, a7, rfl⟩ :=
      setup_bind_store_ok env part _ rc nb wa _ hstore
    rw [m3] at a1 a2 a3 a4 a5 a6 a7
    rw [m2] at a2 a3 a4 a5 a6 a7
    have htrace : wa.trace ++
        [Event.util_dynfilefs (env.MBPATH_ROOT ++ "/dynstorage:".toList ++ part.name)
          (env.MBPATH_ROOT ++ "/dynmount:".toList ++ part.name) (dynfilefs_size nb),
         Event.mknod (mbpart_loopdevice env part) true 7 (255 - wa.loops_created),
         Event.util_losetup (mbpart_loopdevice env part)
          (env.MBPATH_ROOT ++ "/dynmount:".toList ++ part.name ++ "/loop.fs".toList) false,
         Event.util_mke2fs (mbpart_loopdevice env part) "ext4".toList] ++ prep ++
        [Event.mount (mbpart_loopdevice env part) env.MBPATH_STUB "ext4".toList 0 none,
         Event.open_creat env.MBPATH_STUB_IDFILE, Event.close env.MBPATH_STUB_IDFILE,
         Event.umount env.MBPATH_STUB]
        = w.trace ++ before
          ++ bind_store_calls env part (mbpart_loopdevice env part) w.loops_created nb
          ++ prep ++ stub_calls env (mbpart_loopdevice env part) := by
      rw [m3, m2]
      rfl
    refine ⟨before, prep, nb, m4, p1, htrace, ?_, ?_, ?_, ?_, ?_, ?_, ?_, ?_⟩
    · show List.getLast? (_ ++ _ ++ _) = _
      rw [List.getLast?_append]
      rfl
    · intro n hn
      have hcases : n = 0 ∨ n = 1 ∨ n = 2 ∨ n = 3 := by omega
      rcases hcases with rfl | rfl | rfl | rfl
      · simpa [bind_store_calls] using a1
      · simpa [bind_store_calls] using a2
      · simpa [bind_store_calls] using a3
      · simpa [bind_store_calls] using a4
    · simpa [bind_store_calls, stub_calls] using a5
    · simpa [bind_store_calls, stub_calls] using a6
    · show env.rc (_ ++ _ ++ _ ++ _) = 0
      rw [m3, m2]
      simpa [bind_store_calls, stub_calls] using a7
    · show ({ wa.md with
        replacements := wa.md.replacements ++ [mbpart_record env basedir part] } :
          multiboot_data_t) = _
      rw [m1]
    · simp only [mbpart_record, hty, mbpart_replacement]
    · show wa.loops_created + 1 = _
      rw [m2]
  · intro msg w1 h
    have hs := setup_mbpart_appends env basedir (some part) w
    rw [h] at hs
    exact hs


/-- C17 for the partition `cache=cache` of the ROM in /roms/myrom: the round
returns, its last call is the `umount` of the stub, and its record has no loop
file. -/
theorem bind_partition_provisioned_witness :
    part_cache.type = MBPART_TYPE_BIND ∧
    (setup_mbpart env_rom "/roms/myrom".toList (some part_cache)
      (world_counted [dev_cache, dev_userdata] [rec_data, rec_cache] 1)).aborted = false ∧
    (∀ w1 : World,
      setup_mbpart env_rom "/roms/myrom".toList (some part_cache)
        (world_counted [dev_cache, dev_userdata] [rec_data, rec_cache] 1) = .ok () w1 →
      w1.trace.getLast? = some (Event.umount env_rom.MBPATH_STUB) ∧
      w1.md.replacements = [mbpart_record env_rom "/roms/myrom".toList part_cache] ∧
      (mbpart_record env_rom "/roms/myrom".toList part_cache).loopfile = none ∧
      w1.loops_created = 1) :=
  ⟨rfl, by decide, fun w1 h => by
    obtain ⟨before, prep, nb, _, _, _, hlast, _, _, _, _, hmd, hlf, hk⟩ :=
      (bind_partition_provisioned env_rom "/roms/myrom".toList part_cache
        (world_counted [dev_cache, dev_userdata] [rec_data, rec_cache] 1) rfl).1 w1 h
    exact ⟨hlast, by rw [hmd]; rfl, hlf, by rw [hk]; rfl⟩⟩


/-! ### C18: the backup image is created once -/

theorem util_block_num_returns (env : Env) (path : CStr) (numblocks : Nat) (w : World) :
    ∃ (r : Int × Nat) (wa : World), util_block_num env path numblocks w = .ok r wa ∧
      calls_only Event.is_probe w wa := by
  have hk := probe_util_block_num env path numblocks w
  have hex : ∃ (r : Int × Nat) (wa : World), util_block_num env path numblocks w = .ok r wa := by
    unfold util_block_num
    have h1 : call (Event.open_rdonly path) w
        = .ok (w.trace ++ [Event.open_rdonly path])
            { w with trace := w.trace ++ [Event.open_rdonly path] } := rfl
    rw [bind_of_ok _ _ _ _ _ h1]
    by_cases c1 : env.rc (w.trace ++ [Event.open_rdonly path]) < 0
    · rw [if_pos c1]
      exact ⟨_, _, rfl⟩
    · rw [if_neg c1]
      have h2 : call (Event.ioctl_BLKGETSIZE path)
          { w with trace := w.trace ++ [Event.open_rdonly path] }
          = .ok (w.trace ++ [Event.open_rdonly path] ++ [Event.ioctl_BLKGETSIZE path])
              { w with trace := w.trace ++ [Event.open_rdonly path]
                  ++ [Event.ioctl_BLKGETSIZE path] } := rfl
      rw [bind_of_ok _ _ _ _ _ h2]
      by_cases c2 : env.rc (w.trace ++ [Event.open_rdonly path]
          ++ [Event.ioctl_BLKGETSIZE path]) = -1
      · rw [if_pos c2]
        exact ⟨_, _, rfl⟩
      · rw [if_neg c2]
        exact ⟨_, _, rfl⟩
  obtain ⟨r, wa, h⟩ := hex
  rw [h] at hk
  exact ⟨r, wa, h, hk⟩

/-- `util_dd` returns, and when it returns 0 it has looked at the source at
most and then called `dd`, which answered 0. -/
theorem util_dd_returns (env : Env) (source target : CStr) (blocks : Nat) (w : World) :
    ∃ (rc : Int) (w1 : World), util_dd env source target blocks w = .ok rc w1 ∧
      w1.md = w.md ∧
      (rc = 0 → ∃ (pre : List Event) (n : Nat), (∀ e ∈ pre, e.is_probe = true) ∧
        w1.trace = w.trace ++ pre ++ [Event.util_dd source target n] ∧
        env.rc (w.trace ++ pre ++ [Event.util_dd source target n]) = 0) := by
  unfold util_dd
  by_cases hb : blocks = 0
  · rw [if_pos hb]
    obtain ⟨r, wa, hr, m1, _, pre, m3, m4⟩ := util_block_num_returns env source blocks w
    rw [bind_of_ok _ _ _ _ _ hr]
    by_cases h1 : blocks = 0 ∧ r.1 ≠ 0
    · rw [if_pos h1]
      exact ⟨_, _, rfl, m1, fun h => absurd h h1.2⟩
    · rw [if_neg h1]
      by_cases h2 : ("if=".toList ++ source).length ≥ env.PATH_MAX
      · rw [if_pos h2]
        exact ⟨_, _, rfl, m1, fun h => absurd h (by decide)⟩
      · rw [if_neg h2]
        by_cases h3 : ("of=".toList ++ target).length ≥ env.PATH_MAX
        · rw [if_pos h3]
          exact ⟨_, _, rfl, m1, fun h => absurd h (by decide)⟩
        · rw [if_neg h3]
          refine ⟨_, _, rfl, m1, fun h => ⟨pre, r.2, m4, ?_, ?_⟩⟩
          · show wa.trace ++ _ = _
            rw [m3]
          · rw [← m3]
            exact h
  · rw [if_neg hb]
    rw [run_pure_bind]
    dsimp only
    rw [if_neg (fun h => hb h.1)]
    by_cases h2 : ("if=".toList ++ source).length ≥ env.PATH_MAX
    · rw [if_pos h2]
      exact ⟨_, _, rfl, rfl, fun h => absurd h (by decide)⟩
    · rw [if_neg h2]
      by_cases h3 : ("of=".toList ++ target).length ≥ env.PATH_MAX
      · rw [if_pos h3]
        exact ⟨_, _, rfl, rfl, fun h => absurd h (by decide)⟩
      · rw [if_neg h3]
        refine ⟨_, _, rfl, rfl, fun h => ⟨[], blocks, by simp, ?_, ?_⟩⟩
        · show w.trace ++ _ = _
          rw [List.append_nil]
        · rw [List.append_nil]
          exact h

/-- What `util_create_partition_backup` does, by the answer of `stat`. -/
theorem util_create_partition_backup_eq (env : Env) (device file : CStr) (w : World) :
    ∃ (r : Int × Nat) (wa : World), util_block_num env device 0 w = .ok r wa ∧
      calls_only Event.is_probe w wa ∧
      util_create_partition_backup env device file w
        = if env.rc (wa.trace ++ [Event.stat file false]) = 0 then
            .ok 0 { wa with trace := wa.trace ++ [Event.stat file false] }
          else
            match util_dd env device file r.2
                { wa with trace := wa.trace ++ [Event.stat file false] } with
            | .ok rc w1 => .ok (if rc ≠ 0 then -1 else 0) w1
            | .abort msg w1 => .abort msg w1 := by
  obtain ⟨r, wa, hr, hq⟩ := util_block_num_returns env device 0 w
  refine ⟨r, wa, hr, hq, ?_⟩
  unfold util_create_partition_backup util_create_partition_backup_ex
  rw [if_pos rfl, bind_of_ok _ _ _ _ _ hr]
  have hex : util_exists env file false wa
      = .ok (decide (env.rc (wa.trace ++ [Event.stat file false]) = 0))
          { wa with trace := wa.trace ++ [Event.stat file false] } := rfl
  rw [if_neg (by decide), bind_of_ok _ _ _ _ _ hex]
  by_cases hs : env.rc (wa.trace ++ [Event.stat file false]) = 0
  · rw [if_pos hs, if_neg]
    · rfl
    · simp [hs]
  · rw [if_neg hs, if_pos]
    · obtain ⟨rc, w1, hd, _⟩ := util_dd_returns env device file r.2
        { wa with trace := wa.trace ++ [Event.stat file false] }
      rw [bind_of_ok _ _ _ _ _ hd, hd]
      by_cases hrc : rc ≠ 0
      · simp only [if_pos hrc]; rfl
      · simp only [if_neg hrc]; rfl
    · simp [hs]


theorem copied_to_append (env : Env) (trace more : List Event) (file : CStr)
    (h : copied_to env trace file) : copied_to env (trace ++ more) file := by
  obtain ⟨p, q, source, blocks, h1, h2⟩ := h
  exact ⟨p, q ++ more, source, blocks, by rw [h1, List.append_assoc], h2⟩

/-- C18: `util_create_partition_backup(device, file)` asks for the size of the
device, looks for the file, and returns. When the file is found it returns 0
and has made no other call: nothing is copied. When the file is not found it
invokes `util_dd` from the device to the file and returns 0 when `util_dd`
returned 0, after a `dd` that succeeded, and -1 when `util_dd` returned anything
else. It never changes `multiboot_data`. Where files stay, a call made after
one that copied finds the file, copies nothing and returns 0. -/
theorem backup_created_once (env : Env) (device file : CStr) (w : World) :
    ∃ (r : Int × Nat) (wa : World) (v : Int) (w1 : World),
      util_block_num env device 0 w = .ok r wa ∧ calls_only Event.is_probe w wa ∧
      util_create_partition_backup env device file w = .ok v w1 ∧ w1.md = w.md ∧
      (env.rc (wa.trace ++ [Event.stat file false]) = 0 →
        v = 0 ∧ w1 = { wa with trace := wa.trace ++ [Event.stat file false] }) ∧
      (env.rc (wa.trace ++ [Event.stat file false]) ≠ 0 →
        ∃ rc : Int,
          util_dd env device file r.2 { wa with trace := wa.trace ++ [Event.stat file false] }
            = .ok rc w1 ∧
          v = (if rc ≠ 0 then -1 else 0) ∧ (v = 0 → copied_to env w1.trace file)) ∧
      (files_persist env → copied_to env w1.trace file →
        ∀ w2 : World, w1.trace <+: w2.trace →
          ∃ (r2 : Int × Nat) (wb : World),
            util_block_num env device 0 w2 = .ok r2 wb ∧ calls_only Event.is_probe w2 wb ∧
            util_create_partition_backup env device file w2
              = .ok 0 { wb with trace := wb.trace ++ [Event.stat file false] }) := by
  obtain ⟨r, wa, hr, hq, heq⟩ := util_create_partition_backup_eq env device file w
  have hsecond : ∀ w1 : World, files_persist env → copied_to env w1.trace file →
      ∀ w2 : World, w1.trace <+: w2.trace →
        ∃ (r2 : Int × Nat) (wb : World),
          util_block_num env device 0 w2 = .ok r2 wb ∧ calls_only Event.is_probe w2 wb ∧
          util_create_partition_backup env device file w2
            = .ok 0 { wb with trace := wb.trace ++ [Event.stat file false] } := by
    intro w1 hp hc w2 hpre
    obtain ⟨r2, wb, hr2, hq2, heq2⟩ := util_create_partition_backup_eq env device file w2
    refine ⟨r2, wb, hr2, hq2, ?_⟩
    obtain ⟨more, hmore⟩ := hpre
    obtain ⟨_, _, pre, hpre2, _⟩ := hq2
    have hc2 : copied_to env wb.trace file := by
      rw [hpre2, ← hmore, List.append_assoc]
      exact copied_to_append env _ _ _ hc
    rw [heq2, if_pos (hp _ _ _ hc2)]
  by_cases hs : env.rc (wa.trace ++ [Event.stat file false]) = 0
  · rw [if_pos hs] at heq
    refine ⟨r, wa, 0, _, hr, hq, heq, hq.1, fun _ => ⟨rfl, rfl⟩, fun h => absurd hs h,
      hsecond _⟩
  · rw [if_neg hs] at heq
    obtain ⟨rc, w1, hd, hmd, hzero⟩ := util_dd_returns env device file r.2
      { wa with trace := wa.trace ++ [Event.stat file false] }
    rw [hd] at heq
    refine ⟨r, wa, _, w1, hr, hq, heq, hmd.trans hq.1, fun h => absurd h hs,
      fun _ => ⟨rc, hd, rfl, ?_⟩, hsecond _⟩
    intro hv
    have hrc : rc = 0 := by
      by_contra hne
      rw [if_pos hne] at hv
      exact absurd hv (by decide)
    obtain ⟨pre, n, _, htr, hans⟩ := hzero hrc
    exact ⟨wa.trace ++ [Event.stat file false] ++ pre, [], device, n, by rw [htr]; simp, hans⟩

theorem copy_targets_append (a b : List Event) :
    copy_targets (a ++ b) = copy_targets a ++ copy_targets b := by
  induction a with
  | nil => rfl
  | cons e a ih =>
    show _ ++ copy_targets (a ++ b) = (_ ++ copy_targets a) ++ _
    rw [ih, List.append_assoc]

/-- In the surroundings `env_fresh` files stay. -/
theorem files_persist_env_fresh : files_persist env_fresh := by
  intro trace file follow h
  obtain ⟨p, q, source, blocks, h1, _⟩ := h
  have hmem : file ∈ copy_targets trace := by
    rw [h1, copy_targets_append, copy_targets_append]
    exact List.mem_append_left _ (List.mem_append_right _ (List.mem_singleton.mpr rfl))
  simp [env_fresh, hmem]

/-- C18 for the modem partition in surroundings where the image is absent at
first: the first call copies and returns 0, and every call made later returns 0
after looking at the device and at the file only. -/
theorem backup_created_once_witness :
    files_persist env_fresh ∧
    ∃ w1 : World,
      util_create_partition_backup env_fresh "/multiboot/dev/block/mmcblk0p2".toList
        "/multiboot/esp/media/UEFIESP/partition_modem.img".toList (world_start [] [])
        = .ok 0 w1 ∧
      Event.util_dd "/multiboot/dev/block/mmcblk0p2".toList
        "/multiboot/esp/media/UEFIESP/partition_modem.img".toList 204800 ∈ w1.trace ∧
      ∀ w2 : World, w1.trace <+: w2.trace →
        ∃ (r2 : Int × Nat) (wb : World),
          util_block_num env_fresh "/multiboot/dev/block/mmcblk0p2".toList 0 w2 = .ok r2 wb ∧
          calls_only Event.is_probe w2 wb ∧
          util_create_partition_backup env_fresh "/multiboot/dev/block/mmcblk0p2".toList
            "/multiboot/esp/media/UEFIESP/partition_modem.img".toList w2
            = .ok 0
              { wb with trace := wb.trace ++
                [Event.stat "/multiboot/esp/media/UEFIESP/partition_modem.img".toList false] } := by
  refine ⟨files_persist_env_fresh, ?_⟩
  obtain ⟨r, wa, v, w1, hr, _, hrun, _, _, hcopy, hsecond⟩ :=
    backup_created_once env_fresh "/multiboot/dev/block/mmcblk0p2".toList
      "/multiboot/esp/media/UEFIESP/partition_modem.img".toList (world_start [] [])
  have hwa : util_block_num env_fresh "/multiboot/dev/block/mmcblk0p2".toList 0
      (world_start [] [])
      = .ok (0, 204800)
          { world_start [] [] with
            trace := [Event.open_rdonly "/multiboot/dev/block/mmcblk0p2".toList,
              Event.ioctl_BLKGETSIZE "/multiboot/dev/block/mmcblk0p2".toList,
              Event.close "/multiboot/dev/block/mmcblk0p2".toList] } := by decide
  rw [hwa] at hr
  cases hr
  obtain ⟨rc, hd, hv, hc⟩ := hcopy (by decide)
  have hd2 : util_dd env_fresh "/multiboot/dev/block/mmcblk0p2".toList
      "/multiboot/esp/media/UEFIESP/partition_modem.img".toList 204800
      { world_start [] [] with
        trace := [Event.open_rdonly "/multiboot/dev/block/mmcblk0p2".toList,
          Event.ioctl_BLKGETSIZE "/multiboot/dev/block/mmcblk0p2".toList,
          Event.close "/multiboot/dev/block/mmcblk0p2".toList,
          Event.stat "/multiboot/esp/media/UEFIESP/partition_modem.img".toList false] }
      = .ok 0
        { world_start [] [] with
          trace := [Event.open_rdonly "/multiboot/dev/block/mmcblk0p2".toList,
            Event.ioctl_BLKGETSIZE "/multiboot/dev/block/mmcblk0p2".toList,
            Event.close "/multiboot/dev/block/mmcblk0p2".toList,
            Event.stat "/multiboot/esp/media/UEFIESP/partition_modem.img".toList false,
            Event.util_dd "/multiboot/dev/block/mmcblk0p2".toList
              "/multiboot/esp/media/UEFIESP/partition_modem.img".toList 204800] } := by
    decide
  have hd3 := hd.symm.trans hd2
  cases hd3
  have hv0 : v = 0 := hv
  subst hv0
  exact ⟨_, hrun, by decide, hsecond files_persist_env_fresh (hc rfl)⟩


/-! ### C19: the selector of the kernel command line -/

theorem selector_argument (value : CStr) :
    ("multibootpath=".toList ++ value).takeWhile (fun c => c ≠ '=') = "multibootpath".toList ∧
    (("multibootpath=".toList ++ value).dropWhile (fun c => c ≠ '=')).drop 1 = value ∧
    '=' ∈ ("multibootpath=".toList ++ value) ∧
    ("multibootpath=".toList ++ value).length ≠ 0 := by
  refine ⟨?_, ?_, ?_, ?_⟩
  · simp [List.takeWhile]
  · simp [List.dropWhile]
  · simp
  · simp

theorem scan_string_width (n : Nat) (field rest : CStr) (hlen : field.length = n)
    (hn : 0 < n) (hns : ∀ c ∈ field, isspace c = false) :
    scan_string (some n) (field ++ rest) = some (field, rest) := by
  cases field with
  | nil => simp at hlen; omega
  | cons c cs =>
    have hc : isspace c = false := hns c (List.mem_cons_self _ _)
    have hd : (c :: cs ++ rest).dropWhile isspace = c :: cs ++ rest := by
      simp [List.dropWhile, hc]
    have ht : ((c :: cs ++ rest).takeWhile (fun c => !isspace c)).take n = c :: cs := by
      have : (c :: cs ++ rest).takeWhile (fun c => !isspace c)
          = (c :: cs) ++ rest.takeWhile (fun c => !isspace c) := by
        rw [List.takeWhile_append_of_pos]
        intro x hx
        simp [hns x hx]
      rw [this, ← hlen, List.take_left' rfl]
    unfold scan_string
    simp only [hd, ht]
    rw [if_neg (List.cons_ne_nil _ _), List.drop_left' rfl]

theorem scan_string_all (field : CStr) (hne : field ≠ [])
    (hns : ∀ c ∈ field, isspace c = false) :
    scan_string none field = some (field, []) := by
  cases field with
  | nil => exact absurd rfl hne
  | cons c cs =>
    have hc : isspace c = false := hns c (List.mem_cons_self _ _)
    have hd : (c :: cs).dropWhile isspace = c :: cs := by
      simp [List.dropWhile, hc]
    have ht : (c :: cs).takeWhile (fun c => !isspace c) = c :: cs := by
      rw [List.takeWhile_eq_self_iff]
      intro x hx
      simp [hns x hx]
    unfold scan_string
    simp only [hd, ht]
    rw [if_neg (List.cons_ne_nil _ _), List.drop_length]

/-- The `sscanf` of the selector reads both fields of a value
`<tag>,<id>,<path>` whose identifier has the width of the directive. -/
theorem sscanf_multibootpath_reads (tag : CStr) (width : Nat) (guid path : CStr)
    (hw : 0 < width) (hlen : guid.length = width) (hid : ∀ c ∈ guid, isspace c = false)
    (hne : path ≠ []) (hpath : ∀ c ∈ path, isspace c = false) :
    sscanf_multibootpath tag width (tag ++ [','] ++ guid ++ [','] ++ path)
      = (2, some guid, some path) := by
  unfold sscanf_multibootpath
  have h1 : (tag ++ [','] ++ guid ++ [','] ++ path).take (tag.length + 1) = tag ++ [','] := by
    rw [List.append_assoc (tag ++ [',']), List.append_assoc (tag ++ [','])]
    refine List.take_left' ?_
    rw [List.length_append]
    rfl
  have h2 : (tag ++ [','] ++ guid ++ [','] ++ path).drop (tag.length + 1)
      = guid ++ [','] ++ path := by
    rw [List.append_assoc (tag ++ [',']), List.append_assoc (tag ++ [','])]
    refine List.drop_left' ?_
    rw [List.length_append]
    rfl
  rw [if_neg (not_not.mpr h1), h2, List.append_assoc guid,
    scan_string_width width guid _ hlen hw hid]
  dsimp only
  have h4 : ¬ (([','] ++ path).head? ≠ some ',') := not_not.mpr rfl
  rw [if_neg h4]
  have h3 : ([','] ++ path).drop 1 = path := rfl
  rw [h3, scan_string_all path hne hpath]

/-- What `import_kernel_nv` does with the argument `multibootpath=<value>`. -/
theorem import_kernel_nv_selector (value : CStr) (w : World) :
    import_kernel_nv ("multibootpath=".toList ++ value) w
      = if value.take 3 = "GPT".toList then
          match sscanf_multibootpath "GPT".toList 36 value with
          | (2, some guid, some path) =>
            .ok () { w with md := { w.md with guid := some guid, path := some path } }
          | _ => .abort "invalid multibootpath" w
        else if value.take 3 = "MBR".toList then
          match sscanf_multibootpath "MBR".toList 11 value with
          | (2, some guid, some path) =>
            .ok () { w with md := { w.md with guid := some guid, path := some path } }
          | _ => .abort "invalid multibootpath" w
        else .abort "invalid multibootpath" w := by
  obtain ⟨hn, hv, hmem, hlen⟩ := selector_argument value
  unfold import_kernel_nv
  rw [if_neg (not_not.mpr hmem)]
  dsimp only
  have d1 : ¬ ("multibootpath".toList = "multiboot.debug".toList) := by decide
  have d2 : ¬ ("multibootpath".toList = "androidboot.hardware".toList) := by decide
  have d3 : ¬ ("multibootpath".toList = "androidboot.slot_suffix".toList) := by decide
  rw [hn, hv, if_neg hlen, if_pos rfl, if_neg d1, if_neg d2, if_neg d3]
  by_cases hg : value.take 3 = "GPT".toList
  · rw [if_pos hg, if_pos hg]
    split <;> rfl
  · rw [if_neg hg, if_neg hg]
    by_cases hm : value.take 3 = "MBR".toList
    · rw [if_pos hm, if_pos hm]
      split <;> rfl
    · rw [if_neg hm, if_neg hm]
      rfl

theorem import_kernel_nv_selector_ok (value tag guid path : CStr) (width : Nat) (w : World)
    (htag : (tag = "GPT".toList ∧ width = 36) ∨ (tag = "MBR".toList ∧ width = 11))
    (ht : value.take 3 = tag)
    (hs : sscanf_multibootpath tag width value = (2, some guid, some path)) :
    import_kernel_nv ("multibootpath=".toList ++ value) w
      = .ok () { w with md := { w.md with guid := some guid, path := some path } } := by
  have hgm : ¬ ("MBR".toList = "GPT".toList) := by decide
  rw [import_kernel_nv_selector]
  rcases htag with ⟨rfl, rfl⟩ | ⟨rfl, rfl⟩
  · rw [if_pos ht, hs]
    rfl
  · rw [if_neg (by rw [ht]; exact hgm), if_pos ht, hs]
    rfl

theorem import_kernel_nv_selector_abort (value tag : CStr) (width : Nat) (w : World)
    (htag : (tag = "GPT".toList ∧ width = 36) ∨ (tag = "MBR".toList ∧ width = 11))
    (ht : value.take 3 = tag)
    (hs : ∀ guid path, sscanf_multibootpath tag width value ≠ (2, some guid, some path)) :
    import_kernel_nv ("multibootpath=".toList ++ value) w
      = .abort "invalid multibootpath" w := by
  have hgm : ¬ ("MBR".toList = "GPT".toList) := by decide
  rw [import_kernel_nv_selector]
  rcases htag with ⟨rfl, rfl⟩ | ⟨rfl, rfl⟩
  · rw [if_pos ht]
    split
    · rename_i guid path heq
      exact absurd heq (hs guid path)
    · rfl
  · rw [if_neg (by rw [ht]; exact hgm), if_pos ht]
    split
    · rename_i guid path heq
      exact absurd heq (hs guid path)
    · rfl


/-- C19: the argument `multibootpath=<value>` is decoded as
`<GPT|MBR>,<identifier>,<path>`. For a value `GPT,<id>,<path>` with an id of 36
characters or `MBR,<id>,<path>` with an id of 11 characters, the id and the
path being free of white space and the path not empty, `import_kernel_nv` stores
the id in `guid` and the path in `path` and changes nothing else. A value that
begins with neither "GPT" nor "MBR" aborts. In general the call returns only
when `sscanf` read both fields, and then has stored them; in every other case
it aborts with the world as it was. So does `GPT,abc,/x`: the directive `%36s`
reads "abc,/x" and the comma of the format finds no input. -/
theorem selector_decoded (w : World) :
    (∀ (tag guid path : CStr) (width : Nat),
      ((tag = "GPT".toList ∧ width = 36) ∨ (tag = "MBR".toList ∧ width = 11)) →
      guid.length = width → (∀ c ∈ guid, isspace c = false) →
      path ≠ [] → (∀ c ∈ path, isspace c = false) →
      import_kernel_nv ("multibootpath=".toList ++ (tag ++ [','] ++ guid ++ [','] ++ path)) w
        = .ok () { w with md := { w.md with guid := some guid, path := some path } }) ∧
    (∀ value : CStr, value.take 3 ≠ "GPT".toList → value.take 3 ≠ "MBR".toList →
      import_kernel_nv ("multibootpath=".toList ++ value) w
        = .abort "invalid multibootpath" w) ∧
    (∀ value : CStr,
      match import_kernel_nv ("multibootpath=".toList ++ value) w with
      | .ok _ w1 => ∃ (tag guid path : CStr) (width : Nat),
          ((tag = "GPT".toList ∧ width = 36) ∨ (tag = "MBR".toList ∧ width = 11)) ∧
          value.take 3 = tag ∧
          sscanf_multibootpath tag width value = (2, some guid, some path) ∧
          w1 = { w with md := { w.md with guid := some guid, path := some path } }
      | .abort _ w1 => w1 = w) ∧
    (∀ (value tag : CStr) (width : Nat),
      ((tag = "GPT".toList ∧ width = 36) ∨ (tag = "MBR".toList ∧ width = 11)) →
      value.take 3 = tag → (sscanf_multibootpath tag width value).1 ≠ 2 →
      import_kernel_nv ("multibootpath=".toList ++ value) w
        = .abort "invalid multibootpath" w) ∧
    import_kernel_nv "multibootpath=GPT,abc,/x".toList w
      = .abort "invalid multibootpath" w := by
  refine ⟨?_, ?_, ?_, ?_, ?_⟩
  · intro tag guid path width htag hlen hid hne hpath
    have hw : 0 < width := by rcases htag with ⟨_, rfl⟩ | ⟨_, rfl⟩ <;> decide
    have ht : (tag ++ [','] ++ guid ++ [','] ++ path).take 3 = tag := by
      rcases htag with ⟨rfl, _⟩ | ⟨rfl, _⟩ <;> rfl
    exact import_kernel_nv_selector_ok _ tag guid path width w htag ht
      (sscanf_multibootpath_reads tag width guid path hw hlen hid hne hpath)
  · intro value hg hm
    rw [import_kernel_nv_selector, if_neg hg, if_neg hm]
  · intro value
    by_cases hg : value.take 3 = "GPT".toList
    · by_cases hs : ∃ guid path,
          sscanf_multibootpath "GPT".toList 36 value = (2, some guid, some path)
      · obtain ⟨guid, path, hs⟩ := hs
        rw [import_kernel_nv_selector_ok value _ guid path 36 w (Or.inl ⟨rfl, rfl⟩) hg hs]
        exact ⟨_, guid, path, 36, Or.inl ⟨rfl, rfl⟩, hg, hs, rfl⟩
      · rw [import_kernel_nv_selector_abort value _ 36 w (Or.inl ⟨rfl, rfl⟩) hg
          (fun guid path h => hs ⟨guid, path, h⟩)]
    · by_cases hm : value.take 3 = "MBR".toList
      · by_cases hs : ∃ guid path,
            sscanf_multibootpath "MBR".toList 11 value = (2, some guid, some path)
        · obtain ⟨guid, path, hs⟩ := hs
          rw [import_kernel_nv_selector_ok value _ guid path 11 w (Or.inr ⟨rfl, rfl⟩) hm hs]
          exact ⟨_, guid, path, 11, Or.inr ⟨rfl, rfl⟩, hm, hs, rfl⟩
        · rw [import_kernel_nv_selector_abort value _ 11 w (Or.inr ⟨rfl, rfl⟩) hm
            (fun guid path h => hs ⟨guid, path, h⟩)]
      · rw [import_kernel_nv_selector, if_neg hg, if_neg hm]
  · intro value tag width htag ht hcount
    refine import_kernel_nv_selector_abort value tag width w htag ht ?_
    intro guid path h
    rw [h] at hcount
    exact hcount rfl
  · refine import_kernel_nv_selector_abort "GPT,abc,/x".toList "GPT".toList 36 w
      (Or.inl ⟨rfl, rfl⟩) (by decide) ?_
    have hv : sscanf_multibootpath "GPT".toList 36 "GPT,abc,/x".toList
        = (1, some "abc,/x".toList, none) := by decide
    intro guid path h
    rw [hv] at h
    cases h


/-! ### C20: the fstab of the ROM -/

theorem get_data_bind {β : Type} (k : multiboot_data_t → Run β) (w : World) :
    (get_data >>= k) w = k w.md w := rfl

theorem modify_data_bind {β : Type} (f : multiboot_data_t → multiboot_data_t)
    (k : Unit → Run β) (w : World) :
    (modify_data f >>= k) w = k () { w with md := f w.md } := rfl

theorem call_bind {β : Type} (e : Event) (k : List Event → Run β) (w : World) :
    (call e >>= k) w = k (w.trace ++ [e]) { w with trace := w.trace ++ [e] } := rfl

theorem abort_if_bind_neg {β : Type} (c : Prop) [Decidable c] (msg : String)
    (k : Unit → Run β) (w : World) (h : ¬ c) : (abort_if c msg >>= k) w = k () w := by
  have ha : abort_if c msg w = .ok () w := by unfold abort_if; rw [if_neg h]
  rw [bind_of_ok _ _ _ _ _ ha]

theorem abort_if_bind_pos {β : Type} (c : Prop) [Decidable c] (msg : String)
    (k : Unit → Run β) (w : World) (h : c) : (abort_if c msg >>= k) w = .abort msg w := by
  have ha : abort_if c msg w = .abort msg w := by unfold abort_if; rw [if_pos h]
  rw [bind_of_abort _ _ _ _ _ ha]

/-- What `multiboot_main_romfstab` does, by the mode and by the answers of
`fs_mgr_read_fstab`. -/
theorem multiboot_main_romfstab_eq (env : Env) (w : World) (hwname : CStr)
    (hhw : w.md.hwname = some hwname) (hfit : ("/fstab.".toList ++ hwname).length < env.PATH_MAX) :
    multiboot_main_romfstab env w
      = match env.fstab (w.trace ++ [Event.fs_mgr_read_fstab ("/fstab.".toList ++ hwname)]) with
        | some table =>
          .ok () { w with
            md := { w.md with
              romfstab := some table, romfstabpath := some ("/fstab.".toList ++ hwname) },
            trace := w.trace ++ [Event.fs_mgr_read_fstab ("/fstab.".toList ++ hwname)] }
        | none =>
          if w.md.is_recovery = false then
            .abort "Can't parse ROM fstab" { w with
              md := { w.md with
                romfstab := none, romfstabpath := some ("/fstab.".toList ++ hwname) },
              trace := w.trace ++ [Event.fs_mgr_read_fstab ("/fstab.".toList ++ hwname)] }
          else
            match env.fstab (w.trace ++ [Event.fs_mgr_read_fstab ("/fstab.".toList ++ hwname),
                Event.fs_mgr_read_fstab "/etc/twrp.fstab".toList]) with
            | some table =>
              .ok () { w with
                md := { w.md with
                  romfstab := some table, romfstabpath := some "/etc/twrp.fstab".toList },
                trace := w.trace ++ [Event.fs_mgr_read_fstab ("/fstab.".toList ++ hwname),
                  Event.fs_mgr_read_fstab "/etc/twrp.fstab".toList] }
            | none =>
              match env.fstab (w.trace ++
                  [Event.fs_mgr_read_fstab ("/fstab.".toList ++ hwname),
                    Event.fs_mgr_read_fstab "/etc/twrp.fstab".toList,
                    Event.fs_mgr_read_fstab "/etc/recovery.fstab".toList]) with
              | some table =>
                .ok () { w with
                  md := { w.md with
                    romfstab := some table,
                    romfstabpath := some "/etc/recovery.fstab".toList },
                  trace := w.trace ++ [Event.fs_mgr_read_fstab ("/fstab.".toList ++ hwname),
                    Event.fs_mgr_read_fstab "/etc/twrp.fstab".toList,
                    Event.fs_mgr_read_fstab "/etc/recovery.fstab".toList] }
              | none =>
                .ok () { w with
                  md := { w.md with
                    romfstab := some [], romfstabpath := some ("/fstab.".toList ++ hwname) },
                  trace := w.trace ++ [Event.fs_mgr_read_fstab ("/fstab.".toList ++ hwname),
                    Event.fs_mgr_read_fstab "/etc/twrp.fstab".toList,
                    Event.fs_mgr_read_fstab "/etc/recovery.fstab".toList] } := by
  unfold multiboot_main_romfstab
  rw [get_data_bind, hhw]
  dsimp only
  have hs : SAFE_SNPRINTF env ("/fstab.".toList ++ hwname) w
      = .ok ("/fstab.".toList ++ hwname) w := by
    unfold SAFE_SNPRINTF
    rw [if_neg (not_le.mpr hfit)]
  rw [bind_of_ok _ _ _ _ _ hs, modify_data_bind, call_bind, modify_data_bind]
  dsimp only
  have hnone : ¬ ((none : Option (List fstab_rec)).isSome = true) := by decide
  have hsome : ∀ table : List fstab_rec, ¬ (some table = none) := fun _ h => by cases h
  cases h1 : env.fstab (w.trace ++ [Event.fs_mgr_read_fstab ("/fstab.".toList ++ hwname)]) with
  | some table =>
    rw [if_neg (hsome table), run_pure_bind, get_data_bind]
    dsimp only
    rw [if_neg (hsome table)]
    rfl
  | none =>
    rw [if_pos rfl, run_bind_assoc]
    by_cases hr : w.md.is_recovery = false
    · rw [abort_if_bind_pos _ _ _ _ hr, if_pos hr]
    · rw [abort_if_bind_neg _ _ _ _ hr, if_neg hr, run_bind_assoc, call_bind, run_bind_assoc,
        modify_data_bind]
      dsimp only
      rw [List.append_assoc]
      cases h2 : env.fstab (w.trace ++ ([Event.fs_mgr_read_fstab ("/fstab.".toList ++ hwname)]
          ++ [Event.fs_mgr_read_fstab "/etc/twrp.fstab".toList])) with
      | some table =>
        have h2b : env.fstab (w.trace ++ [Event.fs_mgr_read_fstab ("/fstab.".toList ++ hwname),
            Event.fs_mgr_read_fstab "/etc/twrp.fstab".toList]) = some table := h2
        rw [h2b]
        dsimp only
        rw [if_pos (show (some table).isSome = true from rfl), modify_data_bind, get_data_bind]
        dsimp only
        rw [if_neg (hsome table)]
        rfl
      | none =>
        have h2b : env.fstab (w.trace ++ [Event.fs_mgr_read_fstab ("/fstab.".toList ++ hwname),
            Event.fs_mgr_read_fstab "/etc/twrp.fstab".toList]) = none := h2
        rw [h2b]
        dsimp only
        rw [if_neg hnone, run_bind_assoc, call_bind, run_bind_assoc, modify_data_bind]
        dsimp only
        cases h3 : env.fstab (w.trace ++
            [Event.fs_mgr_read_fstab ("/fstab.".toList ++ hwname),
              Event.fs_mgr_read_fstab "/etc/twrp.fstab".toList,
              Event.fs_mgr_read_fstab "/etc/recovery.fstab".toList]) with
        | some table =>
          have h3b : env.fstab (w.trace ++ ([Event.fs_mgr_read_fstab ("/fstab.".toList ++ hwname)]
              ++ [Event.fs_mgr_read_fstab "/etc/twrp.fstab".toList])
              ++ [Event.fs_mgr_read_fstab "/etc/recovery.fstab".toList]) = some table := by
            rw [← h3]; simp
          rw [h3b]
          dsimp only
          rw [if_pos (show (some table).isSome = true from rfl), modify_data_bind, get_data_bind]
          dsimp only
          rw [if_neg (hsome table)]
          simp only [List.append_assoc, List.singleton_append, List.cons_append, List.nil_append]
          rfl
        | none =>
          have h3b : env.fstab (w.trace ++ ([Event.fs_mgr_read_fstab ("/fstab.".toList ++ hwname)]
              ++ [Event.fs_mgr_read_fstab "/etc/twrp.fstab".toList])
              ++ [Event.fs_mgr_read_fstab "/etc/recovery.fstab".toList]) = none := by
            rw [← h3]; simp
          rw [h3b]
          dsimp only
          rw [if_neg hnone, run_pure_bind, get_data_bind]
          dsimp only
          rw [if_pos rfl]
          simp only [List.append_assoc, List.singleton_append, List.cons_append, List.nil_append]
          rfl

/-- C20, as amended: the fstab of the ROM is read from `/fstab.<hwname>`, and
the table that file parses to is used in every mode. When it does not parse, a
recovery tries /etc/twrp.fstab and then /etc/recovery.fstab, uses the first of
them that parses and records its path, and when none parses goes on with the
table of no records (the recorded path is still `/fstab.<hwname>`); a platform
boot aborts instead, without trying the alternates. -/
theorem romfstab_resolution (env : Env) (w : World) (hwname : CStr)
    (hhw : w.md.hwname = some hwname)
    (hfit : ("/fstab.".toList ++ hwname).length < env.PATH_MAX) :
    (∀ table : List fstab_rec,
      env.fstab (w.trace ++ [Event.fs_mgr_read_fstab ("/fstab.".toList ++ hwname)])
        = some table →
      multiboot_main_romfstab env w
        = .ok () (romfstab_world w (some table) ("/fstab.".toList ++ hwname)
            [Event.fs_mgr_read_fstab ("/fstab.".toList ++ hwname)])) ∧
    (∀ table : List fstab_rec, w.md.is_recovery = true →
      env.fstab (w.trace ++ [Event.fs_mgr_read_fstab ("/fstab.".toList ++ hwname)]) = none →
      env.fstab (w.trace ++ [Event.fs_mgr_read_fstab ("/fstab.".toList ++ hwname),
        Event.fs_mgr_read_fstab "/etc/twrp.fstab".toList]) = some table →
      multiboot_main_romfstab env w
        = .ok () (romfstab_world w (some table) "/etc/twrp.fstab".toList
            [Event.fs_mgr_read_fstab ("/fstab.".toList ++ hwname),
              Event.fs_mgr_read_fstab "/etc/twrp.fstab".toList])) ∧
    (∀ table : List fstab_rec, w.md.is_recovery = true →
      env.fstab (w.trace ++ [Event.fs_mgr_read_fstab ("/fstab.".toList ++ hwname)]) = none →
      env.fstab (w.trace ++ [Event.fs_mgr_read_fstab ("/fstab.".toList ++ hwname),
        Event.fs_mgr_read_fstab "/etc/twrp.fstab".toList]) = none →
      env.fstab (w.trace ++ [Event.fs_mgr_read_fstab ("/fstab.".toList ++ hwname),
        Event.fs_mgr_read_fstab "/etc/twrp.fstab".toList,
        Event.fs_mgr_read_fstab "/etc/recovery.fstab".toList]) = some table →
      multiboot_main_romfstab env w
        = .ok () (romfstab_world w (some table) "/etc/recovery.fstab".toList
            [Event.fs_mgr_read_fstab ("/fstab.".toList ++ hwname),
              Event.fs_mgr_read_fstab "/etc/twrp.fstab".toList,
              Event.fs_mgr_read_fstab "/etc/recovery.fstab".toList])) ∧
    (w.md.is_recovery = true →
      env.fstab (w.trace ++ [Event.fs_mgr_read_fstab ("/fstab.".toList ++ hwname)]) = none →
      env.fstab (w.trace ++ [Event.fs_mgr_read_fstab ("/fstab.".toList ++ hwname),
        Event.fs_mgr_read_fstab "/etc/twrp.fstab".toList]) = none →
      env.fstab (w.trace ++ [Event.fs_mgr_read_fstab ("/fstab.".toList ++ hwname),
        Event.fs_mgr_read_fstab "/etc/twrp.fstab".toList,
        Event.fs_mgr_read_fstab "/etc/recovery.fstab".toList]) = none →
      multiboot_main_romfstab env w
        = .ok () (romfstab_world w (some []) ("/fstab.".toList ++ hwname)
            [Event.fs_mgr_read_fstab ("/fstab.".toList ++ hwname),
              Event.fs_mgr_read_fstab "/etc/twrp.fstab".toList,
              Event.fs_mgr_read_fstab "/etc/recovery.fstab".toList])) ∧
    (w.md.is_recovery = false →
      env.fstab (w.trace ++ [Event.fs_mgr_read_fstab ("/fstab.".toList ++ hwname)]) = none →
      multiboot_main_romfstab env w
        = .abort "Can't parse ROM fstab" (romfstab_world w none ("/fstab.".toList ++ hwname)
            [Event.fs_mgr_read_fstab ("/fstab.".toList ++ hwname)])) := by
  have h := multiboot_main_romfstab_eq env w hwname hhw hfit
  have hrec : ¬ (true = false) := by decide
  refine ⟨?_, ?_, ?_, ?_, ?_⟩
  · intro table h1
    rw [h, h1]
    rfl
  · intro table hr h1 h2
    rw [h, h1]
    dsimp only
    have hnr : ¬ w.md.is_recovery = false := by rw [hr]; exact hrec
    rw [if_neg hnr, h2]
    rfl
  · intro table hr h1 h2 h3
    rw [h, h1]
    dsimp only
    have hnr : ¬ w.md.is_recovery = false := by rw [hr]; exact hrec
    rw [if_neg hnr, h2]
    dsimp only
    rw [h3]
    rfl
  · intro hr h1 h2 h3
    rw [h, h1]
    dsimp only
    have hnr : ¬ w.md.is_recovery = false := by rw [hr]; exact hrec
    rw [if_neg hnr, h2]
    dsimp only
    rw [h3]
    rfl
  · intro hr h1
    rw [h, h1]
    dsimp only
    rw [if_pos hr]
    rfl

/-- C20, as amended, for a recovery on the hardware "foo" where only
/etc/twrp.fstab parses. -/
theorem romfstab_resolution_witness :
    world_recovery.md.hwname = some "foo".toList ∧
    ("/fstab.".toList ++ "foo".toList).length < env_twrp.PATH_MAX ∧
    multiboot_main_romfstab env_twrp world_recovery
      = .ok () (romfstab_world world_recovery (some [rec_data]) "/etc/twrp.fstab".toList
          [Event.fs_mgr_read_fstab "/fstab.foo".toList,
            Event.fs_mgr_read_fstab "/etc/twrp.fstab".toList]) :=
  ⟨rfl, by decide,
    (romfstab_resolution env_twrp world_recovery "foo".toList rfl (by decide)).2.1 [rec_data]
      rfl (by decide) (by decide)⟩

/-- C20 as stated fails: in a platform boot (not a recovery) on the hardware
"foo" where `/fstab.foo` does not parse, `multiboot_main` aborts after this one
attempt, with the table still NULL; the alternates are not tried and no empty
table is made. -/
theorem romfstab_mandatory_on_android :
    world_android.md.is_recovery = false ∧
    multiboot_main_romfstab env_nofstab world_android
      = .abort "Can't parse ROM fstab"
          (romfstab_world world_android none "/fstab.foo".toList
            [Event.fs_mgr_read_fstab "/fstab.foo".toList]) := by
  decide

/-! ### C21: a failed operation is not attempted again -/

theorem ops_clean_append (env : Env) (before a b : List Event) :
    ops_clean env before (a ++ b) = (ops_clean env before a && ops_clean env (before ++ a) b) := by
  induction a generalizing before with
  | nil => simp [ops_clean]
  | cons e es ih =>
    show ((!(e.is_setup_op && op_failed env (before ++ [e]) e))
        && ops_clean env (before ++ [e]) (es ++ b))
      = (((!(e.is_setup_op && op_failed env (before ++ [e]) e))
        && ops_clean env (before ++ [e]) es) && ops_clean env (before ++ e :: es) b)
    rw [ih, Bool.and_assoc, show before ++ [e] ++ es = before ++ e :: es by simp]

theorem ops_clean_dropLast (env : Env) (before evs : List Event)
    (h : ops_clean env before evs = true) : ops_clean env before evs.dropLast = true := by
  rcases List.eq_nil_or_concat evs with rfl | ⟨l, e, rfl⟩
  · exact h
  · rw [List.concat_eq_append] at h ⊢
    rw [List.dropLast_concat]
    rw [ops_clean_append] at h
    simp only [Bool.and_eq_true] at h
    exact h.1

section fatal

variable {env : Env} {t0 : List Event}

theorem no_op_failed_last {w : World} (h : no_op_failed env t0 w) : op_failed_last env t0 w := by
  obtain ⟨evs, h1, h2⟩ := h
  exact ⟨evs, h1, ops_clean_dropLast env t0 evs h2⟩

theorem no_op_failed_trace {w w1 : World} (ht : w1.trace = w.trace)
    (h : no_op_failed env t0 w) : no_op_failed env t0 w1 := by
  obtain ⟨evs, h1, h2⟩ := h
  exact ⟨evs, ht.trans h1, h2⟩

theorem op_failed_last_trace {w w1 : World} (ht : w1.trace = w.trace)
    (h : op_failed_last env t0 w) : op_failed_last env t0 w1 := by
  obtain ⟨evs, h1, h2⟩ := h
  exact ⟨evs, ht.trans h1, h2⟩

/-- After one more call at most that call is a failed operation. -/
theorem op_failed_last_call {w w1 : World} (e : Event) (ht : w1.trace = w.trace ++ [e])
    (h : no_op_failed env t0 w) : op_failed_last env t0 w1 := by
  obtain ⟨evs, h1, h2⟩ := h
  refine ⟨evs ++ [e], ?_, ?_⟩
  · rw [ht, h1, List.append_assoc]
  · rw [List.dropLast_concat]
    exact h2

/-- After a call that is no operation, or an operation that succeeded, still no
operation has failed. -/
theorem no_op_failed_call {w w1 : World} (e : Event) (ht : w1.trace = w.trace ++ [e])
    (he : (e.is_setup_op && op_failed env (w.trace ++ [e]) e) = false)
    (h : no_op_failed env t0 w) : no_op_failed env t0 w1 := by
  obtain ⟨evs, h1, h2⟩ := h
  refine ⟨evs ++ [e], ?_, ?_⟩
  · rw [ht, h1, List.append_assoc]
  · rw [ops_clean_append, h2, ← h1]
    simp only [ops_clean, he, Bool.not_false, Bool.and_self]

/-- Calls that are no operations keep the property. -/
theorem no_op_failed_calls {w w1 : World}
    (hq : calls_only (fun e => !e.is_setup_op) w w1)
    (h : no_op_failed env t0 w) : no_op_failed env t0 w1 := by
  obtain ⟨_, _, evs, ht, hall⟩ := hq
  obtain ⟨evs0, h1, h2⟩ := h
  refine ⟨evs0 ++ evs, ?_, ?_⟩
  · rw [ht, h1, List.append_assoc]
  · rw [ops_clean_append, h2, Bool.true_and]
    generalize t0 ++ evs0 = b
    clear ht h1 h2
    induction evs generalizing b with
    | nil => rfl
    | cons e es ih =>
      have he : e.is_setup_op = false := by
        have := hall e (List.mem_cons_self _ _)
        simpa using this
      simp only [ops_clean, he, Bool.false_and, Bool.not_false, Bool.true_and]
      exact ih (fun x hx => hall x (List.mem_cons_of_mem _ hx)) _

theorem fatal_pure {α : Type} {Q : α → World → Prop} (a : α)
    (h : ∀ w, no_op_failed env t0 w → Q a w) : Run.fatal env t0 (pure a : Run α) Q :=
  fun w hw => h w hw

theorem fatal_MBABORT {α : Type} {Q : α → World → Prop} (msg : String) :
    Run.fatal env t0 (MBABORT msg : Run α) Q :=
  fun _ hw => no_op_failed_last hw

theorem fatal_NULL_DEREF {α : Type} {Q : α → World → Prop} :
    Run.fatal env t0 (NULL_DEREF : Run α) Q :=
  fun _ hw => no_op_failed_last hw

theorem fatal_bind {α β : Type} {Q : β → World → Prop} {m : Run α} {k : α → Run β}
    (hm : Run.fatal env t0 m (fun _ => no_op_failed env t0))
    (hk : ∀ a, Run.fatal env t0 (k a) Q) : Run.fatal env t0 (m >>= k) Q :=
  yields_bind hm hk

theorem fatal_weaken {α : Type} {Q Q1 : α → World → Prop} {m : Run α}
    (h : Run.fatal env t0 m Q1) (hq : ∀ a w, Q1 a w → Q a w) : Run.fatal env t0 m Q :=
  yields_weaken h (fun _ hw => hw) hq (fun _ hw => hw)

theorem fatal_abort_if {Q : Unit → World → Prop} (c : Prop) [Decidable c] (msg : String)
    (h : ¬ c → ∀ w, no_op_failed env t0 w → Q () w) :
    Run.fatal env t0 (abort_if c msg) Q := by
  intro w hw
  unfold abort_if
  by_cases hc : c
  · rw [if_pos hc]; exact no_op_failed_last hw
  · rw [if_neg hc]; exact h hc w hw

theorem fatal_abort_if_bind {β : Type} {Q : β → World → Prop} (c : Prop) [Decidable c]
    (msg : String) {k : Unit → Run β} (h : ¬ c → Run.fatal env t0 (k ()) Q) :
    Run.fatal env t0 (abort_if c msg >>= k) Q := by
  intro w hw
  by_cases hc : c
  · have ha : abort_if c msg w = .abort msg w := by unfold abort_if; rw [if_pos hc]
    rw [bind_of_abort _ _ _ _ _ ha]
    exact no_op_failed_last hw
  · have ha : abort_if c msg w = .ok () w := by unfold abort_if; rw [if_neg hc]
    rw [bind_of_ok _ _ _ _ _ ha]
    exact h hc w hw

theorem fatal_SNPRINTF_bind {β : Type} {Q : β → World → Prop} (text : CStr)
    {k : CStr → Run β} (h : Run.fatal env t0 (k text) Q) :
    Run.fatal env t0 (SAFE_SNPRINTF env text >>= k) Q := by
  intro w hw
  by_cases hc : text.length ≥ env.PATH_MAX
  · have ha : SAFE_SNPRINTF env text w = .abort "snprintf error" w := by
      unfold SAFE_SNPRINTF; rw [if_pos hc]
    rw [bind_of_abort _ _ _ _ _ ha]
    exact no_op_failed_last hw
  · have ha : SAFE_SNPRINTF env text w = .ok text w := by
      unfold SAFE_SNPRINTF; rw [if_neg hc]
    rw [bind_of_ok _ _ _ _ _ ha]
    exact h w hw

theorem fatal_get_data_bind {β : Type} {Q : β → World → Prop}
    {k : multiboot_data_t → Run β} (h : ∀ md, Run.fatal env t0 (k md) Q) :
    Run.fatal env t0 (get_data >>= k) Q := by
  intro w hw
  have hg : get_data w = .ok w.md w := rfl
  rw [bind_of_ok _ _ _ _ _ hg]
  exact h w.md w hw

theorem fatal_modify_data (f : multiboot_data_t → multiboot_data_t) :
    Run.fatal env t0 (modify_data f) (fun _ => no_op_failed env t0) :=
  fun _ hw => no_op_failed_trace rfl hw

theorem fatal_query {α : Type} {m : Run α}
    (hq : Run.keeps (calls_only (fun e => !e.is_setup_op)) m) :
    Run.fatal env t0 m (fun _ => no_op_failed env t0) := by
  intro w hw
  have h := no_op_failed_calls (hq w) hw
  cases hmw : m w with
  | ok a w1 => rw [hmw] at h; exact h
  | abort msg w1 => rw [hmw] at h; exact no_op_failed_last h

theorem fatal_call_bind {β : Type} {Q : β → World → Prop} (e : Event)
    (he : e.is_setup_op = false) {k : List Event → Run β}
    (h : ∀ hist, Run.fatal env t0 (k hist) Q) : Run.fatal env t0 (call e >>= k) Q := by
  intro w hw
  have hc : call e w = .ok (w.trace ++ [e]) { w with trace := w.trace ++ [e] } := rfl
  rw [bind_of_ok _ _ _ _ _ hc]
  exact h _ _ (no_op_failed_call e rfl (by rw [he]; rfl) hw)

/-- A call whose failure is tested right away: the rest runs only after a
success. -/
theorem fatal_call_abort_bind {β : Type} {Q : β → World → Prop} (e : Event) (msg : String)
    (he : ∀ h, op_failed env h e = decide (env.rc h ≠ 0)) {k : List Event → Run β}
    (h : ∀ hist, Run.fatal env t0 (k hist) Q) :
    Run.fatal env t0
      (call e >>= fun hist => abort_if (env.rc hist ≠ 0) msg >>= fun _ => k hist) Q := by
  intro w hw
  have hc : call e w = .ok (w.trace ++ [e]) { w with trace := w.trace ++ [e] } := rfl
  rw [bind_of_ok _ _ _ _ _ hc]
  by_cases hrc : env.rc (w.trace ++ [e]) ≠ 0
  · have ha : abort_if (env.rc (w.trace ++ [e]) ≠ 0) msg { w with trace := w.trace ++ [e] }
        = .abort msg { w with trace := w.trace ++ [e] } := by
      unfold abort_if; rw [if_pos hrc]
    rw [bind_of_abort _ _ _ _ _ ha]
    exact op_failed_last_call e rfl hw
  · have ha : abort_if (env.rc (w.trace ++ [e]) ≠ 0) msg { w with trace := w.trace ++ [e] }
        = .ok () { w with trace := w.trace ++ [e] } := by
      unfold abort_if; rw [if_neg hrc]
    rw [bind_of_ok _ _ _ _ _ ha]
    refine h _ _ (no_op_failed_call e rfl ?_ hw)
    rw [he, decide_eq_false hrc, Bool.and_false]

theorem fatal_call_abort (e : Event) (msg : String)
    (he : ∀ h, op_failed env h e = decide (env.rc h ≠ 0)) :
    Run.fatal env t0 (call e >>= fun hist => abort_if (env.rc hist ≠ 0) msg)
      (fun _ => no_op_failed env t0) := by
  intro w hw
  have hc : call e w = .ok (w.trace ++ [e]) { w with trace := w.trace ++ [e] } := rfl
  rw [bind_of_ok _ _ _ _ _ hc]
  unfold abort_if
  by_cases hrc : env.rc (w.trace ++ [e]) ≠ 0
  · rw [if_pos hrc]
    exact op_failed_last_call e rfl hw
  · rw [if_neg hrc]
    refine no_op_failed_call e rfl ?_ hw
    rw [he, decide_eq_false hrc, Bool.and_false]

/-- An operation that reports its failure in its result, tested right away. -/
theorem fatal_rc_abort_bind {β : Type} {Q : β → World → Prop} {m : Run Int} (msg : String)
    {k : Int → Run β} (hm : Run.fatal env t0 m (rc_post env t0))
    (h : Run.fatal env t0 (k 0) Q) :
    Run.fatal env t0 (m >>= fun rc => abort_if (rc ≠ 0) msg >>= fun _ => k rc) Q := by
  refine yields_bind hm (fun rc => ?_)
  intro w hw
  by_cases hrc : rc ≠ 0
  · have ha : abort_if (rc ≠ 0) msg w = .abort msg w := by unfold abort_if; rw [if_pos hrc]
    rw [bind_of_abort _ _ _ _ _ ha]
    exact hw.1
  · have ha : abort_if (rc ≠ 0) msg w = .ok () w := by unfold abort_if; rw [if_neg hrc]
    rw [bind_of_ok _ _ _ _ _ ha]
    obtain rfl := not_not.mp hrc
    exact h w (hw.2 rfl)

theorem fatal_rc_abort {m : Run Int} (msg : String)
    (hm : Run.fatal env t0 m (rc_post env t0)) :
    Run.fatal env t0 (m >>= fun rc => abort_if (rc ≠ 0) msg)
      (fun _ => no_op_failed env t0) := by
  refine yields_bind hm (fun rc => ?_)
  intro w hw
  unfold abort_if
  by_cases hrc : rc ≠ 0
  · rw [if_pos hrc]; exact hw.1
  · rw [if_neg hrc]; exact hw.2 (not_not.mp hrc)

/-- An operation that reports its failure in its result, which is passed on
when it is not 0. -/
theorem fatal_rc_pass {m : Run Int} {k : Int → Run Int}
    (hm : Run.fatal env t0 m (rc_post env t0))
    (h : Run.fatal env t0 (k 0) (rc_post env t0)) :
    Run.fatal env t0 (m >>= fun rc => if rc ≠ 0 then pure rc else k rc) (rc_post env t0) := by
  refine yields_bind hm (fun rc => ?_)
  intro w hw
  by_cases hrc : rc ≠ 0
  · rw [if_pos hrc]
    exact ⟨hw.1, fun h0 => absurd h0 hrc⟩
  · rw [if_neg hrc]
    obtain rfl := not_not.mp hrc
    exact h w (hw.2 rfl)

/-- A call whose result is the result of the operation. -/
theorem fatal_call_rc (e : Event) (he : ∀ h, op_failed env h e = decide (env.rc h ≠ 0)) :
    Run.fatal env t0 (call e >>= fun hist => pure (env.rc hist)) (rc_post env t0) := by
  intro w hw
  have hc : call e w = .ok (w.trace ++ [e]) { w with trace := w.trace ++ [e] } := rfl
  rw [bind_of_ok _ _ _ _ _ hc]
  refine ⟨op_failed_last_call e rfl hw, fun h0 => no_op_failed_call e rfl ?_ hw⟩
  rw [he]
  have : ¬ env.rc (w.trace ++ [e]) ≠ 0 := not_not.mpr h0
  rw [decide_eq_false this, Bool.and_false]

theorem fatal_pure_rc (rc : Int) : Run.fatal env t0 (pure rc : Run Int) (rc_post env t0) :=
  fun _ hw => ⟨no_op_failed_last hw, fun _ => hw⟩

/-- As `fatal_rc_pass`, with the result replaced by another one that is not
0. -/
theorem fatal_rc_flag {m : Run Int} {k : Int → Run Int} (a : Int) (ha : a ≠ 0)
    (hm : Run.fatal env t0 m (rc_post env t0))
    (h : Run.fatal env t0 (k 0) (rc_post env t0)) :
    Run.fatal env t0 (m >>= fun rc => if rc ≠ 0 then pure a else k rc) (rc_post env t0) := by
  refine yields_bind hm (fun rc => ?_)
  intro w hw
  by_cases hrc : rc ≠ 0
  · rw [if_pos hrc]
    exact ⟨hw.1, fun h0 => absurd h0 ha⟩
  · rw [if_neg hrc]
    obtain rfl := not_not.mp hrc
    exact h w (hw.2 rfl)

/-- A call whose result, when it is not 0, ends the operation with a result
that is not 0. -/
theorem fatal_call_pass (e : Event) (he : ∀ h, op_failed env h e = decide (env.rc h ≠ 0))
    {f : List Event → Int} {k : List Event → Run Int}
    (hf : ∀ hist, env.rc hist ≠ 0 → f hist ≠ 0)
    (h : ∀ hist, Run.fatal env t0 (k hist) (rc_post env t0)) :
    Run.fatal env t0
      (call e >>= fun hist => if env.rc hist ≠ 0 then pure (f hist) else k hist)
      (rc_post env t0) := by
  intro w hw
  have hc : call e w = .ok (w.trace ++ [e]) { w with trace := w.trace ++ [e] } := rfl
  rw [bind_of_ok _ _ _ _ _ hc]
  by_cases hrc : env.rc (w.trace ++ [e]) ≠ 0
  · rw [if_pos hrc]
    exact ⟨op_failed_last_call e rfl hw, fun h0 => absurd h0 (hf _ hrc)⟩
  · rw [if_neg hrc]
    refine h _ _ (no_op_failed_call e rfl ?_ hw)
    rw [he, decide_eq_false hrc, Bool.and_false]

theorem query_util_exists (env : Env) (filename : CStr) (follow : Bool) :
    Run.keeps (calls_only (fun e => !e.is_setup_op)) (util_exists env filename follow) := by
  unfold util_exists
  repeat' first
    | exact only_call _ rfl | (simp; done) | refine keeps_bind ?_ (fun _ => ?_) | split
    | dsimp only

theorem query_util_get_fstype (env : Env) (filename : CStr) :
    Run.keeps (calls_only (fun e => !e.is_setup_op)) (util_get_fstype env filename) := by
  unfold util_get_fstype
  repeat' first
    | exact only_call _ rfl | (simp; done) | refine keeps_bind ?_ (fun _ => ?_) | split
    | dsimp only

theorem query_util_block_num (env : Env) (path : CStr) (numblocks : Nat) :
    Run.keeps (calls_only (fun e => !e.is_setup_op)) (util_block_num env path numblocks) := by
  unfold util_block_num
  repeat' first
    | exact only_call _ rfl | (simp; done) | refine keeps_bind ?_ (fun _ => ?_) | split
    | dsimp only

theorem query_util_get_espdir (env : Env) (mountpoint : CStr) :
    Run.keeps (calls_only (fun e => !e.is_setup_op)) (util_get_espdir env mountpoint) := by
  unfold util_get_espdir
  repeat' first
    | exact query_util_exists _ _ _ | (simp; done) | refine keeps_bind ?_ (fun _ => ?_) | split
    | dsimp only

theorem query_util_get_esp_path_for_partition (env : Env) (mountpoint : CStr)
    (rec : fstab_rec) :
    Run.keeps (calls_only (fun e => !e.is_setup_op))
      (util_get_esp_path_for_partition env mountpoint rec) := by
  unfold util_get_esp_path_for_partition
  repeat' first
    | exact query_util_get_espdir _ _ | (simp; done) | refine keeps_bind ?_ (fun _ => ?_)
    | split | dsimp only

theorem query_util_getmbpath_from_device (env : Env) (device : CStr) :
    Run.keeps (calls_only (fun e => !e.is_setup_op))
      (util_getmbpath_from_device env device) := by
  unfold util_getmbpath_from_device
  repeat' first
    | (simp; done) | refine keeps_bind ?_ (fun _ => ?_) | split | dsimp only

@[simp]
theorem fatal_util_exists (filename : CStr) (follow : Bool) :
    Run.fatal env t0 (util_exists env filename follow) (fun _ => no_op_failed env t0) :=
  fatal_query (query_util_exists _ _ _)

@[simp]
theorem fatal_util_get_fstype (filename : CStr) :
    Run.fatal env t0 (util_get_fstype env filename) (fun _ => no_op_failed env t0) :=
  fatal_query (query_util_get_fstype _ _)

@[simp]
theorem fatal_util_block_num (path : CStr) (numblocks : Nat) :
    Run.fatal env t0 (util_block_num env path numblocks) (fun _ => no_op_failed env t0) :=
  fatal_query (query_util_block_num _ _ _)

@[simp]
theorem fatal_util_get_espdir (mountpoint : CStr) :
    Run.fatal env t0 (util_get_espdir env mountpoint) (fun _ => no_op_failed env t0) :=
  fatal_query (query_util_get_espdir _ _)

@[simp]
theorem fatal_util_get_esp_path_for_partition (mountpoint : CStr) (rec : fstab_rec) :
    Run.fatal env t0 (util_get_esp_path_for_partition env mountpoint rec)
      (fun _ => no_op_failed env t0) :=
  fatal_query (query_util_get_esp_path_for_partition _ _ _)

@[simp]
theorem fatal_util_getmbpath_from_device (device : CStr) :
    Run.fatal env t0 (util_getmbpath_from_device env device) (fun _ => no_op_failed env t0) :=
  fatal_query (query_util_getmbpath_from_device _ _)

@[simp]
theorem fatal_pure_unit {α : Type} (a : α) :
    Run.fatal env t0 (pure a : Run α) (fun _ => no_op_failed env t0) :=
  fatal_pure a (fun _ h => h)

@[simp]
theorem fatal_util_make_loop (path : CStr) :
    Run.fatal env t0 (util_make_loop env path) (rc_post env t0) := by
  intro w hw
  rw [util_make_loop_eq]
  refine ⟨op_failed_last_call (Event.mknod path true 7 (255 - w.loops_created)) rfl hw,
    fun h0 => no_op_failed_call (Event.mknod path true 7 (255 - w.loops_created)) rfl ?_ hw⟩
  show (true && decide (env.rc _ ≠ 0)) = false
  rw [decide_eq_false (not_not.mpr h0)]
  rfl

@[simp]
theorem fatal_util_losetup (device file : CStr) (ro : Bool) :
    Run.fatal env t0 (util_losetup env device file ro) (rc_post env t0) := by
  unfold util_losetup
  exact fatal_call_rc _ (fun _ => by rfl)

@[simp]
theorem fatal_util_cp (source target : CStr) :
    Run.fatal env t0 (util_cp env source target) (rc_post env t0) := by
  unfold util_cp
  exact fatal_call_rc _ (fun _ => by rfl)

@[simp]
theorem fatal_util_mkfs (device fstype : CStr) :
    Run.fatal env t0 (util_mkfs env device fstype) (rc_post env t0) := by
  unfold util_mkfs
  split
  · exact fatal_call_rc _ (fun _ => by rfl)
  · exact fatal_pure_rc _

@[simp]
theorem fatal_util_mkdir_loop (ps : List CStr) :
    Run.fatal env t0 (util_mkdir_loop env ps) (rc_post env t0) := by
  induction ps with
  | nil => exact fatal_pure_rc _
  | cons p ps ih =>
    unfold util_mkdir_loop
    refine fatal_bind (fatal_util_exists _ _) (fun ex => ?_)
    split
    · exact ih
    · exact fatal_call_pass _ (fun _ => by rfl) (fun _ h => h) (fun _ => ih)

@[simp]
theorem fatal_util_mkdir (dir : CStr) :
    Run.fatal env t0 (util_mkdir env dir) (rc_post env t0) := by
  unfold util_mkdir
  split
  · exact fatal_pure_rc _
  · dsimp only
    refine fatal_rc_pass (fatal_util_mkdir_loop _) ?_
    refine fatal_bind (fatal_util_exists _ _) (fun ex => ?_)
    split
    · exact fatal_pure_rc _
    · exact fatal_call_rc _ (fun _ => by rfl)

@[simp]
theorem fatal_util_mount (source target : CStr) (filesystemtype : Option CStr)
    (mountflags : Nat) (data : Option CStr) :
    Run.fatal env t0 (util_mount env source target filesystemtype mountflags data)
      (rc_post env t0) := by
  unfold util_mount
  refine fatal_bind (fatal_util_exists _ _) (fun ex => ?_)
  refine fatal_rc_pass ?_ ?_
  · split
    · exact fatal_pure_rc _
    · exact fatal_util_mkdir _
  · refine fatal_bind ?_ (fun fstype => ?_)
    · split
      · exact fatal_pure_unit _
      · exact fatal_util_get_fstype _
    · split
      · exact fatal_pure_rc _
      · exact fatal_call_pass _ (fun _ => by rfl) (fun _ _ => by decide)
          (fun _ => fatal_pure_rc _)

@[simp]
theorem fatal_SAFE_MOUNT (source target : CStr) (filesystemtype : Option CStr)
    (mountflags : Nat) (data : Option CStr) :
    Run.fatal env t0 (SAFE_MOUNT env source target filesystemtype mountflags data)
      (fun _ => no_op_failed env t0) := by
  unfold SAFE_MOUNT
  exact fatal_rc_abort _ (fatal_util_mount _ _ _ _ _)

@[simp]
theorem fatal_SAFE_UMOUNT (target : CStr) :
    Run.fatal env t0 (SAFE_UMOUNT env target) (fun _ => no_op_failed env t0) := by
  unfold SAFE_UMOUNT
  exact fatal_call_abort _ _ (fun _ => by rfl)

@[simp]
theorem fatal_util_dd (source target : CStr) (blocks : Nat) :
    Run.fatal env t0 (util_dd env source target blocks) (rc_post env t0) := by
  unfold util_dd
  refine fatal_bind ?_ (fun r => ?_)
  · split
    · exact fatal_util_block_num _ _
    · exact fatal_pure_unit _
  · split
    · exact fatal_pure_rc _
    · split
      · exact fatal_pure_rc _
      · split
        · exact fatal_pure_rc _
        · exact fatal_call_rc _ (fun _ => by rfl)

@[simp]
theorem fatal_util_create_partition_backup_ex (device file : CStr) (num_blocks : Nat)
    (force : Bool) :
    Run.fatal env t0 (util_create_partition_backup_ex env device file num_blocks force)
      (rc_post env t0) := by
  unfold util_create_partition_backup_ex
  refine fatal_bind ?_ (fun r => ?_)
  · split
    · exact fatal_util_block_num _ _
    · exact fatal_pure_unit _
  · refine fatal_bind ?_ (fun ex => ?_)
    · split
      · exact fatal_pure_unit _
      · exact fatal_util_exists _ _
    · split
      · exact fatal_rc_flag (-1) (by decide) (fatal_util_dd _ _ _) (fatal_pure_rc _)
      · exact fatal_pure_rc _

@[simp]
theorem fatal_util_create_partition_backup (device file : CStr) :
    Run.fatal env t0 (util_create_partition_backup env device file) (rc_post env t0) := by
  unfold util_create_partition_backup
  exact fatal_util_create_partition_backup_ex _ _ _ _

@[simp]
theorem fatal_ensure_dir (dir : CStr) (follow : Bool) (msg : String) :
    Run.fatal env t0 (ensure_dir env dir follow msg) (fun _ => no_op_failed env t0) := by
  unfold ensure_dir
  refine fatal_bind (fatal_util_exists _ _) (fun ex => ?_)
  split
  · exact fatal_pure_unit _
  · exact fatal_rc_abort _ (fatal_util_mkdir _)

@[simp]
theorem fatal_mount_replacement (replacement : part_replacement_t)
    (part : multiboot_partition_t) (mountpoint : CStr) (msg : String) :
    Run.fatal env t0 (mount_replacement env replacement part mountpoint msg)
      (fun _ => no_op_failed env t0) := by
  unfold mount_replacement
  split
  · exact fatal_rc_abort_bind _ (fatal_util_mount _ _ _ _ _) (fatal_pure_unit _)
  · split
    · exact fatal_NULL_DEREF
    · exact fatal_pure_unit _

@[simp]
theorem fatal_get_mb_sdk_version :
    Run.fatal env t0 (get_mb_sdk_version env) (fun _ => no_op_failed env t0) := by
  unfold get_mb_sdk_version
  repeat' first
    | (simp; done)
    | rfl
    | (intro _; rfl)
    | exact fatal_MBABORT _
    | exact fatal_NULL_DEREF
    | refine fatal_rc_abort_bind _ ?_ ?_
    | refine fatal_rc_abort _ ?_
    | refine fatal_call_abort_bind _ _ ?_ (fun _ => ?_)
    | refine fatal_call_abort _ _ ?_
    | refine fatal_open_abort_bind _ _ (fun _ => ?_)
    | refine fatal_abort_if_bind _ _ (fun _ => ?_)
    | refine fatal_abort_if _ _ (fun _ _ h => h)
    | refine fatal_SNPRINTF_bind _ ?_
    | refine fatal_get_data_bind (fun _ => ?_)
    | refine fatal_call_bind _ ?_ (fun _ => ?_)
    | refine fatal_bind ?_ (fun _ => ?_)
    | split
    | dsimp only

/-- The creation of a file, tested right away: `open` fails with a negative
result. -/
theorem fatal_open_abort_bind {β : Type} {Q : β → World → Prop} (path : CStr) (msg : String)
    {k : List Event → Run β} (h : ∀ hist, Run.fatal env t0 (k hist) Q) :
    Run.fatal env t0
      (call (Event.open_creat path) >>= fun hist =>
        abort_if (env.rc hist < 0) msg >>= fun _ => k hist) Q := by
  intro w hw
  have hc : call (Event.open_creat path) w
      = .ok (w.trace ++ [Event.open_creat path])
          { w with trace := w.trace ++ [Event.open_creat path] } := rfl
  rw [bind_of_ok _ _ _ _ _ hc]
  by_cases hrc : env.rc (w.trace ++ [Event.open_creat path]) < 0
  · have ha : abort_if (env.rc (w.trace ++ [Event.open_creat path]) < 0) msg
        { w with trace := w.trace ++ [Event.open_creat path] }
        = .abort msg { w with trace := w.trace ++ [Event.open_creat path] } := by
      unfold abort_if; rw [if_pos hrc]
    rw [bind_of_abort _ _ _ _ _ ha]
    exact op_failed_last_call _ rfl hw
  · have ha : abort_if (env.rc (w.trace ++ [Event.open_creat path]) < 0) msg
        { w with trace := w.trace ++ [Event.open_creat path] }
        = .ok () { w with trace := w.trace ++ [Event.open_creat path] } := by
      unfold abort_if; rw [if_neg hrc]
    rw [bind_of_ok _ _ _ _ _ ha]
    refine h _ _ (no_op_failed_call _ rfl ?_ hw)
    show (true && decide (env.rc _ < 0)) = false
    rw [decide_eq_false hrc]
    rfl

@[simp]
theorem fatal_add_replacement (r : part_replacement_t) :
    Run.fatal env t0 (add_replacement r) (fun _ => no_op_failed env t0) :=
  fatal_modify_data _

@[simp]
theorem fatal_modify_data_unit (f : multiboot_data_t → multiboot_data_t) :
    Run.fatal env t0 (modify_data f) (fun _ => no_op_failed env t0) :=
  fatal_modify_data _

/-- `util_mount_esp` calls `uevent_mount` only, which is not counted among the
operations: its first failure is not fatal. -/
@[simp]
theorem fatal_util_mount_esp :
    Run.fatal env t0 (util_mount_esp env) (fun _ => no_op_failed env t0) := by
  unfold util_mount_esp
  repeat' first
    | (simp; done)
    | rfl
    | (intro _; rfl)
    | exact fatal_MBABORT _
    | exact fatal_NULL_DEREF
    | refine fatal_rc_abort_bind _ ?_ ?_
    | refine fatal_rc_abort _ ?_
    | refine fatal_call_abort_bind _ _ ?_ (fun _ => ?_)
    | refine fatal_call_abort _ _ ?_
    | refine fatal_open_abort_bind _ _ (fun _ => ?_)
    | refine fatal_abort_if_bind _ _ (fun _ => ?_)
    | refine fatal_abort_if _ _ (fun _ _ h => h)
    | refine fatal_SNPRINTF_bind _ ?_
    | refine fatal_get_data_bind (fun _ => ?_)
    | refine fatal_call_bind _ ?_ (fun _ => ?_)
    | refine fatal_bind ?_ (fun _ => ?_)
    | split
    | dsimp only

@[simp]
theorem fatal_setup_loop_partition (partpath loopdevice : CStr) :
    Run.fatal env t0 (setup_loop_partition env partpath loopdevice)
      (fun _ => no_op_failed env t0) := by
  unfold setup_loop_partition
  repeat' first
    | (simp; done)
    | rfl
    | (intro _; rfl)
    | exact fatal_MBABORT _
    | exact fatal_NULL_DEREF
    | refine fatal_rc_abort_bind _ ?_ ?_
    | refine fatal_rc_abort _ ?_
    | refine fatal_call_abort_bind _ _ ?_ (fun _ => ?_)
    | refine fatal_call_abort _ _ ?_
    | refine fatal_open_abort_bind _ _ (fun _ => ?_)
    | refine fatal_abort_if_bind _ _ (fun _ => ?_)
    | refine fatal_abort_if _ _ (fun _ _ h => h)
    | refine fatal_SNPRINTF_bind _ ?_
    | refine fatal_get_data_bind (fun _ => ?_)
    | refine fatal_call_bind _ ?_ (fun _ => ?_)
    | refine fatal_bind ?_ (fun _ => ?_)
    | split
    | dsimp only

@[simp]
theorem fatal_setup_bind_store (part : multiboot_partition_t) (loopdevice : CStr)
    (rc : Int) (num_blocks : Nat) :
    Run.fatal env t0 (setup_bind_store env part loopdevice rc num_blocks)
      (fun _ => no_op_failed env t0) := by
  unfold setup_bind_store
  repeat' first
    | (simp; done)
    | rfl
    | (intro _; rfl)
    | exact fatal_MBABORT _
    | exact fatal_NULL_DEREF
    | refine fatal_rc_abort_bind _ ?_ ?_
    | refine fatal_rc_abort _ ?_
    | refine fatal_call_abort_bind _ _ ?_ (fun _ => ?_)
    | refine fatal_call_abort _ _ ?_
    | refine fatal_open_abort_bind _ _ (fun _ => ?_)
    | refine fatal_abort_if_bind _ _ (fun _ => ?_)
    | refine fatal_abort_if _ _ (fun _ _ h => h)
    | refine fatal_SNPRINTF_bind _ ?_
    | refine fatal_get_data_bind (fun _ => ?_)
    | refine fatal_call_bind _ ?_ (fun _ => ?_)
    | refine fatal_bind ?_ (fun _ => ?_)
    | split
    | dsimp only

@[simp]
theorem fatal_setup_bind_partition (part : multiboot_partition_t)
    (partpath loopdevice : CStr) (st : lstat_result) :
    Run.fatal env t0 (setup_bind_partition env part partpath loopdevice st)
      (fun _ => no_op_failed env t0) := by
  unfold setup_bind_partition
  repeat' first
    | (simp; done)
    | rfl
    | (intro _; rfl)
    | exact fatal_MBABORT _
    | exact fatal_NULL_DEREF
    | refine fatal_rc_abort_bind _ ?_ ?_
    | refine fatal_rc_abort _ ?_
    | refine fatal_call_abort_bind _ _ ?_ (fun _ => ?_)
    | refine fatal_call_abort _ _ ?_
    | refine fatal_open_abort_bind _ _ (fun _ => ?_)
    | refine fatal_abort_if_bind _ _ (fun _ => ?_)
    | refine fatal_abort_if _ _ (fun _ _ h => h)
    | refine fatal_SNPRINTF_bind _ ?_
    | refine fatal_get_data_bind (fun _ => ?_)
    | refine fatal_call_bind _ ?_ (fun _ => ?_)
    | refine fatal_bind ?_ (fun _ => ?_)
    | split
    | dsimp only

@[simp]
theorem fatal_setup_mbpart (basedir : CStr) (slot : Option multiboot_partition_t) :
    Run.fatal env t0 (setup_mbpart env basedir slot) (fun _ => no_op_failed env t0) := by
  unfold setup_mbpart
  repeat' first
    | (simp; done)
    | rfl
    | (intro _; rfl)
    | exact fatal_MBABORT _
    | exact fatal_NULL_DEREF
    | refine fatal_rc_abort_bind _ ?_ ?_
    | refine fatal_rc_abort _ ?_
    | refine fatal_call_abort_bind _ _ ?_ (fun _ => ?_)
    | refine fatal_call_abort _ _ ?_
    | refine fatal_open_abort_bind _ _ (fun _ => ?_)
    | refine fatal_abort_if_bind _ _ (fun _ => ?_)
    | refine fatal_abort_if _ _ (fun _ _ h => h)
    | refine fatal_SNPRINTF_bind _ ?_
    | refine fatal_get_data_bind (fun _ => ?_)
    | refine fatal_call_bind _ ?_ (fun _ => ?_)
    | refine fatal_bind ?_ (fun _ => ?_)
    | split
    | dsimp only

@[simp]
theorem fatal_setup_mbparts (basedir : CStr) (slots : List (Option multiboot_partition_t)) :
    Run.fatal env t0 (setup_mbparts env basedir slots) (fun _ => no_op_failed env t0) := by
  induction slots with
  | nil => exact fatal_pure_unit _
  | cons slot slots ih =>
    unfold setup_mbparts
    exact fatal_bind (fatal_setup_mbpart _ _) (fun _ => ih)

@[simp]
theorem fatal_setup_uefi_rec (rec : fstab_rec) :
    Run.fatal env t0 (setup_uefi_rec env rec) (fun _ => no_op_failed env t0) := by
  unfold setup_uefi_rec
  repeat' first
    | (simp; done)
    | rfl
    | (intro _; rfl)
    | exact fatal_MBABORT _
    | exact fatal_NULL_DEREF
    | refine fatal_rc_abort_bind _ ?_ ?_
    | refine fatal_rc_abort _ ?_
    | refine fatal_call_abort_bind _ _ ?_ (fun _ => ?_)
    | refine fatal_call_abort _ _ ?_
    | refine fatal_open_abort_bind _ _ (fun _ => ?_)
    | refine fatal_abort_if_bind _ _ (fun _ => ?_)
    | refine fatal_abort_if _ _ (fun _ _ h => h)
    | refine fatal_SNPRINTF_bind _ ?_
    | refine fatal_get_data_bind (fun _ => ?_)
    | refine fatal_call_bind _ ?_ (fun _ => ?_)
    | refine fatal_bind ?_ (fun _ => ?_)
    | split
    | dsimp only

@[simp]
theorem fatal_setup_uefi_recs (recs : List fstab_rec) :
    Run.fatal env t0 (setup_uefi_recs env recs) (fun _ => no_op_failed env t0) := by
  induction recs with
  | nil => exact fatal_pure_unit _
  | cons rec recs ih =>
    unfold setup_uefi_recs
    exact fatal_bind (fatal_setup_uefi_rec _) (fun _ => ih)

end fatal

section fatal

variable {env : Env} {t0 : List Event}

@[simp]
theorem fatal_prepare_multiboot_data :
    Run.fatal env t0 (prepare_multiboot_data env) (fun _ => no_op_failed env t0) := by
  unfold prepare_multiboot_data
  refine fatal_bind fatal_get_mb_sdk_version (fun sdk => ?_)
  refine fatal_get_data_bind (fun md => ?_)
  split
  · exact fatal_MBABORT _
  · split
    · exact fatal_NULL_DEREF
    · refine fatal_bind (fatal_mount_replacement _ _ _ _) (fun datapath => ?_)
      dsimp only
      split
      · exact fatal_pure_unit _
      · refine fatal_call_bind _ (by rfl) (fun h => ?_)
        dsimp only
        split
        · refine fatal_bind ?_ (fun _ => ?_)
          · repeat' split
            all_goals first
              | exact fatal_pure_unit _
              | exact fatal_call_abort _ _ (fun _ => by rfl)
          · refine fatal_bind (fatal_ensure_dir _ _ _) (fun _ => ?_)
            split
            · exact fatal_pure_unit _
            · refine fatal_bind (fatal_ensure_dir _ _ _) (fun _ => ?_)
              refine fatal_bind (fatal_modify_data _) (fun _ => ?_)
              split
              · exact fatal_SAFE_UMOUNT _
              · exact fatal_pure_unit _
        · exact fatal_MBABORT _

@[simp]
theorem fatal_setup_multiboot_replacements :
    Run.fatal env t0 (setup_multiboot_replacements env) (fun _ => no_op_failed env t0) := by
  unfold setup_multiboot_replacements
  refine fatal_get_data_bind (fun md => ?_)
  split
  · exact fatal_NULL_DEREF
  · split
    · exact fatal_MBABORT _
    · refine fatal_bind (fatal_ensure_dir _ _ _) (fun _ => ?_)
      refine fatal_bind (fatal_util_exists _ _) (fun ex => ?_)
      refine fatal_bind ?_ (fun _ => ?_)
      · split
        · exact fatal_pure_unit _
        · exact fatal_call_abort _ _ (fun _ => by rfl)
      · refine fatal_bind (fatal_setup_mbparts _ _) (fun _ => ?_)
        split
        · exact fatal_prepare_multiboot_data
        · exact fatal_pure_unit _

theorem fatal_setup_partition_replacements :
    Run.fatal env t0 (setup_partition_replacements env) (fun _ => no_op_failed env t0) := by
  unfold setup_partition_replacements
  refine fatal_get_data_bind (fun md => ?_)
  refine fatal_bind ?_ (fun _ => ?_)
  · split
    · exact fatal_setup_multiboot_replacements
    · exact fatal_pure_unit _
  · refine fatal_bind fatal_util_mount_esp (fun _ => ?_)
    refine fatal_bind (fatal_util_get_espdir _) (fun espdir => ?_)
    split
    · exact fatal_MBABORT _
    · refine fatal_SNPRINTF_bind _ ?_
      refine fatal_bind (fatal_ensure_dir _ _ _) (fun _ => ?_)
      refine fatal_bind (fatal_setup_uefi_recs _) (fun _ => ?_)
      refine fatal_bind ?_ (fun _ => ?_)
      · split
        · exact fatal_SAFE_UMOUNT _
        · exact fatal_pure_unit _
      · exact fatal_pure_unit _

end fatal

theorem ops_clean_mid (env : Env) (before p q : List Event) (e : Event)
    (h : ops_clean env before (p ++ e :: q) = true) :
    (e.is_setup_op && op_failed env (before ++ p ++ [e]) e) = false := by
  rw [ops_clean_append] at h
  simp only [Bool.and_eq_true] at h
  have h2 := h.2
  unfold ops_clean at h2
  simp only [Bool.and_eq_true, Bool.not_eq_true'] at h2
  exact h2.1

/-- `util_mount_esp` from the answers to its one or two calls. -/
theorem util_mount_esp_eq (env : Env) (w : World) :
    util_mount_esp env w =
      if env.rc (w.trace ++ [Event.uevent_mount w.md.espdev env.MBPATH_ESP
          (esp_mount_options env w.md).1 (esp_mount_options env w.md).2]) ≠ 0 then
        if env.rc (w.trace ++ [Event.uevent_mount w.md.espdev env.MBPATH_ESP
            (esp_mount_options env w.md).1 (esp_mount_options env w.md).2,
            Event.uevent_mount w.md.espdev env.MBPATH_ESP 0 none]) ≠ 0 then
          .abort "Can't mount ESP"
            { w with
              trace := w.trace ++ [Event.uevent_mount w.md.espdev env.MBPATH_ESP
                  (esp_mount_options env w.md).1 (esp_mount_options env w.md).2,
                Event.uevent_mount w.md.espdev env.MBPATH_ESP 0 none] }
        else
          .ok ()
            { w with
              trace := w.trace ++ [Event.uevent_mount w.md.espdev env.MBPATH_ESP
                  (esp_mount_options env w.md).1 (esp_mount_options env w.md).2,
                Event.uevent_mount w.md.espdev env.MBPATH_ESP 0 none] }
      else
        .ok ()
          { w with
            trace := w.trace ++ [Event.uevent_mount w.md.espdev env.MBPATH_ESP
              (esp_mount_options env w.md).1 (esp_mount_options env w.md).2] } := by
  have hu : util_mount_esp env w
      = (call (Event.uevent_mount w.md.espdev env.MBPATH_ESP
          (esp_mount_options env w.md).1 (esp_mount_options env w.md).2) >>= fun h =>
        if env.rc h ≠ 0 then do
          let h2 ← call (Event.uevent_mount w.md.espdev env.MBPATH_ESP 0 none)
          abort_if (env.rc h2 ≠ 0) "Can't mount ESP"
        else pure ()) w := by
    unfold util_mount_esp esp_mount_options
    rfl
  rw [hu]
  generalize esp_mount_options env w.md = opts
  have hc : call (Event.uevent_mount w.md.espdev env.MBPATH_ESP opts.1 opts.2) w
      = .ok (w.trace ++ [Event.uevent_mount w.md.espdev env.MBPATH_ESP opts.1 opts.2])
          { w with
            trace := w.trace ++ [Event.uevent_mount w.md.espdev env.MBPATH_ESP opts.1 opts.2] } :=
    rfl
  rw [bind_of_ok _ _ _ _ _ hc]
  by_cases h1 : env.rc (w.trace ++ [Event.uevent_mount w.md.espdev env.MBPATH_ESP opts.1 opts.2]) ≠ 0
  · rw [if_pos h1, if_pos h1]
    simp only [bind, Run.bind, call, abort_if, List.append_assoc, List.singleton_append,
      List.cons_append, List.nil_append]
  · rw [if_neg h1, if_neg h1]
    rfl

/-- C21, as amended: in a run of the planner, from any world and whatever the
surroundings answer, a mount, loop or filesystem operation that fails is the
last call of the run, and the run aborted: nothing is attempted after the first
failure, in particular not the operation again. The exception is the mount of
the ESP by `util_mount_esp`, whose calls `uevent_mount` are not counted among
these operations: it is attempted with the mount options of the ROM's fstab;
when that attempt succeeds it is the only one; when it fails the mount is
attempted once more, without options, and `util_mount_esp` returns when this
second attempt succeeds and aborts when it fails too. -/
theorem failed_operation_is_fatal (env : Env) (w : World) :
    (∀ (p q : List Event) (e : Event),
      (setup_partition_replacements env w).world.trace = w.trace ++ p ++ e :: q →
      e.is_setup_op = true → op_failed env (w.trace ++ p ++ [e]) e = true →
      q = [] ∧ (setup_partition_replacements env w).aborted = true) ∧
    (∀ first : Event,
      first = Event.uevent_mount w.md.espdev env.MBPATH_ESP
        (esp_mount_options env w.md).1 (esp_mount_options env w.md).2 →
      (env.rc (w.trace ++ [first]) = 0 →
        util_mount_esp env w = .ok () { w with trace := w.trace ++ [first] }) ∧
      (env.rc (w.trace ++ [first]) ≠ 0 →
        env.rc (w.trace ++ [first, Event.uevent_mount w.md.espdev env.MBPATH_ESP 0 none]) = 0 →
        util_mount_esp env w = .ok ()
          { w with
            trace := w.trace ++ [first, Event.uevent_mount w.md.espdev env.MBPATH_ESP 0 none] }) ∧
      (env.rc (w.trace ++ [first]) ≠ 0 →
        env.rc (w.trace ++ [first, Event.uevent_mount w.md.espdev env.MBPATH_ESP 0 none]) ≠ 0 →
        util_mount_esp env w = .abort "Can't mount ESP"
          { w with
            trace := w.trace ++ [first, Event.uevent_mount w.md.espdev env.MBPATH_ESP 0 none] })) := by
  constructor
  · intro p q e htrace hop hfail
    have hstart : no_op_failed env w.trace w := ⟨[], by simp, rfl⟩
    have hrun := fatal_setup_partition_replacements w hstart
    have hbad : ¬ ops_clean env w.trace (p ++ e :: q) = true := by
      intro hc
      have := ops_clean_mid env w.trace p q e hc
      rw [hop, hfail] at this
      exact absurd this (by decide)
    cases hres : setup_partition_replacements env w with
    | ok a w1 =>
      rw [hres] at hrun htrace
      obtain ⟨evs, h1, h2⟩ := hrun
      have hev : evs = p ++ e :: q := by
        have : w.trace ++ evs = w.trace ++ (p ++ e :: q) := by
          rw [← h1, ← List.append_assoc]; exact htrace
        exact List.append_cancel_left this
      rw [hev] at h2
      exact absurd h2 hbad
    | abort msg w1 =>
      rw [hres] at hrun htrace
      obtain ⟨evs, h1, h2⟩ := hrun
      have hev : evs = p ++ e :: q := by
        have : w.trace ++ evs = w.trace ++ (p ++ e :: q) := by
          rw [← h1, ← List.append_assoc]; exact htrace
        exact List.append_cancel_left this
      refine ⟨?_, rfl⟩
      by_contra hq
      rw [hev] at h2
      have hd : (p ++ e :: q).dropLast = p ++ e :: q.dropLast := by
        rw [List.dropLast_append_of_ne_nil _ (by simp), List.dropLast_cons_of_ne_nil hq]
      rw [hd] at h2
      have := ops_clean_mid env w.trace p q.dropLast e h2
      rw [hop, hfail] at this
      exact absurd this (by decide)
  · intro first hfirst
    have heq := util_mount_esp_eq env w
    rw [← hfirst] at heq
    refine ⟨?_, ?_, ?_⟩
    · intro h1
      rw [heq, if_neg (not_not.mpr h1)]
    · intro h1 h2
      rw [heq, if_pos h1, if_neg (not_not.mpr h2)]
    · intro h1 h2
      rw [heq, if_pos h1, if_pos h2]

/-- C21, as amended, in a recovery boot where no directory can be created: the
planner mounts the ESP, looks for its directory and aborts at the first `mkdir`,
which is its last call. -/
theorem failed_operation_is_fatal_witness :
    (setup_partition_replacements env_nomkdir world_native).world.trace
      = [Event.uevent_mount (some dev_userdata) "/multiboot/esp".toList 0 none,
          Event.stat "/multiboot/esp/media/UEFIESP".toList true,
          Event.stat "/multiboot/esp/media/0".toList true,
          Event.stat "/multiboot/esp/media/UEFIESP".toList true,
          Event.stat "/multiboot".toList true]
        ++ [Event.mkdir "/multiboot".toList] ∧
    (setup_partition_replacements env_nomkdir world_native).aborted = true :=
  ⟨by decide,
    ((failed_operation_is_fatal env_nomkdir world_native).1
      [Event.uevent_mount (some dev_userdata) "/multiboot/esp".toList 0 none,
        Event.stat "/multiboot/esp/media/UEFIESP".toList true,
        Event.stat "/multiboot/esp/media/0".toList true,
        Event.stat "/multiboot/esp/media/UEFIESP".toList true,
        Event.stat "/multiboot".toList true]
      [] (Event.mkdir "/multiboot".toList) (by decide) (by decide) (by decide)).2⟩

/-- C21 as stated fails: when the first attempt to mount the ESP fails (here
without a record of the ESP in the ROM's fstab, hence without options),
`util_mount_esp` does not abort; it makes the same call again and returns when
that succeeds. -/
theorem esp_mount_is_retried :
    env_esp_retry.rc [Event.uevent_mount (some dev_userdata) "/multiboot/esp".toList 0 none]
      ≠ 0 ∧
    util_mount_esp env_esp_retry world_native
      = .ok ()
        { world_native with
          trace := [Event.uevent_mount (some dev_userdata) "/multiboot/esp".toList 0 none,
            Event.uevent_mount (some dev_userdata) "/multiboot/esp".toList 0 none] } := by
  decide

/-! ### The calls of the boot-device resolver -/

section resolver_frame

variable {R : World → World → Prop} [Frame R]

@[simp]
theorem keeps_guid_worker_loop (env : Env) (guid : Option CStr) (devs : List uevent_block_t) :
    Run.keeps R (guid_worker_loop env guid devs) := by
  induction devs with
  | nil => exact keeps_pure _
  | cons d devs ih =>
    unfold guid_worker_loop
    repeat' first | exact ih | (simp; done) | refine keeps_bind ?_ (fun _ => ?_) | split | dsimp only

@[simp]
theorem keeps_guid_worker (env : Env) (guid : Option CStr) :
    Run.keeps R (guid_worker env guid) := by
  unfold guid_worker
  repeat' first | (simp; done) | refine keeps_bind ?_ (fun _ => ?_) | split | dsimp only

@[simp]
theorem keeps_get_blockinfo_for_guid (env : Env) (guid : Option CStr) :
    Run.keeps R (get_blockinfo_for_guid env guid) := by
  unfold get_blockinfo_for_guid
  repeat' first | (simp; done) | refine keeps_bind ?_ (fun _ => ?_) | split | dsimp only

end resolver_frame

/-! ### C24: a rescan appends to the catalog -/

theorem add_new_block_devices_appends (info feed : List uevent_block_t) :
    ∃ added : List uevent_block_t, add_new_block_devices info feed = info ++ added ∧
      ∀ d ∈ added, d ∈ feed ∧ ∀ x ∈ info, x.devname ≠ d.devname := by
  induction feed generalizing info with
  | nil => exact ⟨[], by simp [add_new_block_devices], by simp⟩
  | cons d feed ih =>
    unfold add_new_block_devices
    split
    · obtain ⟨added, h1, h2⟩ := ih info
      exact ⟨added, h1, fun x hx => ⟨List.mem_cons_of_mem _ (h2 x hx).1, (h2 x hx).2⟩⟩
    · rename_i hnone
      obtain ⟨added, h1, h2⟩ := ih (info ++ [d])
      refine ⟨d :: added, by rw [h1, List.append_assoc]; rfl, ?_⟩
      intro x hx
      rcases List.mem_cons.mp hx with rfl | hx
      · refine ⟨List.mem_cons_self _ _, ?_⟩
        intro y hy hyx
        apply hnone
        unfold get_blockinfo_for_devname
        rw [List.find?_isSome]
        exact ⟨y, hy, by simpa using hyx⟩
      · exact ⟨List.mem_cons_of_mem _ (h2 x hx).1,
          fun y hy => (h2 x hx).2 y (List.mem_append_left _ hy)⟩

/-- The catalog after `find_bootdev`: rescanned when `update` is set, and as it
was otherwise; the rest of the function does not touch it. -/
theorem find_bootdev_blockinfo (env : Env) (update : Bool) (w : World) :
    (find_bootdev env update w).world.md.blockinfo
      = if update = true then
          add_new_block_devices w.md.blockinfo (env.feed (w.trace ++ [Event.read_sys_block]))
        else w.md.blockinfo := by
  have tail : ∀ w2 : World,
      ((do
        let md ← get_data
        let dev ← get_blockinfo_for_guid env md.guid
        modify_data (fun md => { md with bootdev := dev }) : Run Unit) w2).world.md.blockinfo
        = w2.md.blockinfo := by
    intro w2
    have hg : get_data w2 = .ok w2.md w2 := rfl
    rw [bind_of_ok _ _ _ _ _ hg]
    have hk : Run.keeps same_md (get_blockinfo_for_guid env w2.md.guid) :=
      keeps_get_blockinfo_for_guid env _
    have hmd := hk w2
    cases hres : get_blockinfo_for_guid env w2.md.guid w2 with
    | ok dev w3 =>
      rw [hres] at hmd
      rw [bind_of_ok _ _ _ _ _ hres]
      show ({ w3.md with bootdev := dev } : multiboot_data_t).blockinfo = _
      show w3.md.blockinfo = _
      rw [show w3.md = w2.md from hmd]
    | abort msg w3 =>
      rw [hres] at hmd
      rw [bind_of_abort _ _ _ _ _ hres]
      show w3.md.blockinfo = _
      rw [show w3.md = w2.md from hmd]
  unfold find_bootdev
  cases update with
  | false =>
    simp only [Bool.false_eq_true, if_false]
    rw [run_pure_bind]
    exact tail w
  | true =>
    simp only [if_true]
    rw [run_bind_assoc]
    have hc : call Event.read_sys_block w
        = .ok (w.trace ++ [Event.read_sys_block])
            { w with trace := w.trace ++ [Event.read_sys_block] } := rfl
    rw [bind_of_ok _ _ _ _ _ hc, run_bind_assoc]
    have hm : modify_data (fun md => { md with
          blockinfo := add_new_block_devices md.blockinfo
            (env.feed (w.trace ++ [Event.read_sys_block])) })
          { w with trace := w.trace ++ [Event.read_sys_block] }
        = .ok () { w with
            trace := w.trace ++ [Event.read_sys_block],
            md := { w.md with
              blockinfo := add_new_block_devices w.md.blockinfo
                (env.feed (w.trace ++ [Event.read_sys_block])) } } := rfl
    rw [bind_of_ok _ _ _ _ _ hm, run_bind_assoc]
    have hc2 : call (Event.uevent_create_nodes env.MBPATH_DEV)
          { w with
            trace := w.trace ++ [Event.read_sys_block],
            md := { w.md with
              blockinfo := add_new_block_devices w.md.blockinfo
                (env.feed (w.trace ++ [Event.read_sys_block])) } }
        = .ok (w.trace ++ [Event.read_sys_block] ++ [Event.uevent_create_nodes env.MBPATH_DEV])
          { w with
            trace := w.trace ++ [Event.read_sys_block]
              ++ [Event.uevent_create_nodes env.MBPATH_DEV],
            md := { w.md with
              blockinfo := add_new_block_devices w.md.blockinfo
                (env.feed (w.trace ++ [Event.read_sys_block])) } } := rfl
    rw [bind_of_ok _ _ _ _ _ hc2]
    by_cases hrc : env.rc (w.trace ++ [Event.read_sys_block]
        ++ [Event.uevent_create_nodes env.MBPATH_DEV]) ≠ 0
    · rw [abort_if_bind_pos _ _ _ _ hrc]
      rfl
    · rw [abort_if_bind_neg _ _ _ _ hrc]
      exact tail _

theorem catalog_find_bootdev (env : Env) (update : Bool) :
    Run.keeps catalog_grows (find_bootdev env update) := by
  intro w
  unfold catalog_grows
  rw [find_bootdev_blockinfo]
  split
  · obtain ⟨added, h, _⟩ := add_new_block_devices_appends w.md.blockinfo
      (env.feed (w.trace ++ [Event.read_sys_block]))
    rw [h]
    exact List.prefix_append _ _
  · exact List.prefix_refl _

theorem catalog_wait_for_bootdev_pass (env : Env) :
    Run.keeps catalog_grows (wait_for_bootdev_pass env) := by
  unfold wait_for_bootdev_pass
  repeat' first
    | exact catalog_find_bootdev _ _ | (simp; done) | refine keeps_bind ?_ (fun _ => ?_)
    | split | dsimp only

theorem catalog_wait_for_bootdev_loop (env : Env) (fuel : Nat) :
    Run.keeps catalog_grows (wait_for_bootdev_loop env fuel) := by
  induction fuel with
  | zero => exact keeps_pure _
  | succ fuel ih =>
    unfold wait_for_bootdev_loop
    repeat' first
      | exact ih | exact catalog_wait_for_bootdev_pass _ | (simp; done)
      | refine keeps_bind ?_ (fun _ => ?_) | split | dsimp only

theorem catalog_wait_for_bootdev (env : Env) (fuel : Nat) :
    Run.keeps catalog_grows (wait_for_bootdev env fuel) := by
  unfold wait_for_bootdev
  repeat' first
    | exact catalog_find_bootdev _ _ | exact catalog_wait_for_bootdev_loop _ _ | (simp; done)
    | refine keeps_bind ?_ (fun _ => ?_) | split | dsimp only

theorem catalog_multiboot_main_find_bootdev (env : Env) (fuel : Nat) :
    Run.keeps catalog_grows (multiboot_main_find_bootdev env fuel) := by
  unfold multiboot_main_find_bootdev
  repeat' first
    | exact catalog_find_bootdev _ _ | exact catalog_wait_for_bootdev _ _ | (simp; done)
    | refine keeps_bind ?_ (fun _ => ?_) | split | dsimp only

/-- C24: after the rescan of `find_bootdev(1)`, whether the function returns or
aborts, the catalog is the catalog before followed by devices of the feed whose
kernel device name the catalog before did not hold: every device that was in
the catalog is still in it, unchanged and at its position. Without `update` the
catalog is left as it is, and whatever the resolver does, for however many
events, the catalog it started with is the beginning of the catalog it leaves. -/
theorem catalog_rescans_monotonic (env : Env) (w : World) :
    (∃ added : List uevent_block_t,
      (find_bootdev env true w).world.md.blockinfo = w.md.blockinfo ++ added ∧
      ∀ d ∈ added, d ∈ env.feed (w.trace ++ [Event.read_sys_block]) ∧
        ∀ x ∈ w.md.blockinfo, x.devname ≠ d.devname) ∧
    (∀ (i : Nat) (d : uevent_block_t), w.md.blockinfo.get? i = some d →
      (find_bootdev env true w).world.md.blockinfo.get? i = some d) ∧
    (find_bootdev env false w).world.md.blockinfo = w.md.blockinfo ∧
    (∀ fuel : Nat,
      w.md.blockinfo <+: (multiboot_main_find_bootdev env fuel w).world.md.blockinfo) := by
  obtain ⟨added, h, hadd⟩ := add_new_block_devices_appends w.md.blockinfo
    (env.feed (w.trace ++ [Event.read_sys_block]))
  have hb : (find_bootdev env true w).world.md.blockinfo = w.md.blockinfo ++ added := by
    rw [find_bootdev_blockinfo, if_pos rfl, h]
  refine ⟨⟨added, hb, hadd⟩, ?_, ?_, ?_⟩
  · intro i d hi
    rw [hb]
    have hlt : i < w.md.blockinfo.length := by
      by_contra hge
      rw [List.get?_eq_none.mpr (not_lt.mp hge)] at hi
      cases hi
    rw [List.get?_eq_getElem?] at hi ⊢
    rw [List.getElem?_append_left hlt]
    exact hi
  · rw [find_bootdev_blockinfo]
    rfl
  · intro fuel
    exact catalog_multiboot_main_find_bootdev env fuel w

/-! ### C23: the lookup by GUID -/

/-- The worker's scan of the catalog when the tags of a device depend on its
path only and every path fits the buffer: it ends at the first device with the
PARTUUID, with the device in the cell and `exit(0)`, and with `exit(1)` when
there is none. -/
theorem guid_worker_loop_eq (env : Env) (guid : CStr)
    (tags_of : CStr → Option (List (CStr × CStr)))
    (htags : ∀ (h : List Event) (path : CStr),
      env.blkid_tags (h ++ [Event.blkid_get_dev path]) = tags_of path)
    (devs : List uevent_block_t)
    (hfit : ∀ d ∈ devs, ("/dev/block/".toList ++ d.devname).length < env.PATH_MAX) (w : World) :
    ∃ w1, w1.md = w.md ∧ guid_worker_loop env (some guid) devs w
      = .ok (match devs.find? (partuuid_is tags_of guid) with
          | some d => (some d, worker_end.exit 0)
          | none => (none, worker_end.exit 1)) w1 := by
  induction devs generalizing w with
  | nil => exact ⟨w, rfl, rfl⟩
  | cons d devs ih =>
    unfold guid_worker_loop
    have hf : ¬ ("/dev/block/".toList ++ d.devname).length ≥ env.PATH_MAX :=
      not_le.mpr (hfit d (List.mem_cons_self _ _))
    rw [if_neg hf, call_bind, htags]
    have hrest := ih (fun x hx => hfit x (List.mem_cons_of_mem _ hx))
      { w with trace := w.trace ++ [Event.blkid_get_dev ("/dev/block/".toList ++ d.devname)] }
    cases ht : tags_of ("/dev/block/".toList ++ d.devname) with
    | none =>
      have hp : partuuid_is tags_of guid d = false := by
        unfold partuuid_is; rw [ht]
      rw [List.find?_cons_of_neg _ (by rw [hp]; decide)]
      exact hrest
    | some tags =>
      dsimp only
      by_cases hm : has_partuuid tags guid = true
      · have hp : partuuid_is tags_of guid d = true := by
          unfold partuuid_is; rw [ht]; exact hm
        rw [if_pos hm, List.find?_cons_of_pos _ hp]
        exact ⟨⟨w.md, w.loops_created,
          w.trace ++ [Event.blkid_get_dev ("/dev/block/".toList ++ d.devname)]⟩, rfl, rfl⟩
      · have hp : partuuid_is tags_of guid d = false := by
          unfold partuuid_is; rw [ht]; simpa using hm
        rw [if_neg hm, List.find?_cons_of_neg _ (by rw [hp]; decide)]
        exact hrest

theorem guid_worker_returns (env : Env) (guid : Option CStr) (w : World) :
    ∃ cell rc w1, guid_worker env guid w = .ok (cell, rc) w1 ∧ w1.md = w.md := by
  have hk : Run.keeps same_md (guid_worker env guid) := keeps_guid_worker env guid
  have hmd := hk w
  have hloop : ∀ devs w2, ∃ r w3, guid_worker_loop env guid devs w2 = .ok r w3 := by
    intro devs
    induction devs with
    | nil => exact fun w2 => ⟨_, _, rfl⟩
    | cons d devs ih =>
      intro w2
      unfold guid_worker_loop
      split
      · exact ⟨_, _, rfl⟩
      · rw [call_bind]
        cases env.blkid_tags (w2.trace ++ [Event.blkid_get_dev ("/dev/block/".toList ++ d.devname)]) with
        | none => exact ih _
        | some tags =>
          cases guid with
          | none =>
            dsimp only
            split
            · exact ⟨_, _, rfl⟩
            · exact ih _
          | some g =>
            dsimp only
            split
            · exact ⟨_, _, rfl⟩
            · exact ih _
  unfold guid_worker at hmd ⊢
  rw [get_data_bind, call_bind] at hmd ⊢
  by_cases hc : env.rc (w.trace ++ [Event.chroot "/multiboot".toList]) < 0
  · rw [if_pos hc, run_pure_bind, call_bind] at hmd ⊢
    exact ⟨_, _, _, rfl, hmd⟩
  · rw [if_neg hc] at hmd ⊢
    obtain ⟨r, w3, h3⟩ := hloop w.md.blockinfo
      { w with trace := w.trace ++ [Event.chroot "/multiboot".toList] }
    rw [bind_of_ok _ _ _ _ _ h3, call_bind] at hmd ⊢
    exact ⟨_, _, _, rfl, hmd⟩

theorem read_handoff_cell_nonzero (rc : Int) (cell : Option uevent_block_t) (h : rc ≠ 0) :
    read_handoff_cell rc cell = none := by
  unfold read_handoff_cell; rw [if_neg h]

/-- The lookup in terms of its worker, once the cell is mapped and the worker
is spawned. -/
theorem get_blockinfo_for_guid_eq (env : Env) (guid : Option CStr) (w : World)
    (hmap : env.rc (w.trace ++ [Event.mmap]) = 0)
    (hfork : 0 ≤ env.rc (w.trace ++ [Event.mmap] ++ [Event.safe_fork])) :
    ∃ cell rc wk,
      guid_worker env guid ⟨w.md, w.loops_created, w.trace ++ [Event.mmap] ++ [Event.safe_fork]⟩
        = .ok (cell, rc) wk ∧ wk.md = w.md ∧
      get_blockinfo_for_guid env guid w
        = .ok (read_handoff_cell rc cell) { wk with trace := wk.trace ++ [Event.munmap] } := by
  obtain ⟨cell, rc, wk, hk, hmd⟩ := guid_worker_returns env guid
    ⟨w.md, w.loops_created, w.trace ++ [Event.mmap] ++ [Event.safe_fork]⟩
  refine ⟨cell, rc, wk, hk, hmd, ?_⟩
  unfold get_blockinfo_for_guid
  rw [call_bind, abort_if_bind_neg _ _ _ _ (by simpa using hmap), call_bind,
    abort_if_bind_neg _ _ _ _ (by simpa using hfork), bind_of_ok _ _ _ _ _ hk, call_bind]
  rfl

/-- C23: `get_blockinfo_for_guid(guid)` returns the first device of the
catalog, in catalog order, that has a tag PARTUUID equal to `guid` with the
letter case ignored, and none when no device has one: this is its result when
the cell is mapped, the worker is spawned and re-rooted, every device path fits
the buffer, the tags of a device depend on its path only, and nothing ends the
worker from outside. The caller reads the handoff cell only when the wait
status of the worker is 0: the result is the cell of the worker when its wait
status is 0 and none otherwise; a worker that called `exit(1)` or was ended by
a signal has a wait status other than 0, whatever the cell holds, and the
lookup returns none when the re-rooting fails and when every worker is ended by
a signal. -/
theorem lookup_by_guid (env : Env) (guid : CStr) (w : World) :
    (∀ tags_of : CStr → Option (List (CStr × CStr)),
      env.rc (w.trace ++ [Event.mmap]) = 0 →
      0 ≤ env.rc (w.trace ++ [Event.mmap] ++ [Event.safe_fork]) →
      0 ≤ env.rc (w.trace ++ [Event.mmap] ++ [Event.safe_fork]
        ++ [Event.chroot "/multiboot".toList]) →
      (∀ d ∈ w.md.blockinfo, ("/dev/block/".toList ++ d.devname).length < env.PATH_MAX) →
      (∀ (h : List Event) (path : CStr),
        env.blkid_tags (h ++ [Event.blkid_get_dev path]) = tags_of path) →
      (∀ h : List Event, env.killed h = none) →
      ∃ w1, w1.md = w.md ∧ get_blockinfo_for_guid env (some guid) w
        = .ok (w.md.blockinfo.find? (partuuid_is tags_of guid)) w1) ∧
    (∀ (a : Option uevent_block_t) (w1 : World),
      get_blockinfo_for_guid env (some guid) w = .ok a w1 →
      ∃ cell rc wk,
        guid_worker env (some guid)
          ⟨w.md, w.loops_created, w.trace ++ [Event.mmap] ++ [Event.safe_fork]⟩
          = .ok (cell, rc) wk ∧
        a = read_handoff_cell rc cell ∧ (rc = 0 → a = cell) ∧ (rc ≠ 0 → a = none)) ∧
    (∀ (h : List Event) (cell : Option uevent_block_t),
      read_handoff_cell (wait_status env h (worker_end.exit 1)) cell = none) ∧
    (∀ (h : List Event) (e : worker_end) (cell : Option uevent_block_t),
      env.killed h ≠ none → read_handoff_cell (wait_status env h e) cell = none) ∧
    (env.rc (w.trace ++ [Event.mmap] ++ [Event.safe_fork]
        ++ [Event.chroot "/multiboot".toList]) < 0 →
      ∀ (a : Option uevent_block_t) (w1 : World),
        get_blockinfo_for_guid env (some guid) w = .ok a w1 → a = none) ∧
    ((∀ h : List Event, env.killed h ≠ none) →
      ∀ (a : Option uevent_block_t) (w1 : World),
        get_blockinfo_for_guid env (some guid) w = .ok a w1 → a = none) := by
  have hreach : ∀ (a : Option uevent_block_t) (w1 : World),
      get_blockinfo_for_guid env (some guid) w = .ok a w1 →
      env.rc (w.trace ++ [Event.mmap]) = 0 ∧
        0 ≤ env.rc (w.trace ++ [Event.mmap] ++ [Event.safe_fork]) := by
    intro a w1 h
    unfold get_blockinfo_for_guid at h
    rw [call_bind] at h
    by_cases hm : env.rc (w.trace ++ [Event.mmap]) = 0
    · refine ⟨hm, ?_⟩
      rw [abort_if_bind_neg _ _ _ _ (by simpa using hm), call_bind] at h
      by_contra hf
      rw [abort_if_bind_pos _ _ _ _ (by simpa using hf)] at h
      cases h
    · rw [abort_if_bind_pos _ _ _ _ (by simpa using hm)] at h
      cases h
  refine ⟨?_, ?_, ?_, ?_, ?_, ?_⟩
  · intro tags_of hmap hfork hchroot hfit htags hkill
    obtain ⟨cell, rc, wk, hk, hmd, heq⟩ := get_blockinfo_for_guid_eq env (some guid) w hmap hfork
    refine ⟨{ wk with trace := wk.trace ++ [Event.munmap] }, hmd, ?_⟩
    rw [heq]
    obtain ⟨w2, -, h2⟩ := guid_worker_loop_eq env guid tags_of htags w.md.blockinfo hfit
      ⟨w.md, w.loops_created, w.trace ++ [Event.mmap] ++ [Event.safe_fork]
        ++ [Event.chroot "/multiboot".toList]⟩
    unfold guid_worker at hk
    rw [get_data_bind, call_bind, if_neg (not_lt.mpr hchroot)] at hk
    have h2b : guid_worker_loop env (some guid) w.md.blockinfo
        { md := w.md, loops_created := w.loops_created,
          trace := w.trace ++ [Event.mmap] ++ [Event.safe_fork]
            ++ [Event.chroot "/multiboot".toList] } = _ := h2
    rw [bind_of_ok _ _ _ _ _ h2b, call_bind] at hk
    have hk2 := Res.ok.inj hk
    have hpair := hk2.1
    cases hfind : w.md.blockinfo.find? (partuuid_is tags_of guid) with
    | none =>
      rw [hfind] at hpair
      have hc : cell = none := (congrArg Prod.fst hpair).symm
      have hr : rc = wait_status env (w2.trace ++ [Event.waitpid]) (worker_end.exit 1) :=
        (congrArg Prod.snd hpair).symm
      rw [hc]
      unfold read_handoff_cell
      split <;> rfl
    | some d =>
      rw [hfind] at hpair
      have hc : cell = some d := (congrArg Prod.fst hpair).symm
      have hr : rc = wait_status env (w2.trace ++ [Event.waitpid]) (worker_end.exit 0) :=
        (congrArg Prod.snd hpair).symm
      have hr0 : rc = 0 := by
        rw [hr]; unfold wait_status; rw [hkill]; rfl
      rw [hc, hr0]; rfl
  · intro a w1 h
    obtain ⟨hmap, hfork⟩ := hreach a w1 h
    obtain ⟨cell, rc, wk, hk, -, heq⟩ := get_blockinfo_for_guid_eq env (some guid) w hmap hfork
    rw [heq] at h
    have ha := (Res.ok.inj h).1
    refine ⟨cell, rc, wk, hk, ha.symm, ?_, ?_⟩
    · intro h0; rw [← ha, h0]; rfl
    · intro h0; rw [← ha]; exact read_handoff_cell_nonzero _ _ h0
  · intro h cell
    apply read_handoff_cell_nonzero
    unfold wait_status
    cases env.killed h with
    | none => show ((1 % 256 : Nat) : Int) * 256 ≠ 0; decide
    | some sig => dsimp only; omega
  · intro h e cell hk
    apply read_handoff_cell_nonzero
    unfold wait_status
    cases hk2 : env.killed h with
    | none => exact absurd hk2 hk
    | some sig => dsimp only; omega
  · intro hchroot a w1 h
    obtain ⟨hmap, hfork⟩ := hreach a w1 h
    obtain ⟨cell, rc, wk, hk, -, heq⟩ := get_blockinfo_for_guid_eq env (some guid) w hmap hfork
    rw [heq] at h
    have ha := (Res.ok.inj h).1
    unfold guid_worker at hk
    rw [get_data_bind, call_bind, if_pos hchroot, run_pure_bind, call_bind] at hk
    have hc : cell = none := (congrArg Prod.fst (Res.ok.inj hk).1).symm
    rw [← ha, hc]
    unfold read_handoff_cell
    split <;> rfl
  · intro hkill a w1 h
    obtain ⟨hmap, hfork⟩ := hreach a w1 h
    obtain ⟨cell, rc, wk, hk, -, heq⟩ := get_blockinfo_for_guid_eq env (some guid) w hmap hfork
    rw [heq] at h
    have ha := (Res.ok.inj h).1
    rw [← ha]
    apply read_handoff_cell_nonzero
    unfold guid_worker at hk
    rw [get_data_bind, call_bind] at hk
    obtain ⟨r, w3, h3, h4⟩ := bind_ok_inv _ _ _ _ _ hk
    rw [call_bind] at h4
    have hr : rc = wait_status env (w3.trace ++ [Event.waitpid]) r.2 :=
      (congrArg Prod.snd (Res.ok.inj h4).1).symm
    rw [hr]
    unfold wait_status
    cases hk2 : env.killed (w3.trace ++ [Event.waitpid]) with
    | none => exact absurd hk2 (hkill _)
    | some sig => dsimp only; omega

/-- With the data partition tagged with the GUID in capital letters as the
second device of the catalog, the lookup by the GUID in small letters returns
the data partition; when every worker is ended by a signal it returns none. -/
theorem lookup_by_guid_witness :
    (∃ w1, w1.md = (world_search [dev_cache, dev_userdata, dev_system]).md ∧
      get_blockinfo_for_guid env_arrival (some "0e9a5b1c-7d3f-4c2a-9b6e-5f1d2c3a4b5e".toList)
        (world_search [dev_cache, dev_userdata, dev_system]) = .ok (some dev_userdata) w1) ∧
    get_blockinfo_for_guid env_killed (some "0e9a5b1c-7d3f-4c2a-9b6e-5f1d2c3a4b5e".toList)
        (world_search [dev_cache, dev_userdata, dev_system])
      = .ok none (get_blockinfo_for_guid env_killed
        (some "0e9a5b1c-7d3f-4c2a-9b6e-5f1d2c3a4b5e".toList)
        (world_search [dev_cache, dev_userdata, dev_system])).world :=
  ⟨(lookup_by_guid env_arrival "0e9a5b1c-7d3f-4c2a-9b6e-5f1d2c3a4b5e".toList
      (world_search [dev_cache, dev_userdata, dev_system])).1 tags_arrival
      (by decide) (by decide) (by decide) (by decide)
      (fun h path => by
        show (if (h ++ [Event.blkid_get_dev path]).getLast?
          = some (Event.blkid_get_dev "/dev/block/mmcblk0p9".toList) then _ else _) = _
        unfold tags_arrival
        rw [List.getLast?_append, List.getLast?_singleton]
        simp)
      (fun _ => rfl),
    by decide⟩

/-! ### C22: the boot-device resolver -/

/-- What `find_bootdev` does: it rescans when `update` is set, looks the boot
device up by the GUID and stores the result of the lookup. -/
theorem find_bootdev_ok_iff (env : Env) (update : Bool) (w w1 : World) :
    find_bootdev env update w = .ok () w1 ↔
      (update = true → env.rc (lookup_start env update w).trace = 0) ∧
      ∃ dev w2,
        get_blockinfo_for_guid env w.md.guid (lookup_start env update w) = .ok dev w2 ∧
        w1 = { w2 with md := { w2.md with bootdev := dev } } := by
  have tail : ∀ w0 : World,
      ((do
        let md ← get_data
        let dev ← get_blockinfo_for_guid env md.guid
        modify_data (fun md => { md with bootdev := dev }) : Run Unit) w0 = .ok () w1) ↔
      ∃ dev w2, get_blockinfo_for_guid env w0.md.guid w0 = .ok dev w2 ∧
        w1 = { w2 with md := { w2.md with bootdev := dev } } := by
    intro w0
    rw [get_data_bind]
    cases hres : get_blockinfo_for_guid env w0.md.guid w0 with
    | ok dev w2 =>
      rw [bind_of_ok _ _ _ _ _ hres]
      constructor
      · intro h
        exact ⟨dev, w2, rfl, (Res.ok.inj h).2.symm⟩
      · rintro ⟨dev2, w3, h3, rfl⟩
        obtain ⟨rfl, rfl⟩ := Res.ok.inj h3
        rfl
    | abort msg w2 =>
      rw [bind_of_abort _ _ _ _ _ hres]
      constructor
      · intro h; cases h
      · rintro ⟨dev2, w3, h3, -⟩; cases h3
  unfold find_bootdev
  cases update with
  | false =>
    rw [if_neg (by decide), run_pure_bind]
    have hs : lookup_start env false w = w := rfl
    rw [hs, tail w]
    exact ⟨fun h => ⟨fun hu => absurd hu (by decide), h⟩, fun h => h.2⟩
  | true =>
    rw [if_pos rfl, run_bind_assoc, call_bind, run_bind_assoc, modify_data_bind,
      run_bind_assoc, call_bind]
    have hs : lookup_start env true w =
        { md := { w.md with
            blockinfo := add_new_block_devices w.md.blockinfo
              (env.feed (w.trace ++ [Event.read_sys_block])) },
          loops_created := w.loops_created,
          trace := w.trace ++ [Event.read_sys_block]
            ++ [Event.uevent_create_nodes env.MBPATH_DEV] } := rfl
    by_cases hrc : env.rc (w.trace ++ [Event.read_sys_block]
        ++ [Event.uevent_create_nodes env.MBPATH_DEV]) = 0
    · rw [abort_if_bind_neg _ _ _ _ (by simpa using hrc)]
      rw [hs, tail]
      exact ⟨fun h => ⟨fun _ => hrc, h⟩, fun h => h.2⟩
    · rw [abort_if_bind_pos _ _ _ _ (by simpa using hrc)]
      rw [hs]
      constructor
      · intro h; cases h
      · rintro ⟨h, -⟩; exact absurd (h rfl) hrc

/-- How a pass of the loop of `wait_for_bootdev` returns. -/
theorem wait_for_bootdev_pass_ok_iff (env : Env) (w : World) (r : poll_result) (w1 : World) :
    wait_for_bootdev_pass env w = .ok r w1 ↔
      (r = poll_result.poll_failed ∧ env.rc (w.trace ++ [Event.poll]) = -1 ∧
        w1 = w.called [Event.poll]) ∨
      (env.rc (w.trace ++ [Event.poll]) ≠ -1 ∧
        env.rc (w.trace ++ [Event.poll] ++ [Event.recv]) ≠ -1 ∧
        find_bootdev env true ((w.called [Event.poll]).called [Event.recv]) = .ok () w1 ∧
        r = if w1.md.bootdev.isSome = true then poll_result.found else poll_result.searching) := by
  unfold wait_for_bootdev_pass
  rw [call_bind]
  by_cases hp : env.rc (w.trace ++ [Event.poll]) = -1
  · rw [if_pos hp]
    constructor
    · intro h
      obtain ⟨h1, h2⟩ := Res.ok.inj h
      exact Or.inl ⟨h1.symm, hp, h2.symm⟩
    · rintro (⟨rfl, -, rfl⟩ | ⟨h, -⟩)
      · rfl
      · exact absurd hp h
  · rw [if_neg hp, call_bind]
    by_cases hr : env.rc (w.trace ++ [Event.poll] ++ [Event.recv]) = -1
    · rw [abort_if_bind_pos _ _ _ _ hr]
      constructor
      · intro h; cases h
      · rintro (⟨-, h, -⟩ | ⟨-, h, -⟩)
        · exact absurd h hp
        · exact absurd hr h
    · rw [abort_if_bind_neg _ _ _ _ hr]
      cases hf : find_bootdev env true ((w.called [Event.poll]).called [Event.recv]) with
      | abort msg w2 =>
        have hf2 : find_bootdev env true
            (⟨w.md, w.loops_created, w.trace ++ [Event.poll] ++ [Event.recv]⟩ : World) = .abort msg w2 := hf
        rw [bind_of_abort _ _ _ _ _ hf2]
        constructor
        · intro h; cases h
        · rintro (⟨-, h, -⟩ | ⟨-, -, h, -⟩)
          · exact absurd h hp
          · cases h
      | ok u w2 =>
        have hf2 : find_bootdev env true
            (⟨w.md, w.loops_created, w.trace ++ [Event.poll] ++ [Event.recv]⟩ : World) = .ok u w2 := hf
        rw [bind_of_ok _ _ _ _ _ hf2, get_data_bind]
        constructor
        · intro h
          refine Or.inr ⟨hp, hr, ?_, ?_⟩
          · by_cases hb : w2.md.bootdev.isSome = true
            · rw [if_pos hb] at h
              rw [(Res.ok.inj h).2]
            · rw [if_neg hb] at h
              rw [(Res.ok.inj h).2]
          · by_cases hb : w2.md.bootdev.isSome = true
            · rw [if_pos hb] at h
              obtain ⟨h1, h2⟩ := Res.ok.inj h
              rw [← h2, if_pos hb]; exact h1.symm
            · rw [if_neg hb] at h
              obtain ⟨h1, h2⟩ := Res.ok.inj h
              rw [← h2, if_neg hb]; exact h1.symm
        · rintro (⟨-, h, -⟩ | ⟨-, -, h, rfl⟩)
          · exact absurd h hp
          · obtain ⟨-, rfl⟩ := Res.ok.inj h
            by_cases hb : w2.md.bootdev.isSome = true
            · rw [if_pos hb, if_pos hb]; rfl
            · rw [if_neg hb, if_neg hb]; rfl

/-- How the loop of `wait_for_bootdev` is left: after some passes that ended
with the boot device still searched, a pass finds it or `poll` fails. -/
theorem wait_for_bootdev_loop_true_iff (env : Env) (fuel : Nat) (w w2 : World) :
    wait_for_bootdev_loop env fuel w = .ok true w2 ↔
      ∃ n w1, n < fuel ∧ searching_after env n w = some w1 ∧
        (wait_for_bootdev_pass env w1 = .ok poll_result.found w2 ∨
          wait_for_bootdev_pass env w1 = .ok poll_result.poll_failed w2) := by
  induction fuel generalizing w with
  | zero =>
    constructor
    · intro h
      have h2 := (Res.ok.inj h).1
      cases h2
    · rintro ⟨n, w1, hn, -⟩
      exact absurd hn (Nat.not_lt_zero _)
  | succ fuel ih =>
    unfold wait_for_bootdev_loop
    cases hp : wait_for_bootdev_pass env w with
    | abort msg w3 =>
      rw [bind_of_abort _ _ _ _ _ hp]
      constructor
      · intro h; cases h
      · rintro ⟨n, w1, -, hs, hlast⟩
        cases n with
        | zero =>
          obtain rfl : w = w1 := Option.some.inj hs
          rw [hp] at hlast
          rcases hlast with h | h <;> cases h
        | succ n =>
          unfold searching_after at hs
          rw [hp] at hs
          cases hs
    | ok r w3 =>
      rw [bind_of_ok _ _ _ _ _ hp]
      cases r with
      | searching =>
        show wait_for_bootdev_loop env fuel w3 = .ok true w2 ↔ _
        rw [ih]
        constructor
        · rintro ⟨n, w1, hn, hs, hlast⟩
          refine ⟨n + 1, w1, Nat.succ_lt_succ hn, ?_, hlast⟩
          unfold searching_after
          rw [hp]
          exact hs
        · rintro ⟨n, w1, hn, hs, hlast⟩
          cases n with
          | zero =>
            obtain rfl : w = w1 := Option.some.inj hs
            rw [hp] at hlast
            rcases hlast with h | h
            · cases (Res.ok.inj h).1
            · cases (Res.ok.inj h).1
          | succ n =>
            unfold searching_after at hs
            rw [hp] at hs
            exact ⟨n, w1, Nat.lt_of_succ_lt_succ hn, hs, hlast⟩
      | found =>
        show (Res.ok true w3 : Res Bool) = .ok true w2 ↔ _
        constructor
        · intro h
          obtain rfl := (Res.ok.inj h).2
          exact ⟨0, w, Nat.succ_pos _, rfl, Or.inl hp⟩
        · rintro ⟨n, w1, hn, hs, hlast⟩
          cases n with
          | zero =>
            obtain rfl : w = w1 := Option.some.inj hs
            rw [hp] at hlast
            rcases hlast with h | h
            · rw [(Res.ok.inj h).2]
            · cases (Res.ok.inj h).1
          | succ n =>
            unfold searching_after at hs
            rw [hp] at hs
            cases hs
      | poll_failed =>
        show (Res.ok true w3 : Res Bool) = .ok true w2 ↔ _
        constructor
        · intro h
          obtain rfl := (Res.ok.inj h).2
          exact ⟨0, w, Nat.succ_pos _, rfl, Or.inr hp⟩
        · rintro ⟨n, w1, hn, hs, hlast⟩
          cases n with
          | zero =>
            obtain rfl : w = w1 := Option.some.inj hs
            rw [hp] at hlast
            rcases hlast with h | h
            · cases (Res.ok.inj h).1
            · rw [(Res.ok.inj h).2]
          | succ n =>
            unfold searching_after at hs
            rw [hp] at hs
            cases hs

/-- The boot device is still not resolved after passes that ended with the
boot device still searched. -/
theorem searching_after_bootdev (env : Env) (n : Nat) (w w1 : World)
    (h0 : w.md.bootdev = none) (h : searching_after env n w = some w1) :
    w1.md.bootdev = none := by
  induction n generalizing w with
  | zero =>
    obtain rfl : w = w1 := Option.some.inj h
    exact h0
  | succ n ih =>
    unfold searching_after at h
    cases hp : wait_for_bootdev_pass env w with
    | abort msg w3 => rw [hp] at h; cases h
    | ok r w3 =>
      rw [hp] at h
      cases r with
      | searching =>
        refine ih w3 ?_ h
        rcases (wait_for_bootdev_pass_ok_iff env w _ w3).mp hp with ⟨h1, -⟩ | ⟨-, -, -, h4⟩
        · cases h1
        · by_cases hb : w3.md.bootdev.isSome = true
          · rw [if_pos hb] at h4; cases h4
          · cases hbd : w3.md.bootdev with
            | none => rfl
            | some d => rw [hbd] at hb; exact absurd rfl hb
      | found => cases h
      | poll_failed => cases h

/-- How `wait_for_bootdev` returns: the channel is opened and bound, the
catalog is rescanned and the boot device looked up; the channel is closed at
once when the lookup matched, and when the loop is left otherwise. -/
theorem wait_for_bootdev_true_iff (env : Env) (fuel : Nat) (w wf : World) :
    wait_for_bootdev env fuel w = .ok true wf ↔
      env.rc (w.trace ++ [Event.socket]) ≠ -1 ∧
      env.rc (w.trace ++ [Event.socket] ++ [Event.bind]) = 0 ∧
      ∃ w1, find_bootdev env true ((w.called [Event.socket]).called [Event.bind]) = .ok () w1 ∧
        ((w1.md.bootdev.isSome = true ∧ wf = w1.called [Event.close_socket]) ∨
          (w1.md.bootdev = none ∧ ∃ w2, wait_for_bootdev_loop env fuel w1 = .ok true w2 ∧
            wf = w2.called [Event.close_socket])) := by
  unfold wait_for_bootdev
  rw [call_bind]
  by_cases hs : env.rc (w.trace ++ [Event.socket]) = -1
  · rw [abort_if_bind_pos _ _ _ _ hs]
    constructor
    · intro h; cases h
    · rintro ⟨h, -⟩; exact absurd hs h
  rw [abort_if_bind_neg _ _ _ _ hs, call_bind]
  by_cases hb : env.rc (w.trace ++ [Event.socket] ++ [Event.bind]) = 0
  swap
  · rw [abort_if_bind_pos _ _ _ _ hb]
    constructor
    · intro h; cases h
    · rintro ⟨-, h, -⟩; exact absurd h hb
  rw [abort_if_bind_neg _ _ _ _ (not_not.mpr hb)]
  cases hf : find_bootdev env true ((w.called [Event.socket]).called [Event.bind]) with
  | abort msg w1 =>
    have hf2 : find_bootdev env true
        (⟨w.md, w.loops_created, w.trace ++ [Event.socket] ++ [Event.bind]⟩ : World)
        = .abort msg w1 := hf
    rw [bind_of_abort _ _ _ _ _ hf2]
    constructor
    · intro h; cases h
    · rintro ⟨-, -, w2, h, -⟩; cases h
  | ok u w1 =>
    have hf2 : find_bootdev env true
        (⟨w.md, w.loops_created, w.trace ++ [Event.socket] ++ [Event.bind]⟩ : World)
        = .ok u w1 := hf
    rw [bind_of_ok _ _ _ _ _ hf2, get_data_bind]
    cases hbd : w1.md.bootdev with
    | some d =>
      have hsome : (some d : Option uevent_block_t).isSome = true := rfl
      rw [if_pos hsome, run_pure_bind, if_pos rfl, call_bind]
      constructor
      · intro h
        refine ⟨hs, hb, w1, rfl, Or.inl ⟨by rw [hbd]; rfl, ?_⟩⟩
        exact (Res.ok.inj h).2.symm
      · rintro ⟨-, -, w2, h2, h3⟩
        obtain ⟨-, rfl⟩ := Res.ok.inj h2
        rcases h3 with ⟨-, rfl⟩ | ⟨h4, -⟩
        · rfl
        · rw [hbd] at h4; cases h4
    | none =>
      have hnone : ¬ (none : Option uevent_block_t).isSome = true := by decide
      rw [if_neg hnone]
      cases hl : wait_for_bootdev_loop env fuel w1 with
      | abort msg w2 =>
        rw [bind_of_abort _ _ _ _ _ hl]
        constructor
        · intro h; cases h
        · rintro ⟨-, -, w3, h2, h3⟩
          obtain ⟨-, rfl⟩ := Res.ok.inj h2
          rcases h3 with ⟨h4, -⟩ | ⟨-, w4, h5, -⟩
          · rw [hbd] at h4; cases h4
          · rw [hl] at h5; cases h5
      | ok left w2 =>
        rw [bind_of_ok _ _ _ _ _ hl]
        cases left with
        | false =>
          rw [if_neg (by decide)]
          constructor
          · intro h; cases (Res.ok.inj h).1
          · rintro ⟨-, -, w3, h2, h3⟩
            obtain ⟨-, rfl⟩ := Res.ok.inj h2
            rcases h3 with ⟨h4, -⟩ | ⟨-, w4, h5, -⟩
            · rw [hbd] at h4; cases h4
            · rw [hl] at h5; cases (Res.ok.inj h5).1
        | true =>
          rw [if_pos rfl, call_bind]
          constructor
          · intro h
            refine ⟨hs, hb, w1, rfl, Or.inr ⟨hbd, w2, hl, ?_⟩⟩
            exact (Res.ok.inj h).2.symm
          · rintro ⟨-, -, w3, h2, h3⟩
            obtain ⟨-, rfl⟩ := Res.ok.inj h2
            rcases h3 with ⟨h4, -⟩ | ⟨-, w4, h5, rfl⟩
            · rw [hbd] at h4; cases h4
            · rw [hl] at h5
              obtain ⟨-, rfl⟩ := Res.ok.inj h5
              rfl

/-- How the resolver of `multiboot_main` returns. -/
theorem multiboot_main_find_bootdev_true_iff (env : Env) (fuel : Nat) (w wf : World) :
    multiboot_main_find_bootdev env fuel w = .ok true wf ↔
      ∃ w0, find_bootdev env false w = .ok () w0 ∧
        wait_for_bootdev env fuel w0 = .ok true wf ∧ wf.md.bootdev ≠ none := by
  unfold multiboot_main_find_bootdev
  cases hf : find_bootdev env false w with
  | abort msg w0 =>
    rw [bind_of_abort _ _ _ _ _ hf]
    constructor
    · intro h; cases h
    · rintro ⟨w1, h, -⟩; cases h
  | ok u w0 =>
    rw [bind_of_ok _ _ _ _ _ hf]
    cases hw : wait_for_bootdev env fuel w0 with
    | abort msg w1 =>
      rw [bind_of_abort _ _ _ _ _ hw]
      constructor
      · intro h; cases h
      · rintro ⟨w2, h, h2, -⟩
        obtain ⟨-, rfl⟩ := Res.ok.inj h
        rw [hw] at h2; cases h2
    | ok returned w1 =>
      rw [bind_of_ok _ _ _ _ _ hw]
      cases returned with
      | false =>
        rw [if_neg (by decide)]
        constructor
        · intro h; cases (Res.ok.inj h).1
        · rintro ⟨w2, h, h2, -⟩
          obtain ⟨-, rfl⟩ := Res.ok.inj h
          rw [hw] at h2; cases (Res.ok.inj h2).1
      | true =>
        rw [if_pos rfl, get_data_bind]
        by_cases hb : w1.md.bootdev = none
        · rw [abort_if_bind_pos _ _ _ _ hb]
          constructor
          · intro h; cases h
          · rintro ⟨w2, h, h2, h3⟩
            obtain ⟨-, rfl⟩ := Res.ok.inj h
            rw [hw] at h2
            obtain ⟨-, rfl⟩ := Res.ok.inj h2
            exact absurd hb h3
        · rw [abort_if_bind_neg _ _ _ _ hb]
          constructor
          · intro h
            obtain ⟨-, rfl⟩ := Res.ok.inj h
            exact ⟨w0, rfl, hw, hb⟩
          · rintro ⟨w2, h, h2, -⟩
            obtain ⟨-, rfl⟩ := Res.ok.inj h
            rw [hw] at h2
            obtain ⟨-, rfl⟩ := Res.ok.inj h2
            rfl

/-- C22, as the code has it: the boot-device resolver has the states SEARCHING
and FOUND, FOUND being terminal. Whether the initial lookup by GUID matches or
not, the resolver opens the event channel, rescans and looks the boot device up
again, the boot device being the result of that lookup. The resolver returns
exactly in two ways: that lookup matched, and then the channel is closed with
no further rescan or lookup and the boot device is the one of that lookup; or
it did not match, some passes (block for an event, receive it, rescan, look up)
ended with no match, the next pass matched, and then the channel is closed and
the boot device is the result of the lookup of that pass. Every lookup stores
its result as the boot device. -/
theorem resolver_stops_at_first_match (env : Env) (fuel : Nat) (w wf : World) :
    (multiboot_main_find_bootdev env fuel w = .ok true wf ↔
      ∃ w0 w1, find_bootdev env false w = .ok () w0 ∧
        env.rc (w0.trace ++ [Event.socket]) ≠ -1 ∧
        env.rc (w0.trace ++ [Event.socket] ++ [Event.bind]) = 0 ∧
        find_bootdev env true ((w0.called [Event.socket]).called [Event.bind]) = .ok () w1 ∧
        ((w1.md.bootdev.isSome = true ∧ wf = w1.called [Event.close_socket]) ∨
          (w1.md.bootdev = none ∧ ∃ n w2 w3, n < fuel ∧
            searching_after env n w1 = some w2 ∧
            wait_for_bootdev_pass env w2 = .ok poll_result.found w3 ∧
            wf = w3.called [Event.close_socket]))) ∧
    (∀ v v1 : World, wait_for_bootdev_pass env v = .ok poll_result.searching v1 ↔
      env.rc (v.trace ++ [Event.poll]) ≠ -1 ∧
      env.rc (v.trace ++ [Event.poll] ++ [Event.recv]) ≠ -1 ∧
      find_bootdev env true ((v.called [Event.poll]).called [Event.recv]) = .ok () v1 ∧
      v1.md.bootdev = none) ∧
    (∀ v v1 : World, wait_for_bootdev_pass env v = .ok poll_result.found v1 ↔
      env.rc (v.trace ++ [Event.poll]) ≠ -1 ∧
      env.rc (v.trace ++ [Event.poll] ++ [Event.recv]) ≠ -1 ∧
      find_bootdev env true ((v.called [Event.poll]).called [Event.recv]) = .ok () v1 ∧
      v1.md.bootdev.isSome = true) ∧
    (∀ (update : Bool) (v v1 : World), find_bootdev env update v = .ok () v1 ↔
      (update = true → env.rc (lookup_start env update v).trace = 0) ∧
      ∃ dev v2,
        get_blockinfo_for_guid env v.md.guid (lookup_start env update v) = .ok dev v2 ∧
        v1 = { v2 with md := { v2.md with bootdev := dev } }) := by
  refine ⟨?_, ?_, ?_, fun update v v1 => find_bootdev_ok_iff env update v v1⟩
  · rw [multiboot_main_find_bootdev_true_iff]
    constructor
    · rintro ⟨w0, h0, hw, hb⟩
      obtain ⟨hs, hbind, w1, h1, hcase⟩ := (wait_for_bootdev_true_iff env fuel w0 wf).mp hw
      refine ⟨w0, w1, h0, hs, hbind, h1, ?_⟩
      rcases hcase with hfound | ⟨hnone, w2, hloop, hwf⟩
      · exact Or.inl hfound
      · obtain ⟨n, w3, hn, hsearch, hlast⟩ :=
          (wait_for_bootdev_loop_true_iff env fuel w1 w2).mp hloop
        have h3 := searching_after_bootdev env n w1 w3 hnone hsearch
        rcases hlast with hlast | hlast
        · exact Or.inr ⟨hnone, n, w3, w2, hn, hsearch, hlast, hwf⟩
        · exfalso
          rcases (wait_for_bootdev_pass_ok_iff env w3 _ w2).mp hlast with
            ⟨-, -, h5⟩ | ⟨h4, -⟩
          · apply hb
            rw [hwf, h5]
            exact h3
          · rcases (wait_for_bootdev_pass_ok_iff env w3 _ w2).mp hlast with
              ⟨-, h6, -⟩ | ⟨-, -, -, h7⟩
            · exact h4 h6
            · by_cases hb2 : w2.md.bootdev.isSome = true
              · rw [if_pos hb2] at h7; cases h7
              · rw [if_neg hb2] at h7; cases h7
    · rintro ⟨w0, w1, h0, hs, hbind, h1, hcase⟩
      refine ⟨w0, h0, ?_, ?_⟩
      · refine (wait_for_bootdev_true_iff env fuel w0 wf).mpr ⟨hs, hbind, w1, h1, ?_⟩
        rcases hcase with hfound | ⟨hnone, n, w2, w3, hn, hsearch, hlast, hwf⟩
        · exact Or.inl hfound
        · exact Or.inr ⟨hnone, w3,
            (wait_for_bootdev_loop_true_iff env fuel w1 w3).mpr
              ⟨n, w2, hn, hsearch, Or.inl hlast⟩, hwf⟩
      · rcases hcase with ⟨hfound, hwf⟩ | ⟨hnone, n, w2, w3, hn, hsearch, hlast, hwf⟩
        · rw [hwf]
          intro hnone
          have : w1.md.bootdev = none := hnone
          rw [this] at hfound
          cases hfound
        · rw [hwf]
          intro hnone3
          have hnone4 : w3.md.bootdev = none := hnone3
          rcases (wait_for_bootdev_pass_ok_iff env w2 _ w3).mp hlast with
            ⟨h4, -⟩ | ⟨-, -, -, h7⟩
          · cases h4
          · rw [hnone4] at h7
            cases h7
  · intro v v1
    rw [wait_for_bootdev_pass_ok_iff]
    constructor
    · rintro (⟨h, -⟩ | ⟨hp, hr, hf, hres⟩)
      · cases h
      · refine ⟨hp, hr, hf, ?_⟩
        cases hbd : v1.md.bootdev with
        | none => rfl
        | some d => rw [hbd] at hres; cases hres
    · rintro ⟨hp, hr, hf, hnone⟩
      refine Or.inr ⟨hp, hr, hf, ?_⟩
      rw [hnone]; rfl
  · intro v v1
    rw [wait_for_bootdev_pass_ok_iff]
    constructor
    · rintro (⟨h, -⟩ | ⟨hp, hr, hf, hres⟩)
      · cases h
      · refine ⟨hp, hr, hf, ?_⟩
        cases hbd : v1.md.bootdev with
        | none => rw [hbd] at hres; cases hres
        | some d => rfl
    · rintro ⟨hp, hr, hf, hsome⟩
      refine Or.inr ⟨hp, hr, hf, ?_⟩
      rw [if_pos hsome]

/-- When the data partition arrives with the second event, the resolver
returns after two passes of its loop, with the data partition as the boot
device: the lookup at the entry and the one after the first event find nothing,
the one after the second event matches, and the channel is closed. -/
theorem resolver_stops_at_first_match_witness :
    multiboot_main_find_bootdev env_arrival 2 (world_search [dev_cache])
      = .ok true (world_searched [dev_cache, dev_userdata] (some dev_userdata)
        (lookup_calls ["/dev/block/mmcblk0p6"] ++ [Event.socket, Event.bind] ++ rescan_calls
          ++ lookup_calls ["/dev/block/mmcblk0p6"]
          ++ [Event.poll, Event.recv] ++ rescan_calls ++ lookup_calls ["/dev/block/mmcblk0p6"]
          ++ [Event.poll, Event.recv] ++ rescan_calls
          ++ lookup_calls ["/dev/block/mmcblk0p6", "/dev/block/mmcblk0p9"]
          ++ [Event.close_socket])) :=
  (resolver_stops_at_first_match env_arrival 2 (world_search [dev_cache]) _).1.mpr
    ⟨world_searched [dev_cache] none (lookup_calls ["/dev/block/mmcblk0p6"]),
      world_searched [dev_cache] none
        (lookup_calls ["/dev/block/mmcblk0p6"] ++ [Event.socket, Event.bind] ++ rescan_calls
          ++ lookup_calls ["/dev/block/mmcblk0p6"]),
      by decide, by decide, by decide, by decide,
      Or.inr ⟨by decide, 1,
        world_searched [dev_cache] none
          (lookup_calls ["/dev/block/mmcblk0p6"] ++ [Event.socket, Event.bind] ++ rescan_calls
            ++ lookup_calls ["/dev/block/mmcblk0p6"]
            ++ [Event.poll, Event.recv] ++ rescan_calls ++ lookup_calls ["/dev/block/mmcblk0p6"]),
        world_searched [dev_cache, dev_userdata] (some dev_userdata)
          (lookup_calls ["/dev/block/mmcblk0p6"] ++ [Event.socket, Event.bind] ++ rescan_calls
            ++ lookup_calls ["/dev/block/mmcblk0p6"]
            ++ [Event.poll, Event.recv] ++ rescan_calls ++ lookup_calls ["/dev/block/mmcblk0p6"]
            ++ [Event.poll, Event.recv] ++ rescan_calls
            ++ lookup_calls ["/dev/block/mmcblk0p6", "/dev/block/mmcblk0p9"]),
        by decide, by decide, by decide, by decide⟩⟩

/-- C22 fails on the code as the claim has it: with the data partition in the
catalog the initial lookup by GUID matches, and yet the resolver opens the
event channel, rescans and looks the boot device up a second time before it
returns; and when the worker of that second lookup is ended by a signal, the
boot device resolved by the initial lookup is replaced by none. -/
theorem resolver_opens_channel_after_match :
    find_bootdev env_arrival false (world_search [dev_userdata])
      = .ok () (world_searched [dev_userdata] (some dev_userdata)
        (lookup_calls ["/dev/block/mmcblk0p9"])) ∧
    multiboot_main_find_bootdev env_arrival 0 (world_search [dev_userdata])
      = .ok true (world_searched [dev_userdata, dev_cache] (some dev_userdata)
        (lookup_calls ["/dev/block/mmcblk0p9"] ++ [Event.socket, Event.bind] ++ rescan_calls
          ++ lookup_calls ["/dev/block/mmcblk0p9"] ++ [Event.close_socket])) ∧
    find_bootdev env_later_killed false (world_search [dev_userdata])
      = .ok () (world_searched [dev_userdata] (some dev_userdata)
        (lookup_calls ["/dev/block/mmcblk0p9"])) ∧
    (wait_for_bootdev env_later_killed 0 (world_searched [dev_userdata] (some dev_userdata)
        (lookup_calls ["/dev/block/mmcblk0p9"]))).world.md.bootdev = none := by
  refine ⟨by decide, ?_, by decide, by decide⟩
  refine (multiboot_main_find_bootdev_true_iff env_arrival 0 _ _).mpr
    ⟨world_searched [dev_userdata] (some dev_userdata) (lookup_calls ["/dev/block/mmcblk0p9"]),
      by decide, ?_, by decide⟩
  exact (wait_for_bootdev_true_iff env_arrival 0 _ _).mpr
    ⟨by decide, by decide,
      world_searched [dev_userdata, dev_cache] (some dev_userdata)
        (lookup_calls ["/dev/block/mmcblk0p9"] ++ [Event.socket, Event.bind] ++ rescan_calls
          ++ lookup_calls ["/dev/block/mmcblk0p9"]),
      by decide, Or.inl ⟨by decide, by decide⟩⟩

/-! ### C25: the access policy is patched as far as possible -/

theorem util_append_string_to_file_closed (env : Env) (filename str : CStr) (w : World)
    (h : env.rc (w.trace ++ [Event.open_append filename]) < 0) :
    util_append_string_to_file env filename str w
      = .ok (env.rc (w.trace ++ [Event.open_append filename]))
          { w with trace := w.trace ++ [Event.open_append filename] } := by
  unfold util_append_string_to_file
  have hc : call (Event.open_append filename) w
      = .ok (w.trace ++ [Event.open_append filename])
          { w with trace := w.trace ++ [Event.open_append filename] } := rfl
  rw [bind_of_ok _ _ _ _ _ hc]
  dsimp only
  rw [if_pos h]
  rfl

theorem util_append_string_to_file_eq (env : Env) (filename str : CStr) (w : World) :
    ∃ rc, util_append_string_to_file env filename str w
      = .ok rc { w with trace := w.trace ++ append_calls env w.trace filename str } := by
  by_cases h : env.rc (w.trace ++ [Event.open_append filename]) < 0
  · refine ⟨env.rc (w.trace ++ [Event.open_append filename]), ?_⟩
    rw [util_append_string_to_file_closed env filename str w h]
    unfold append_calls
    rw [if_pos h]
  · unfold util_append_string_to_file append_calls
    have hc : call (Event.open_append filename) w
        = .ok (w.trace ++ [Event.open_append filename])
            { w with trace := w.trace ++ [Event.open_append filename] } := rfl
    rw [bind_of_ok _ _ _ _ _ hc]
    dsimp only
    rw [if_neg h, if_neg h]
    refine ⟨if env.rc (w.trace ++ [Event.open_append filename] ++ [Event.write filename str])
        ≠ (str.length : Int)
      then - env.errno (w.trace ++ [Event.open_append filename] ++ [Event.write filename str])
      else 0, ?_⟩
    simp only [bind, Run.bind, call, pure, Run.pure, List.append_assoc, List.singleton_append,
      List.cons_append, List.nil_append]

theorem append_calls_no_policy (env : Env) (before : List Event) (filename str : CStr) :
    ∀ e ∈ append_calls env before filename str, e.is_policy_change = false := by
  intro e he
  unfold append_calls at he
  split at he
  · simp only [List.mem_singleton] at he
    subst he; rfl
  · simp only [List.mem_cons, List.mem_singleton, List.not_mem_nil, or_false] at he
    rcases he with h | h | h <;> subst h <;> rfl

theorem open_append_mem_append_calls (env : Env) (before : List Event) (filename str : CStr) :
    Event.open_append filename ∈ append_calls env before filename str := by
  unfold append_calls
  split <;> simp

@[simp]
theorem total_pure_any {α : Type} (a : α) : Run.total (pure a : Run α) (fun _ => True) :=
  fun w => ⟨a, w, rfl, trivial⟩

@[simp]
theorem total_pure_zero : Run.total (pure 0 : Run Int) (fun rc => rc = 0) :=
  fun w => ⟨0, w, rfl, rfl⟩

theorem total_bind {α β : Type} {Q : β → Prop} {m : Run α} {k : α → Run β}
    (hm : Run.total m (fun _ => True)) (hk : ∀ a, Run.total (k a) Q) :
    Run.total (m >>= k) Q := by
  intro w
  obtain ⟨a, w1, h1, _⟩ := hm w
  rw [bind_of_ok _ _ _ _ _ h1]
  exact hk a w1

@[simp]
theorem total_call (e : Event) : Run.total (call e) (fun _ => True) :=
  fun w => ⟨_, _, rfl, trivial⟩

@[simp]
theorem total_get_data : Run.total get_data (fun _ => True) :=
  fun w => ⟨_, _, rfl, trivial⟩

@[simp]
theorem total_util_append_string_to_file (env : Env) (filename str : CStr) :
    Run.total (util_append_string_to_file env filename str) (fun _ => True) := by
  intro w
  obtain ⟨rc, h⟩ := util_append_string_to_file_eq env filename str w
  exact ⟨_, _, h, trivial⟩

@[simp]
theorem total_sepolicy_add_rules (rules : List (String × String × String × String)) :
    Run.total (sepolicy_add_rules rules) (fun _ => True) := by
  induction rules with
  | nil => exact total_pure_any _
  | cons r rules ih =>
    obtain ⟨s, t, c, p⟩ := r
    unfold sepolicy_add_rules
    exact total_bind (total_call _) (fun _ => ih)

theorem total_selinux_fixup (env : Env) : Run.total (selinux_fixup env) (fun rc => rc = 0) := by
  unfold selinux_fixup
  repeat' first | (simp; done) | refine total_bind ?_ (fun _ => ?_) | split | dsimp only

theorem util_append_string_to_file_calls (env : Env) (filename str : CStr) (w : World) :
    ∃ rc evs, util_append_string_to_file env filename str w
        = .ok rc { w with trace := w.trace ++ evs } ∧
      (∀ e ∈ evs, e.is_policy_change = false) ∧ Event.open_append filename ∈ evs := by
  obtain ⟨rc, h⟩ := util_append_string_to_file_eq env filename str w
  exact ⟨rc, _, h, append_calls_no_policy _ _ _ _, open_append_mem_append_calls _ _ _ _⟩

theorem selinux_fixup_without_policy (env : Env) (w : World) (hr : w.md.is_recovery = false)
    (hh : env.handle (w.trace ++ append_calls env w.trace "/init.rc".toList initrc_coldboot
      ++ [Event.sepolicy_inject_open "/sepolicy".toList]) = false) :
    ∃ t2 t3 t4 : List Event,
      selinux_fixup env w = .ok 0
        { w with
          trace := w.trace ++ append_calls env w.trace "/init.rc".toList initrc_coldboot
            ++ [Event.sepolicy_inject_open "/sepolicy".toList] ++ t2 ++ t3 ++ t4 } ∧
      (∀ e ∈ t2, e.is_policy_change = false) ∧
      (∀ e ∈ t3, e.is_policy_change = false) ∧
      (∀ e ∈ t4, e.is_policy_change = false) ∧
      Event.open_append "/file_contexts".toList ∈ t3 ∧
      Event.open_append "/init.rc".toList ∈ t4 := by
  unfold selinux_fixup
  obtain ⟨rc1, h1⟩ := util_append_string_to_file_eq env "/init.rc".toList initrc_coldboot w
  rw [bind_of_ok _ _ _ _ _ h1]
  generalize ht1 : append_calls env w.trace "/init.rc".toList initrc_coldboot = t1 at hh ⊢
  have hg : get_data { w with trace := w.trace ++ t1 } = .ok w.md { w with trace := w.trace ++ t1 } :=
    rfl
  rw [bind_of_ok _ _ _ _ _ hg]
  have hr1 : ¬ w.md.is_recovery = true := by rw [hr]; decide
  dsimp only
  rw [if_neg hr1]
  have hc : call (Event.sepolicy_inject_open "/sepolicy".toList) { w with trace := w.trace ++ t1 }
      = .ok (w.trace ++ t1 ++ [Event.sepolicy_inject_open "/sepolicy".toList])
          { w with trace := w.trace ++ t1 ++ [Event.sepolicy_inject_open "/sepolicy".toList] } :=
    rfl
  rw [bind_of_ok _ _ _ _ _ hc]
  have hh1 : ¬ env.handle (w.trace ++ t1 ++ [Event.sepolicy_inject_open "/sepolicy".toList])
      = true := by rw [hh]; decide
  rw [if_neg hh1, run_pure_bind]
  generalize w.trace ++ t1 ++ [Event.sepolicy_inject_open "/sepolicy".toList] = tr
  by_cases hm : w.md.is_multiboot = true
  · rw [if_pos hm]
    obtain ⟨rc2, t2, h2, p2, _⟩ := util_append_string_to_file_calls env "/init.rc".toList
      initrc_layout_version { w with trace := tr }
    rw [run_bind_assoc, bind_of_ok _ _ _ _ _ h2, run_pure_bind]
    obtain ⟨rc3, t3, h3, p3, m3⟩ := util_append_string_to_file_calls env "/file_contexts".toList
      file_contexts_text { w with trace := tr ++ t2 }
    rw [bind_of_ok _ _ _ _ _ h3]
    obtain ⟨rc4, t4, h4, p4, m4⟩ := util_append_string_to_file_calls env "/init.rc".toList
      initrc_restorecon { w with trace := tr ++ t2 ++ t3 }
    rw [bind_of_ok _ _ _ _ _ h4]
    exact ⟨t2, t3, t4, rfl, p2, p3, p4, m3, m4⟩
  · rw [if_neg hm, run_pure_bind]
    obtain ⟨rc3, t3, h3, p3, m3⟩ := util_append_string_to_file_calls env "/file_contexts".toList
      file_contexts_text { w with trace := tr }
    rw [bind_of_ok _ _ _ _ _ h3]
    obtain ⟨rc4, t4, h4, p4, m4⟩ := util_append_string_to_file_calls env "/init.rc".toList
      initrc_restorecon { w with trace := tr ++ t3 }
    rw [bind_of_ok _ _ _ _ _ h4]
    refine ⟨[], t3, t4, ?_, by simp, p3, p4, m3, m4⟩
    rw [List.append_nil]
    rfl

/-- C25: `selinux_fixup` returns 0 from every world, whatever the surroundings
answer: it never aborts. In a platform boot in which the policy file /sepolicy
cannot be opened, no call after that attempt adds a rule or writes a policy,
and the appends to /file_contexts and to /init.rc are attempted after it, in
this order (the first append to /init.rc came before it).
`util_append_string_to_file` on a file that cannot be opened returns the
negative value of `open` and makes no other call: nothing is written, and the
file is not created, since it is opened without `O_CREAT`. -/
theorem policy_patching_best_effort (env : Env) (w : World) :
    (∃ w1, selinux_fixup env w = .ok 0 w1) ∧
    (w.md.is_recovery = false →
      env.handle (w.trace ++ append_calls env w.trace "/init.rc".toList initrc_coldboot
        ++ [Event.sepolicy_inject_open "/sepolicy".toList]) = false →
      ∃ evs : List Event,
        selinux_fixup env w = .ok 0
          { w with
            trace := w.trace ++ append_calls env w.trace "/init.rc".toList initrc_coldboot
              ++ [Event.sepolicy_inject_open "/sepolicy".toList] ++ evs } ∧
        (∀ e ∈ evs, e.is_policy_change = false) ∧
        List.Sublist [Event.open_append "/file_contexts".toList,
          Event.open_append "/init.rc".toList] evs) ∧
    (∀ filename str : CStr, env.rc (w.trace ++ [Event.open_append filename]) < 0 →
      util_append_string_to_file env filename str w
        = .ok (env.rc (w.trace ++ [Event.open_append filename]))
            { w with trace := w.trace ++ [Event.open_append filename] }) := by
  refine ⟨?_, ?_, ?_⟩
  · obtain ⟨rc, w1, h, hrc⟩ := total_selinux_fixup env w
    subst hrc
    exact ⟨w1, h⟩
  · intro hr hh
    obtain ⟨t2, t3, t4, h, p2, p3, p4, m3, m4⟩ := selinux_fixup_without_policy env w hr hh
    refine ⟨t2 ++ t3 ++ t4, ?_, ?_, ?_⟩
    · rw [h]
      simp only [List.append_assoc]
    · intro e he
      rcases List.mem_append.mp he with h1 | h1
      · rcases List.mem_append.mp h1 with h2 | h2
        · exact p2 e h2
        · exact p3 e h2
      · exact p4 e h1
    · have s3 : List.Sublist [Event.open_append "/file_contexts".toList] t3 :=
        List.singleton_sublist.mpr m3
      have s4 : List.Sublist [Event.open_append "/init.rc".toList] t4 :=
        List.singleton_sublist.mpr m4
      have s34 := List.Sublist.append s3 s4
      have s2 : List.Sublist (t3 ++ t4) (t2 ++ (t3 ++ t4)) := List.sublist_append_right _ _
      rw [List.append_assoc]
      exact List.Sublist.trans s34 s2
  · intro filename str h
    exact util_append_string_to_file_closed env filename str w h

/-- C25 in a platform boot where neither /init.rc, /sepolicy nor /file_contexts
can be opened: `selinux_fixup` returns 0 after these four attempts. -/
theorem policy_patching_best_effort_witness :
    selinux_fixup env_closed world_android = .ok 0
      { world_android with
        trace := [Event.open_append "/init.rc".toList,
          Event.sepolicy_inject_open "/sepolicy".toList,
          Event.open_append "/file_contexts".toList,
          Event.open_append "/init.rc".toList] } ∧
    ∃ w1, selinux_fixup env_closed world_android = .ok 0 w1 :=
  ⟨by decide, (policy_patching_best_effort env_closed world_android).1⟩

/-! ### C26: the allow-list of filesystems for BIND -/

/-- C26: `util_fs_supports_multiboot_bind(type)` is 1 exactly when `type` is one
of the strings "ext2", "ext3", "ext4", "f2fs", compared character by character,
and 0 for every other string; it is 0 for the empty string, for "vfat" and for
"EXT4". -/
theorem bind_allow_list (type : CStr) :
    (util_fs_supports_multiboot_bind type = 1 ↔
      (type = "ext2".toList ∨ type = "ext3".toList ∨ type = "ext4".toList ∨
        type = "f2fs".toList)) ∧
    (util_fs_supports_multiboot_bind type = 0 ↔
      ¬ (type = "ext2".toList ∨ type = "ext3".toList ∨ type = "ext4".toList ∨
        type = "f2fs".toList)) ∧
    util_fs_supports_multiboot_bind [] = 0 ∧
    util_fs_supports_multiboot_bind "vfat".toList = 0 ∧
    util_fs_supports_multiboot_bind "EXT4".toList = 0 ∧
    util_fs_supports_multiboot_bind "ext4 ".toList = 0 ∧
    util_fs_supports_multiboot_bind "f2fs".toList = 1 := by
  have hmem : type ∈ multiboot_bind_whitelist ↔
      (type = "ext2".toList ∨ type = "ext3".toList ∨ type = "ext4".toList ∨
        type = "f2fs".toList) := by
    unfold multiboot_bind_whitelist
    simp only [List.mem_cons, List.mem_singleton, List.not_mem_nil, or_false]
  refine ⟨?_, ?_, by decide, by decide, by decide, by decide, by decide⟩
  · rw [util_fs_supports_multiboot_bind_eq, ← hmem]
    by_cases h : type ∈ multiboot_bind_whitelist
    · simp [h]
    · simp [h]
  · rw [util_fs_supports_multiboot_bind_eq, ← hmem]
    by_cases h : type ∈ multiboot_bind_whitelist
    · simp [h]
    · simp [h]

/-! ### C27: a partition configured for a UEFI record is a LOOP partition -/

theorem multiboot_main_verify_uefi_iff (recs : List fstab_rec) (w : World) :
    (multiboot_main_verify_uefi recs w).aborted = false ↔
      ∀ rec ∈ recs, fs_mgr_is_uefi rec = true → rec.fs_type = "emmc".toList := by
  induction recs with
  | nil =>
    simp only [List.not_mem_nil, false_implies, implies_true, iff_true]
    rfl
  | cons rec recs ih =>
    unfold multiboot_main_verify_uefi
    by_cases hu : fs_mgr_is_uefi rec = false
    · rw [if_pos hu, ih]
      constructor
      · intro h r hr hru
        rcases List.mem_cons.mp hr with h1 | h1
        · subst h1; rw [hu] at hru; exact absurd hru (by decide)
        · exact h r h1 hru
      · intro h r hr hru
        exact h r (List.mem_cons_of_mem _ hr) hru
    · rw [if_neg hu]
      have hu1 : fs_mgr_is_uefi rec = true := by
        cases hb : fs_mgr_is_uefi rec
        · exact absurd hb hu
        · rfl
      by_cases ht : rec.fs_type ≠ "emmc".toList
      · have ha : abort_if (rec.fs_type ≠ "emmc".toList) "UEFI partition is not of type emmc" w
            = .abort "UEFI partition is not of type emmc" w := by
          unfold abort_if; rw [if_pos ht]
        rw [bind_of_abort _ _ _ _ _ ha]
        constructor
        · intro h; simp [Res.aborted] at h
        · intro h
          exact absurd (h rec (List.mem_cons_self _ _) hu1) ht
      · have ha : abort_if (rec.fs_type ≠ "emmc".toList) "UEFI partition is not of type emmc" w
            = .ok () w := by
          unfold abort_if; rw [if_neg ht]
        rw [bind_of_ok _ _ _ _ _ ha, ih]
        constructor
        · intro h r hr hru
          rcases List.mem_cons.mp hr with h1 | h1
          · subst h1; exact not_not.mp ht
          · exact h r h1 hru
        · intro h r hr hru
          exact h r (List.mem_cons_of_mem _ hr) hru

theorem fs_mgr_get_by_name_mem (fstab : List fstab_rec) (name : CStr) (rec : fstab_rec)
    (h : fs_mgr_get_by_name fstab name = some rec) : rec ∈ fstab := by
  unfold fs_mgr_get_by_name at h
  exact List.mem_of_find?_eq_some h

/-- What the checks against the fstab leave of a partition whose record is
tagged UEFI and has the type "emmc". -/
theorem accepted_part_uefi (env : Env) (mbfstab : List fstab_rec)
    (blockinfo : List uevent_block_t) (bindmount : Bool) (p : multiboot_partition_t)
    (rec : fstab_rec) (hacc : accepted_part env mbfstab blockinfo bindmount p)
    (hrec : fs_mgr_get_by_name mbfstab p.name = some rec)
    (hu : fs_mgr_is_uefi rec = true) (hfs : rec.fs_type = "emmc".toList) :
    p.type = MBPART_TYPE_LOOP ∧ fs_mgr_is_multiboot rec = true := by
  obtain ⟨_, _, ff, ub, hok, _, _⟩ := hacc
  unfold mbini_fstab_step at hok
  rw [hrec] at hok
  dsimp only at hok
  by_cases h1 : fs_mgr_is_uefi rec = true ∧ fs_mgr_is_multiboot rec = false
  · rw [if_pos h1] at hok; cases hok
  · rw [if_neg h1] at hok
    by_cases h2 : p.type = MBPART_TYPE_BIND ∧ rec.fs_type = "emmc".toList
    · rw [if_pos h2] at hok; cases hok
    · constructor
      · cases ht : p.type with
        | MBPART_TYPE_BIND => exact absurd ⟨ht, hfs⟩ h2
        | MBPART_TYPE_LOOP => rfl
      · cases hm : fs_mgr_is_multiboot rec with
        | false => exact absurd ⟨hu, hm⟩ h1
        | true => rfl

theorem configured_parts_loaded (md : multiboot_data_t) (ps : List multiboot_partition_t)
    (h1 : md.mbparts = ps.map some) (h2 : md.num_mbparts = ps.length) :
    configured_parts md = ps := by
  unfold configured_parts
  rw [h1, h2]
  have : (List.map some ps).take ps.length = List.map some ps := by
    apply List.take_of_length_le
    simp
  rw [this]
  induction ps with
  | nil => rfl
  | cons p ps ih => simp

/-- C27: in a world whose multiboot fstab passes the check of lines 1041-1052
(every record tagged UEFI has the filesystem type "emmc"), an entry of section
"partitions" whose name has an fstab record tagged UEFI and which
`mbini_handler` lets pass is stored as a LOOP partition, and the record is
tagged multiboot as well; so after a load of the configuration that returned, no
configured partition whose record is tagged UEFI is a BIND partition. -/
theorem uefi_record_takes_loop (env : Env) (w : World)
    (hcheck : (multiboot_main_verify_uefi w.md.mbfstab w).aborted = false) :
    (∀ (e : ini_entry) (index j : Nat) (w1 : World) (name : CStr) (rec : fstab_rec),
      e.sec = "partitions".toList → e.name = some name →
      fs_mgr_get_by_name w.md.mbfstab name = some rec → fs_mgr_is_uefi rec = true →
      mbini_handler env e index w = .ok j w1 →
      ∃ p : multiboot_partition_t,
        w1 = { w with md := { w.md with mbparts := w.md.mbparts.set index (some p) } } ∧
        p.name = name ∧ e.value = some p.path ∧
        p.type = MBPART_TYPE_LOOP ∧ fs_mgr_is_multiboot rec = true) ∧
    (∀ (volume_filesystem : Option CStr) (pass1 pass2 : ini_file) (w1 : World),
      w.md.num_mbparts < 2 ^ 32 →
      multiboot_main_load_config env volume_filesystem pass1 pass2 w = .ok () w1 →
      ∀ p ∈ configured_parts w1.md, ∀ rec : fstab_rec,
        fs_mgr_get_by_name w1.md.mbfstab p.name = some rec → fs_mgr_is_uefi rec = true →
        p.type = MBPART_TYPE_LOOP ∧ fs_mgr_is_multiboot rec = true) := by
  have hemmc := (multiboot_main_verify_uefi_iff _ _).mp hcheck
  constructor
  · intro e index j w1 name rec hsec hname hrec hu h
    rcases mbini_handler_ok env e index w j w1 h with ⟨hs, _⟩ | ⟨_, _, _, p, hn, hv, hacc, hw⟩
    · exact absurd hsec hs
    · have hpn : p.name = name := by
        rw [hname] at hn
        simp only [Option.some.injEq] at hn
        exact hn.symm
      rw [← hpn] at hrec
      have := accepted_part_uefi env _ _ _ p rec hacc hrec hu
        (hemmc rec (fs_mgr_get_by_name_mem _ _ _ hrec) hu)
      exact ⟨p, hw, hpn, hv, this.1, this.2⟩
  · intro vf pass1 pass2 w1 hn h p hp rec hrec hu
    obtain ⟨fs, ps, _, _, _, hacc, _, hnum, hparts, hstep⟩ :=
      multiboot_main_load_config_ok env vf pass1 pass2 w w1 hn h
    have hfstab : w1.md.mbfstab = w.md.mbfstab := by
      obtain ⟨f, n, s, rfl⟩ := hstep
      rfl
    have hblock : w1.md.blockinfo = w.md.blockinfo := by
      obtain ⟨f, n, s, rfl⟩ := hstep
      rfl
    rw [configured_parts_loaded _ ps hparts hnum] at hp
    rw [hfstab] at hrec
    exact accepted_part_uefi env _ _ _ p rec (hacc p hp) hrec hu
      (hemmc rec (fs_mgr_get_by_name_mem _ _ _ hrec) hu)

/-- C27 at the entry `modem=modem.img`, with the record of /modem tagged UEFI
and multiboot: the check of the fstab passes, the entry passes, and the
partition stored is a LOOP partition. -/
theorem uefi_record_takes_loop_witness :
    (multiboot_main_verify_uefi [rec_modem_multiboot]
      (world_counted [dev_modem] [rec_modem_multiboot] 1)).aborted = false ∧
    mbini_handler env_ok (partition_entry "modem" "modem.img") 0
        (world_counted [dev_modem] [rec_modem_multiboot] 1) = .ok 1 world_modem_loaded ∧
    ∃ p : multiboot_partition_t, world_modem_loaded.md.mbparts = [some p] ∧
      p.name = "modem".toList ∧ p.type = MBPART_TYPE_LOOP :=
  ⟨by decide, by decide,
    let ⟨p, hw, hn, _, ht, _⟩ :=
      (uefi_record_takes_loop env_ok (world_counted [dev_modem] [rec_modem_multiboot] 1)
        (by decide)).1 (partition_entry "modem" "modem.img") 0 1 world_modem_loaded
        "modem".toList rec_modem_multiboot rfl rfl (by decide) (by decide) (by decide)
    ⟨p, by rw [hw]; rfl, hn, ht⟩⟩

/-! ### C28: every fstab record tagged multiboot needs a configured partition -/

theorem multiboot_part_by_name_isSome (md : multiboot_data_t) (name : CStr) :
    (multiboot_part_by_name md name).isSome = true ↔
      ∃ p ∈ configured_parts md, p.name = name := by
  unfold multiboot_part_by_name configured_parts
  generalize md.mbparts.take md.num_mbparts = slots
  induction slots with
  | nil => simp
  | cons slot slots ih =>
    cases slot with
    | none =>
      have hn : ¬ (mbpart_name (none : Option multiboot_partition_t) = some name) := by
        simp [mbpart_name]
      simp only [List.find?_cons, hn, decide_False, List.filterMap_cons, id_eq]
      exact ih
    | some p =>
      by_cases hp : p.name = name
      · have h1 : mbpart_name (some p) = some name := by simp [mbpart_name, hp]
        simp only [List.find?_cons, h1, decide_True, List.filterMap_cons, id_eq,
          Option.join, Option.bind, Option.isSome_some, true_iff]
        exact ⟨p, List.mem_cons_self _ _, hp⟩
      · have h1 : ¬ (mbpart_name (some p) = some name) := by simp [mbpart_name, hp]
        simp only [List.find?_cons, h1, decide_False, List.filterMap_cons, id_eq]
        rw [ih]
        constructor
        · rintro ⟨q, hq, hqn⟩
          exact ⟨q, List.mem_cons_of_mem _ hq, hqn⟩
        · rintro ⟨q, hq, hqn⟩
          rcases List.mem_cons.mp hq with h | h
          · subst h; exact absurd hqn hp
          · exact ⟨q, h, hqn⟩

theorem multiboot_part_by_name_name (md : multiboot_data_t) (name : CStr)
    (p : multiboot_partition_t) (h : multiboot_part_by_name md name = some p) :
    p ∈ configured_parts md ∧ p.name = name := by
  unfold multiboot_part_by_name at h
  unfold configured_parts
  generalize md.mbparts.take md.num_mbparts = slots at h ⊢
  induction slots with
  | nil => simp at h
  | cons slot slots ih =>
    cases slot with
    | none =>
      have hn : ¬ (mbpart_name (none : Option multiboot_partition_t) = some name) := by
        simp [mbpart_name]
      simp only [List.find?_cons, hn, decide_False] at h
      simp only [List.filterMap_cons, id_eq]
      exact ih h
    | some q =>
      by_cases hp : q.name = name
      · have h1 : mbpart_name (some q) = some name := by simp [mbpart_name, hp]
        simp only [List.find?_cons, h1, decide_True, Option.join, Option.bind] at h
        have hqp : q = p := by simpa using h
        subst hqp
        simp only [List.filterMap_cons, id_eq]
        exact ⟨List.mem_cons_self _ _, hp⟩
      · have h1 : ¬ (mbpart_name (some q) = some name) := by simp [mbpart_name, hp]
        simp only [List.find?_cons, h1, decide_False] at h
        simp only [List.filterMap_cons, id_eq]
        exact ⟨List.mem_cons_of_mem _ (ih h).1, (ih h).2⟩

theorem multiboot_main_verify_mbfstab_iff (recs : List fstab_rec) (w : World) :
    multiboot_main_verify_mbfstab recs w = .ok () w ↔
      ∀ rec ∈ recs, fs_mgr_is_multiboot rec = true →
        ∃ p ∈ configured_parts w.md, p.name = rec.mount_point.drop 1 := by
  induction recs with
  | nil =>
    simp only [List.not_mem_nil, false_implies, implies_true, iff_true]
    rfl
  | cons rec recs ih =>
    unfold multiboot_main_verify_mbfstab
    by_cases hm : fs_mgr_is_multiboot rec = false
    · rw [if_pos hm, ih]
      constructor
      · intro h r hr hrm
        rcases List.mem_cons.mp hr with h1 | h1
        · subst h1; rw [hm] at hrm; exact absurd hrm (by decide)
        · exact h r h1 hrm
      · intro h r hr hrm
        exact h r (List.mem_cons_of_mem _ hr) hrm
    · rw [if_neg hm]
      have hm1 : fs_mgr_is_multiboot rec = true := by
        cases hb : fs_mgr_is_multiboot rec
        · exact absurd hb hm
        · rfl
      cases hp : multiboot_part_by_name w.md (rec.mount_point.drop 1) with
      | none =>
        dsimp only
        constructor
        · intro h; simp at h
        · intro h
          have := (multiboot_part_by_name_isSome w.md (rec.mount_point.drop 1)).mpr
            (h rec (List.mem_cons_self _ _) hm1)
          rw [hp] at this
          exact absurd this (by decide)
      | some p =>
        dsimp only
        rw [ih]
        constructor
        · intro h r hr hrm
          rcases List.mem_cons.mp hr with h1 | h1
          · subst h1
            exact ⟨p, multiboot_part_by_name_name _ _ _ hp⟩
          · exact h r h1 hrm
        · intro h r hr hrm
          exact h r (List.mem_cons_of_mem _ hr) hrm

theorem multiboot_main_verify_mbfstab_cases (recs : List fstab_rec) (w : World) :
    multiboot_main_verify_mbfstab recs w = .ok () w ∨
    multiboot_main_verify_mbfstab recs w = .abort "Can't find multiboot partition" w := by
  induction recs with
  | nil => exact Or.inl rfl
  | cons rec recs ih =>
    unfold multiboot_main_verify_mbfstab
    split
    · exact ih
    · split
      · exact Or.inr rfl
      · exact ih

/-- C28: the check of lines 1186-1197, run on the fstab records `recs` in the
world the loading of the configuration left, returns (leaving the world as it
is) exactly when every record tagged multiboot has a configured partition whose
name is the record's mount point without its first character, the leading
slash; otherwise it aborts with "Can't find multiboot partition". The partition
is found by `multiboot_part_by_name`, which compares whole strings. Without a
configured partition and with a record tagged multiboot the check aborts; and a
load of the configuration that returns has passed the check on the multiboot
fstab. -/
theorem multiboot_records_need_partition (recs : List fstab_rec) (w : World) :
    (multiboot_main_verify_mbfstab recs w = .ok () w ↔
      ∀ rec ∈ recs, fs_mgr_is_multiboot rec = true →
        ∃ p ∈ configured_parts w.md, p.name = rec.mount_point.drop 1) ∧
    (multiboot_main_verify_mbfstab recs w = .abort "Can't find multiboot partition" w ↔
      ∃ rec ∈ recs, fs_mgr_is_multiboot rec = true ∧
        ∀ p ∈ configured_parts w.md, p.name ≠ rec.mount_point.drop 1) ∧
    (∀ name : CStr, (∃ p, multiboot_part_by_name w.md name = some p) ↔
      ∃ p ∈ configured_parts w.md, p.name = name) ∧
    (configured_parts w.md = [] → (∃ rec ∈ recs, fs_mgr_is_multiboot rec = true) →
      multiboot_main_verify_mbfstab recs w = .abort "Can't find multiboot partition" w) ∧
    (∀ (env : Env) (volume_filesystem : Option CStr) (pass1 pass2 : ini_file) (w1 : World),
      multiboot_main_load_config env volume_filesystem pass1 pass2 w = .ok () w1 →
      ∀ rec ∈ w1.md.mbfstab, fs_mgr_is_multiboot rec = true →
        ∃ p ∈ configured_parts w1.md, p.name = rec.mount_point.drop 1) := by
  have hiff := multiboot_main_verify_mbfstab_iff recs w
  have hab : multiboot_main_verify_mbfstab recs w = .abort "Can't find multiboot partition" w ↔
      ∃ rec ∈ recs, fs_mgr_is_multiboot rec = true ∧
        ∀ p ∈ configured_parts w.md, p.name ≠ rec.mount_point.drop 1 := by
    constructor
    · intro h
      by_contra hne
      have : multiboot_main_verify_mbfstab recs w = .ok () w := by
        rw [hiff]
        intro rec hrec hm
        by_contra hno
        exact hne ⟨rec, hrec, hm, fun p hp hpn => hno ⟨p, hp, hpn⟩⟩
      rw [this] at h
      simp at h
    · rintro ⟨rec, hrec, hm, hno⟩
      rcases multiboot_main_verify_mbfstab_cases recs w with h | h
      · obtain ⟨p, hp, hpn⟩ := hiff.mp h rec hrec hm
        exact absurd hpn (hno p hp)
      · exact h
  refine ⟨hiff, hab, ?_, ?_, ?_⟩
  · intro name
    rw [← multiboot_part_by_name_isSome, Option.isSome_iff_exists]
  · rintro hnil ⟨rec, hrec, hm⟩
    refine hab.mpr ⟨rec, hrec, hm, ?_⟩
    intro p hp
    rw [hnil] at hp
    simp at hp
  · intro env vf pass1 pass2 w1 h
    unfold multiboot_main_load_config at h
    obtain ⟨_, wa, _, h⟩ := bind_ok_inv _ _ _ _ _ h
    obtain ⟨_, wb, _, h⟩ := bind_ok_inv _ _ _ _ _ h
    have hg : get_data wb = .ok wb.md wb := rfl
    rw [bind_of_ok _ _ _ _ _ hg] at h
    have hw := multiboot_main_verify_mbfstab_ok _ _ _ h
    subst hw
    exact (multiboot_main_verify_mbfstab_iff _ _).mp h

/-! ### C29: the data-media mapping -/

theorem adds_of_calls_only {allowed allowed1 : Event → Bool} {α : Type} {m : Run α}
    (hm : ∀ e, allowed e = true → allowed1 e = true)
    (h : Run.keeps (calls_only allowed) m) : Run.keeps (adds_calls allowed1) m := by
  intro w
  obtain ⟨-, -, evs, h3, h4⟩ := h w
  exact ⟨evs, h3, fun e he => hm e (h4 e he)⟩

theorem adds_call {allowed : Event → Bool} (e : Event) (h : allowed e = true) :
    Run.keeps (adds_calls allowed) (call e) := by
  intro w
  refine ⟨[e], rfl, ?_⟩
  intro x hx
  rw [List.mem_singleton.mp hx]
  exact h

theorem adds_modify_data {allowed : Event → Bool} (f : multiboot_data_t → multiboot_data_t) :
    Run.keeps (adds_calls allowed) (modify_data f) :=
  fun w => ⟨[], by simp [modify_data, Res.world], by simp⟩

theorem dir_ensure_dir (env : Env) (dir : CStr) (follow : Bool) (msg : String) :
    Run.keeps (calls_only Event.is_dir_probe) (ensure_dir env dir follow msg) := by
  unfold ensure_dir
  repeat' first
    | exact dir_util_exists _ _ _ | exact dir_util_mkdir _ _
    | (simp; done) | refine keeps_bind ?_ (fun _ => ?_) | split | dsimp only

theorem no_write_of_dir_probe (e : Event) (h : e.is_dir_probe = true) :
    (!e.is_layout_write) = true := by
  cases e <;> first | rfl | cases h

/-! #### The messages of the aborts -/

theorem aborts_other_pure {α : Type} (msg : String) (a : α) :
    Run.aborts_other msg (pure a : Run α) := by
  intro w msg1 w1 h
  cases h

theorem aborts_other_bind {α β : Type} {msg : String} {m : Run α} {k : α → Run β}
    (hm : Run.aborts_other msg m) (hk : ∀ a, Run.aborts_other msg (k a)) :
    Run.aborts_other msg (m >>= k) := by
  intro w msg1 w1 h
  cases hmw : m w with
  | ok a w2 =>
    rw [bind_of_ok _ _ _ _ _ hmw] at h
    exact hk a w2 msg1 w1 h
  | abort msg2 w2 =>
    rw [bind_of_abort _ _ _ _ _ hmw] at h
    have h2 := hm w msg2 w2 hmw
    cases h
    exact h2

theorem aborts_other_call (msg : String) (e : Event) : Run.aborts_other msg (call e) := by
  intro w msg1 w1 h
  cases h

theorem aborts_other_modify_data (msg : String) (f : multiboot_data_t → multiboot_data_t) :
    Run.aborts_other msg (modify_data f) := by
  intro w msg1 w1 h
  cases h

theorem aborts_other_abort_if (msg : String) (c : Prop) [Decidable c] (msg1 : String)
    (h : msg1 ≠ msg) : Run.aborts_other msg (abort_if c msg1) := by
  intro w msg2 w1 h2
  unfold abort_if at h2
  split at h2
  · cases h2; exact h
  · cases h2

theorem aborts_other_util_exists (msg : String) (env : Env) (filename : CStr) (follow : Bool) :
    Run.aborts_other msg (util_exists env filename follow) := by
  intro w msg1 w1 h
  cases h

theorem aborts_other_util_mkdir_loop (msg : String) (env : Env) (ps : List CStr) :
    Run.aborts_other msg (util_mkdir_loop env ps) := by
  induction ps with
  | nil => exact aborts_other_pure _ _
  | cons p ps ih =>
    unfold util_mkdir_loop
    refine aborts_other_bind (aborts_other_util_exists _ _ _ _) (fun ex => ?_)
    split
    · exact ih
    · refine aborts_other_bind (aborts_other_call _ _) (fun h => ?_)
      split
      · exact aborts_other_pure _ _
      · exact ih

theorem aborts_other_util_mkdir (msg : String) (env : Env) (dir : CStr) :
    Run.aborts_other msg (util_mkdir env dir) := by
  unfold util_mkdir
  split
  · exact aborts_other_pure _ _
  · refine aborts_other_bind (aborts_other_util_mkdir_loop _ _ _) (fun rc => ?_)
    split
    · exact aborts_other_pure _ _
    · refine aborts_other_bind (aborts_other_util_exists _ _ _ _) (fun ex => ?_)
      split
      · exact aborts_other_pure _ _
      · exact aborts_other_bind (aborts_other_call _ _) (fun h => aborts_other_pure _ _)

theorem aborts_other_ensure_dir (msg : String) (env : Env) (dir : CStr) (follow : Bool)
    (msg1 : String) (h : msg1 ≠ msg) :
    Run.aborts_other msg (ensure_dir env dir follow msg1) := by
  unfold ensure_dir
  refine aborts_other_bind (aborts_other_util_exists _ _ _ _) (fun ex => ?_)
  split
  · exact aborts_other_pure _ _
  · exact aborts_other_bind (aborts_other_util_mkdir _ _ _)
      (fun rc => aborts_other_abort_if _ _ _ h)

theorem aborts_other_SAFE_UMOUNT (msg : String) (env : Env) (target : CStr)
    (h : "can't unmount" ≠ msg) : Run.aborts_other msg (SAFE_UMOUNT env target) := by
  unfold SAFE_UMOUNT
  exact aborts_other_bind (aborts_other_call _ _) (fun _ => aborts_other_abort_if _ _ _ h)

/-- What follows the verification of the mapping never aborts with the message
of the verification. -/
theorem aborts_other_store_datamedia_mapping (env : Env) (part : multiboot_partition_t)
    (buf : CStr) (needed layout_version : Nat) (s t : CStr) :
    Run.aborts_other "datamedia_source=%s datamedia_target=%s"
      (store_datamedia_mapping env part buf needed layout_version s t) := by
  unfold store_datamedia_mapping
  refine aborts_other_bind ?_ (fun _ => ?_)
  · split
    · exact aborts_other_bind (aborts_other_call _ _)
        (fun _ => aborts_other_abort_if _ _ _ (by decide))
    · exact aborts_other_pure _ _
  refine aborts_other_bind (aborts_other_ensure_dir _ _ _ _ _ (by decide)) (fun _ => ?_)
  dsimp only
  split
  · exact aborts_other_pure _ _
  refine aborts_other_bind (aborts_other_ensure_dir _ _ _ _ _ (by decide)) (fun _ => ?_)
  refine aborts_other_bind (aborts_other_modify_data _ _) (fun _ => ?_)
  split
  · exact aborts_other_SAFE_UMOUNT _ _ _ (by decide)
  · exact aborts_other_pure _ _

/-- What follows the verification of the mapping stores the mapping when it
returns and the target directory fits the buffer. -/
theorem store_datamedia_mapping_ok (env : Env) (part : multiboot_partition_t)
    (buf : CStr) (needed layout_version : Nat) (s t : CStr) (w wf : World)
    (hfit : (env.MBPATH_MB_DATA ++ t).length < env.PATH_MAX)
    (h : store_datamedia_mapping env part buf needed layout_version s t w = .ok () wf) :
    wf.md = { w.md with datamedia_target := some t, datamedia_source := some s } := by
  unfold store_datamedia_mapping at h
  obtain ⟨u1, w1, h1, h2⟩ := bind_ok_inv _ _ _ _ _ h
  clear h
  have e1 : w1.md = w.md := by
    have hk : Run.keeps same_md (if needed > 0 ∧ layout_version ≠ needed then do
        let hw ← call (.util_write_int buf needed)
        abort_if (env.rc hw ≠ 0) "can't set layout version"
      else pure () : Run Unit) := by
      split
      · exact keeps_bind (keeps_call _) (fun _ => keeps_abort_if _ _)
      · exact keeps_pure _
    have := hk w
    rw [h1] at this
    exact this
  obtain ⟨u2, w2, h3, h4⟩ := bind_ok_inv _ _ _ _ _ h2
  clear h2
  have e2 : w2.md = w1.md := by
    have := (keeps_ensure_dir env s false "Can't create datamedia on source" :
      Run.keeps same_md _) w1
    rw [h3] at this
    exact this
  dsimp only at h4
  rw [if_neg (not_le.mpr hfit)] at h4
  obtain ⟨u3, w3, h5, h6⟩ := bind_ok_inv _ _ _ _ _ h4
  clear h4
  have e3 : w3.md = w2.md := by
    have := (keeps_ensure_dir env (env.MBPATH_MB_DATA ++ t) false
      "Can't create datamedia on target" : Run.keeps same_md _) w2
    rw [h5] at this
    exact this
  rw [modify_data_bind] at h6
  have e4 : wf.md = { w3.md with datamedia_target := some t, datamedia_source := some s } := by
    split at h6
    · have := (keeps_SAFE_UMOUNT env env.MBPATH_MB_DATA : Run.keeps same_md _)
        { w3 with md := { w3.md with datamedia_target := some t, datamedia_source := some s } }
      rw [h6] at this
      exact this
    · exact ((Res.ok.inj h6).2).symm ▸ rfl
  rw [e4, e3, e2, e1]

/-- The calls of what follows the verification of the mapping: the layout
version is written exactly when the required one is above 0 and differs from
the stored one, and nothing else is written with `util_write_int`. -/
theorem store_datamedia_mapping_calls (env : Env) (part : multiboot_partition_t)
    (buf : CStr) (needed layout_version : Nat) (s t : CStr) (w : World) :
    ∃ evs : List Event,
      (store_datamedia_mapping env part buf needed layout_version s t w).world.trace
        = w.trace ++ evs ∧
      (∀ e ∈ evs, e.is_layout_write = true → e = Event.util_write_int buf needed) ∧
      (Event.util_write_int buf needed ∈ evs ↔ (needed > 0 ∧ layout_version ≠ needed)) := by
  have hrest : Run.keeps (adds_calls (fun e => !e.is_layout_write)) (do
      ensure_dir env s false "Can't create datamedia on source"
      let buf2 := env.MBPATH_MB_DATA ++ t
      if buf2.length ≥ env.PATH_MAX then pure ()
      else do
        ensure_dir env buf2 false "Can't create datamedia on target"
        modify_data (fun md => { md with
          datamedia_target := some t,
          datamedia_source := some s })
        if part.type = MBPART_TYPE_LOOP then SAFE_UMOUNT env env.MBPATH_MB_DATA
        else pure () : Run Unit) := by
    refine keeps_bind (adds_of_calls_only no_write_of_dir_probe (dir_ensure_dir _ _ _ _))
      (fun _ => ?_)
    dsimp only
    split
    · exact keeps_pure _
    refine keeps_bind (adds_of_calls_only no_write_of_dir_probe (dir_ensure_dir _ _ _ _))
      (fun _ => ?_)
    refine keeps_bind (adds_modify_data _) (fun _ => ?_)
    split
    · unfold SAFE_UMOUNT
      exact keeps_bind (adds_call _ rfl) (fun _ => keeps_abort_if _ _)
    · exact keeps_pure _
  have hnot : ∀ evs : List Event, (∀ e ∈ evs, (!e.is_layout_write) = true) →
      Event.util_write_int buf needed ∉ evs := by
    intro evs h hmem
    have := h _ hmem
    cases this
  unfold store_datamedia_mapping
  by_cases hc : needed > 0 ∧ layout_version ≠ needed
  · rw [if_pos hc, run_bind_assoc, call_bind]
    by_cases hrc : env.rc (w.trace ++ [Event.util_write_int buf needed]) ≠ 0
    · rw [abort_if_bind_pos _ _ _ _ hrc]
      refine ⟨[Event.util_write_int buf needed], rfl, ?_, ?_⟩
      · intro e he _
        exact List.mem_singleton.mp he
      · exact ⟨fun _ => hc, fun _ => List.mem_singleton.mpr rfl⟩
    · rw [abort_if_bind_neg _ _ _ _ hrc]
      obtain ⟨evs, h1, h2⟩ := hrest
        { w with trace := w.trace ++ [Event.util_write_int buf needed] }
      refine ⟨Event.util_write_int buf needed :: evs, ?_, ?_, ?_⟩
      · rw [h1]
        simp
      · intro e he hw
        rcases List.mem_cons.mp he with h | h
        · exact h
        · have hn : (!e.is_layout_write) = true := h2 e h
          rw [hw] at hn
          cases hn
      · exact ⟨fun _ => hc, fun _ => List.mem_cons_self _ _⟩
  · rw [if_neg hc, run_pure_bind]
    obtain ⟨evs, h1, h2⟩ := hrest w
    refine ⟨evs, h1, ?_, ?_⟩
    · intro e he hw
      have hn : (!e.is_layout_write) = true := h2 e he
      rw [hw] at hn
      cases hn
    · exact ⟨fun hmem => absurd hmem (hnot evs h2), fun h => absurd h hc⟩

/-- The function from the verification of the mapping on, once the SDK version
is read, the data replacement is found and mounted and the path of the
layout-version file fits the buffer. -/
theorem prepare_multiboot_data_eq (env : Env) (w wa wb : World) (sdk : Nat)
    (replacement : part_replacement_t) (part : multiboot_partition_t) (datapath : CStr)
    (hsdk : get_mb_sdk_version env w = .ok sdk wa)
    (hrep : env.util_get_replacement_by_name wa.md.replacements "data".toList
      = some replacement)
    (hpart : replacement.multiboot_part = some part)
    (hmount : mount_replacement env replacement part env.MBPATH_MB_DATA "Can't mount data" wa
      = .ok datapath wb)
    (hfit : (datapath ++ "/.layout_version".toList).length < env.PATH_MAX) :
    wa.md = w.md ∧ wb.md = w.md ∧
    prepare_multiboot_data env w =
      (match datamedia_source_of env w.md.native_data_layout_version,
          datamedia_target_of (layout_version_needed sdk) with
        | some s, some t =>
          store_datamedia_mapping env part (datapath ++ "/.layout_version".toList)
            (layout_version_needed sdk)
            (stored_layout_version env
              (wb.trace ++ [Event.util_read_int (datapath ++ "/.layout_version".toList)])) s t
        | _, _ => MBABORT "datamedia_source=%s datamedia_target=%s")
        { wb with
          trace := wb.trace ++ [Event.util_read_int (datapath ++ "/.layout_version".toList)] } := by
  have ea : wa.md = w.md := by
    have := (keeps_get_mb_sdk_version env : Run.keeps same_md _) w
    rw [hsdk] at this
    exact this
  have eb : wb.md = wa.md := by
    have := (keeps_mount_replacement env replacement part env.MBPATH_MB_DATA "Can't mount data" :
      Run.keeps same_md _) wa
    rw [hmount] at this
    exact this
  refine ⟨ea, eb.trans ea, ?_⟩
  unfold prepare_multiboot_data
  rw [bind_of_ok _ _ _ _ _ hsdk, get_data_bind]
  simp only [hrep, hpart]
  rw [bind_of_ok _ _ _ _ _ hmount]
  rw [if_neg (not_le.mpr hfit), call_bind, ea]
  rfl

theorem layout_version_needed_le (sdk : Nat) : layout_version_needed sdk ≤ 3 := by
  unfold layout_version_needed
  split
  · omega
  · split <;> omega

theorem datamedia_target_of_needed (sdk : Nat) :
    datamedia_target_of (layout_version_needed sdk)
      = some (if sdk < 17 then "/media".toList else "/media/0".toList) := by
  unfold layout_version_needed datamedia_target_of
  by_cases h1 : sdk < 17
  · simp [h1]
  · by_cases h2 : sdk < 20
    · simp [h1, h2]
    · simp [h1, h2]

theorem datamedia_source_of_eq (env : Env) (native : Nat) :
    datamedia_source_of env native
      = if native ≤ 3 then
          some (env.MBPATH_DATA ++
            (if native ≤ 1 then "/media".toList else "/media/0".toList))
        else none := by
  unfold datamedia_source_of
  by_cases h1 : native = 0 ∨ native = 1
  · have h2 : native ≤ 1 := by omega
    have h3 : native ≤ 3 := by omega
    rw [if_pos h1, if_pos h3, if_pos h2]
  · by_cases h2 : native = 2 ∨ native = 3
    · have h3 : ¬ native ≤ 1 := by omega
      have h4 : native ≤ 3 := by omega
      rw [if_neg h1, if_pos h2, if_pos h4, if_neg h3]
    · have h4 : ¬ native ≤ 3 := by omega
      rw [if_neg h1, if_neg h2, if_neg h4]

/-- C29: in `prepare_multiboot_data`, once the SDK version is read, the data
replacement is found and mounted and the paths fit the buffer, the data-media
mapping depends on the SDK version and the native layout version only. The
required layout version is 0 for sdk < 17, 2 for 17 <= sdk < 20 and 3 for
sdk >= 20; the target is "/media" for sdk < 17 and "/media/0" otherwise, never
undefined; the source is "<data>/media" for the native layout versions 0 and 1
and "<data>/media/0" for 2 and 3, and undefined for every other one. The
function aborts at the verification of the mapping exactly when the native
layout version is above 3; when it returns, the mapping is stored. After
`util_read_int` the only `util_write_int` is the one of the required layout
version to the layout-version file, and it is made exactly when the mapping is
defined, the required version is above 0 and differs from the stored one. -/
theorem datamedia_mapping (env : Env) (w wa wb : World) (sdk : Nat)
    (replacement : part_replacement_t) (part : multiboot_partition_t) (datapath : CStr)
    (hsdk : get_mb_sdk_version env w = .ok sdk wa)
    (hrep : env.util_get_replacement_by_name wa.md.replacements "data".toList
      = some replacement)
    (hpart : replacement.multiboot_part = some part)
    (hmount : mount_replacement env replacement part env.MBPATH_MB_DATA "Can't mount data" wa
      = .ok datapath wb)
    (hfit : (datapath ++ "/.layout_version".toList).length < env.PATH_MAX)
    (hfit2 : (env.MBPATH_MB_DATA ++ "/media/0".toList).length < env.PATH_MAX) :
    ((sdk < 17 → layout_version_needed sdk = 0) ∧
      (17 ≤ sdk → sdk < 20 → layout_version_needed sdk = 2) ∧
      (20 ≤ sdk → layout_version_needed sdk = 3)) ∧
    datamedia_target_of (layout_version_needed sdk)
      = some (if sdk < 17 then "/media".toList else "/media/0".toList) ∧
    datamedia_source_of env w.md.native_data_layout_version
      = (if w.md.native_data_layout_version ≤ 3 then
          some (env.MBPATH_DATA ++
            (if w.md.native_data_layout_version ≤ 1 then "/media".toList
              else "/media/0".toList))
        else none) ∧
    ((∃ w1, prepare_multiboot_data env w
        = .abort "datamedia_source=%s datamedia_target=%s" w1)
      ↔ 3 < w.md.native_data_layout_version) ∧
    (∀ wf, prepare_multiboot_data env w = .ok () wf →
      wf.md.datamedia_target
        = some (if sdk < 17 then "/media".toList else "/media/0".toList) ∧
      wf.md.datamedia_source
        = some (env.MBPATH_DATA ++
          (if w.md.native_data_layout_version ≤ 1 then "/media".toList
            else "/media/0".toList))) ∧
    (∃ evs : List Event,
      (prepare_multiboot_data env w).world.trace
        = wb.trace ++ Event.util_read_int (datapath ++ "/.layout_version".toList) :: evs ∧
      (∀ e ∈ evs, e.is_layout_write = true →
        e = Event.util_write_int (datapath ++ "/.layout_version".toList)
          (layout_version_needed sdk)) ∧
      (Event.util_write_int (datapath ++ "/.layout_version".toList)
          (layout_version_needed sdk) ∈ evs ↔
        (w.md.native_data_layout_version ≤ 3 ∧ 0 < layout_version_needed sdk ∧
          stored_layout_version env
            (wb.trace ++ [Event.util_read_int (datapath ++ "/.layout_version".toList)])
            ≠ layout_version_needed sdk))) := by
  obtain ⟨ea, eb, heq⟩ := prepare_multiboot_data_eq env w wa wb sdk replacement part datapath
    hsdk hrep hpart hmount hfit
  have ht := datamedia_target_of_needed sdk
  have hs := datamedia_source_of_eq env w.md.native_data_layout_version
  have hfit3 : (env.MBPATH_MB_DATA ++
      (if sdk < 17 then "/media".toList else "/media/0".toList)).length < env.PATH_MAX := by
    split
    · have : (env.MBPATH_MB_DATA ++ "/media".toList).length
          ≤ (env.MBPATH_MB_DATA ++ "/media/0".toList).length := by
        simp
      omega
    · exact hfit2
  refine ⟨⟨?_, ?_, ?_⟩, ht, hs, ?_, ?_, ?_⟩
  · intro h; unfold layout_version_needed; rw [if_pos h]
  · intro h1 h2; unfold layout_version_needed; rw [if_neg (by omega), if_pos h2]
  · intro h1; unfold layout_version_needed; rw [if_neg (by omega), if_neg (by omega)]
  · rw [heq, ht, hs]
    by_cases hn : w.md.native_data_layout_version ≤ 3
    · rw [if_pos hn]
      constructor
      · rintro ⟨w1, h⟩
        exact absurd rfl (aborts_other_store_datamedia_mapping _ _ _ _ _ _ _ _ _ _ h)
      · intro h; omega
    · rw [if_neg hn]
      exact ⟨fun _ => by omega, fun _ => ⟨_, rfl⟩⟩
  · intro wf h
    rw [heq, ht, hs] at h
    by_cases hn : w.md.native_data_layout_version ≤ 3
    · rw [if_pos hn] at h
      have hmd := store_datamedia_mapping_ok _ _ _ _ _ _ _ _ _ hfit3 h
      rw [hmd]
      exact ⟨rfl, rfl⟩
    · rw [if_neg hn] at h
      cases h
  · rw [heq, ht, hs]
    by_cases hn : w.md.native_data_layout_version ≤ 3
    · rw [if_pos hn]
      obtain ⟨evs, h1, h2, h3⟩ := store_datamedia_mapping_calls env part
        (datapath ++ "/.layout_version".toList) (layout_version_needed sdk)
        (stored_layout_version env
          (wb.trace ++ [Event.util_read_int (datapath ++ "/.layout_version".toList)]))
        (env.MBPATH_DATA ++
          (if w.md.native_data_layout_version ≤ 1 then "/media".toList else "/media/0".toList))
        (if sdk < 17 then "/media".toList else "/media/0".toList)
        { wb with
          trace := wb.trace ++ [Event.util_read_int (datapath ++ "/.layout_version".toList)] }
      refine ⟨evs, ?_, h2, ?_⟩
      · rw [show ∀ (l : List Event) (e : Event), l ++ e :: evs = l ++ [e] ++ evs from
          fun l e => by simp]
        exact h1
      · rw [h3]
        exact ⟨fun h => ⟨hn, h.1, h.2⟩, fun h => ⟨h.2.1, h.2.2⟩⟩
    · rw [if_neg hn]
      refine ⟨[], rfl, ?_, ?_⟩
      · intro e he; cases he
      · exact ⟨fun h => (List.not_mem_nil _ h).elim, fun h => absurd h.1 hn⟩

/-- With the SDK version 23, the stored layout version 2 and the native layout
version 0 the function returns with the mapping of "/multiboot/data/media" to
"/media/0" and writes the layout version 3; with the native layout version 4 it
aborts at the verification of the mapping. -/
theorem datamedia_mapping_witness :
    ((prepare_multiboot_data env_layout2 (world_planned 0)).world.md.datamedia_target
        = some "/media/0".toList ∧
      (prepare_multiboot_data env_layout2 (world_planned 0)).world.md.datamedia_source
        = some "/multiboot/data/media".toList) ∧
    (∃ w1, prepare_multiboot_data env_layout2 (world_planned 4)
      = .abort "datamedia_source=%s datamedia_target=%s" w1) :=
  ⟨(datamedia_mapping env_layout2 (world_planned 0)
      (get_mb_sdk_version env_layout2 (world_planned 0)).world
      (get_mb_sdk_version env_layout2 (world_planned 0)).world 23
      replacement_data part_data "/multiboot/bootdev/roms/myrom/data".toList
      (by decide) (by decide) rfl (by decide) (by decide) (by decide)).2.2.2.2.1
      (prepare_multiboot_data env_layout2 (world_planned 0)).world (by decide),
    (datamedia_mapping env_layout2 (world_planned 4)
      (get_mb_sdk_version env_layout2 (world_planned 4)).world
      (get_mb_sdk_version env_layout2 (world_planned 4)).world 23
      replacement_data part_data "/multiboot/bootdev/roms/myrom/data".toList
      (by decide) (by decide) rfl (by decide) (by decide) (by decide)).2.2.2.1.mpr
      (by decide)⟩

/-! ### C30: the result of `util_buf2file` -/

theorem to_int_emod (n M : Int) (h : (2 : Int) ^ 32 ∣ M) : to_int (n % M) = to_int n := by
  unfold to_int
  rw [← Int.emod_add_emod (n % M), Int.emod_emod_of_dvd n h, Int.emod_add_emod]

theorem to_int_of_small (k : Int) (h0 : 0 ≤ k) (h1 : k < 2 ^ 31) : to_int k = k := by
  unfold to_int
  have : (k + 2 ^ 31) % 2 ^ 32 = k + 2 ^ 31 := Int.emod_eq_of_lt (by omega) (by omega)
  rw [this]
  omega

theorem two_pow_dvd_size (bits : Nat) (h : 32 ≤ bits) : (2 : Int) ^ 32 ∣ 2 ^ bits :=
  pow_dvd_pow 2 h

/-- The result of `util_buf2file` from the answers of `open` and of `write`. -/
theorem util_buf2file_eq (env : Env) (buf filename : CStr) (size : Nat) (w : World) :
    util_buf2file env buf filename size w =
      if env.rc (w.trace ++ [Event.open_creat filename]) < 0 then
        .ok (env.rc (w.trace ++ [Event.open_creat filename]))
          { w with trace := w.trace ++ [Event.open_creat filename] }
      else
        .ok (if env.rc (w.trace ++ [Event.open_creat filename,
                Event.write filename (buf.take size)]) % 2 ^ env.size_bits ≠ (size : Int)
            then to_int (env.rc (w.trace ++ [Event.open_creat filename,
                Event.write filename (buf.take size)]) % 2 ^ env.size_bits)
            else 0)
          { w with
            trace := w.trace ++ [Event.open_creat filename,
              Event.write filename (buf.take size), Event.close filename] } := by
  unfold util_buf2file
  have hc : call (Event.open_creat filename) w
      = .ok (w.trace ++ [Event.open_creat filename])
          { w with trace := w.trace ++ [Event.open_creat filename] } := rfl
  rw [bind_of_ok _ _ _ _ _ hc]
  dsimp only
  split
  · rfl
  · simp only [bind, Run.bind, call, pure, Run.pure, List.append_assoc, List.singleton_append,
      List.cons_append, List.nil_append]

/-- The cases of the claim that hold: a failed `open` gives its negative
value; with `size_t` of at least 32 bits a failed `write` gives -1, and a
`write` of `k` bytes, `0 < k < size` and `k < 2^31`, gives `k`. -/
theorem util_buf2file_nonzero (env : Env) (buf filename : CStr) (size : Nat) (w : World)
    (hbits : 32 ≤ env.size_bits) (hsize : (size : Int) < 2 ^ env.size_bits - 1) :
    (env.rc (w.trace ++ [Event.open_creat filename]) < 0 →
      ∃ rc w1, util_buf2file env buf filename size w = .ok rc w1 ∧ rc < 0) ∧
    (¬ env.rc (w.trace ++ [Event.open_creat filename]) < 0 →
      env.rc (w.trace ++ [Event.open_creat filename, Event.write filename (buf.take size)]) = -1 →
      ∃ w1, util_buf2file env buf filename size w = .ok (-1) w1) ∧
    (∀ k : Int, ¬ env.rc (w.trace ++ [Event.open_creat filename]) < 0 →
      env.rc (w.trace ++ [Event.open_creat filename, Event.write filename (buf.take size)]) = k →
      0 < k → k < size → k < 2 ^ 31 →
      ∃ w1, util_buf2file env buf filename size w = .ok k w1) ∧
    (¬ env.rc (w.trace ++ [Event.open_creat filename]) < 0 →
      env.rc (w.trace ++ [Event.open_creat filename, Event.write filename (buf.take size)]) = 0 →
      ∃ w1, util_buf2file env buf filename size w = .ok 0 w1) := by
  have hdvd := two_pow_dvd_size env.size_bits hbits
  have hpos : (0 : Int) < 2 ^ env.size_bits := by positivity
  refine ⟨?_, ?_, ?_, ?_⟩
  · intro ho
    rw [util_buf2file_eq, if_pos ho]
    exact ⟨_, _, rfl, ho⟩
  · intro ho hw
    rw [util_buf2file_eq, if_neg ho, hw]
    have hm : (-1 : Int) % 2 ^ env.size_bits = 2 ^ env.size_bits - 1 := by
      have h1 : (-1 : Int) % 2 ^ env.size_bits = (2 ^ env.size_bits - 1) % 2 ^ env.size_bits := by
        rw [show (2 : Int) ^ env.size_bits - 1 = -1 + 2 ^ env.size_bits by ring,
          Int.add_emod_self]
      rw [h1]
      exact Int.emod_eq_of_lt (by omega) (by omega)
    have hne : (-1 : Int) % 2 ^ env.size_bits ≠ (size : Int) := by
      rw [hm]; omega
    rw [if_pos hne, to_int_emod _ _ hdvd]
    exact ⟨_, rfl⟩
  · intro k ho hw hk0 hks hk31
    rw [util_buf2file_eq, if_neg ho, hw]
    have hm : k % 2 ^ env.size_bits = k := Int.emod_eq_of_lt (by omega) (by omega)
    have hne : k % 2 ^ env.size_bits ≠ (size : Int) := by
      rw [hm]; omega
    rw [if_pos hne, hm, to_int_of_small k (by omega) hk31]
    exact ⟨_, rfl⟩
  · intro ho hw
    rw [util_buf2file_eq, if_neg ho, hw]
    have hm : (0 : Int) % 2 ^ env.size_bits = 0 := Int.zero_emod _
    rw [hm]
    by_cases hs : (0 : Int) ≠ (size : Int)
    · rw [if_pos hs]
      exact ⟨_, rfl⟩
    · rw [if_neg hs]
      exact ⟨_, rfl⟩

/-- C30 on the code: when `open` succeeds and `write` writes no byte of a
payload of 60 bytes and returns 0, `util_buf2file` closes the file and returns
`(int)nbytes`, which is 0; `multiboot_main` (lines 1010-1013) then takes the
fstab as extracted and does not abort. -/
theorem util_buf2file_empty_write :
    payload_fstab.length = 60 ∧
    util_buf2file env_empty_write payload_fstab env_empty_write.MBPATH_FSTAB 60 world_android
      = .ok 0 { world_android with
          trace := [Event.open_creat "/multiboot/fstab.multiboot".toList,
            Event.write "/multiboot/fstab.multiboot".toList payload_fstab,
            Event.close "/multiboot/fstab.multiboot".toList] } ∧
    env_empty_write.rc [Event.open_creat "/multiboot/fstab.multiboot".toList,
      Event.write "/multiboot/fstab.multiboot".toList payload_fstab] = 0 ∧
    (multiboot_main_extract_fstab env_empty_write payload_fstab world_android).aborted = false := by
  decide

end Multiboot
